import Mathlib

/-!
# RGB-D SLAM: driver state machine and rotation parametrisation

A shallow embedding of

* `src/src/RGB_Slam.cpp` (namespace `poseEstimation`): the driver `RGB_SLAM`
  with `reset`, `track`, `perform_tracking` and the triangulation policies;
* `src/src/pose_optimization/levenberg_marquard_functors.cpp`
  (namespace `rgbd_slam::pose_optimization`): the conversions between a
  quaternion and its scaled-axis coefficients.

The driver is written in state-passing style.  The classes it owns but whose
code lives elsewhere (`Local_Map`, the feature handler, the PnP solver, the
motion model, `Pose`, `cv::Mat`) are abstract: `Externals` lists their types
and the member functions the driver calls.  Every call of a member function
that may change one of these objects is also appended to a history of calls,
so that "this step is not run" can be stated.
-/

namespace poseEstimation

/-- The three values of `_state`. -/
inductive eState where
  | eState_NOT_INITIALIZED
  | eState_TRACKING
  | eState_LOST
  deriving DecidableEq, Repr

/-- The values of `Parameters::get_triangulation_policy()`; the same type names
the member function `triangulationPolicy` points to. -/
inductive etriangulation_policy where
  | etriangulation_policy_decreasing_matches
  | etriangulation_policy_always_triangulate
  | etriangulation_policy_map_size
  deriving DecidableEq, Repr

/-- The member functions of the owned objects that `RGB_SLAM` calls and that
are not `const` getters. -/
inductive Call where
  | localMap_reset
  | motionModel_reset
  | compute_features
  | update_with_new_triangulation
  | predict_next_pose
  | find_matches
  | compute_pose
  | clean_untracked_points
  | update_staged_map_points
  deriving DecidableEq, Repr

/-- The part of `Parameters` read by `RGB_SLAM`. -/
structure Parameters where
  min_matches_for_tracking : Nat
  staged_threshold : Int
  triangulation_policy : etriangulation_policy
  deriving DecidableEq, Repr

/-- What `RGB_Slam.hpp` and the headers it includes declare: the types of the
owned objects, the constant `N_MATCHES_WINDOWS`, and the member functions that
`RGB_SLAM` calls.  `Members` is the joint state of `_featureHandler`,
`_localMap`, `_pnpSolver` and `_motionModel` (the local map keeps a pointer to
the feature handler, so they are not separated).  A function that receives
`features` by reference returns the possibly modified value. -/
structure Externals where
  Pose : Type
  Mat : Type
  Image_Features_Struct : Type
  vector3 : Type
  Members : Type
  N_MATCHES_WINDOWS : Nat
  /-- The width in bits of the unsigned integer type of `_frameNumber`. -/
  frameNumber_bits : Nat
  /-- The value of `Pose()`. -/
  default_pose : Pose
  /-- The condition asserted at line 50:
  `imgRGB.channels() == 1 and imgDepth.type() == CV_32F`. -/
  frame_format_ok : Mat → Mat → Bool
  localMap_reset : Members → Members
  motionModel_reset : Members → Members
  compute_features : Members → Mat → Mat → Members × Image_Features_Struct
  get_features_count : Image_Features_Struct → Nat
  /-- The default value of the third argument of
  `update_with_new_triangulation`, used at line 115. -/
  update_with_new_triangulation_default : Bool
  update_with_new_triangulation :
    Members → Pose → Image_Features_Struct → Bool → Members × Image_Features_Struct
  get_map_size : Members → Nat
  predict_next_pose : Members → Pose → Members × Pose
  find_matches :
    Members → Pose → Image_Features_Struct →
      Members × Image_Features_Struct × List vector3 × List Int
  compute_pose :
    Members → Pose → Image_Features_Struct → List vector3 → List Int →
      Members × Image_Features_Struct × Pose

  clean_untracked_points : Members → Image_Features_Struct → Members × Image_Features_Struct
  update_staged_map_points :
    Members → Pose → Image_Features_Struct → Members × Image_Features_Struct

/-- The data members of `RGB_SLAM`, and the history of calls made on the owned
objects.  `_frameNumber` is only ever incremented, modulo `2 ^ frameNumber_bits`,
and never read. -/
structure RGB_SLAM (E : Externals) where
  _params : Parameters
  _members : E.Members
  _lastPose : E.Pose
  _frameNumber : Nat
  _lastMatches : List Nat
  _state : eState
  triangulationPolicy : etriangulation_policy
  calls : List Call

/-- The value of  `std::numeric_limits<long unsigned int>::max()` (64 bits). -/
def ULONG_MAX : Nat := 2 ^ 64 - 1

/-! ### Single-precision arithmetic of the decreasing-matches policy

A non-negative `float` is a natural number with at most 24 significant bits,
possibly divided by `2 ^ 24`.  All the values that occur are below `2 ^ 88`, far
from overflow, and either zero or at least `0.99`, far from underflow. -/

/-- Number of low bits that do not fit in a 24-bit significand: the least `s`
with `n / 2 ^ s < 2 ^ 24`, for `n < 2 ^ (24 + fuel)`. -/
def excess_bits : Nat → Nat → Nat
  | 0, _ => 0
  | fuel + 1, n => if n < 2 ^ 24 then 0 else excess_bits fuel (n / 2) + 1

/-- Rounding of a natural number to 24 significant bits, to nearest, ties to
even: the rounding of IEEE 754 binary32. -/
def round24 (n : Nat) : Nat :=
  let s := excess_bits n n
  let q := n / 2 ^ s
  let r := n % 2 ^ s
  if 2 ^ s < 2 * r ∨ (2 * r = 2 ^ s ∧ q % 2 = 1) then (q + 1) * 2 ^ s else q * 2 ^ s

/-- The conversion `static_cast<float>(n)` of an `unsigned long`. -/
def static_cast_float (n : Nat) : Nat := round24 n

/-- The constant `const float ratio = 0.99`: the binary32 number nearest to
`0.99` is `16609444 / 2 ^ 24`; this is its numerator. -/
def ratio : Nat := 16609444

/-- The single-precision product `ratio * x` of line 132, as a numerator over
`2 ^ 24`: the exact product `ratio * x / 2 ^ 24` rounded to 24 significant
bits. -/
def float_mul_ratio (x : Nat) : Nat := round24 (ratio * x)

/-- The test of line 132:
`static_cast<float>(cur) > ratio * static_cast<float>(prev)`. -/
def exceeds_ratio (cur prev : Nat) : Bool :=
  decide (float_mul_ratio (static_cast_float prev) < static_cast_float cur * 2 ^ 24)

/-- The loop of `triangulation_policy_decreasing_matches`, entered with index
`i`: it compares `_lastMatches[i]` with `_lastMatches[i - 1]` and goes down to
`i = 1`. -/
def decreasing_matches_loop (lastMatches : List Nat) : Nat → Bool
  | 0 => true
  | i + 1 =>
    if exceeds_ratio (lastMatches.getD (i + 1) 0) (lastMatches.getD i 0) then false
    else decreasing_matches_loop lastMatches i

namespace RGB_SLAM

variable {E : Externals}

/-- `RGB_SLAM::reset`. -/
def reset (s : RGB_SLAM E) : RGB_SLAM E :=
  { s with
    _members := E.motionModel_reset (E.localMap_reset s._members)
    calls := s.calls ++ [Call.localMap_reset, Call.motionModel_reset]
    _lastPose := E.default_pose
    _frameNumber := 0
    _lastMatches := List.replicate E.N_MATCHES_WINDOWS ULONG_MAX
    _state := eState.eState_NOT_INITIALIZED }

/-- The constructor `RGB_SLAM::RGB_SLAM`: `members` is the state of the owned
objects once their own constructors have run. -/
def create (params : Parameters) (members : E.Members) : RGB_SLAM E :=
  let s : RGB_SLAM E := reset
    { _params := params
      _members := members
      _lastPose := E.default_pose
      _frameNumber := 0
      _lastMatches := []
      _state := eState.eState_NOT_INITIALIZED
      triangulationPolicy := etriangulation_policy.etriangulation_policy_decreasing_matches
      calls := [] }
  let s := { s with
    triangulationPolicy := etriangulation_policy.etriangulation_policy_decreasing_matches }
  if s._params.triangulation_policy
      = etriangulation_policy.etriangulation_policy_always_triangulate then
    { s with
      triangulationPolicy := etriangulation_policy.etriangulation_policy_always_triangulate }
  else if s._params.triangulation_policy
      = etriangulation_policy.etriangulation_policy_map_size then
    { s with triangulationPolicy := etriangulation_policy.etriangulation_policy_map_size }
  else s

/-- `RGB_SLAM::triangulation_policy_decreasing_matches`. -/
def triangulation_policy_decreasing_matches (s : RGB_SLAM E) : Bool :=
  decreasing_matches_loop s._lastMatches (E.N_MATCHES_WINDOWS - 1)

/-- `RGB_SLAM::triangulation_policy_always_triangulate`. -/
def triangulation_policy_always_triangulate (_s : RGB_SLAM E) : Bool := true

/-- `RGB_SLAM::triangulation_policy_map_size`. -/
def triangulation_policy_map_size (s : RGB_SLAM E) : Bool :=
  decide (E.get_map_size s._members < 1000)

/-- `RGB_SLAM::need_new_triangulation`: the call through the member-function
pointer. -/
def need_new_triangulation (s : RGB_SLAM E) : Bool :=
  match s.triangulationPolicy with
  | etriangulation_policy.etriangulation_policy_decreasing_matches =>
    triangulation_policy_decreasing_matches s
  | etriangulation_policy.etriangulation_policy_always_triangulate =>
    triangulation_policy_always_triangulate s
  | etriangulation_policy.etriangulation_policy_map_size =>
    triangulation_policy_map_size s

/-- Lines 100-101 of `perform_tracking`:
`_lastMatches.push_back(matchesCnt); _lastMatches.pop_front();`. -/
def record_matches (s : RGB_SLAM E) (matchesCnt : Nat) : RGB_SLAM E :=
  { s with _lastMatches := (s._lastMatches ++ [matchesCnt]).tail }

/-- `RGB_SLAM::perform_tracking`; the result is the returned pose, the final
value of the output argument `isTracking`, and the new state of the object. -/
def perform_tracking (s : RGB_SLAM E) (estimatedPose : E.Pose)
    (features : E.Image_Features_Struct) : E.Pose × Bool × RGB_SLAM E :=
  let found := E.find_matches s._members estimatedPose features
  let s := { s with _members := found.1, calls := s.calls ++ [Call.find_matches] }
  let features := found.2.1
  let matchedPoints := found.2.2.1
  let matchOutliers := found.2.2.2
  let matchesCnt := matchedPoints.length
  if matchesCnt < s._params.min_matches_for_tracking then
    (s._lastPose, false, s)
  else
    let s := record_matches s matchesCnt
    let solved := E.compute_pose s._members estimatedPose features matchedPoints matchOutliers
    let s := { s with _members := solved.1, calls := s.calls ++ [Call.compute_pose] }
    let features := solved.2.1
    let optimizedPose := solved.2.2
    let cleaned := E.clean_untracked_points s._members features
    let s := { s with
      _members := cleaned.1, calls := s.calls ++ [Call.clean_untracked_points] }
    let features := cleaned.2
    let staged :=
      if 0 < s._params.staged_threshold then
        let r := E.update_staged_map_points s._members optimizedPose features
        ({ s with
            _members := r.1, calls := s.calls ++ [Call.update_staged_map_points] }, r.2)
      else (s, features)
    let s := staged.1
    let features := staged.2
    let s :=
      if need_new_triangulation s then
        let r := E.update_with_new_triangulation s._members optimizedPose features
          E.update_with_new_triangulation_default
        { s with
          _members := r.1, calls := s.calls ++ [Call.update_with_new_triangulation] }
      else s
    (optimizedPose, true, s)

/-- `RGB_SLAM::track`.  The result is `none` when the assertion of line 50
fails, and otherwise the returned pose with the new state of the object. -/
def track (s : RGB_SLAM E) (imgRGB imgDepth : E.Mat) : Option (E.Pose × RGB_SLAM E) :=
  let s := { s with _frameNumber := (s._frameNumber + 1) % 2 ^ E.frameNumber_bits }
  if s._state = eState.eState_LOST then
    some (s._lastPose, s)
  else if E.frame_format_ok imgRGB imgDepth = false then
    none
  else
    let computed := E.compute_features s._members imgRGB imgDepth
    let s := { s with _members := computed.1, calls := s.calls ++ [Call.compute_features] }
    let features := computed.2
    if s._state = eState.eState_NOT_INITIALIZED then
      let identityPose := E.default_pose
      let r := E.update_with_new_triangulation s._members identityPose features true
      let s := { s with
        _members := r.1, calls := s.calls ++ [Call.update_with_new_triangulation] }
      let s := { s with _state := eState.eState_TRACKING }
      let s := { s with _lastMatches := s._lastMatches.set 0 (E.get_map_size s._members) }
      some (identityPose, s)
    else
      let predicted := E.predict_next_pose s._members s._lastPose
      let s := { s with
        _members := predicted.1, calls := s.calls ++ [Call.predict_next_pose] }
      let predictedPose := predicted.2
      let tracked := perform_tracking s predictedPose features
      let computedPose := tracked.1
      let isTracking := tracked.2.1
      let s := tracked.2.2
      if isTracking = false then
        some (s._lastPose, { s with _state := eState.eState_LOST })
      else
        some (computedPose, { s with _lastPose := computedPose })

/-- Successive calls of `track` on a sequence of frames, as made by a caller:
the poses returned, in order, and the final state. -/
def track_all (s : RGB_SLAM E) : List (E.Mat × E.Mat) → Option (List E.Pose × RGB_SLAM E)
  | [] => some ([], s)
  | frame :: frames =>
    match track s frame.1 frame.2 with
    | none => none
    | some (pose, s1) =>
      match track_all s1 frames with
      | none => none
      | some (poses, s2) => some (pose :: poses, s2)

end RGB_SLAM

end poseEstimation

namespace rgbd_slam

/-! ### Floating-point rounding

The code computes in `float` (binary32, 24 significant bits) and in `double`
(binary64, 53 significant bits).  Where the rounding is modelled, each
operation gives the floating-point number nearest to its exact result, a tie
going to the even significand, which is the default rounding of IEEE 754.  The
range of the exponent is not bounded: overflow, underflow and NaN are outside
the model. -/

/-- Rounding of a number to the nearest integer, a tie going to the even
one. -/
def round_half_even {K : Type} [LinearOrderedField K] [FloorRing K] (n : K) : ℤ :=
  if n - ⌊n⌋ < 1 / 2 then ⌊n⌋
  else if 1 / 2 < n - ⌊n⌋ then ⌊n⌋ + 1
  else if ⌊n⌋ % 2 = 0 then ⌊n⌋ else ⌊n⌋ + 1

/-- The floating-point number with `p` significant bits nearest to `x`, a tie
going to the even significand: with `2 ^ e <= |x| < 2 ^ (e + 1)` the spacing of
the floating-point numbers around `x` is `2 ^ (e + 1 - p)`, and `x` is rounded
to a multiple of it. -/
def float_round {K : Type} [LinearOrderedField K] [FloorRing K] (p : ℕ) (x : K) : K :=
  (round_half_even (x / (2 : K) ^ (Int.log 2 |x| + 1 - (p : ℤ))) : K)
    * (2 : K) ^ (Int.log 2 |x| + 1 - (p : ℤ))

/-- The conversion to `float`, and the rounding of an operation on `float`
operands. -/
def to_float {K : Type} [LinearOrderedField K] [FloorRing K] (x : K) : K := float_round 24 x

/-- The conversion to `double`, and the rounding of an operation on `double`
operands. -/
def to_double {K : Type} [LinearOrderedField K] [FloorRing K] (x : K) : K := float_round 53 x

/-- A `vector3` (an Eigen column vector of three `double`), over the reals. -/
@[ext]
structure vector3 where
  x : ℝ
  y : ℝ
  z : ℝ

/-- A `quaternion` (`Eigen::Quaterniond`), over the reals; the constructor takes
the coefficients in the order `w, x, y, z`. -/
@[ext]
structure quaternion where
  w : ℝ
  x : ℝ
  y : ℝ
  z : ℝ

namespace vector3

/-- The Euclidean norm, Eigen's `norm()`. -/
noncomputable def norm (v : vector3) : ℝ := Real.sqrt (v.x * v.x + v.y * v.y + v.z * v.z)

/-- The product `v * k` of a vector and a scalar. -/
def scale (v : vector3) (k : ℝ) : vector3 := ⟨v.x * k, v.y * k, v.z * k⟩

end vector3

namespace quaternion

/-- The vector part, Eigen's `vec()`. -/
def vec (q : quaternion) : vector3 := ⟨q.x, q.y, q.z⟩

/-- The quaternion `quaternion(-quat.coeffs())`. -/
def neg (q : quaternion) : quaternion := ⟨-q.w, -q.x, -q.y, -q.z⟩

/-- The norm of the four coefficients, Eigen's `norm()`. -/
noncomputable def norm (q : quaternion) : ℝ :=
  Real.sqrt (q.w * q.w + q.x * q.x + q.y * q.y + q.z * q.z)

end quaternion

namespace pose_optimization

/-- The function `atan2(y, x)` of the C library, over the reals: the angle in
`(-π, π]` of the point `(x, y)`, and `0` at the origin. -/
noncomputable def atan2 (y x : ℝ) : ℝ :=
  if 0 < x then Real.arctan (y / x)
  else if x < 0 then
    if 0 ≤ y then Real.arctan (y / x) + Real.pi else Real.arctan (y / x) - Real.pi
  else if 0 < y then Real.pi / 2
  else if y < 0 then -(Real.pi / 2)
  else 0

/-- `get_scaled_axis_coefficients_from_quaternion`. -/
noncomputable def get_scaled_axis_coefficients_from_quaternion (quat : quaternion) : vector3 :=
  let q := if 0 ≤ quat.w then quat else quat.neg
  let qv := q.vec
  let sinha := qv.norm
  if 0 < sinha then
    let angle := 2 * atan2 sinha q.w
    qv.scale (angle / sinha)
  else
    qv.scale (2 / q.w)

/-- `get_quaternion_from_scale_axis_coefficients`. -/
noncomputable def get_quaternion_from_scale_axis_coefficients
    (optimizationCoefficients : vector3) : quaternion :=
  let a := optimizationCoefficients.norm
  let ha := a * 0.5
  let scale := if 0 < a then Real.sin ha / a else 0.5
  ⟨Real.cos ha, optimizationCoefficients.x * scale, optimizationCoefficients.y * scale,
    optimizationCoefficients.z * scale⟩

/-- The rotation angle of a quaternion with `w ≥ 0`: twice the angle of the
point `(w, ‖vec‖)`, which lies in `[0, π]`. -/
noncomputable def rotation_angle (q : quaternion) : ℝ := 2 * atan2 q.vec.norm q.w

namespace binary64

/-- Eigen's `norm()` of a vector of three `double`, in double precision: the
three squares are added in the order `(x * x + y * y) + z * z`, each operation
is rounded to the nearest `double`, and so is the square root. -/
noncomputable def norm (v : vector3) : ℝ :=
  to_double
    (Real.sqrt
      (to_double
        (to_double (to_double (v.x * v.x) + to_double (v.y * v.y)) + to_double (v.z * v.z))))

/-- `get_quaternion_from_scale_axis_coefficients` in double precision: every
operation is rounded to the nearest `double`; the functions `sin` and `cos` of
the C library are taken as correctly rounded. -/
noncomputable def get_quaternion_from_scale_axis_coefficients
    (optimizationCoefficients : vector3) : quaternion :=
  let a := norm optimizationCoefficients
  let ha := to_double (a * 0.5)
  let scale := if 0 < a then to_double (to_double (Real.sin ha) / a) else 0.5
  ⟨to_double (Real.cos ha), to_double (optimizationCoefficients.x * scale),
    to_double (optimizationCoefficients.y * scale),
    to_double (optimizationCoefficients.z * scale)⟩

end binary64

end pose_optimization

end rgbd_slam

/-! ### A concrete instance of the driver

A small executable choice of the owned objects, on which the driver can be run:
an image is the number of features it shows (`imgRGB`) or the number of them
that match the map (`imgDepth`), the local map is its size, a pose is an
integer. -/

namespace poseEstimation

/-- A toy instance: features are the pair (feature count, matched count), the
joint state of the owned objects is the map size, every triangulation adds the
frame's features to the map, the solver moves the pose by one. -/
def toyExternals : Externals where
  Pose := Int
  Mat := Nat
  Image_Features_Struct := Nat × Nat
  vector3 := Unit
  Members := Nat
  N_MATCHES_WINDOWS := 3
  frameNumber_bits := 32
  default_pose := 0
  frame_format_ok := fun _ _ => true
  localMap_reset := fun _ => 0
  motionModel_reset := fun m => m
  compute_features := fun m imgRGB imgDepth => (m, (imgRGB, imgDepth))
  get_features_count := fun features => features.1
  update_with_new_triangulation_default := false
  update_with_new_triangulation := fun m _ features _ => (m + features.1, features)
  get_map_size := fun m => m
  predict_next_pose := fun m pose => (m, pose)
  find_matches := fun m _ features => (m, features, List.replicate features.2 (), [])
  compute_pose := fun m pose features _ _ => (m, features, pose + 1)
  clean_untracked_points := fun m features => (m, features)
  update_staged_map_points := fun m _ features => (m, features)

/-- The toy driver right after construction, with the given minimum of matches
and the decreasing-matches policy. -/
def toyInitial (minMatches : Nat) : RGB_SLAM toyExternals :=
  RGB_SLAM.create
    { min_matches_for_tracking := minMatches
      staged_threshold := 0
      triangulation_policy := etriangulation_policy.etriangulation_policy_decreasing_matches }
    (0 : Nat)

/-- The toy driver in state `Tracking`: the state reached from `toyInitial` by
one call of `track` on a frame with `features` features. -/
def toyTracking (minMatches features : Nat) : RGB_SLAM toyExternals :=
  match RGB_SLAM.track (toyInitial minMatches) (features : Nat) (0 : Nat) with
  | some (_, s) => s
  | none => toyInitial minMatches

/-- The toy driver in state `Lost`: the state reached from `toyTracking 10 50`
by one call of `track` on a frame with 3 matched points, fewer than the
minimum of 10. -/
def toyLost : RGB_SLAM toyExternals :=
  match RGB_SLAM.track (toyTracking 10 50) (50 : Nat) (3 : Nat) with
  | some (_, s) => s
  | none => toyInitial 10

/-- The toy driver in state `Tracking` with the given match-count window. -/
def toyWindow (window : List Nat) : RGB_SLAM toyExternals :=
  { toyTracking 0 50 with _lastMatches := window }

/-- The four frames of the decreasing-matches scenario for the toy driver: 50
features each, of which 500, 497, 494 and 491 are reported as matched. -/
def toyFrames : List (toyExternals.Mat × toyExternals.Mat) :=
  [((50 : Nat), (500 : Nat)), ((50 : Nat), (497 : Nat)), ((50 : Nat), (494 : Nat)),
    ((50 : Nat), (491 : Nat))]

/-- The number of matched points that `perform_tracking` obtains at line 90
when `track` is called on this frame in state `Tracking`. -/
def RGB_SLAM.matched_count {E : Externals} (s : RGB_SLAM E) (imgRGB imgDepth : E.Mat) : Nat :=
  let computed := E.compute_features s._members imgRGB imgDepth
  let predicted := E.predict_next_pose computed.1 s._lastPose
  (E.find_matches predicted.1 predicted.2 computed.2).2.2.1.length

/-- The features that `track` computes for this frame at line 53. -/
def RGB_SLAM.frame_features {E : Externals} (s : RGB_SLAM E) (imgRGB imgDepth : E.Mat) :
    E.Image_Features_Struct :=
  (E.compute_features s._members imgRGB imgDepth).2

end poseEstimation

/-! ### The residual functor of the pose optimisation

`levenberg_marquard_functors.cpp`, over the reals.  The functions of `utils`
that it calls (`compute_world_to_camera_transform`, `get_3D_to_2D_distance`) and
the three `Parameters` getters it reads are not part of the sources at hand:
they are the fields of `ProjectionExternals`. -/

namespace rgbd_slam

/-- A `vector2` (a pixel position), over the reals. -/
@[ext]
structure vector2 where
  x : ℝ
  y : ℝ

namespace pose_optimization

/-- The value computed by lines 24-47 of `get_generalized_loss_estimator`;
`abs`, `pow`, `log1p` and `exp` are the real functions. -/
noncomputable def generalized_loss (error alpha scale : ℝ) : ℝ :=
  let scaledSquaredError := (error * error) / (scale * scale)
  if 2 < alpha then
    let internalTerm := scaledSquaredError / |alpha - 2| + 1
    (|alpha - 2| / alpha) * (internalTerm ^ (alpha / 2.0) - 1)
  else if 0 < alpha then
    0.5 * scaledSquaredError
  else if -100 < alpha then
    Real.log (1 + 0.5 * scaledSquaredError)
  else
    1 - Real.exp (-0.5 * scaledSquaredError)

/-- `get_generalized_loss_estimator`: `none` when `assert(scale > 0)` fails. -/
noncomputable def get_generalized_loss_estimator (error alpha scale : ℝ) : Option ℝ :=
  if 0 < scale then some (generalized_loss error alpha scale) else none

/-- A matched point: a point of the map and the pixel where it is observed. -/
structure match_point where
  _worldPoint : vector3
  _screenPoint : vector2

/-- What the functor uses and is declared elsewhere: the type `matrix44`, the
two functions of `utils`, and the values returned by
`Parameters::get_point_error_multiplier`, `get_point_loss_scale` and
`get_point_loss_alpha`. -/
structure ProjectionExternals where
  matrix44 : Type
  compute_world_to_camera_transform : quaternion → vector3 → matrix44
  get_3D_to_2D_distance : vector3 → vector2 → matrix44 → ℝ
  point_error_multiplier : ℝ
  point_loss_scale : ℝ
  point_loss_alpha : ℝ

/-- The data members of `Global_Pose_Estimator`; `_n` and `_m` are the input
and value counts kept by the base class `Levenberg_Marquardt_Functor`. -/
structure Global_Pose_Estimator where
  _n : Nat
  _m : Nat
  _points : List match_point
  _rotation : quaternion
  _position : vector3
  _pointErrorMultiplier : ℝ
  _lossScale : ℝ
  _lossAlpha : ℝ

namespace Global_Pose_Estimator

/-- The constructor `Global_Pose_Estimator::Global_Pose_Estimator`; `none` when
one of its three assertions fails. -/
noncomputable def create (U : ProjectionExternals) (n : Nat) (points : List match_point)
    (worldPosition : vector3) (worldRotation : quaternion) : Option Global_Pose_Estimator :=
  let self : Global_Pose_Estimator :=
    { _n := n
      _m := points.length
      _points := points
      _rotation := worldRotation
      _position := worldPosition
      _pointErrorMultiplier := Real.sqrt (U.point_error_multiplier / (points.length : ℝ))
      _lossScale := U.point_loss_scale
      _lossAlpha := U.point_loss_alpha }
  if 0 < self._lossScale ∧ 0 < self._pointErrorMultiplier ∧ self._points.isEmpty = false then
    some self
  else none

/-- Lines 109-112 of `operator()`: the transformation matrix obtained from the
parameter vector `x`. -/
noncomputable def candidate_transform (U : ProjectionExternals) (x : List ℝ) : U.matrix44 :=
  let rotation := get_quaternion_from_scale_axis_coefficients
    ⟨x.getD 3 0, x.getD 4 0, x.getD 5 0⟩
  let translation : vector3 := ⟨x.getD 0 0, x.getD 1 0, x.getD 2 0⟩
  U.compute_world_to_camera_transform rotation translation

/-- The raw reprojection distance of a match (line 119) for a transformation
matrix. -/
noncomputable def raw_distance (U : ProjectionExternals) (transformationMatrix : U.matrix44)
    (point : match_point) : ℝ :=
  U.get_3D_to_2D_distance point._worldPoint point._screenPoint transformationMatrix

/-- The mean of the raw reprojection distances of a list of matches. -/
noncomputable def mean_of_distances (U : ProjectionExternals)
    (transformationMatrix : U.matrix44) (points : List match_point) : ℝ :=
  (points.map (raw_distance U transformationMatrix)).sum / (points.length : ℝ)

/-- The loop of lines 117-124 from the match at position `pointIndex` on: each
raw distance is added to `meanOfDistances` and written to `fvec(pointIndex)`;
`none` when `assert(distance >= 0.0)` fails. -/
noncomputable def distances_loop (U : ProjectionExternals)
    (transformationMatrix : U.matrix44) :
    List match_point → Nat → ℝ → List ℝ → Option (ℝ × List ℝ)
  | [], _, meanOfDistances, fvec => some (meanOfDistances, fvec)
  | point :: points, pointIndex, meanOfDistances, fvec =>
    let distance :=
      U.get_3D_to_2D_distance point._worldPoint point._screenPoint transformationMatrix
    if 0 ≤ distance then
      distances_loop U transformationMatrix points (pointIndex + 1)
        (meanOfDistances + distance) (fvec.set pointIndex distance)
    else none

/-- The loop of lines 134-144, with `remaining` iterations left and the index at
`i`: `fvec(i)` becomes the loss of `fvec(i)² / meanOfDistances` times the
multiplier. -/
noncomputable def scores_loop (self : Global_Pose_Estimator) (meanOfDistances : ℝ) :
    Nat → Nat → List ℝ → Option (List ℝ)
  | 0, _, fvec => some fvec
  | remaining + 1, i, fvec =>
    let distance := (fvec.getD i 0 * fvec.getD i 0) / meanOfDistances
    match get_generalized_loss_estimator distance self._lossAlpha self._lossScale with
    | none => none
    | some weightedLoss =>
      scores_loop self meanOfDistances remaining (i + 1)
        (fvec.set i (self._pointErrorMultiplier * weightedLoss))

/-- Lines 113-146 of `operator()`: the residuals for a given transformation
matrix, with the returned `int`. -/
noncomputable def residuals_for_transform (U : ProjectionExternals)
    (self : Global_Pose_Estimator) (transformationMatrix : U.matrix44) (fvec : List ℝ) :
    Option (Int × List ℝ) :=
  match distances_loop U transformationMatrix self._points 0 0 fvec with
  | none => none
  | some (sumOfDistances, fvec) =>
    let pointContainerSize := self._points.length
    let meanOfDistances := sumOfDistances / (pointContainerSize : ℝ)
    if 0 ≤ meanOfDistances then
      if 0 < meanOfDistances then
        match scores_loop self meanOfDistances pointContainerSize 0 fvec with
        | none => none
        | some fvec => some (0, fvec)
      else some (0, fvec)
    else none

/-- `Global_Pose_Estimator::operator()`: the returned `int` and the final
content of `fvec`; `none` when an assertion fails. -/
noncomputable def call (U : ProjectionExternals) (self : Global_Pose_Estimator)
    (x : List ℝ) (fvec : List ℝ) : Option (Int × List ℝ) :=
  if self._points.isEmpty = false ∧ x.length = 6 ∧ fvec.length = self._points.length then
    residuals_for_transform U self (candidate_transform U x) fvec
  else none

end Global_Pose_Estimator

/-- A small instance of the external functions: the transformation matrix is
the first coordinate of the translation, and the distance of a match is the
absolute difference between the first coordinate of its world point, moved by
the transformation, and the first coordinate of its pixel. -/
noncomputable def toyProjection : ProjectionExternals where
  matrix44 := ℝ
  compute_world_to_camera_transform := fun _ translation => translation.x
  get_3D_to_2D_distance := fun worldPoint screenPoint m => |worldPoint.x - m - screenPoint.x|
  point_error_multiplier := 1
  point_loss_scale := 1
  point_loss_alpha := 1

/-- One match: the world point `(1, 0, 0)` observed at the pixel `(0, 0)`. -/
def toyMatches : List match_point := [⟨⟨1, 0, 0⟩, ⟨0, 0⟩⟩]

/-- The functor built for `toyMatches` with the predicted pose at position
`(1, 0, 0)` and the identity rotation. -/
noncomputable def toyEstimator : Global_Pose_Estimator :=
  { _n := 6
    _m := 1
    _points := toyMatches
    _rotation := ⟨1, 0, 0, 0⟩
    _position := ⟨1, 0, 0⟩
    _pointErrorMultiplier := Real.sqrt (1 / 1)
    _lossScale := 1
    _lossAlpha := 1 }

end pose_optimization

end rgbd_slam

/-! ### Shape primitives

`shape_primitives.cpp`.  The arithmetic of the primitives (dot products, ratios
of pixel counts, comparisons) is exact on rational numbers, so the coordinates
are rational and the definitions can be run. -/

namespace rgbd_slam

namespace features

namespace primitives

/-- A `vector3` with rational coordinates. -/
@[ext]
structure vector3 where
  x : ℚ
  y : ℚ
  z : ℚ
  deriving DecidableEq

namespace vector3

/-- The scalar product, Eigen's `dot`. -/
def dot (a b : vector3) : ℚ := a.x * b.x + a.y * b.y + a.z * b.z

end vector3

/-- A `cv::Mat` with `rows` rows and `cols` columns; `data r c` is the element
of row `r` and column `c`. -/
structure Mat (α : Type) where
  rows : Nat
  cols : Nat
  data : Nat → Nat → α

namespace Mat

/-- The method `cv::Mat::empty`: the matrix has no element. -/
def empty {α : Type} (m : Mat α) : Bool := m.rows * m.cols == 0

/-- The function `cv::countNonZero` on a matrix of `uchar`. -/
def countNonZero (m : Mat Nat) : Nat :=
  ((List.range m.rows).map fun r =>
    ((List.range m.cols).filter fun c => m.data r c != 0).length).sum

/-- The element-wise `|` of two matrices of `uchar`. -/
def bitwise_or (a b : Mat Nat) : Mat Nat :=
  { rows := a.rows, cols := a.cols, data := fun r c => a.data r c ||| b.data r c }

/-- The element-wise `&` of two matrices of `uchar`. -/
def bitwise_and (a b : Mat Nat) : Mat Nat :=
  { rows := a.rows, cols := a.cols, data := fun r c => a.data r c &&& b.data r c }

end Mat

/-- The enumeration `PrimitiveType`. -/
inductive PrimitiveType where
  | Plane
  | Cylinder
  | Invalid
  deriving DecidableEq, Repr

/-- The two `Parameters` getters read by `is_similar`. -/
structure SimilarityParameters where
  minimum_iou_for_match : ℚ
  minimum_normals_dot_difference : ℚ

/-- The data members of a `Plane`, those of the base class `Primitive`
included. -/
structure Plane where
  _id : Nat
  _shapeMask : Mat Nat
  _normal : vector3
  _d : ℚ
  _mean : vector3

/-- The data members of a `Cylinder`, those of the base class `Primitive`
included. -/
structure Cylinder where
  _id : Nat
  _shapeMask : Mat Nat
  _normal : vector3
  _radius : ℚ

/-- An object of the class hierarchy `Primitive`: the base class cannot be
instantiated on its own, so an object is a `Plane` or a `Cylinder`. -/
inductive Primitive where
  | plane (p : Plane)
  | cylinder (c : Cylinder)

namespace Primitive

/-- `Primitive::get_primitive_type`: the constructors of `Plane` and `Cylinder`
set `_primitiveType` to their own tag. -/
def get_primitive_type : Primitive → PrimitiveType
  | plane _ => PrimitiveType.Plane
  | cylinder _ => PrimitiveType.Cylinder

/-- The member `_shapeMask` of the base class. -/
def _shapeMask : Primitive → Mat Nat
  | plane p => p._shapeMask
  | cylinder c => c._shapeMask

/-- The value computed by lines 28-36 of `Primitive::get_IOU` for two masks. -/
def IOU_of_masks (shapeMask other : Mat Nat) : ℚ :=
  let unionMat := shapeMask.bitwise_or other
  let IOU : Int := (unionMat.countNonZero : Int)
  if IOU ≤ 0 then 0
  else
    let interMat := shapeMask.bitwise_and other
    (interMat.countNonZero : ℚ) / (IOU : ℚ)

/-- `Primitive::get_IOU`, for an object whose mask is `shapeMask`; `none` when
one of the three assertions fails. -/
def get_IOU (shapeMask : Mat Nat) (prim : Primitive) : Option ℚ :=
  if shapeMask.empty = false ∧ prim._shapeMask.empty = false
      ∧ shapeMask.rows = prim._shapeMask.rows ∧ shapeMask.cols = prim._shapeMask.cols then
    some (IOU_of_masks shapeMask prim._shapeMask)
  else none

end Primitive

/-- `Cylinder::is_similar`; `none` when an assertion fails. -/
def Cylinder.is_similar (P : SimilarityParameters) (self : Cylinder) (prim : Primitive) :
    Option Bool :=
  let primitiveType := prim.get_primitive_type
  if primitiveType = PrimitiveType.Invalid then none
  else
    match Primitive.get_IOU self._shapeMask prim with
    | none => none
    | some iou =>
      if iou < P.minimum_iou_for_match then some false
      else
        match prim with
        | Primitive.plane _ => some false
        | Primitive.cylinder cylinder =>
          some (decide (P.minimum_normals_dot_difference < |self._normal.dot cylinder._normal|))

/-- `Plane::is_similar`; `none` when an assertion fails. -/
def Plane.is_similar (P : SimilarityParameters) (self : Plane) (prim : Primitive) :
    Option Bool :=
  let primitiveType := prim.get_primitive_type
  if primitiveType = PrimitiveType.Invalid then none
  else
    match Primitive.get_IOU self._shapeMask prim with
    | none => none
    | some iou =>
      if iou < P.minimum_iou_for_match then some false
      else
        match prim with
        | Primitive.plane plane =>
          some (decide
            (P.minimum_normals_dot_difference < (self._normal.dot plane._normal + 1) / 2))
        | Primitive.cylinder _ => some false

/-- A 1 x 2 mask with both pixels set. -/
def toyMaskFull : Mat Nat := { rows := 1, cols := 2, data := fun _ _ => 1 }

/-- A 1 x 2 mask with only its first pixel set. -/
def toyMaskHalf : Mat Nat := { rows := 1, cols := 2, data := fun _ c => if c = 0 then 1 else 0 }

/-- A plane facing the camera, with the full toy mask. -/
def toyPlane : Plane :=
  { _id := 0, _shapeMask := toyMaskFull, _normal := ⟨0, 0, -1⟩, _d := 2, _mean := ⟨0, 0, 2⟩ }

/-- A cylinder with a vertical axis, with the half toy mask. -/
def toyCylinder : Cylinder :=
  { _id := 50, _shapeMask := toyMaskHalf, _normal := ⟨0, 1, 0⟩, _radius := 1 / 4 }

/-- Thresholds for the toy primitives. -/
def toySimilarityParameters : SimilarityParameters :=
  { minimum_iou_for_match := 1 / 5, minimum_normals_dot_difference := 7 / 10 }

end primitives

end features

/-! ### Primitives of the map

`map_primitive.hpp`.  The static member `_currentPrimitiveId` is a global
counter: the constructor receives its value and returns the new one. -/

namespace map_management

/-- The constant `UNMATCHED_PRIMITIVE_ID`. -/
def UNMATCHED_PRIMITIVE_ID : Nat := 0

/-- The structure `MatchedPrimitive`; `_matchId` is a `uchar`. -/
structure MatchedPrimitive where
  _matchId : Nat
  deriving DecidableEq, Repr

namespace MatchedPrimitive

/-- The default constructor. -/
def create : MatchedPrimitive := { _matchId := UNMATCHED_PRIMITIVE_ID }

/-- `MatchedPrimitive::is_matched`. -/
def is_matched (self : MatchedPrimitive) : Bool := self._matchId != UNMATCHED_PRIMITIVE_ID

/-- `MatchedPrimitive::mark_unmatched`. -/
def mark_unmatched (_self : MatchedPrimitive) : MatchedPrimitive :=
  { _matchId := UNMATCHED_PRIMITIVE_ID }

end MatchedPrimitive

/-- The structure `map_management::Primitive`, for a type `P` of detected
primitives; `_color` holds the three channels drawn by the constructor. -/
structure Primitive (P : Type) where
  _id : Nat
  _primitive : P
  _matchedPrimitive : MatchedPrimitive
  _color : Nat × Nat × Nat

/-- The initial value of the static member `_currentPrimitiveId`. -/
def initial_currentPrimitiveId : Nat := 1

/-- The constructor of `Primitive`: `currentPrimitiveId` is the value of the
static counter (a `size_t` of 64 bits), `rands` the three values returned by
`rand()`.  The result is the object and the new value of the counter. -/
def Primitive.create {P : Type} (currentPrimitiveId : Nat) (primitive : P)
    (rands : Nat × Nat × Nat) : Primitive P × Nat :=
  ({ _id := currentPrimitiveId
     _primitive := primitive
     _matchedPrimitive := MatchedPrimitive.create
     _color := (rands.1 % 255, rands.2.1 % 255, rands.2.2 % 255) },
   (currentPrimitiveId + 1) % 2 ^ 64)

/-- Successive constructions, in order, from a value of the static counter: the
objects built and the final value of the counter. -/
def construct_all {P : Type} :
    Nat → List (P × (Nat × Nat × Nat)) → List (Primitive P) × Nat
  | currentPrimitiveId, [] => ([], currentPrimitiveId)
  | currentPrimitiveId, argument :: arguments =>
    let built := Primitive.create currentPrimitiveId argument.1 argument.2
    let others := construct_all built.2 arguments
    (built.1 :: others.1, others.2)

end map_management

end rgbd_slam

/-! ### The RGB-D driver

`rgbd_slam.cpp`, in state-passing style like `RGB_SLAM` above.  The objects the
driver owns (`_depthOps`, `_localMap`, `_primitiveDetector`, `_pointDetector`,
`_lineDetector`, `_motionModel`), the static `Parameters` and the pose
optimisation are declared elsewhere: `SlamExternals` lists what the driver
uses of them, and the calls made are recorded.  The timing statistics
(`_meanMatTreatmentTime` and the like) are left out: they are written and
never read by the code modelled here. -/

namespace rgbd_slam

/-- The calls that `RGBD_SLAM` makes on the objects it owns and on the pose
optimisation; `compute_keypoints` is recorded with the value of its argument
`shouldRecomputeKeypoints`. -/
inductive SlamCall where
  | motionModel_reset
  | get_organized_cloud_array
  | cvtColor
  | compute_lines
  | predict_next_pose
  | get_tracked_keypoints_features
  | compute_keypoints (shouldRecomputeKeypoints : Bool)
  | find_primitives
  | find_keypoint_matches
  | find_primitive_matches
  | compute_optimized_pose
  | localMap_update
  | update_model
  deriving DecidableEq, Repr

/-- What `rgbd_slam.hpp` and the headers it includes declare.  `Members` is the
joint state of the owned objects and of whatever global state the external
functions use; a function that may change it returns the new state. -/
structure SlamExternals where
  Pose : Type
  Mat : Type
  MatrixXf : Type
  KeypointsWithIdStruct : Type
  Keypoint_Handler : Type
  primitive_container : Type
  match_point_container : Type
  match_primitive_container : Type
  Members : Type
  mat_rows : Mat → Nat
  mat_cols : Mat → Nat
  /-- The value of `Parameters::is_valid()` when the constructor starts. -/
  parameters_is_valid : Bool
  /-- The value of `Parameters::is_valid()` after `Parameters::load_defaut()`. -/
  default_parameters_is_valid : Bool
  /-- Whether the `Depth_Map_Transformation` built for a width and a height
  `is_ok()`. -/
  depthOps_is_ok : Nat → Nat → Bool
  get_keypoint_refresh_frequency : Nat
  get_minimum_point_count_for_optimization : Nat
  motionModel_reset : Members → Pose → Members
  get_organized_cloud_array : Members → Mat → Members × MatrixXf
  cvtColor : Mat → Mat
  compute_lines : Members → Mat → Mat → Members
  predict_next_pose : Members → Pose → Members × Pose
  get_tracked_keypoints_features : Members → Members × KeypointsWithIdStruct
  compute_keypoints :
    Members → Mat → Mat → KeypointsWithIdStruct → Bool → Members × Keypoint_Handler
  find_primitives : Members → MatrixXf → Members × primitive_container
  find_keypoint_matches : Members → Pose → Keypoint_Handler → Members × match_point_container
  find_primitive_matches :
    Members → Pose → primitive_container → Members × match_primitive_container
  /-- The method `size()` of a container of matches. -/
  matches_size : match_point_container → Nat
  /-- The value of a default-constructed `utils::Pose`. -/
  default_pose : Pose
  /-- The value of a default-constructed container of matches. -/
  empty_matches : match_point_container
  /-- The function `Pose_Optimization::compute_optimized_pose`: its result and
  the final values of its output arguments `optimizedPose` and
  `outlierMatchedPoints`. -/
  compute_optimized_pose :
    Members → Pose → match_point_container → Pose → match_point_container →
      Members × Bool × Pose × match_point_container
  localMap_update :
    Members → Pose → Pose → Keypoint_Handler → primitive_container →
      match_point_container → Members
  update_model : Members → Pose → Members

/-- The data members of `RGBD_SLAM` and the history of calls.
`_computeKeypointCount` is a natural number: it is set back to zero at line 205
before it can exceed the refresh frequency. -/
structure RGBD_SLAM (E : SlamExternals) where
  _width : Nat
  _height : Nat
  _totalFrameTreated : Nat
  _members : E.Members
  _computeKeypointCount : Nat
  _currentPose : E.Pose
  calls : List SlamCall

namespace RGBD_SLAM

variable {E : SlamExternals}

/-- The constructor `RGBD_SLAM::RGBD_SLAM`; `members` is the state of the owned
objects once they are built.  The result is `none` when the constructor calls
`exit(-1)`. -/
def create (startPose : E.Pose) (imageWidth imageHeight : Nat) (members : E.Members) :
    Option (RGBD_SLAM E) :=
  if E.parameters_is_valid = false ∧ E.default_parameters_is_valid = false then none
  else if E.depthOps_is_ok imageWidth imageHeight = false then none
  else
    some
      { _width := imageWidth
        _height := imageHeight
        _totalFrameTreated := 0
        _members := E.motionModel_reset members startPose
        _computeKeypointCount := 0
        _currentPose := startPose
        calls := [SlamCall.motionModel_reset] }

/-- `RGBD_SLAM::compute_new_pose`: the returned pose and the new state of the
object. -/
def compute_new_pose (s : RGBD_SLAM E) (grayImage depthImage : E.Mat)
    (cloudArrayOrganized : E.MatrixXf) : E.Pose × RGBD_SLAM E :=
  let predicted := E.predict_next_pose s._members s._currentPose
  let s := { s with _members := predicted.1, calls := s.calls ++ [SlamCall.predict_next_pose] }
  let refinedPose := predicted.2
  let shouldRecomputeKeypoints : Bool :=
    s._computeKeypointCount % E.get_keypoint_refresh_frequency == 0
  let tracked := E.get_tracked_keypoints_features s._members
  let s := { s with
    _members := tracked.1, calls := s.calls ++ [SlamCall.get_tracked_keypoints_features] }
  let trackedKeypointContainer := tracked.2
  let computed := E.compute_keypoints s._members grayImage depthImage trackedKeypointContainer
    shouldRecomputeKeypoints
  let s := { s with
    _members := computed.1
    calls := s.calls ++ [SlamCall.compute_keypoints shouldRecomputeKeypoints] }
  let keypointObject := computed.2
  let found := E.find_primitives s._members cloudArrayOrganized
  let s := { s with _members := found.1, calls := s.calls ++ [SlamCall.find_primitives] }
  let detectedPrimitives := found.2
  let pointMatches := E.find_keypoint_matches s._members refinedPose keypointObject
  let s := { s with
    _members := pointMatches.1, calls := s.calls ++ [SlamCall.find_keypoint_matches] }
  let matchedPoints := pointMatches.2
  let primitiveMatches := E.find_primitive_matches s._members refinedPose detectedPrimitives
  let s := { s with
    _members := primitiveMatches.1, calls := s.calls ++ [SlamCall.find_primitive_matches] }
  let outlierMatchedPoints := E.empty_matches
  let shouldUpdateMap := true
  let optimized : RGBD_SLAM E × E.Pose × Bool × E.match_point_container :=
    if s._computeKeypointCount ≠ 0 then
      if E.get_minimum_point_count_for_optimization ≤ E.matches_size matchedPoints then
        let optimizedPose := E.default_pose
        let r := E.compute_optimized_pose s._members refinedPose matchedPoints optimizedPose
          outlierMatchedPoints
        let s := { s with
          _members := r.1, calls := s.calls ++ [SlamCall.compute_optimized_pose] }
        let shouldUpdateMap := r.2.1
        let optimizedPose := r.2.2.1
        let outlierMatchedPoints := r.2.2.2
        if shouldUpdateMap then (s, optimizedPose, shouldUpdateMap, outlierMatchedPoints)
        else (s, refinedPose, shouldUpdateMap, outlierMatchedPoints)
      else (s, refinedPose, shouldUpdateMap, outlierMatchedPoints)
    else (s, refinedPose, shouldUpdateMap, outlierMatchedPoints)
  let s := optimized.1
  let refinedPose := optimized.2.1
  let shouldUpdateMap := optimized.2.2.1
  let outlierMatchedPoints := optimized.2.2.2
  let s :=
    if shouldRecomputeKeypoints then { s with _computeKeypointCount := 0 } else s
  let s := { s with _computeKeypointCount := s._computeKeypointCount + 1 }
  let s :=
    if shouldUpdateMap then
      { s with
        _members := E.localMap_update s._members s._currentPose refinedPose keypointObject
          detectedPrimitives outlierMatchedPoints
        calls := s.calls ++ [SlamCall.localMap_update] }
    else s
  (refinedPose, s)

/-- The state of the owned objects, the pose predicted by the motion model and
the matched points that `compute_new_pose` has at line 178, before the pose
optimisation. -/
def matching (s : RGBD_SLAM E) (grayImage depthImage : E.Mat)
    (cloudArrayOrganized : E.MatrixXf) : E.Members × E.Pose × E.match_point_container :=
  let predicted := E.predict_next_pose s._members s._currentPose
  let tracked := E.get_tracked_keypoints_features predicted.1
  let computed := E.compute_keypoints tracked.1 grayImage depthImage tracked.2
    (s._computeKeypointCount % E.get_keypoint_refresh_frequency == 0)
  let found := E.find_primitives computed.1 cloudArrayOrganized
  let pointMatches := E.find_keypoint_matches found.1 predicted.2 computed.2
  let primitiveMatches := E.find_primitive_matches pointMatches.1 predicted.2 found.2
  (primitiveMatches.1, predicted.2, pointMatches.2)

/-- The result of the call of `compute_optimized_pose` at line 188, when it is
made: the returned `bool`, and the final values of `optimizedPose` and
`outlierMatchedPoints`. -/
def optimization (s : RGBD_SLAM E) (grayImage depthImage : E.Mat)
    (cloudArrayOrganized : E.MatrixXf) : Bool × E.Pose × E.match_point_container :=
  let matched := matching s grayImage depthImage cloudArrayOrganized
  (E.compute_optimized_pose matched.1 matched.2.1 matched.2.2 E.default_pose
    E.empty_matches).2

/-- `RGBD_SLAM::track`; `none` when one of the four assertions on the size of
the images fails. -/
def track (s : RGBD_SLAM E) (inputRgbImage inputDepthImage : E.Mat) (detectLines : Bool) :
    Option (E.Pose × RGBD_SLAM E) :=
  if E.mat_rows inputDepthImage = s._height ∧ E.mat_cols inputDepthImage = s._width
      ∧ E.mat_rows inputRgbImage = s._height ∧ E.mat_cols inputRgbImage = s._width then
    let depthImage := inputDepthImage
    let cloud := E.get_organized_cloud_array s._members depthImage
    let s := { s with
      _members := cloud.1, calls := s.calls ++ [SlamCall.get_organized_cloud_array] }
    let cloudArrayOrganized := cloud.2
    let grayImage := E.cvtColor inputRgbImage
    let s := { s with calls := s.calls ++ [SlamCall.cvtColor] }
    let s :=
      if detectLines then
        { s with
          _members := E.compute_lines s._members grayImage depthImage
          calls := s.calls ++ [SlamCall.compute_lines] }
      else s
    let computed := compute_new_pose s grayImage depthImage cloudArrayOrganized
    let refinedPose := computed.1
    let s := computed.2
    let s := { s with
      _members := E.update_model s._members refinedPose
      calls := s.calls ++ [SlamCall.update_model] }
    let s := { s with _currentPose := refinedPose }
    let s := { s with _totalFrameTreated := s._totalFrameTreated + 1 }
    some (refinedPose, s)
  else none

/-- Successive calls of `track` on a sequence of frames (colour image, depth
image, `detectLines`): the final state, or `none` when an assertion fails. -/
def track_all (s : RGBD_SLAM E) : List (E.Mat × E.Mat × Bool) → Option (RGBD_SLAM E)
  | [] => some s
  | frame :: frames =>
    match track s frame.1 frame.2.1 frame.2.2 with
    | none => none
    | some (_, s1) => track_all s1 frames

/-- The values of `shouldRecomputeKeypoints` passed to `compute_keypoints`, in
the order of the calls recorded. -/
def redetect_flags : List SlamCall → List Bool
  | [] => []
  | SlamCall.compute_keypoints shouldRecomputeKeypoints :: calls =>
    shouldRecomputeKeypoints :: redetect_flags calls
  | _ :: calls => redetect_flags calls

end RGBD_SLAM

/-- A toy instance of the RGB-D driver: an image is the number of keypoints
that match the map, a pose is an integer, the motion model predicts the last
pose plus one, and the optimisation fails and proposes the pose 100 when there
are exactly 7 matches, and succeeds and proposes the predicted pose plus 10
otherwise. -/
@[reducible]
def toySlamExternals : SlamExternals where
  Pose := Int
  Mat := Nat
  MatrixXf := Unit
  KeypointsWithIdStruct := Unit
  Keypoint_Handler := Nat
  primitive_container := Unit
  match_point_container := Nat
  match_primitive_container := Unit
  Members := Unit
  mat_rows := fun _ => 2
  mat_cols := fun _ => 2
  parameters_is_valid := true
  default_parameters_is_valid := true
  depthOps_is_ok := fun _ _ => true
  get_keypoint_refresh_frequency := 3
  get_minimum_point_count_for_optimization := 5
  motionModel_reset := fun m _ => m
  get_organized_cloud_array := fun m _ => (m, ())
  cvtColor := fun image => image
  compute_lines := fun m _ _ => m
  predict_next_pose := fun m pose => (m, pose + 1)
  get_tracked_keypoints_features := fun m => (m, ())
  compute_keypoints := fun m grayImage _ _ _ => (m, grayImage)
  find_primitives := fun m _ => (m, ())
  find_keypoint_matches := fun m _ keypoints => (m, keypoints)
  find_primitive_matches := fun m _ _ => (m, ())
  matches_size := fun matchedPoints => matchedPoints
  default_pose := 0
  empty_matches := 0
  compute_optimized_pose := fun m pose matchedPoints _ outliers =>
    if matchedPoints = 7 then (m, false, 100, outliers) else (m, true, pose + 10, outliers)
  localMap_update := fun m _ _ _ _ _ => m
  update_model := fun m _ => m

/-- The toy RGB-D driver after construction at pose 0 for 2 x 2 images. -/
def toySlamInitial : RGBD_SLAM toySlamExternals :=
  { _width := 2
    _height := 2
    _totalFrameTreated := 0
    _members := ()
    _computeKeypointCount := 0
    _currentPose := (0 : Int)
    calls := [SlamCall.motionModel_reset] }

/-- Four frames for the toy RGB-D driver, each with 9 matched keypoints. -/
def toySlamFrames : List (toySlamExternals.Mat × toySlamExternals.Mat × Bool) :=
  [((9 : Nat), (9 : Nat), false), ((9 : Nat), (9 : Nat), true), ((9 : Nat), (9 : Nat), false),
    ((9 : Nat), (9 : Nat), false)]

/-- The toy RGB-D driver after one frame with 9 matched keypoints. -/
def toySlamRunning : RGBD_SLAM toySlamExternals :=
  (RGBD_SLAM.compute_new_pose toySlamInitial (9 : Nat) (9 : Nat) ()).2

/-- The toy RGB-D driver after the four frames of `toySlamFrames`. -/
def toySlamFinal : RGBD_SLAM toySlamExternals :=
  (RGBD_SLAM.track_all toySlamInitial toySlamFrames).getD toySlamInitial

end rgbd_slam

/-! ### Primitive detection

`primitive_detection.cpp`.  The classes `Plane_Segment` and `Cylinder_Segment`
(plane fitting, cylinder fitting by RANSAC) and the class `Histogram` are
declared outside the sources at hand: the first two are the abstract types of
`DetectionExternals` with the member functions the detector calls, the third
is modelled from the specification.  A `std::vector` is a function of the
index, the cloud is the function that gives the point of each row, and integer
sizes are natural numbers; the coordinates of a cell are 16-bit and the
arithmetic on `uint` wraps at `2 ^ 32` where the code can reach the bound. -/

namespace rgbd_slam

namespace features

namespace primitives

namespace vector3

/-- The difference of two vectors. -/
def sub (a b : vector3) : vector3 := ⟨a.x - b.x, a.y - b.y, a.z - b.z⟩

/-- The vector product, Eigen's `cross`. -/
def cross (a b : vector3) : vector3 :=
  ⟨a.y * b.z - a.z * b.y, a.z * b.x - a.x * b.z, a.x * b.y - a.y * b.x⟩

end vector3

namespace Mat

/-- A matrix with every element equal to `value`. -/
def fill {α : Type} (rows cols : Nat) (value : α) : Mat α :=
  { rows := rows, cols := cols, data := fun _ _ => value }

/-- The assignment `m.at(r, c) = value`. -/
def set {α : Type} (m : Mat α) (r c : Nat) (value : α) : Mat α :=
  { m with data := fun r1 c1 => if r1 = r ∧ c1 = c then value else m.data r1 c1 }

/-- The method `setTo(value, mask)`: the elements selected by `mask` become
`value`. -/
def setTo {α : Type} (m : Mat α) (value : α) (mask : Nat → Nat → Bool) : Mat α :=
  { m with data := fun r c => if mask r c then value else m.data r c }

/-- The greatest element of a matrix of `uchar` (zero for an empty matrix), as
`cv::minMaxLoc` reports it. -/
def maxValue (m : Mat Nat) : Nat :=
  ((List.range m.rows).map fun r => ((List.range m.cols).map fun c => m.data r c).foldl max 0).foldl
    max 0

/-- The function `cv::erode` with the 3 x 3 cross kernel `_maskCrossKernel` and
the default border: an element becomes the least of itself and of its four
neighbours that lie inside the matrix. -/
def erode_cross (m : Mat Nat) : Mat Nat :=
  { m with
    data := fun r c =>
      let value := m.data r c
      let value := if 0 < r then min value (m.data (r - 1) c) else value
      let value := if r + 1 < m.rows then min value (m.data (r + 1) c) else value
      let value := if 0 < c then min value (m.data r (c - 1)) else value
      if c + 1 < m.cols then min value (m.data r (c + 1)) else value }

/-- The function `cv::dilate` with the 3 x 3 kernel of ones `_maskSquareKernel`
and the default border: an element becomes the greatest of itself and of its
eight neighbours that lie inside the matrix. -/
def dilate_square (m : Mat Nat) : Mat Nat :=
  { m with
    data := fun r c =>
      (([r - 1, r, r + 1].eraseDups.filter fun r1 => r1 < m.rows).map fun r1 =>
        (([c - 1, c, c + 1].eraseDups.filter fun c1 => c1 < m.cols).map fun c1 =>
          m.data r1 c1).foldl max 0).foldl max 0 }

/-- The difference `a - b` of two matrices of `uchar`, which saturates at
zero. -/
def subtract (a b : Mat Nat) : Mat Nat :=
  { a with data := fun r c => a.data r c - b.data r c }

end Mat

/-- Modelled from the spec: the class `Histogram` (section 4.D), whose code is
not in the sources at hand.  Every cell of the mask given at initialisation is
owned by one bin; `bins i` is the bin that owns the cell `i`, or `none` when
the cell is not in the histogram.  The count of a bin is the number of cells it
owns, so that a removal decrements the owning bin and no count goes below
zero. -/
structure Histogram where
  pointCount : Nat
  binCount : Nat
  bins : Nat → Option Nat

namespace Histogram

/-- The number of cells owned by a bin. -/
def count (self : Histogram) (bin : Nat) : Nat :=
  ((List.range self.pointCount).filter fun i => self.bins i == some bin).length

/-- The most populous bin: the first of the bins with the greatest count, when
that count is not zero. -/
def most_frequent_bin (self : Histogram) : Option Nat :=
  ((List.range self.binCount).foldl
    (fun (best : Option Nat × Nat) bin =>
      if best.2 < self.count bin then (some bin, self.count bin) else best)
    (none, 0)).1

/-- Modelled from the spec: `get_points_from_most_frequent_bin`, the cells
owned by the most populous bin, in increasing order. -/
def get_points_from_most_frequent_bin (self : Histogram) : List Nat :=
  match self.most_frequent_bin with
  | none => []
  | some bin => (List.range self.pointCount).filter fun i => self.bins i == some bin

/-- Modelled from the spec: `remove_point`, after which the cell is owned by no
bin. -/
def remove_point (self : Histogram) (pointId : Nat) : Histogram :=
  { self with bins := fun i => if i = pointId then none else self.bins i }

/-- Modelled from the spec: `reset`, after which the histogram owns no cell. -/
def reset (self : Histogram) : Histogram :=
  { self with bins := fun _ => none }

end Histogram

/-- What `primitive_detection.hpp` and the headers it includes declare and the
detector uses: the classes `Plane_Segment` and `Cylinder_Segment` with their
member functions, Eigen's `norm()`, and two getters of `Parameters`.  The
constructor of `Cylinder_Segment` draws random numbers: `Random` is the state
of the generator. -/
structure DetectionExternals where
  Plane_Segment : Type
  Cylinder_Segment : Type
  Random : Type
  is_planar : Plane_Segment → Bool
  get_normal : Plane_Segment → vector3
  get_mean : Plane_Segment → vector3
  get_plane_d : Plane_Segment → ℚ
  get_MSE : Plane_Segment → ℚ
  get_score : Plane_Segment → ℚ
  expand_segment : Plane_Segment → Plane_Segment → Plane_Segment
  fit_plane : Plane_Segment → Plane_Segment
  clear_plane_parameters : Plane_Segment → Plane_Segment
  /-- The constructor `Cylinder_Segment(planeGrid, isActivatedMask,
  cellActivatedCount)`. -/
  fit_cylinder :
    Random → (Nat → Plane_Segment) → (Nat → Bool) → Nat → Cylinder_Segment × Random
  get_segment_count : Cylinder_Segment → Nat
  get_MSE_at : Cylinder_Segment → Nat → ℚ
  is_inlier_at : Cylinder_Segment → Nat → Nat → Bool
  get_local_to_global_mapping : Cylinder_Segment → Nat → Nat
  get_axis1_point : Cylinder_Segment → Nat → vector3
  get_axis2_point : Cylinder_Segment → Nat → vector3
  get_axis_normal : Cylinder_Segment → Nat → ℚ
  get_radius : Cylinder_Segment → Nat → ℚ
  cylinder_get_normal : Cylinder_Segment → vector3
  /-- Eigen's `norm()` of a vector. -/
  norm : vector3 → ℚ
  get_minimum_plane_seed_count : Nat
  get_minimum_cell_activated : Nat

/-- The constant `CYLINDER_CODE_OFFSET`. -/
def CYLINDER_CODE_OFFSET : Nat := 50

/-- The value of `INT_MAX` once stored in the `float` variable `minMSE`:
`2 ^ 31 - 1` is rounded to `2 ^ 31`. -/
def INT_MAX_as_float : ℚ := 2147483648

/-- The value of `std::numeric_limits<float>::max()`. -/
def FLT_MAX : ℚ := 2 ^ 128 - 2 ^ 104

/-- The data members of `Primitive_Detection` that the functions modelled here
read or write. -/
structure Primitive_Detection (X : DetectionExternals) where
  _histogram : Histogram
  _width : Nat
  _height : Nat
  _pointsPerCellCount : Nat
  _minCosAngleForMerge : ℚ
  _maxMergeDist : ℚ
  _useCylinderDetection : Bool
  _cellWidth : Nat
  _cellHeight : Nat
  _horizontalCellsCount : Nat
  _verticalCellsCount : Nat
  _totalCellCount : Nat
  _activationMap : Nat → Bool
  _unassignedMask : Nat → Bool
  _distancesStacked : Nat → ℚ
  _segMapStacked : Nat → Nat
  _cellDistanceTols : Nat → ℚ
  _gridPlaneSegmentMap : Mat Int
  _gridPlaneSegMapEroded : Mat Nat
  _gridCylinderSegMap : Mat Int
  _gridCylinderSegMapEroded : Mat Nat
  _mask : Mat Nat
  _maskEroded : Mat Nat
  _maskDilated : Mat Nat
  _maskDiff : Mat Nat
  _planeGrid : Nat → X.Plane_Segment
  _planeSegments : List X.Plane_Segment
  _cylinderSegments : List X.Cylinder_Segment
  random : X.Random

namespace Primitive_Detection

variable {X : DetectionExternals}

/-- `Primitive_Detection::region_growing`, on the activation map given as
argument; `fuel` bounds the depth of the recursion and the result is `none`
when it is exhausted. -/
def region_growing (D : Primitive_Detection X) :
    Nat → (Nat → Bool) → Nat → Nat → vector3 → ℚ → Option (Nat → Bool)
  | 0, _, _, _, _, _ => none
  | fuel + 1, activationMap, x, y, seedPlaneNormal, seedPlaneD =>
    let index := (x + D._horizontalCellsCount * y) % 2 ^ 32
    if D._totalCellCount ≤ index then some activationMap
    else if D._unassignedMask index = false ∨ activationMap index = true then
      some activationMap
    else
      let secPlaneNormal := X.get_normal (D._planeGrid index)
      let secPlaneMean := X.get_mean (D._planeGrid index)
      let secPlaneD := X.get_plane_d (D._planeGrid index)
      if seedPlaneNormal.dot secPlaneNormal < D._minCosAngleForMerge
          ∨ D._cellDistanceTols index < (seedPlaneNormal.dot secPlaneMean + seedPlaneD) ^ 2 then
        some activationMap
      else
        let activationMap := fun i => if i = index then true else activationMap i
        (if 0 < x then region_growing D fuel activationMap (x - 1) y secPlaneNormal secPlaneD
          else some activationMap).bind fun activationMap =>
        (if x < (D._width + 2 ^ 32 - 1) % 2 ^ 32 then
            region_growing D fuel activationMap ((x + 1) % 2 ^ 16) y secPlaneNormal secPlaneD
          else some activationMap).bind fun activationMap =>
        (if 0 < y then region_growing D fuel activationMap x (y - 1) secPlaneNormal secPlaneD
          else some activationMap).bind fun activationMap =>
        if y < (D._height + 2 ^ 32 - 1) % 2 ^ 32 then
          region_growing D fuel activationMap x ((y + 1) % 2 ^ 16) secPlaneNormal secPlaneD
        else some activationMap

end Primitive_Detection

end primitives

end features

end rgbd_slam

namespace rgbd_slam

namespace features

namespace primitives

/-- The local variables of `grow_planes_and_cylinders` that live across the
iterations of its loop, with the state of the detector. -/
structure GrowState (X : DetectionExternals) where
  detector : Primitive_Detection X
  remainingPlanarCells : Nat
  cylinderCount : Nat
  cylinder2regionMap : List (Nat × Nat)

/-- How an iteration of a `while` loop ends: with `break`, or with the end of
the body or `continue`. -/
inductive LoopStep (σ : Type) where
  | exit (state : σ)
  | again (state : σ)

namespace Primitive_Detection

variable {X : DetectionExternals}

/-- Lines 323-335 of `grow_planes_and_cylinders`: the seed is the candidate
with the least MSE below `minMSE`, and cell 0 when there is none. -/
def select_seed (D : Primitive_Detection X) (seedCandidates : List Nat) : Nat :=
  (seedCandidates.foldl
    (fun (selected : Nat × ℚ) seedCandidate =>
      if X.get_MSE (D._planeGrid seedCandidate) < selected.2 then
        (seedCandidate, X.get_MSE (D._planeGrid seedCandidate))
      else selected)
    (0, INT_MAX_as_float)).1

/-- Lines 353-365 of `grow_planes_and_cylinders`: the activated cells are
merged into the new segment, removed from the histogram and marked as
assigned; the counter of remaining cells is a `uint`. -/
def merge_activated_cells (D : Primitive_Detection X) (newPlaneSegment : X.Plane_Segment)
    (remainingPlanarCells : Nat) :
    X.Plane_Segment × Nat × Histogram × (Nat → Bool) × Nat :=
  (List.range D._totalCellCount).foldl
    (fun (state : X.Plane_Segment × Nat × Histogram × (Nat → Bool) × Nat) i =>
      if D._activationMap i then
        (X.expand_segment state.1 (D._planeGrid i),
          state.2.1 + 1,
          state.2.2.1.remove_point i,
          (fun j => if j = i then false else state.2.2.2.1 j),
          (state.2.2.2.2 + 2 ^ 32 - 1) % 2 ^ 32)
      else state)
    (newPlaneSegment, 0, D._histogram, D._unassignedMask, remainingPlanarCells)

/-- Lines 409-418: the cells of the sub-segment `segId` of a cylinder are
merged into the cleared plane segment.  The plane grid is a total function
here, so the assertion `localMapIndex < _planeGrid.size()` of line 414 is
taken to hold. -/
def expand_with_inliers (D : Primitive_Detection X) (cy : X.Cylinder_Segment) (segId : Nat)
    (cellActivatedCount : Nat) (newPlaneSegment : X.Plane_Segment) : X.Plane_Segment :=
  (List.range cellActivatedCount).foldl
    (fun segment c =>
      if X.is_inlier_at cy segId c then
        X.expand_segment segment (D._planeGrid (X.get_local_to_global_mapping cy c))
      else segment)
    newPlaneSegment

/-- Lines 427-434 and 440-447: the cells of the sub-segment `segId` receive
`label` in a grid map. -/
def label_inliers (D : Primitive_Detection X) (cy : X.Cylinder_Segment) (segId : Nat)
    (cellActivatedCount : Nat) (grid : Mat Int) (label : Int) : Mat Int :=
  (List.range cellActivatedCount).foldl
    (fun grid c =>
      if X.is_inlier_at cy segId c then
        let cellId := X.get_local_to_global_mapping cy c
        grid.set (cellId / D._horizontalCellsCount) (cellId % D._horizontalCellsCount) label
      else grid)
    grid

/-- Lines 406-449: for each sub-segment of the cylinder just fitted, a plane is
fitted to its cells, and the sub-segment is recorded as a plane or as a
cylinder according to the MSE. -/
def select_models (cy : X.Cylinder_Segment) (cellActivatedCount : Nat)
    (newPlaneSegment : X.Plane_Segment) (S : GrowState X) : GrowState X :=
  ((List.range (X.get_segment_count cy)).foldl
    (fun (state : X.Plane_Segment × GrowState X) segId =>
      let S := state.2
      let D := S.detector
      let segment := X.clear_plane_parameters state.1
      let segment := expand_with_inliers D cy segId cellActivatedCount segment
      let segment := X.fit_plane segment
      if X.get_MSE segment < X.get_MSE_at cy segId then
        let planeSegments := D._planeSegments ++ [segment]
        let currentPlaneCount := planeSegments.length
        (segment,
          { S with
            detector :=
              { D with
                _planeSegments := planeSegments
                _gridPlaneSegmentMap :=
                  label_inliers D cy segId cellActivatedCount D._gridPlaneSegmentMap
                    (currentPlaneCount : Int) } })
      else
        let cylinderCount := S.cylinderCount + 1
        (segment,
          { S with
            cylinderCount := cylinderCount
            cylinder2regionMap :=
              S.cylinder2regionMap ++ [(D._cylinderSegments.length - 1, segId)]
            detector :=
              { D with
                _gridCylinderSegMap :=
                  label_inliers D cy segId cellActivatedCount D._gridCylinderSegMap
                    (cylinderCount : Int) } }))
    (newPlaneSegment, S)).2

/-- The body of the loop of `grow_planes_and_cylinders` (lines 315-450), run
when `remainingPlanarCells > 0`; `none` when the recursion of `region_growing`
does not return within `_totalCellCount + 1` nested calls. -/
def grow_iteration (S : GrowState X) : Option (LoopStep (GrowState X)) :=
  let D := S.detector
  let seedCandidates := D._histogram.get_points_from_most_frequent_bin
  if seedCandidates.length < X.get_minimum_plane_seed_count then
    some (LoopStep.exit S)
  else
    let seedId := select_seed D seedCandidates
    let newPlaneSegment := D._planeGrid seedId
    let y := seedId / D._horizontalCellsCount
    let x := seedId % D._horizontalCellsCount
    let cleared : Nat → Bool := fun _ => false
    match region_growing D (D._totalCellCount + 1) cleared (x % 2 ^ 16) (y % 2 ^ 16)
        (X.get_normal newPlaneSegment) (X.get_plane_d newPlaneSegment) with
    | none => none
    | some activationMap =>
      let D := { D with _activationMap := activationMap }
      let merged := merge_activated_cells D newPlaneSegment S.remainingPlanarCells
      let newPlaneSegment := merged.1
      let cellActivatedCount := merged.2.1
      let D := { D with _histogram := merged.2.2.1, _unassignedMask := merged.2.2.2.1 }
      let S := { S with detector := D, remainingPlanarCells := merged.2.2.2.2 }
      if cellActivatedCount < X.get_minimum_cell_activated then
        some (LoopStep.again
          { S with detector := { D with _histogram := D._histogram.remove_point seedId } })
      else
        let newPlaneSegment := X.fit_plane newPlaneSegment
        if D._useCylinderDetection = false ∨ 100 < X.get_score newPlaneSegment then
          let planeSegments := D._planeSegments ++ [newPlaneSegment]
          let currentPlaneCount := planeSegments.length
          some (LoopStep.again
            { S with
              detector :=
                { D with
                  _planeSegments := planeSegments
                  _gridPlaneSegmentMap :=
                    D._gridPlaneSegmentMap.setTo (currentPlaneCount : Int) fun r c =>
                      decide (r < D._verticalCellsCount) && decide (c < D._horizontalCellsCount)
                        && D._activationMap (r * D._horizontalCellsCount + c) } })
        else if D._useCylinderDetection = true ∧ 5 < cellActivatedCount then
          let fitted := X.fit_cylinder D.random D._planeGrid D._activationMap cellActivatedCount
          let cy := fitted.1
          let D := { D with
            _cylinderSegments := D._cylinderSegments ++ [cy], random := fitted.2 }
          some (LoopStep.again
            (select_models cy cellActivatedCount newPlaneSegment { S with detector := D }))
        else some (LoopStep.again S)

/-- `Primitive_Detection::grow_planes_and_cylinders`: the state when the loop
is left; `fuel` bounds the number of iterations and the result is `none` when
it is exhausted. -/
def grow_planes_and_cylinders : Nat → GrowState X → Option (GrowState X)
  | 0, _ => none
  | fuel + 1, S =>
    if 0 < S.remainingPlanarCells then
      match grow_iteration S with
      | none => none
      | some (LoopStep.exit S) => some S
      | some (LoopStep.again S) => grow_planes_and_cylinders fuel S
    else some S

end Primitive_Detection

end primitives

end features

end rgbd_slam

namespace rgbd_slam

namespace features

namespace primitives

/-- The local variables of `refine_plane_boundaries` and
`refine_cylinder_boundaries` that live across the iterations of their outer
loop, with the state of the detector: the identifier allocator (a `uint`) and
the primitives found so far. -/
structure RefineState (X : DetectionExternals) where
  detector : Primitive_Detection X
  idAllocator : Nat
  primitiveSegments : List Primitive

namespace Primitive_Detection

variable {X : DetectionExternals}

/-- Lines 512-517 of `refine_plane_boundaries`: the mask of the cells of the
planes `j >= i` merged with the plane `i`. -/
def merged_plane_mask (D : Primitive_Detection X) (planeMergeLabels : List Nat) (i : Nat) :
    Mat Nat :=
  ((List.range (D._planeSegments.length - i)).map fun k => i + k).foldl
    (fun mask j =>
      if planeMergeLabels.getD j 0 = planeMergeLabels.getD i 0 then
        mask.setTo 1 fun r c => decide (D._gridPlaneSegmentMap.data r c = ((j + 1 : Nat) : Int))
      else mask)
    (Mat.fill D._mask.rows D._mask.cols 0)

/-- Lines 560-568 of `refine_plane_boundaries`: the value of `dist` for a cloud
point and the plane parameters `nx`, `ny`, `nz`, `d` held in `float`
variables.  The cloud and `_distancesCellStacked` hold `float` values, so the
signed distance `((x * nx + y * ny) + z * nz) + d` is computed in single
precision, each operation rounded; `pow(..., 2)` gives a `double`, which is
converted to the `float` variable `dist`. -/
def plane_distance (point : vector3) (nx ny nz d : ℚ) : ℚ :=
  let distance :=
    to_float
      (to_float (to_float (to_float (point.x * nx) + to_float (point.y * ny))
          + to_float (point.z * nz))
        + d)
  to_float (to_double (distance ^ 2))

/-- Lines 566-574: the points of one cell of the boundary band are given to
the plane when they are close enough to it and closer than to the primitive
that holds them; `normal`, `d` and `maxDist` are the `float` variables `nx`,
`ny`, `nz`, `d` and `maxDist`. -/
def assign_plane_points (D : Primitive_Detection X) (depthCloudArray : Nat → vector3)
    (normal : vector3) (d maxDist : ℚ) (planeId stackedCellId : Nat)
    (stacked : (Nat → ℚ) × (Nat → Nat)) : (Nat → ℚ) × (Nat → Nat) :=
  let offset := stackedCellId * D._pointsPerCellCount
  ((List.range D._pointsPerCellCount).map fun j => offset + j).foldl
    (fun (stacked : (Nat → ℚ) × (Nat → Nat)) pt =>
      let dist := plane_distance (depthCloudArray pt) normal.x normal.y normal.z d
      if dist < maxDist ∧ dist < stacked.1 pt then
        ((fun q => if q = pt then dist else stacked.1 q),
          (fun q => if q = pt then planeId else stacked.2 q))
      else stacked)
    stacked

/-- Lines 547-577: the cells of the boundary band `maskDiff` are refined point
by point. -/
def refine_plane_cells (D : Primitive_Detection X) (depthCloudArray : Nat → vector3)
    (maskDiff : Mat Nat) (normal : vector3) (d maxDist : ℚ) (planeId : Nat)
    (stacked : (Nat → ℚ) × (Nat → Nat)) : (Nat → ℚ) × (Nat → Nat) :=
  (List.range D._verticalCellsCount).foldl
    (fun stacked cellR =>
      (List.range D._horizontalCellsCount).foldl
        (fun stacked cellC =>
          if 0 < maskDiff.data cellR cellC then
            assign_plane_points D depthCloudArray normal d maxDist planeId
              (cellR * D._horizontalCellsCount + cellC) stacked
          else stacked)
        stacked)
    stacked

/-- The body of the loop of `refine_plane_boundaries` (lines 509-577) for the
plane `i`; `none` when an assertion fails. -/
def refine_plane (depthCloudArray : Nat → vector3) (planeMergeLabels : List Nat)
    (R : RefineState X) (i : Nat) : Option (RefineState X) :=
  let D := R.detector
  if i ≠ planeMergeLabels.getD i 0 then some R
  else
    let mask := merged_plane_mask D planeMergeLabels i
    let maskEroded := mask.erode_cross
    let D := { D with _mask := mask, _maskEroded := maskEroded }
    if maskEroded.maxValue ≤ 0 then some { R with detector := D }
    else
      let maskDilated := mask.dilate_square
      let maskDiff := maskDilated.subtract maskEroded
      let D := { D with _maskDilated := maskDilated, _maskDiff := maskDiff }
      let planeIdAllocator := (R.idAllocator + 1) % 2 ^ 32
      let planeId := planeIdAllocator % 2 ^ 8
      if planeId < CYLINDER_CODE_OFFSET then
        match D._planeSegments[i]? with
        | none => none
        | some planeSegment =>
          if maskDilated.empty then none
          else
            let plane : Plane :=
              { _id := (planeId + 2 ^ 32 - 1) % 2 ^ 32
                _shapeMask := maskDilated
                _normal := X.get_normal planeSegment
                _d := X.get_plane_d planeSegment
                _mean := X.get_mean planeSegment }
            let planeNormal := X.get_normal planeSegment
            let nx := to_float planeNormal.x
            let ny := to_float planeNormal.y
            let nz := to_float planeNormal.z
            let d := to_float (X.get_plane_d planeSegment)
            let maxDist := to_float (to_double (9 * X.get_MSE planeSegment))
            let stacked := refine_plane_cells D depthCloudArray maskDiff ⟨nx, ny, nz⟩ d maxDist
              planeId (D._distancesStacked, D._segMapStacked)
            some
              { detector :=
                  { D with
                    _gridPlaneSegMapEroded :=
                      D._gridPlaneSegMapEroded.setTo planeId fun r c =>
                        decide (0 < maskEroded.data r c)
                    _distancesStacked := stacked.1
                    _segMapStacked := stacked.2 }
                idAllocator := planeIdAllocator
                primitiveSegments := R.primitiveSegments ++ [Primitive.plane plane] }
      else none

/-- The loop of `refine_plane_boundaries` over the planes of a list. -/
def refine_planes (depthCloudArray : Nat → vector3) (planeMergeLabels : List Nat) :
    List Nat → RefineState X → Option (RefineState X)
  | [], R => some R
  | i :: planes, R =>
    match refine_plane depthCloudArray planeMergeLabels R i with
    | none => none
    | some R => refine_planes depthCloudArray planeMergeLabels planes R

/-- `Primitive_Detection::refine_plane_boundaries`: the new state of the
detector and the new content of `primitiveSegments`; `none` when an assertion
fails. -/
def refine_plane_boundaries (D : Primitive_Detection X) (depthCloudArray : Nat → vector3)
    (planeMergeLabels : List Nat) (primitiveSegments : List Primitive) :
    Option (Primitive_Detection X × List Primitive) :=
  match refine_planes depthCloudArray planeMergeLabels (List.range D._planeSegments.length)
      { detector := D, idAllocator := 0, primitiveSegments := primitiveSegments } with
  | none => none
  | some R => some (R.detector, R.primitiveSegments)

/-- Lines 636-648: the points of one cell of the boundary band that have a
depth are given to the cylinder when they are close enough to its surface and
closer than to the primitive that holds them. -/
def assign_cylinder_points (D : Primitive_Detection X) (depthCloudArray : Nat → vector3)
    (P2 P1P2 : vector3) (P1P2Normal radius maxDist : ℚ) (cylinderId stackedCellId : Nat)
    (stacked : (Nat → ℚ) × (Nat → Nat)) : (Nat → ℚ) × (Nat → Nat) :=
  let offset := stackedCellId * D._pointsPerCellCount
  ((List.range D._pointsPerCellCount).map fun j => offset + j).foldl
    (fun (stacked : (Nat → ℚ) × (Nat → Nat)) pt =>
      let point := depthCloudArray pt
      if 0 < point.z then
        let dist := (X.norm (P1P2.cross (point.sub P2)) / P1P2Normal - radius) ^ 2
        if dist < maxDist ∧ dist < stacked.1 pt then
          ((fun q => if q = pt then dist else stacked.1 q),
            (fun q => if q = pt then cylinderId else stacked.2 q))
        else stacked
      else stacked)
    stacked

/-- Lines 627-651: the cells of the boundary band `maskDiff` are refined point
by point. -/
def refine_cylinder_cells (D : Primitive_Detection X) (depthCloudArray : Nat → vector3)
    (maskDiff : Mat Nat) (P2 P1P2 : vector3) (P1P2Normal radius maxDist : ℚ)
    (cylinderId : Nat) (stacked : (Nat → ℚ) × (Nat → Nat)) : (Nat → ℚ) × (Nat → Nat) :=
  (List.range D._verticalCellsCount).foldl
    (fun stacked cellR =>
      (List.range D._horizontalCellsCount).foldl
        (fun stacked cellC =>
          if 0 < maskDiff.data cellR cellC then
            assign_cylinder_points D depthCloudArray P2 P1P2 P1P2Normal radius maxDist
              cylinderId (cellR * D._horizontalCellsCount + cellC) stacked
          else stacked)
        stacked)
    stacked

/-- The constructor of `Cylinder` for a cylinder segment, an identifier and a
mask: the radius is the mean of the radii of the sub-segments. -/
def make_cylinder (cylinderSeg : X.Cylinder_Segment) (id : Nat) (shapeMask : Mat Nat) :
    Cylinder :=
  { _id := id
    _shapeMask := shapeMask
    _normal := X.cylinder_get_normal cylinderSeg
    _radius :=
      ((List.range (X.get_segment_count cylinderSeg)).foldl
          (fun radius i => radius + X.get_radius cylinderSeg i) 0)
        / (X.get_segment_count cylinderSeg : ℚ) }

/-- The body of the loop of `refine_cylinder_boundaries` (lines 589-651) for
the entry `i` of `cylinderToRegionMap`; `none` when the assertion of the
constructor of `Primitive` fails or an index is out of range. -/
def refine_cylinder (depthCloudArray : Nat → vector3) (cylinderToRegionMap : List (Nat × Nat))
    (R : RefineState X) (i : Nat) : Option (RefineState X) :=
  let D := R.detector
  let mask := (Mat.fill D._mask.rows D._mask.cols 0).setTo 1 fun r c =>
    decide (D._gridCylinderSegMap.data r c = ((i + 1 : Nat) : Int))
  let maskEroded := mask.erode_cross
  let D := { D with _mask := mask, _maskEroded := maskEroded }
  if maskEroded.maxValue ≤ 0 then some { R with detector := D }
  else
    let cylinderIdAllocator := (R.idAllocator + 1) % 2 ^ 32
    let cylinderId := cylinderIdAllocator % 2 ^ 8
    let maskDilated := mask.dilate_square
    let maskDiff := maskDilated.subtract maskEroded
    let D := { D with
      _maskDilated := maskDilated
      _maskDiff := maskDiff
      _gridCylinderSegMapEroded :=
        D._gridCylinderSegMapEroded.setTo cylinderId fun r c => decide (0 < maskEroded.data r c) }
    match cylinderToRegionMap[i]? with
    | none => none
    | some region =>
      let regId := region.1
      let subRegId := region.2
      match D._cylinderSegments[regId]? with
      | none => none
      | some cylinderSegRef =>
        if maskDilated.empty then none
        else
          let cylinder := make_cylinder cylinderSegRef ((cylinderId + 2 ^ 32 - 1) % 2 ^ 32)
            maskDilated
          let P2 := X.get_axis2_point cylinderSegRef subRegId
          let P1P2 := P2.sub (X.get_axis1_point cylinderSegRef subRegId)
          let P1P2Normal := X.get_axis_normal cylinderSegRef subRegId
          let radius := X.get_radius cylinderSegRef subRegId
          let maxDist := 9 * X.get_MSE_at cylinderSegRef subRegId
          let stacked := refine_cylinder_cells D depthCloudArray maskDiff P2 P1P2 P1P2Normal
            radius maxDist cylinderId (D._distancesStacked, D._segMapStacked)
          some
            { detector := { D with _distancesStacked := stacked.1, _segMapStacked := stacked.2 }
              idAllocator := cylinderIdAllocator
              primitiveSegments := R.primitiveSegments ++ [Primitive.cylinder cylinder] }

/-- The loop of `refine_cylinder_boundaries` over the entries of a list. -/
def refine_cylinders (depthCloudArray : Nat → vector3)
    (cylinderToRegionMap : List (Nat × Nat)) :
    List Nat → RefineState X → Option (RefineState X)
  | [], R => some R
  | i :: regions, R =>
    match refine_cylinder depthCloudArray cylinderToRegionMap R i with
    | none => none
    | some R => refine_cylinders depthCloudArray cylinderToRegionMap regions R

/-- `Primitive_Detection::refine_cylinder_boundaries`: the new state of the
detector and the new content of `primitiveSegments`. -/
def refine_cylinder_boundaries (D : Primitive_Detection X) (depthCloudArray : Nat → vector3)
    (cylinderToRegionMap : List (Nat × Nat)) (primitiveSegments : List Primitive) :
    Option (Primitive_Detection X × List Primitive) :=
  if D._useCylinderDetection = false then some (D, primitiveSegments)
  else
    match refine_cylinders depthCloudArray cylinderToRegionMap
        (List.range cylinderToRegionMap.length)
        { detector := D, idAllocator := CYLINDER_CODE_OFFSET,
          primitiveSegments := primitiveSegments } with
    | none => none
    | some R => some (R.detector, R.primitiveSegments)

/-- Lines 668-695 of `set_masked_display`: what is written in `segOut` for the
cell of row `cellR` and column `cellC`. -/
def display_cell (D : Primitive_Detection X) (cellR cellC : Nat) (segOut : Mat Nat) : Mat Nat :=
  let rOffset := cellR * D._cellHeight
  let cOffset := cellC * D._cellWidth
  let inCell : Nat → Nat → Bool := fun r c =>
    decide (rOffset ≤ r) && decide (r < rOffset + D._cellHeight)
      && decide (cOffset ≤ c) && decide (c < cOffset + D._cellWidth)
  if 0 < D._gridPlaneSegMapEroded.data cellR cellC then
    segOut.setTo (D._gridPlaneSegMapEroded.data cellR cellC) inCell
  else if 0 < D._gridCylinderSegMapEroded.data cellR cellC then
    segOut.setTo (D._gridCylinderSegMapEroded.data cellR cellC) inCell
  else
    let stackOffset :=
      D._pointsPerCellCount * cellR * D._horizontalCellsCount + D._pointsPerCellCount * cellC
    { segOut with
      data := fun r c =>
        let id := D._segMapStacked (stackOffset + (r - rOffset) * D._cellWidth + (c - cOffset))
        if inCell r c = true ∧ 0 < id then id else segOut.data r c }

/-- `Primitive_Detection::set_masked_display`. -/
def set_masked_display (D : Primitive_Detection X) (segOut : Mat Nat) : Mat Nat :=
  (List.range D._verticalCellsCount).foldl
    (fun segOut cellR =>
      (List.range D._horizontalCellsCount).foldl
        (fun segOut cellC => display_cell D cellR cellC segOut)
        segOut)
    segOut

end Primitive_Detection

end primitives

end features

end rgbd_slam

namespace rgbd_slam

namespace features

namespace primitives

/-- A plane segment for the toy detector: its parameters are given. -/
structure ToyPlaneSegment where
  planar : Bool
  normal : vector3
  mean : vector3
  d : ℚ
  MSE : ℚ
  score : ℚ

/-- A toy instance of the classes used by the detector: a plane segment keeps
its parameters when cells are merged into it, a cylinder has one sub-segment,
no inlier and the parameters zero. -/
def toyDetectionExternals : DetectionExternals where
  Plane_Segment := ToyPlaneSegment
  Cylinder_Segment := Unit
  Random := Unit
  is_planar := fun segment => segment.planar
  get_normal := fun segment => segment.normal
  get_mean := fun segment => segment.mean
  get_plane_d := fun segment => segment.d
  get_MSE := fun segment => segment.MSE
  get_score := fun segment => segment.score
  expand_segment := fun segment _ => segment
  fit_plane := fun segment => segment
  clear_plane_parameters := fun segment => segment
  fit_cylinder := fun random _ _ _ => ((), random)
  get_segment_count := fun _ => 1
  get_MSE_at := fun _ _ => 0
  is_inlier_at := fun _ _ _ => false
  get_local_to_global_mapping := fun _ c => c
  get_axis1_point := fun _ _ => ⟨0, 0, 0⟩
  get_axis2_point := fun _ _ => ⟨0, 0, 1⟩
  get_axis_normal := fun _ _ => 1
  get_radius := fun _ _ => 1
  cylinder_get_normal := fun _ => ⟨0, 0, 1⟩
  norm := fun v => |v.x| + |v.y| + |v.z|
  get_minimum_plane_seed_count := 1
  get_minimum_cell_activated := 1

/-- A cell without a plane. -/
def toyEmptyCell : ToyPlaneSegment :=
  { planar := false, normal := ⟨0, 0, 0⟩, mean := ⟨0, 0, 0⟩, d := 0, MSE := 0, score := 0 }

/-- A planar cell that faces the camera at depth 2, with the given MSE. -/
def toyPlanarCell (MSE : ℚ) : ToyPlaneSegment :=
  { planar := true, normal := ⟨0, 0, -1⟩, mean := ⟨0, 0, 2⟩, d := 2, MSE := MSE, score := 200 }

/-- A toy detector for a grid of `rows` x `cols` cells of one pixel, before any
cell is fitted: every buffer holds its initial value. -/
def toyDetector (rows cols : Nat) : Primitive_Detection toyDetectionExternals :=
  { _histogram := { pointCount := rows * cols, binCount := 1, bins := fun _ => none }
    _width := cols
    _height := rows
    _pointsPerCellCount := 1
    _minCosAngleForMerge := 9 / 10
    _maxMergeDist := 100
    _useCylinderDetection := true
    _cellWidth := 1
    _cellHeight := 1
    _horizontalCellsCount := cols
    _verticalCellsCount := rows
    _totalCellCount := rows * cols
    _activationMap := fun _ => false
    _unassignedMask := fun _ => false
    _distancesStacked := fun _ => FLT_MAX
    _segMapStacked := fun _ => 0
    _cellDistanceTols := fun _ => 0
    _gridPlaneSegmentMap := Mat.fill rows cols 0
    _gridPlaneSegMapEroded := Mat.fill rows cols 0
    _gridCylinderSegMap := Mat.fill rows cols 0
    _gridCylinderSegMapEroded := Mat.fill rows cols 0
    _mask := Mat.fill rows cols 0
    _maskEroded := Mat.fill rows cols 0
    _maskDilated := Mat.fill rows cols 0
    _maskDiff := Mat.fill rows cols 0
    _planeGrid := fun _ => toyEmptyCell
    _planeSegments := []
    _cylinderSegments := []
    random := () }

/-- The state in which `grow_planes_and_cylinders` is entered for a row of two
cells, the first without a plane and the second planar with an MSE of
`2 ^ 31`: one planar cell remains, owned by the only bin of the histogram. -/
def toyGrowStuck : GrowState toyDetectionExternals :=
  { detector :=
      { toyDetector 1 2 with
        _histogram :=
          { pointCount := 2, binCount := 1, bins := fun i => if i = 1 then some 0 else none }
        _unassignedMask := fun i => decide (i = 1)
        _cellDistanceTols := fun i => if i = 1 then 400 else 0
        _planeGrid := fun i => if i = 1 then toyPlanarCell 2147483648 else toyEmptyCell }
    remainingPlanarCells := 1
    cylinderCount := 0
    cylinder2regionMap := [] }

/-- The state in which `refine_cylinder_boundaries` is entered for a row of 621
cells covered by 207 cylinder regions of three cells each: the region `k` holds
the cells `3 k`, `3 k + 1` and `3 k + 2`. -/
def toyManyCylinders : Primitive_Detection toyDetectionExternals :=
  { toyDetector 1 621 with
    _gridCylinderSegMap :=
      { rows := 1
        cols := 621
        data := fun r c => if r = 0 ∧ c < 621 then ((c / 3 + 1 : Nat) : Int) else 0 }
    _cylinderSegments := [()] }

/-- The map from the 207 cylinder regions of `toyManyCylinders` to the
sub-segments of its cylinder. -/
def toyCylinderToRegionMap : List (Nat × Nat) := (List.range 207).map fun k => (0, k)

/-- A cloud without depth: every point is the origin. -/
def toyCloud : Nat → vector3 := fun _ => ⟨0, 0, 0⟩

end primitives

end features

end rgbd_slam

namespace rgbd_slam

namespace features

namespace primitives

/-- Modelled from the spec: two cells of a grid of `cellCols` columns, given by
their stacked indices, are horizontal or vertical neighbours. -/
def grid_neighbours (cellCols i j : Nat) : Prop :=
  (i / cellCols = j / cellCols ∧ (i % cellCols + 1 = j % cellCols ∨ j % cellCols + 1 = i % cellCols))
    ∨ (i % cellCols = j % cellCols
      ∧ (i / cellCols + 1 = j / cellCols ∨ j / cellCols + 1 = i / cellCols))

/-- Modelled from the spec: the cell `i` is joined to the cell `seed` by a chain
of activated cells in which consecutive cells are neighbours in the grid. -/
def joined_by_activated_cells (cellCols : Nat) (activationMap : Nat → Bool) (seed i : Nat) :
    Prop :=
  Relation.ReflTransGen
    (fun a b => activationMap a = true ∧ activationMap b = true ∧ grid_neighbours cellCols a b)
    seed i

/-- A planar cell through the origin with the given normal. -/
def toyTiltedCell (normal : vector3) : ToyPlaneSegment :=
  { planar := true, normal := normal, mean := ⟨0, 0, 0⟩, d := 0, MSE := 0, score := 200 }

/-- A detector for a row of three planar cells through the origin, all
unassigned, whose normals turn by the same angle from one cell to the next:
the cosine of the angle between neighbours is `12 / 13`, above the threshold
`9 / 10`, and the cosine between the first and the last cell is `119 / 169`,
below it. -/
def toyBentRow : Primitive_Detection toyDetectionExternals :=
  { toyDetector 1 3 with
    _unassignedMask := fun i => decide (i < 3)
    _cellDistanceTols := fun _ => 400
    _planeGrid := fun i =>
      if i = 0 then toyTiltedCell ⟨1, 0, 0⟩
      else if i = 1 then toyTiltedCell ⟨12 / 13, 5 / 13, 0⟩
      else toyTiltedCell ⟨119 / 169, 120 / 169, 0⟩ }

/-- A detector for an image of 4 x 4 pixels cut in 2 x 2 cells of 2 x 2 pixels:
the cells 1 (end of the first row) and 2 (start of the second row) are planar
and unassigned, on the same plane; the cells 0 and 3 have no plane. -/
def toyWrappedGrid : Primitive_Detection toyDetectionExternals :=
  { toyDetector 2 2 with
    _width := 4
    _height := 4
    _pointsPerCellCount := 4
    _cellWidth := 2
    _cellHeight := 2
    _unassignedMask := fun i => decide (i = 1 ∨ i = 2)
    _cellDistanceTols := fun _ => 400
    _planeGrid := fun i => if i = 1 ∨ i = 2 then toyPlanarCell 1 else toyEmptyCell }

end primitives

end features

end rgbd_slam

namespace rgbd_slam

namespace features

namespace primitives

namespace Primitive_Detection

variable {X : DetectionExternals}

/-- The index `x + _horizontalCellsCount * y` of the cell that the call
`region_growing(x, y, ...)` looks at. -/
def cell_index (D : Primitive_Detection X) (x y : Nat) : Nat :=
  (x + D._horizontalCellsCount * y) % 2 ^ 32

/-- Lines 762-769 of `region_growing`: the call with the coordinates
`(x1, y1)` is one of the four recursive calls that the call with the
coordinates `(x, y)` makes once it has activated its cell. -/
def recursive_call_of (D : Primitive_Detection X) (x y x1 y1 : Nat) : Prop :=
  (0 < x ∧ x1 = x - 1 ∧ y1 = y)
    ∨ (x < (D._width + 2 ^ 32 - 1) % 2 ^ 32 ∧ x1 = (x + 1) % 2 ^ 16 ∧ y1 = y)
    ∨ (0 < y ∧ x1 = x ∧ y1 = y - 1)
    ∨ (y < (D._height + 2 ^ 32 - 1) % 2 ^ 32 ∧ x1 = x ∧ y1 = (y + 1) % 2 ^ 16)

/-- The cell `i` was reached from the cell `j`: `j` is activated and is not
`i`, a call of `region_growing` that looks at `j` makes a recursive call that
looks at `i`, and `i` passes the two tests of `region_growing` against the
plane of `j`. -/
def reached_from (D : Primitive_Detection X) (activationMap : Nat → Bool) (j i : Nat) : Prop :=
  activationMap j = true ∧ j ≠ i
    ∧ (∃ x y x1 y1, recursive_call_of D x y x1 y1 ∧ cell_index D x y = j
        ∧ cell_index D x1 y1 = i)
    ∧ D._minCosAngleForMerge
        ≤ (X.get_normal (D._planeGrid j)).dot (X.get_normal (D._planeGrid i))
    ∧ ((X.get_normal (D._planeGrid j)).dot (X.get_mean (D._planeGrid i))
          + X.get_plane_d (D._planeGrid j)) ^ 2
        ≤ D._cellDistanceTols i

/-- Lines 711-724 of `get_connected_components`: the pixel of row `r` and
column `c` is compared with its right and lower neighbours. -/
def connect_pixel (segmentMap : Mat Int) (r c : Nat) (planesAssociationMatrix : Mat Bool) :
    Mat Bool :=
  let pixelValue := segmentMap.data r c
  if 0 < pixelValue then
    let right := segmentMap.data r (c + 1)
    let planesAssociationMatrix :=
      if 0 < right ∧ pixelValue ≠ right then
        (planesAssociationMatrix.set (pixelValue - 1).toNat (right - 1).toNat true).set
          (right - 1).toNat (pixelValue - 1).toNat true
      else planesAssociationMatrix
    let below := segmentMap.data (r + 1) c
    if 0 < below ∧ pixelValue ≠ below then
      (planesAssociationMatrix.set (pixelValue - 1).toNat (below - 1).toNat true).set
        (below - 1).toNat (pixelValue - 1).toNat true
    else planesAssociationMatrix
  else planesAssociationMatrix

/-- `Primitive_Detection::get_connected_components`: the new content of
`planesAssociationMatrix`; the two scan counts are `uint` values. -/
def get_connected_components (segmentMap : Mat Int) (planesAssociationMatrix : Mat Bool) :
    Mat Bool :=
  let rows2scanCount := (segmentMap.rows + 2 ^ 32 - 1) % 2 ^ 32
  let cols2scanCount := (segmentMap.cols + 2 ^ 32 - 1) % 2 ^ 32
  (List.range rows2scanCount).foldl
    (fun planesAssociationMatrix r =>
      (List.range cols2scanCount).foldl
        (fun planesAssociationMatrix c => connect_pixel segmentMap r c planesAssociationMatrix)
        planesAssociationMatrix)
    planesAssociationMatrix

/-- The local variables of `merge_planes` that live across the iterations of
its loops, with the plane segments of the detector. -/
structure MergeState (X : DetectionExternals) where
  planeSegments : List X.Plane_Segment
  planeMergeLabels : List Nat
  planesAssocMat : Mat Bool

/-- Lines 473-495 of `merge_planes`: the body of the inner loop for the plane
`c`, with the flag `planeWasExpanded`; `testPlane` is a reference to the
segment `planeId`, read again at each iteration; `none` when an index is out
of range. -/
def merge_candidate (D : Primitive_Detection X) (r planeId c : Nat)
    (state : MergeState X × Bool) : Option (MergeState X × Bool) :=
  let S := state.1
  if S.planesAssocMat.data r c then
    match S.planeSegments[planeId]?, S.planeSegments[c]? with
    | some testPlane, some mergePlane =>
      let testPlaneNormal := X.get_normal testPlane
      let mergePlaneNormal := X.get_normal mergePlane
      let cosAngle := testPlaneNormal.dot mergePlaneNormal
      let mergePlaneMean := X.get_mean mergePlane
      let distance := (testPlaneNormal.dot mergePlaneMean + X.get_plane_d testPlane) ^ 2
      if D._minCosAngleForMerge < cosAngle ∧ distance < D._maxMergeDist then
        some
          ({ S with
              planeSegments := S.planeSegments.set planeId (X.expand_segment testPlane mergePlane)
              planeMergeLabels := S.planeMergeLabels.set c planeId },
            true)
      else some ({ S with planesAssocMat := S.planesAssocMat.set r c false }, state.2)
    | _, _ => none
  else some state

/-- The inner loop of `merge_planes` over the planes of a list. -/
def merge_candidates (D : Primitive_Detection X) (r planeId : Nat) :
    List Nat → MergeState X × Bool → Option (MergeState X × Bool)
  | [], state => some state
  | c :: candidates, state =>
    (merge_candidate D r planeId c state).bind (merge_candidates D r planeId candidates)

/-- Lines 464-498 of `merge_planes`: the body of the outer loop for the row
`r`; `none` when an index is out of range. -/
def merge_row (D : Primitive_Detection X) (r : Nat) (S : MergeState X) :
    Option (MergeState X) :=
  match S.planeMergeLabels[r]? with
  | none => none
  | some planeId =>
    match S.planeSegments[planeId]? with
    | none => none
    | some _ =>
      (merge_candidates D r planeId
          ((List.range (S.planesAssocMat.cols - (r + 1))).map fun k => r + 1 + k)
          (S, false)).bind fun state =>
        if state.2 then
          match state.1.planeSegments[planeId]? with
          | none => none
          | some testPlane =>
            some { state.1 with
              planeSegments := state.1.planeSegments.set planeId (X.fit_plane testPlane) }
        else some state.1

/-- The outer loop of `merge_planes` over the rows of a list. -/
def merge_rows (D : Primitive_Detection X) : List Nat → MergeState X → Option (MergeState X)
  | [], S => some S
  | r :: rows, S => (merge_row D r S).bind (merge_rows D rows)

/-- `Primitive_Detection::merge_planes`: the new state of the detector and
the new content of `planeMergeLabels`; `none` when an index is out of
range. -/
def merge_planes (D : Primitive_Detection X) (planeMergeLabels : List Nat) :
    Option (Primitive_Detection X × List Nat) :=
  let planeCount := D._planeSegments.length
  let planesAssocMat :=
    get_connected_components D._gridPlaneSegmentMap (Mat.fill planeCount planeCount false)
  let planeMergeLabels := planeMergeLabels ++ List.range planeCount
  (merge_rows D (List.range planesAssocMat.rows)
      { planeSegments := D._planeSegments
        planeMergeLabels := planeMergeLabels
        planesAssocMat := planesAssocMat }).map fun S =>
    ({ D with _planeSegments := S.planeSegments }, S.planeMergeLabels)

/-- A grid of 2 x 2 cells: the plane 2 holds the last cell, next to cells of
the plane 1 in the last row and in the last column. -/
def toyCornerGrid : Mat Int :=
  { rows := 2, cols := 2, data := fun r c => if r = 1 ∧ c = 1 then 2 else 1 }

end Primitive_Detection

end primitives

end features

end rgbd_slam

namespace rgbd_slam

namespace features

namespace primitives

namespace Mat

/-- Modelled from the spec: the number of pixels set in both masks. -/
def count_set_in_both (a b : Mat Nat) : Nat :=
  ((List.range a.rows).map fun r =>
    ((List.range a.cols).filter fun c => decide (a.data r c ≠ 0 ∧ b.data r c ≠ 0)).length).sum

/-- Modelled from the spec: the number of pixels set in either mask. -/
def count_set_in_either (a b : Mat Nat) : Nat :=
  ((List.range a.rows).map fun r =>
    ((List.range a.cols).filter fun c => decide (a.data r c ≠ 0 ∨ b.data r c ≠ 0)).length).sum

/-- A mask holds only the values 0 and 1, as the masks built by the detector
do. -/
def is_binary (a : Mat Nat) : Prop := ∀ r c, a.data r c = 0 ∨ a.data r c = 1

end Mat

/-- A mask of one pixel with the value `value`. -/
def toyMaskPixel (value : Nat) : Mat Nat := { rows := 1, cols := 1, data := fun _ _ => value }

/-- A plane facing the camera whose mask is one pixel with the value `value`. -/
def toyPixelPlane (value : Nat) : Plane :=
  { _id := 0, _shapeMask := toyMaskPixel value, _normal := ⟨0, 0, -1⟩, _d := 2,
    _mean := ⟨0, 0, 2⟩ }

/-- A value of the type `double`: a real number, an infinity or a NaN; the
rounding and the sign of zero are left out. -/
inductive Double where
  | finite (value : ℝ)
  | infinity (negative : Bool)
  | nan

namespace Double

/-- The quotient `1 / x` of the type `double`, for a finite `x` that is not a
negative zero: dividing by zero gives the positive infinity. -/
noncomputable def one_div (x : ℝ) : Double :=
  if x = 0 then infinity false else finite (1 / x)

/-- The product of a finite value and a `double`: zero times an infinity is a
NaN. -/
noncomputable def mul_finite (x : ℝ) : Double → Double
  | finite value => finite (x * value)
  | infinity negative => if x = 0 then nan else infinity (xor negative (decide (x < 0)))
  | nan => nan

/-- The function `acos` of the C library on a finite value. -/
noncomputable def acos (x : ℝ) : Double :=
  if -1 ≤ x ∧ x ≤ 1 then finite (Real.arccos x) else nan

/-- The function `atan2(y, x)` of the C library: a NaN argument gives a NaN. -/
noncomputable def atan2 : Double → Double → Double
  | nan, _ => nan
  | _, nan => nan
  | finite y, finite x => finite (pose_optimization.atan2 y x)
  | finite _, infinity false => finite 0
  | finite y, infinity true => finite (if y < 0 then -Real.pi else Real.pi)
  | infinity negative, finite _ =>
    finite (if negative then -(Real.pi / 2) else Real.pi / 2)
  | infinity negative, infinity false =>
    finite (if negative then -(Real.pi / 4) else Real.pi / 4)
  | infinity negative, infinity true =>
    finite (if negative then -(3 * Real.pi / 4) else 3 * Real.pi / 4)

end Double

namespace Primitive_Detection

variable {X : DetectionExternals}

/-- Lines 293-299 of `init_histogram`: the two angles stored in `histBins` for
a planar cell of normal `planeNormal`. -/
noncomputable def histogram_angles (planeNormal : vector3) : Double × Double :=
  let nx : ℝ := planeNormal.x
  let ny : ℝ := planeNormal.y
  let projNormal := Double.one_div (Real.sqrt (nx * nx + ny * ny))
  (Double.acos (-(planeNormal.z : ℝ)),
    Double.atan2 (Double.mul_finite nx projNormal) (Double.mul_finite ny projNormal))

/-- The loop of `init_histogram` (lines 291-303): the rows of `histBins` that
are written, the new `_unassignedMask` and the count of planar cells, a
`uint`. -/
noncomputable def init_histogram_loop (D : Primitive_Detection X) :
    (Nat → Option (Double × Double)) × (Nat → Bool) × Nat :=
  (List.range D._totalCellCount).foldl
    (fun (state : (Nat → Option (Double × Double)) × (Nat → Bool) × Nat) cellId =>
      if X.is_planar (D._planeGrid cellId) then
        ((fun i =>
            if i = cellId then some (histogram_angles (X.get_normal (D._planeGrid cellId)))
            else state.1 i),
          (fun i => if i = cellId then true else state.2.1 i),
          (state.2.2 + 1) % 2 ^ 32)
      else state)
    (fun _ => none, D._unassignedMask, 0)

/-- Lines 274-277: the value of `(block(last) - block(first)).norm()` for two
rows of the cloud, a `MatrixXf`: Eigen computes the three differences, their
squares, the sum `(dx * dx + dy * dy) + dz * dz` and the square root in single
precision, each operation rounded to the nearest `float`. -/
noncomputable def block_difference_norm (last first : vector3) : ℝ :=
  let dx := to_float (((last.x - first.x : ℚ) : ℝ))
  let dy := to_float (((last.y - first.y : ℚ) : ℝ))
  let dz := to_float (((last.z - first.z : ℚ) : ℝ))
  to_float
    (Real.sqrt
      (to_float (to_float (to_float (dx * dx) + to_float (dy * dy)) + to_float (dz * dz))))

/-- The conversion to `uint` of the norm of `last - first` (line 274): the
`float` norm is truncated; `none` when it is not below `2 ^ 32`, where the
conversion is undefined. -/
noncomputable def cell_diameter (last first : vector3) : Option Nat :=
  let norm := block_difference_norm last first
  if norm < 2 ^ 32 then some ⌊norm⌋₊ else none

/-- The function `std::clamp(v, lo, hi)`. -/
noncomputable def clamp (v lo hi : ℝ) : ℝ :=
  if v < lo then lo else if hi < v then hi else v

/-- Line 265: the `float` variable `sinCosAngleForMerge`.  The function `pow`
with an exponent of type `int` and the function `sqrt` of its result work in
double precision, and the result is converted to `float`. -/
noncomputable def sin_cos_angle_for_merge (D : Primitive_Detection X) : ℝ :=
  to_float
    (to_double (Real.sqrt (to_double (1 - to_double ((D._minCosAngleForMerge : ℝ) ^ 2)))))

/-- Line 280: the value stored in `_cellDistanceTols` for a cell of diameter
`cellDiameter`.  The `uint` diameter is converted to `float` and multiplied in
single precision, `std::clamp` works on `float` values, and `pow` gives a
`double`; `store` is the conversion of a `double` to the type of the elements
of `_cellDistanceTols`, which is declared in a header that is not in the
sources at hand (`to_float` for a vector of `float`). -/
noncomputable def cell_tolerance (D : Primitive_Detection X) (store : ℝ → ℝ)
    (cellDiameter : Nat) : ℝ :=
  store
    (to_double
      (clamp (to_float (to_float (cellDiameter : ℝ) * sin_cos_angle_for_merge D)) 20
          (D._maxMergeDist : ℝ) ^ 2))

/-- `Primitive_Detection::init_planar_cell_fitting`, with the member function
`init_plane_segment` of the cells and the conversion `store` to the type of
the elements of `_cellDistanceTols` as parameters: the new plane grid and the
new `_cellDistanceTols`; `none` when a conversion to `uint` is undefined. -/
noncomputable def init_planar_cell_fitting (D : Primitive_Detection X)
    (init_plane_segment : X.Plane_Segment → (Nat → vector3) → Nat → X.Plane_Segment)
    (store : ℝ → ℝ) (depthCloudArray : Nat → vector3) (cellDistanceTols : Nat → ℝ) :
    Option ((Nat → X.Plane_Segment) × (Nat → ℝ)) :=
  (List.range D._totalCellCount).foldl
    (fun (state : Option ((Nat → X.Plane_Segment) × (Nat → ℝ))) stackedCellId =>
      state.bind fun state =>
        let segment := init_plane_segment (state.1 stackedCellId) depthCloudArray stackedCellId
        let planeGrid := fun i => if i = stackedCellId then segment else state.1 i
        if X.is_planar segment then
          (cell_diameter
              (depthCloudArray
                (stackedCellId * D._pointsPerCellCount + D._pointsPerCellCount - 1))
              (depthCloudArray (stackedCellId * D._pointsPerCellCount))).map
            fun (cellDiameter : Nat) =>
              (planeGrid, fun i =>
                if i = stackedCellId then cell_tolerance D store cellDiameter
                else state.2 i)
        else some (planeGrid, state.2))
    (some (D._planeGrid, cellDistanceTols))

/-- The invariant of the labels of `merge_planes` while the row `r` is
processed: there are `n` labels, a label is at most its index, is its own
label, and is at most `r` when it differs from its index. -/
def labels_ok (n r : Nat) (labels : List Nat) : Prop :=
  labels.length = n
    ∧ ∀ k, k < n →
        labels.getD k 0 ≤ k
          ∧ labels.getD (labels.getD k 0) 0 = labels.getD k 0
          ∧ (labels.getD k 0 ≠ k → labels.getD k 0 ≤ r)

/-- The plane `i` is processed by `refine_plane_boundaries`: it is the
representative of its merged planes and its mask is not completely eroded. -/
def plane_survives (D : Primitive_Detection X) (planeMergeLabels : List Nat) (i : Nat) : Bool :=
  decide (i = planeMergeLabels.getD i 0)
    && decide (0 < (merged_plane_mask D planeMergeLabels i).erode_cross.maxValue)

/-- The boundary band `_maskDiff` of the plane `i`. -/
def plane_band (D : Primitive_Detection X) (planeMergeLabels : List Nat) (i : Nat) : Mat Nat :=
  (merged_plane_mask D planeMergeLabels i).dilate_square.subtract
    (merged_plane_mask D planeMergeLabels i).erode_cross

/-- Modelled from the spec: the boundary band covers the cell of the cloud
point `pt`. -/
def in_boundary_band (D : Primitive_Detection X) (band : Mat Nat) (pt : Nat) : Bool :=
  (List.range D._verticalCellsCount).any fun cellR =>
    (List.range D._horizontalCellsCount).any fun cellC =>
      decide (0 < band.data cellR cellC)
        && (List.range D._pointsPerCellCount).any fun j =>
          decide (pt = (cellR * D._horizontalCellsCount + cellC) * D._pointsPerCellCount + j)

/-- What a surviving plane is for a cloud point: the squared distance of the
point to the plane, the identifier of the plane, and whether the plane
qualifies at the point. -/
structure PlaneEvent where
  dist : ℚ
  id : Nat
  qualifies : Bool

/-- Modelled from the spec: the squared distance `(n.p + d)^2` of a point to a
plane segment, as an exact number. -/
def exact_distance (planeSegment : X.Plane_Segment) (point : vector3) : ℚ :=
  (point.x * (X.get_normal planeSegment).x + point.y * (X.get_normal planeSegment).y
    + point.z * (X.get_normal planeSegment).z + X.get_plane_d planeSegment) ^ 2

/-- Modelled from the spec: the bound `9 * MSE` of a plane segment, as an exact
number. -/
def exact_max_distance (planeSegment : X.Plane_Segment) : ℚ := 9 * X.get_MSE planeSegment

/-- Lines 536-541 and 560-568: the squared distance of a point to a plane
segment as `refine_plane_boundaries` computes it: the coefficients of the
normal and the offset `d`, which are `double` values, are converted to
`float`, and the distance is computed in single precision. -/
def float_distance (planeSegment : X.Plane_Segment) (point : vector3) : ℚ :=
  plane_distance point (to_float (X.get_normal planeSegment).x)
    (to_float (X.get_normal planeSegment).y) (to_float (X.get_normal planeSegment).z)
    (to_float (X.get_plane_d planeSegment))

/-- Line 542: the `float` variable `maxDist`: the product of 9 and of the MSE,
a `double`, is computed in double precision and converted to `float`. -/
def float_max_distance (planeSegment : X.Plane_Segment) : ℚ :=
  to_float (to_double (9 * X.get_MSE planeSegment))

/-- Modelled from the spec: the surviving planes among those of a list, in
processing order, as they are for the cloud point `pt`, for a given way to
compute the squared distance of a point to a plane and the bound on it; the
plane after `count` surviving planes has the identifier `count + 1`, and it
qualifies when its boundary band covers the cell of the point and the squared
distance is below the bound. -/
def plane_events (D : Primitive_Detection X) (distance : X.Plane_Segment → vector3 → ℚ)
    (maxDistance : X.Plane_Segment → ℚ) (depthCloudArray : Nat → vector3)
    (planeMergeLabels : List Nat) (pt : Nat) : List Nat → Nat → List PlaneEvent
  | [], _ => []
  | i :: planes, count =>
    if plane_survives D planeMergeLabels i then
      match D._planeSegments[i]? with
      | none =>
        plane_events D distance maxDistance depthCloudArray planeMergeLabels pt planes count
      | some planeSegment =>
        { dist := distance planeSegment (depthCloudArray pt)
          id := count + 1
          qualifies :=
            in_boundary_band D (plane_band D planeMergeLabels i) pt
              && decide (distance planeSegment (depthCloudArray pt) < maxDistance planeSegment) }
          :: plane_events D distance maxDistance depthCloudArray planeMergeLabels pt planes
              (count + 1)
    else plane_events D distance maxDistance depthCloudArray planeMergeLabels pt planes count

/-- Modelled from the spec: the minimum of the sentinel and of the squared
distances of the planes that qualify. -/
def spec_distance (events : List PlaneEvent) (sentinel : ℚ) : ℚ :=
  ((events.filter fun e => e.qualifies).map fun e => e.dist).foldl min sentinel

/-- The identifier of the first plane that qualifies with the squared distance
`m`, or 0 when there is none. -/
def first_id (events : List PlaneEvent) (m : ℚ) : Nat :=
  ((events.find? fun e => e.qualifies && decide (e.dist = m)).map fun e => e.id).getD 0

/-- Modelled from the spec: the identifier of the first plane in processing
order that attains the minimum, when the minimum is below the sentinel, and 0
otherwise: no plane qualifies with a squared distance below the sentinel. -/
def spec_label (events : List PlaneEvent) (sentinel : ℚ) : Nat :=
  if spec_distance events sentinel < sentinel then
    first_id events (spec_distance events sentinel)
  else 0

/-- A transformation `F` of the two stacked arrays is, at the cloud point
`pt`, the conditional assignment of lines 569-573 under a guard: it stores
`dist` and `id` when the guard holds and `dist` is below `maxDist` and below
the stored distance, and leaves the two entries as they are otherwise. -/
def overwrites_at (pt : Nat) (dist maxDist : ℚ) (id : Nat) (guard : Prop)
    (F : (Nat → ℚ) × (Nat → Nat) → (Nat → ℚ) × (Nat → Nat)) : Prop :=
  ∀ stacked : (Nat → ℚ) × (Nat → Nat),
    ((guard ∧ dist < maxDist ∧ dist < stacked.1 pt)
        ∧ (F stacked).1 pt = dist ∧ (F stacked).2 pt = id)
      ∨ (¬ (guard ∧ dist < maxDist ∧ dist < stacked.1 pt)
        ∧ (F stacked).1 pt = stacked.1 pt ∧ (F stacked).2 pt = stacked.2 pt)

/-- A detector with one planar cell that faces the camera: its normal is
`(0, 0, -1)`. -/
def toyFacingCell : Primitive_Detection toyDetectionExternals :=
  { toyDetector 1 1 with _planeGrid := fun _ => toyPlanarCell 1 }

/-- A detector with one planar cell of four points, the threshold 0 on the
cosine and the maximal merge distance 100. -/
def toyWideCell : Primitive_Detection toyDetectionExternals :=
  { toyDetector 1 1 with
    _pointsPerCellCount := 4
    _minCosAngleForMerge := 0
    _maxMergeDist := 100
    _planeGrid := fun _ => toyPlanarCell 1 }

/-- A cloud whose point 3 is at `(101 / 2, 0, 0)`, the others at the origin: the
first and the last point of the cell 0 of `toyWideCell` are `50.5` apart. -/
def toyWideCloud : Nat → vector3 :=
  fun pt => if pt = 3 then ⟨101 / 2, 0, 0⟩ else ⟨0, 0, 0⟩

/-- A cloud whose point 3 is at `(33 - 2 ^ -18, 56, 0)`, the others at the
origin: the first and the last point of the cell 0 of `toyWideCell` are less
than 65 apart, and their distance computed in single precision is 65. -/
def toyRoundedCloud : Nat → vector3 :=
  fun pt => if pt = 3 then ⟨33 - 1 / 262144, 56, 0⟩ else ⟨0, 0, 0⟩

/-- A detector with two plane segments, for a row of two cells that hold the
planes 1 and 2. -/
def toyTwoPlanes : Primitive_Detection toyDetectionExternals :=
  { toyDetector 1 2 with
    _planeSegments := [toyPlanarCell 1, toyPlanarCell 1]
    _gridPlaneSegmentMap :=
      { rows := 1, cols := 2, data := fun _ c => if c = 0 then 1 else 2 } }

end Primitive_Detection

end primitives

end features

end rgbd_slam

namespace rgbd_slam

namespace features

namespace primitives

namespace Primitive_Detection

variable {X : DetectionExternals}

/-- The stored distance and label of a cloud point after the conditional
assignments of the planes of a list, in order. -/
def apply_events (events : List PlaneEvent) (stored : ℚ × Nat) : ℚ × Nat :=
  events.foldl
    (fun stored e =>
      if e.qualifies = true ∧ e.dist < stored.1 then (e.dist, e.id) else stored)
    stored

/-- Two states of the detector have the same cell grid, plane segments and
grid map of planes, and masks of the same size: what the loop of
`refine_plane_boundaries` reads and does not write. -/
def same_grid (D D1 : Primitive_Detection X) : Prop :=
  D1._gridPlaneSegmentMap = D._gridPlaneSegmentMap
    ∧ D1._planeSegments = D._planeSegments
    ∧ D1._mask.rows = D._mask.rows
    ∧ D1._mask.cols = D._mask.cols
    ∧ D1._verticalCellsCount = D._verticalCellsCount
    ∧ D1._horizontalCellsCount = D._horizontalCellsCount
    ∧ D1._pointsPerCellCount = D._pointsPerCellCount

/-- A plane segment of the toy detector for the plane `z + d = 0`, with the MSE
1. -/
def toyLevelPlane (d : ℚ) : ToyPlaneSegment :=
  { planar := true, normal := ⟨0, 0, 1⟩, mean := ⟨0, 0, -d⟩, d := d, MSE := 1, score := 200 }

/-- A detector for a row of five cells of one point, after `reset_data`: the
first three cells hold the plane 1, the plane `z = 0`, so that the boundary
band of the plane is made of the cells 2 and 3. -/
def toyOnePlane : Primitive_Detection toyDetectionExternals :=
  { toyDetector 1 5 with
    _planeSegments := [toyLevelPlane 0]
    _gridPlaneSegmentMap := { rows := 1, cols := 5, data := fun _ c => if c < 3 then 1 else 0 } }

/-- A cloud whose point 2 is at the height 1 above the plane `z = 0`, the
others at the height 5. -/
def toyHeights : Nat → vector3 :=
  fun pt => if pt = 2 then ⟨0, 0, 1⟩ else ⟨0, 0, 5⟩

/-- A detector for a row of five cells of one point, after `reset_data`: the
first two cells hold the plane 1, the plane `z = 1`, and the last two the plane
2, the plane `z = 1 + 2 ^ -30`; the boundary bands of the two planes both cover
the cell 2. -/
def toyCloseLevels : Primitive_Detection toyDetectionExternals :=
  { toyDetector 1 5 with
    _planeSegments := [toyLevelPlane (-1), toyLevelPlane (-1 - 1 / 1073741824)]
    _gridPlaneSegmentMap :=
      { rows := 1, cols := 5, data := fun _ c => if c < 2 then 1 else if c = 2 then 0 else 2 } }

/-- A cloud whose points are all at the height 3. -/
def toyLevelCloud : Nat → vector3 := fun _ => ⟨0, 0, 3⟩

end Primitive_Detection

end primitives

end features

end rgbd_slam

/-! ## Single-precision rounding: lemmas -/

namespace poseEstimation

/-- With enough fuel, `excess_bits` leaves a 24-bit quotient, which has its top
bit set as soon as bits are dropped. -/
lemma excess_bits_spec (fuel : Nat) :
    ∀ n : Nat, n < 2 ^ (24 + fuel) →
      n / 2 ^ excess_bits fuel n < 2 ^ 24 ∧
        (0 < excess_bits fuel n → 2 ^ 23 ≤ n / 2 ^ excess_bits fuel n) := by
  induction fuel with
  | zero => intro n hn; simpa [excess_bits] using hn
  | succ fuel ih =>
    intro n hn
    by_cases hsmall : n < 2 ^ 24
    · have he : excess_bits (fuel + 1) n = 0 := by simp only [excess_bits, hsmall, if_true]
      rw [he]
      simpa using hsmall
    · have hhalf : n / 2 < 2 ^ (24 + fuel) := by
        have : 2 ^ (24 + (fuel + 1)) = 2 * 2 ^ (24 + fuel) := by ring
        omega
      obtain ⟨h1, h2⟩ := ih (n / 2) hhalf
      have he : excess_bits (fuel + 1) n = excess_bits fuel (n / 2) + 1 := by
        simp only [excess_bits, hsmall, if_false]
      have hdiv : n / 2 ^ (excess_bits fuel (n / 2) + 1)
          = n / 2 / 2 ^ excess_bits fuel (n / 2) := by
        rw [pow_succ, Nat.mul_comm, Nat.div_div_eq_div_mul]
      rw [he, hdiv]
      refine ⟨h1, fun _ => ?_⟩
      by_cases h0 : 0 < excess_bits fuel (n / 2)
      · exact h2 h0
      · have hz : excess_bits fuel (n / 2) = 0 := by omega
        rw [hz]
        norm_num at hsmall ⊢
        omega

/-- The specification of `excess_bits` at the fuel used by `round24`. -/
lemma excess_bits_self (n : Nat) :
    n / 2 ^ excess_bits n n < 2 ^ 24 ∧
      (0 < excess_bits n n → 2 ^ 23 ≤ n / 2 ^ excess_bits n n) := by
  apply excess_bits_spec
  calc n < 2 ^ n := Nat.lt_two_pow n
    _ ≤ 2 ^ (24 + n) := Nat.pow_le_pow_right (by norm_num) (by omega)

/-- A number that fits in 24 bits has no excess bits. -/
lemma excess_bits_of_lt (fuel n : Nat) (h : n < 2 ^ 24) : excess_bits fuel n = 0 := by
  cases fuel with
  | zero => rfl
  | succ fuel => simp only [excess_bits, h, if_true]

/-- Rounding does not change a number that fits in 24 bits. -/
lemma round24_of_lt (n : Nat) (h : n < 2 ^ 24) : round24 n = n := by
  simp [round24, excess_bits_of_lt n n h, Nat.mod_one]

/-- The rounded value lies within half a unit in the last place `2 ^ s` of the
argument, it is at least the argument truncated to a multiple of that unit, and
when bits are dropped the unit is at most `n / 2 ^ 23`. -/
lemma round24_bounds (n : Nat) :
    (excess_bits n n = 0 ∨ 2 ^ excess_bits n n * 2 ^ 23 ≤ n) ∧
      2 * round24 n ≤ 2 * n + 2 ^ excess_bits n n ∧
      2 * n ≤ 2 * round24 n + 2 ^ excess_bits n n ∧
      n / 2 ^ excess_bits n n * 2 ^ excess_bits n n ≤ round24 n ∧
      (excess_bits n n = 0 → round24 n = n) := by
  obtain ⟨_, h2⟩ := excess_bits_self n
  have hdm := Nat.div_add_mod n (2 ^ excess_bits n n)
  have hr : n % 2 ^ excess_bits n n < 2 ^ excess_bits n n := Nat.mod_lt _ (by positivity)
  have hround :
      (round24 n = n / 2 ^ excess_bits n n * 2 ^ excess_bits n n
          ∧ 2 * (n % 2 ^ excess_bits n n) ≤ 2 ^ excess_bits n n)
      ∨ (round24 n = n / 2 ^ excess_bits n n * 2 ^ excess_bits n n + 2 ^ excess_bits n n
          ∧ 2 ^ excess_bits n n ≤ 2 * (n % 2 ^ excess_bits n n)) := by
    simp only [round24]
    split_ifs with hc
    · right
      refine ⟨by ring, ?_⟩
      rcases hc with hc | hc <;> omega
    · left
      exact ⟨rfl, by omega⟩
  have hlow : excess_bits n n = 0 ∨
      2 ^ excess_bits n n * 2 ^ 23 ≤ n / 2 ^ excess_bits n n * 2 ^ excess_bits n n := by
    by_cases hs : excess_bits n n = 0
    · exact Or.inl hs
    · right
      rw [Nat.mul_comm]
      exact Nat.mul_le_mul_right _ (h2 (Nat.pos_of_ne_zero hs))
  have hzero : excess_bits n n = 0 → 2 ^ excess_bits n n = 1 := fun h => by rw [h]; rfl
  rw [Nat.mul_comm (2 ^ excess_bits n n) (n / 2 ^ excess_bits n n)] at hdm
  generalize n / 2 ^ excess_bits n n * 2 ^ excess_bits n n = m at *
  generalize n % 2 ^ excess_bits n n = r at *
  generalize 2 ^ excess_bits n n * 2 ^ 23 = big at *
  generalize 2 ^ excess_bits n n = P at *
  generalize round24 n = R at *
  refine ⟨?_, ?_, ?_, ?_, ?_⟩
  · rcases hlow with h | h
    · exact Or.inl h
    · right; omega
  · rcases hround with ⟨h, _⟩ | ⟨h, _⟩ <;> omega
  · rcases hround with ⟨h, _⟩ | ⟨h, _⟩ <;> omega
  · rcases hround with ⟨h, _⟩ | ⟨h, _⟩ <;> omega
  · intro h0
    have := hzero h0
    rcases hround with ⟨h, _⟩ | ⟨h, _⟩ <;> omega

/-- The relative error of rounding is at most `2 ^ (-24)`, from above. -/
lemma round24_le (n : Nat) : round24 n * 2 ^ 24 ≤ n * (2 ^ 24 + 1) := by
  obtain ⟨h1, h2, _, _, h5⟩ := round24_bounds n
  rcases h1 with h | h
  · rw [h5 h]; nlinarith
  · generalize 2 ^ excess_bits n n = P at *
    generalize round24 n = R at *
    norm_num at *
    omega

/-- The relative error of rounding is at most `2 ^ (-24)`, from below. -/
lemma le_round24 (n : Nat) : n * (2 ^ 24 - 1) ≤ round24 n * 2 ^ 24 := by
  obtain ⟨h1, _, h3, _, h5⟩ := round24_bounds n
  rcases h1 with h | h
  · rw [h5 h]
    exact Nat.mul_le_mul_left _ (by norm_num)
  · generalize 2 ^ excess_bits n n = P at *
    generalize round24 n = R at *
    norm_num at *
    omega

/-- A multiple of `2 ^ 24` below `x < 2 ^ 48` is also below the rounding of
`x`: rounding drops at most 24 bits there. -/
lemma le_round24_of_mul_le (m x : Nat) (hx : x < 2 ^ 48) (h : m * 2 ^ 24 ≤ x) :
    m * 2 ^ 24 ≤ round24 x := by
  obtain ⟨h1, _, _, h4, _⟩ := round24_bounds x
  have hs : excess_bits x x ≤ 24 := by
    by_contra hcon
    have h25 : 25 ≤ excess_bits x x := by omega
    rcases h1 with h0 | hbig
    · omega
    · have hp : 2 ^ 25 ≤ 2 ^ excess_bits x x := Nat.pow_le_pow_right (by norm_num) h25
      have : 2 ^ 25 * 2 ^ 23 ≤ 2 ^ excess_bits x x * 2 ^ 23 := Nat.mul_le_mul_right _ hp
      norm_num at this hx
      omega
  refine le_trans ?_ h4
  obtain ⟨d, hd⟩ : ∃ d, 24 = d + excess_bits x x := ⟨24 - excess_bits x x, by omega⟩
  have hpow : m * 2 ^ 24 = m * 2 ^ d * 2 ^ excess_bits x x := by
    rw [hd, pow_add, Nat.mul_assoc]
  rw [hpow] at h ⊢
  exact Nat.mul_le_mul_right _ ((Nat.le_div_iff_mul_le (by positivity)).mpr h)

end poseEstimation

/-! ## The test of the decreasing-matches policy: lemmas -/

namespace poseEstimation

/-- For counts below `2 ^ 17` the single-precision test agrees with the exact
comparison of `cur` with `0.99 * prev`. -/
lemma exceeds_ratio_iff_of_small (cur prev : Nat) (hcur : cur < 2 ^ 17) (hprev : prev < 2 ^ 17) :
    exceeds_ratio cur prev = true ↔ 99 * prev < 100 * cur := by
  have hc : round24 cur = cur := round24_of_lt cur (by norm_num at hcur ⊢; omega)
  have hp : round24 prev = prev := round24_of_lt prev (by norm_num at hprev ⊢; omega)
  simp only [exceeds_ratio, static_cast_float, float_mul_ratio, ratio, hc, hp, decide_eq_true_eq]
  have hup := round24_le (16609444 * prev)
  constructor
  · intro h
    by_contra hcon
    have hle : cur * 2 ^ 24 ≤ 16609444 * prev := by norm_num; omega
    have := le_round24_of_mul_le cur (16609444 * prev) (by norm_num at hprev ⊢; omega) hle
    omega
  · intro h
    by_contra hcon
    generalize round24 (16609444 * prev) = X at *
    norm_num at *
    omega

/-- When the single-precision test does not fire and the earlier count is not
zero, the later count is strictly smaller. -/
lemma lt_of_exceeds_ratio_eq_false (cur prev : Nat) (hpos : 0 < prev)
    (h : exceeds_ratio cur prev = false) : cur < prev := by
  simp only [exceeds_ratio, static_cast_float, float_mul_ratio, ratio, decide_eq_false_iff_not,
    not_lt] at h
  have h1 := le_round24 cur
  have h2 := round24_le prev
  have h3 := round24_le (16609444 * round24 prev)
  by_contra hcon
  generalize round24 (16609444 * round24 prev) = X at *
  generalize round24 prev = p at *
  generalize round24 cur = c at *
  norm_num at *
  omega

/-- The loop entered at index `n` answers `true` exactly when the test fires at
none of the indices `n, n - 1, ..., 1`. -/
lemma decreasing_matches_loop_eq_true_iff (w : List Nat) (n : Nat) :
    decreasing_matches_loop w n = true ↔
      ∀ i, i < n → exceeds_ratio (w.getD (i + 1) 0) (w.getD i 0) = false := by
  induction n with
  | zero => simp [decreasing_matches_loop]
  | succ n ih =>
    rw [decreasing_matches_loop]
    cases hx : exceeds_ratio (w.getD (n + 1) 0) (w.getD n 0) with
    | true =>
      simp only [if_true, Bool.false_eq_true, false_iff, not_forall]
      exact ⟨n, Nat.lt_succ_self n, by rw [hx]; simp⟩
    | false =>
      simp only [Bool.false_eq_true, if_false, ih]
      constructor
      · intro h i hi
        rcases Nat.lt_succ_iff_lt_or_eq.mp hi with hlt | heq
        · exact h i hlt
        · rw [heq]; exact hx
      · intro h i hi
        exact h i (Nat.lt_succ_of_lt hi)

end poseEstimation

/-! ## The driver: theorems -/

namespace poseEstimation

open RGB_SLAM

/-- In state `Lost` a call of `track` only advances the frame counter. -/
lemma track_of_lost {E : Externals} (s : RGB_SLAM E) (h : s._state = eState.eState_LOST)
    (imgRGB imgDepth : E.Mat) :
    track s imgRGB imgDepth
      = some (s._lastPose,
          { s with _frameNumber := (s._frameNumber + 1) % 2 ^ E.frameNumber_bits }) := by
  simp [track, h]

/-- In state `Lost` any number of calls of `track` only advances the frame
counter, and every call returns the stored pose. -/
lemma track_all_of_lost {E : Externals} (frames : List (E.Mat × E.Mat)) :
    ∀ s : RGB_SLAM E, s._state = eState.eState_LOST →
      track_all s frames
        = some (List.replicate frames.length s._lastPose,
            { s with
              _frameNumber :=
                if frames.length = 0 then s._frameNumber
                else (s._frameNumber + frames.length) % 2 ^ E.frameNumber_bits }) := by
  induction frames with
  | nil => intro s _; simp [track_all]
  | cons frame frames ih =>
    intro s h
    have h1 := ih { s with _frameNumber := (s._frameNumber + 1) % 2 ^ E.frameNumber_bits } h
    simp only [track_all, track_of_lost s h, h1, List.length_cons, List.replicate_succ]
    by_cases hlen : frames.length = 0
    · simp [hlen]
    · simp [hlen, Nat.add_assoc, Nat.add_comm 1]

/-- What `track` does in state `Tracking` on a well-formed frame with fewer
matched points than the minimum. -/
lemma track_of_few_matches {E : Externals} (s : RGB_SLAM E) (imgRGB imgDepth : E.Mat)
    (hstate : s._state = eState.eState_TRACKING)
    (hformat : E.frame_format_ok imgRGB imgDepth = true)
    (hfew : s.matched_count imgRGB imgDepth < s._params.min_matches_for_tracking) :
    track s imgRGB imgDepth
      = some (s._lastPose,
          { s with
            _frameNumber := (s._frameNumber + 1) % 2 ^ E.frameNumber_bits
            _members :=
              (E.find_matches
                (E.predict_next_pose (E.compute_features s._members imgRGB imgDepth).1
                  s._lastPose).1
                (E.predict_next_pose (E.compute_features s._members imgRGB imgDepth).1
                  s._lastPose).2
                (E.compute_features s._members imgRGB imgDepth).2).1
            calls := s.calls ++ [Call.compute_features, Call.predict_next_pose,
              Call.find_matches]
            _state := eState.eState_LOST }) := by
  simp only [matched_count] at hfew
  simp [track, perform_tracking, hstate, hformat, hfew]

/-- What `track` does in state `NotInitialized` on a well-formed frame. -/
lemma track_of_not_initialized {E : Externals} (s : RGB_SLAM E) (imgRGB imgDepth : E.Mat)
    (hstate : s._state = eState.eState_NOT_INITIALIZED)
    (hformat : E.frame_format_ok imgRGB imgDepth = true) :
    track s imgRGB imgDepth
      = some (E.default_pose,
          { s with
            _frameNumber := (s._frameNumber + 1) % 2 ^ E.frameNumber_bits
            _members :=
              (E.update_with_new_triangulation (E.compute_features s._members imgRGB imgDepth).1
                E.default_pose (E.compute_features s._members imgRGB imgDepth).2 true).1
            calls := s.calls ++ [Call.compute_features, Call.update_with_new_triangulation]
            _state := eState.eState_TRACKING
            _lastMatches := s._lastMatches.set 0
              (E.get_map_size
                (E.update_with_new_triangulation
                  (E.compute_features s._members imgRGB imgDepth).1
                  E.default_pose (E.compute_features s._members imgRGB imgDepth).2 true).1) }) := by
  simp [track, hstate, hformat]

/-- C1: in state `Lost`, for every pair of images, `track` returns the stored
last pose and its only effect is to advance the frame counter: the state stays
`Lost`, and the last pose, the owned objects (local map, motion model), the
match-count window and the history of calls are unchanged.  Hence every later
call of `track`, on any sequence of frames, returns that same pose. -/
theorem C1_track_in_lost_returns_last_pose {E : Externals} (s : RGB_SLAM E)
    (h : s._state = eState.eState_LOST) (imgRGB imgDepth : E.Mat)
    (frames : List (E.Mat × E.Mat)) :
    track s imgRGB imgDepth
        = some (s._lastPose,
            { s with _frameNumber := (s._frameNumber + 1) % 2 ^ E.frameNumber_bits })
      ∧ track_all s ((imgRGB, imgDepth) :: frames)
        = some (List.replicate (frames.length + 1) s._lastPose,
            { s with
              _frameNumber := (s._frameNumber + (frames.length + 1)) % 2 ^ E.frameNumber_bits }) :=
  ⟨track_of_lost s h imgRGB imgDepth, by
    rw [track_all_of_lost ((imgRGB, imgDepth) :: frames) s h]
    simp⟩

/-- C1, on the toy driver in state `Lost` with four later frames. -/
theorem C1_track_in_lost_witness :
    toyLost._state = eState.eState_LOST
      ∧ track toyLost (7 : Nat) (9 : Nat)
        = some (toyLost._lastPose,
            { toyLost with
              _frameNumber := (toyLost._frameNumber + 1) % 2 ^ toyExternals.frameNumber_bits })
      ∧ track_all toyLost (((7 : Nat), (9 : Nat)) :: toyFrames)
        = some (List.replicate (toyFrames.length + 1) toyLost._lastPose,
            { toyLost with
              _frameNumber :=
                (toyLost._frameNumber + (toyFrames.length + 1))
                  % 2 ^ toyExternals.frameNumber_bits }) :=
  ⟨by decide,
    C1_track_in_lost_returns_last_pose toyLost (by decide) (7 : Nat) (9 : Nat) toyFrames⟩

/-- C2 as stated fails: the toy driver is in state `Tracking`, the frame is
well formed and yields 3 matched points, fewer than the minimum of 10, and the
state after `track` is `Lost`, not `Tracking`. -/
theorem C2_state_retained_counterexample :
    (toyTracking 10 50)._state = eState.eState_TRACKING
      ∧ toyExternals.frame_format_ok (50 : Nat) (3 : Nat) = true
      ∧ (toyTracking 10 50).matched_count (50 : Nat) (3 : Nat) = 3
      ∧ (toyTracking 10 50)._params.min_matches_for_tracking = 10
      ∧ (track (toyTracking 10 50) (50 : Nat) (3 : Nat)).map (fun r => r.2._state)
          = some eState.eState_LOST
      ∧ (track (toyTracking 10 50) (50 : Nat) (3 : Nat)).map (fun r => r.2._state)
          ≠ some eState.eState_TRACKING := by
  decide

/-- C2, amended: in state `Tracking`, when a well-formed frame yields fewer
matched points than the configured minimum, `track` returns and the state
after it is `Lost`. -/
theorem C2_few_matches_state_becomes_lost {E : Externals} (s : RGB_SLAM E)
    (imgRGB imgDepth : E.Mat)
    (hstate : s._state = eState.eState_TRACKING)
    (hformat : E.frame_format_ok imgRGB imgDepth = true)
    (hfew : s.matched_count imgRGB imgDepth < s._params.min_matches_for_tracking) :
    (track s imgRGB imgDepth).map (fun r => r.2._state) = some eState.eState_LOST := by
  rw [track_of_few_matches s imgRGB imgDepth hstate hformat hfew]
  rfl

/-- C2 amended, on the toy driver. -/
theorem C2_few_matches_state_becomes_lost_witness :
    (toyTracking 10 50)._state = eState.eState_TRACKING
      ∧ (toyTracking 10 50).matched_count (50 : Nat) (3 : Nat)
          < (toyTracking 10 50)._params.min_matches_for_tracking
      ∧ (track (toyTracking 10 50) (50 : Nat) (3 : Nat)).map (fun r => r.2._state)
          = some eState.eState_LOST :=
  ⟨by decide, by decide,
    C2_few_matches_state_becomes_lost (toyTracking 10 50) (50 : Nat) (3 : Nat)
      (by decide) (by decide) (by decide)⟩

/-- C3: in state `Tracking`, when a well-formed frame yields fewer matched
points than the configured minimum, `track` returns exactly the pose stored as
last pose before the call, the stored pose and the match-count window are
unchanged, and the only calls made on the owned objects are
`compute_features`, `predict_next_pose` and `find_matches`: neither the pose
solver `compute_pose`, nor `clean_untracked_points`, `update_staged_map_points`
or `update_with_new_triangulation` is run. -/
theorem C3_few_matches_pose_frozen {E : Externals} (s : RGB_SLAM E)
    (imgRGB imgDepth : E.Mat)
    (hstate : s._state = eState.eState_TRACKING)
    (hformat : E.frame_format_ok imgRGB imgDepth = true)
    (hfew : s.matched_count imgRGB imgDepth < s._params.min_matches_for_tracking) :
    ∃ s1 : RGB_SLAM E,
      track s imgRGB imgDepth = some (s._lastPose, s1)
        ∧ s1._lastPose = s._lastPose
        ∧ s1._lastMatches = s._lastMatches
        ∧ s1.calls
            = s.calls ++ [Call.compute_features, Call.predict_next_pose, Call.find_matches] :=
  ⟨_, track_of_few_matches s imgRGB imgDepth hstate hformat hfew, rfl, rfl, rfl⟩

/-- C3, on the toy driver. -/
theorem C3_few_matches_pose_frozen_witness :
    (toyTracking 10 50)._state = eState.eState_TRACKING
      ∧ (toyTracking 10 50).matched_count (50 : Nat) (3 : Nat)
          < (toyTracking 10 50)._params.min_matches_for_tracking
      ∧ ∃ s1 : RGB_SLAM toyExternals,
          track (toyTracking 10 50) (50 : Nat) (3 : Nat)
              = some ((toyTracking 10 50)._lastPose, s1)
            ∧ s1._lastPose = (toyTracking 10 50)._lastPose
            ∧ s1._lastMatches = (toyTracking 10 50)._lastMatches
            ∧ s1.calls = (toyTracking 10 50).calls
                ++ [Call.compute_features, Call.predict_next_pose, Call.find_matches] :=
  ⟨by decide, by decide,
    C3_few_matches_pose_frozen (toyTracking 10 50) (50 : Nat) (3 : Nat)
      (by decide) (by decide) (by decide)⟩

/-- C4: in state `NotInitialized`, for every well-formed frame, `track` returns
the default-constructed pose, the owned objects are those obtained by
`update_with_new_triangulation` at that pose from the features computed for
the frame, and the state becomes `Tracking`.  The state is `NotInitialized`
after `reset` and after construction. -/
theorem C4_first_frame_initializes {E : Externals} (s : RGB_SLAM E)
    (imgRGB imgDepth : E.Mat)
    (hstate : s._state = eState.eState_NOT_INITIALIZED)
    (hformat : E.frame_format_ok imgRGB imgDepth = true) :
    (∃ s1 : RGB_SLAM E,
      track s imgRGB imgDepth = some (E.default_pose, s1)
        ∧ s1._members
            = (E.update_with_new_triangulation (E.compute_features s._members imgRGB imgDepth).1
                E.default_pose (s.frame_features imgRGB imgDepth) true).1
        ∧ s1._state = eState.eState_TRACKING)
      ∧ (reset s)._state = eState.eState_NOT_INITIALIZED
      ∧ (reset s)._lastPose = E.default_pose
      ∧ ∀ (params : Parameters) (members : E.Members),
          (create params members : RGB_SLAM E)._state = eState.eState_NOT_INITIALIZED :=
  ⟨⟨_, track_of_not_initialized s imgRGB imgDepth hstate hformat, rfl, rfl⟩, rfl, rfl,
    fun params members => by
      simp only [create, reset]
      split_ifs <;> rfl⟩

/-- C4, on the toy driver right after construction. -/
theorem C4_first_frame_initializes_witness :
    (toyInitial 10)._state = eState.eState_NOT_INITIALIZED
      ∧ ∃ s1 : RGB_SLAM toyExternals,
          track (toyInitial 10) (50 : Nat) (0 : Nat) = some (toyExternals.default_pose, s1)
            ∧ s1._members
                = (toyExternals.update_with_new_triangulation
                    (toyExternals.compute_features (toyInitial 10)._members (50 : Nat)
                      (0 : Nat)).1
                    toyExternals.default_pose
                    ((toyInitial 10).frame_features (50 : Nat) (0 : Nat)) true).1
            ∧ s1._state = eState.eState_TRACKING :=
  ⟨by decide,
    (C4_first_frame_initializes (toyInitial 10) (50 : Nat) (0 : Nat) (by decide) (by decide)).1⟩

/-- C5 as stated fails: the toy driver is in state `NotInitialized`, the first
frame is well formed and yields no feature at all, and the state after `track`
is `Tracking`, not `NotInitialized`. -/
theorem C5_empty_first_frame_counterexample :
    (toyInitial 10)._state = eState.eState_NOT_INITIALIZED
      ∧ toyExternals.frame_format_ok (0 : Nat) (0 : Nat) = true
      ∧ toyExternals.get_features_count ((toyInitial 10).frame_features (0 : Nat) (0 : Nat)) = 0
      ∧ (track (toyInitial 10) (0 : Nat) (0 : Nat)).map (fun r => r.2._state)
          = some eState.eState_TRACKING
      ∧ (track (toyInitial 10) (0 : Nat) (0 : Nat)).map (fun r => r.2._state)
          ≠ some eState.eState_NOT_INITIALIZED := by
  decide

/-- C5, amended: when the first well-formed frame processed in state
`NotInitialized` yields no feature at all, `track` returns and the state after
the call is `Tracking`: the features are not inspected. -/
theorem C5_empty_first_frame_starts_tracking {E : Externals} (s : RGB_SLAM E)
    (imgRGB imgDepth : E.Mat)
    (hstate : s._state = eState.eState_NOT_INITIALIZED)
    (hformat : E.frame_format_ok imgRGB imgDepth = true)
    (_hempty : E.get_features_count (s.frame_features imgRGB imgDepth) = 0) :
    (track s imgRGB imgDepth).map (fun r => r.2._state) = some eState.eState_TRACKING := by
  rw [track_of_not_initialized s imgRGB imgDepth hstate hformat]
  rfl

/-- C5 amended, on the toy driver with an empty first frame. -/
theorem C5_empty_first_frame_starts_tracking_witness :
    (toyInitial 10)._state = eState.eState_NOT_INITIALIZED
      ∧ toyExternals.get_features_count ((toyInitial 10).frame_features (0 : Nat) (0 : Nat)) = 0
      ∧ (track (toyInitial 10) (0 : Nat) (0 : Nat)).map (fun r => r.2._state)
          = some eState.eState_TRACKING :=
  ⟨by decide, by decide,
    C5_empty_first_frame_starts_tracking (toyInitial 10) (0 : Nat) (0 : Nat)
      (by decide) (by decide) (by decide)⟩

/-- An entry read from a window of counts below a positive bound is below the
bound, also when the index is out of range. -/
lemma getD_lt_of_forall_lt (w : List Nat) (bound : Nat) (hb : 0 < bound)
    (h : ∀ x ∈ w, x < bound) (i : Nat) : w.getD i 0 < bound := by
  by_cases hi : i < w.length
  · rw [List.getD_eq_getElem w 0 hi]
    exact h _ (List.getElem_mem hi)
  · rw [List.getD_eq_default w 0 (by omega)]
    exact hb

/-- C6 as stated fails: the toy driver, with a 3-wide window and the
decreasing-matches policy, tracks four frames with 500, 497, 494 and 491
matched points (minimum 10).  After the fourth frame the window is
`[497, 494, 491]`, `need_new_triangulation` answers `false` on it, and the calls
made during the fourth frame do not contain `update_with_new_triangulation`. -/
theorem C6_decreasing_matches_scenario_counterexample :
    (toyTracking 10 50)._state = eState.eState_TRACKING
      ∧ (toyTracking 10 50).triangulationPolicy
          = etriangulation_policy.etriangulation_policy_decreasing_matches
      ∧ toyExternals.N_MATCHES_WINDOWS = 3
      ∧ (toyTracking 10 50).calls.length = 4
      ∧ (track_all (toyTracking 10 50) toyFrames).map
            (fun r => (r.2._state, r.2._lastMatches, need_new_triangulation r.2,
              r.2.calls.drop (4 + 3 * 5)))
          = some (eState.eState_TRACKING, [497, 494, 491], false,
              [Call.compute_features, Call.predict_next_pose, Call.find_matches,
                Call.compute_pose, Call.clean_untracked_points]) := by
  set_option maxRecDepth 100000 in decide

/-- C6, amended: with a 3-wide window and the decreasing-matches policy, when
four successive tracked frames record the match counts 500, 497, 494 and 491,
`need_new_triangulation` answers `false` on the second, third and fourth frame
whatever the window held before, and also on the first frame when the two
latest entries of the window are still the value `ULONG_MAX` written by
`reset`. -/
theorem C6_decreasing_matches_scenario_never_triangulates {E : Externals} (s : RGB_SLAM E)
    (hN : E.N_MATCHES_WINDOWS = 3)
    (hpolicy : s.triangulationPolicy
      = etriangulation_policy.etriangulation_policy_decreasing_matches)
    (hlen : s._lastMatches.length = 3) :
    (s._lastMatches.tail = [ULONG_MAX, ULONG_MAX] →
        need_new_triangulation (record_matches s 500) = false)
      ∧ need_new_triangulation (record_matches (record_matches s 500) 497) = false
      ∧ need_new_triangulation
          (record_matches (record_matches (record_matches s 500) 497) 494) = false
      ∧ need_new_triangulation
          (record_matches (record_matches (record_matches (record_matches s 500) 497) 494) 491)
          = false := by
  obtain ⟨a, b, c, hw⟩ : ∃ a b c, s._lastMatches = [a, b, c] := by
    match hs : s._lastMatches, hlen with
    | [a, b, c], _ => exact ⟨a, b, c, rfl⟩
  have h1 : exceeds_ratio ULONG_MAX ULONG_MAX = true := by decide
  have h2 : exceeds_ratio 497 500 = true := by decide
  have h3 : exceeds_ratio 494 497 = true := by decide
  have h4 : exceeds_ratio 491 494 = true := by decide
  have h0 : exceeds_ratio 500 ULONG_MAX = false := by decide
  refine ⟨?_, ?_, ?_, ?_⟩
  · intro htail
    rw [hw] at htail
    obtain ⟨rfl, rfl⟩ : b = ULONG_MAX ∧ c = ULONG_MAX := by simpa using htail
    simp [need_new_triangulation, triangulation_policy_decreasing_matches, record_matches,
      hpolicy, hN, hw, decreasing_matches_loop, h0, h1]
  all_goals
    simp [need_new_triangulation, triangulation_policy_decreasing_matches, record_matches,
      hpolicy, hN, hw, decreasing_matches_loop, h2, h3, h4]

/-- C6 amended, on the toy driver in the state that follows its first
frame. -/
theorem C6_decreasing_matches_scenario_witness :
    toyExternals.N_MATCHES_WINDOWS = 3
      ∧ (toyTracking 10 50)._lastMatches = [50, ULONG_MAX, ULONG_MAX]
      ∧ need_new_triangulation (record_matches (toyTracking 10 50) 500) = false
      ∧ need_new_triangulation
          (record_matches (record_matches (record_matches (record_matches
            (toyTracking 10 50) 500) 497) 494) 491) = false :=
  ⟨by decide, by decide,
    (C6_decreasing_matches_scenario_never_triangulates (toyTracking 10 50) (by decide)
      (by decide) (by decide)).1 (by decide),
    (C6_decreasing_matches_scenario_never_triangulates (toyTracking 10 50) (by decide)
      (by decide) (by decide)).2.2.2⟩

/-- C7 as stated fails, in both of its parts.  On the window `[0, 0, 0]` the
policy answers `true` although the counts are not strictly decreasing.  On the
window `[229401, 227107, 0]` the policy answers `true` although `227107` is more
than `0.99` times `229401`: the single-precision product `0.99f * 229401.0f` is
rounded up to `227107`. -/
theorem C7_decreasing_matches_policy_counterexample :
    (triangulation_policy_decreasing_matches (toyWindow [0, 0, 0]) = true
        ∧ ¬ ((toyWindow [0, 0, 0])._lastMatches.getD 1 0
              < (toyWindow [0, 0, 0])._lastMatches.getD 0 0))
      ∧ (triangulation_policy_decreasing_matches (toyWindow [229401, 227107, 0]) = true
        ∧ ¬ (100 * (toyWindow [229401, 227107, 0])._lastMatches.getD 1 0
              ≤ 99 * (toyWindow [229401, 227107, 0])._lastMatches.getD 0 0)) := by
  decide

/-- C7, amended: the policy answers `true` exactly when the single-precision
test `float(count) > 0.99f * float(previous)` fires for no count of the window;
when every count of the window is below `2 ^ 17 = 131072` this is exactly when
every count is at most `0.99` times the count before it; and whenever the
policy answers `true` and every count but the last is non-zero, the counts are
strictly decreasing. -/
theorem C7_decreasing_matches_policy {E : Externals} (s : RGB_SLAM E) :
    (triangulation_policy_decreasing_matches s = true ↔
        ∀ i, i + 1 < E.N_MATCHES_WINDOWS →
          exceeds_ratio (s._lastMatches.getD (i + 1) 0) (s._lastMatches.getD i 0) = false)
      ∧ ((∀ x ∈ s._lastMatches, x < 2 ^ 17) →
          (triangulation_policy_decreasing_matches s = true ↔
            ∀ i, i + 1 < E.N_MATCHES_WINDOWS →
              100 * s._lastMatches.getD (i + 1) 0 ≤ 99 * s._lastMatches.getD i 0))
      ∧ (triangulation_policy_decreasing_matches s = true →
          (∀ i, i + 1 < E.N_MATCHES_WINDOWS → 0 < s._lastMatches.getD i 0) →
            ∀ i, i + 1 < E.N_MATCHES_WINDOWS →
              s._lastMatches.getD (i + 1) 0 < s._lastMatches.getD i 0) := by
  have hloop : triangulation_policy_decreasing_matches s = true ↔
      ∀ i, i + 1 < E.N_MATCHES_WINDOWS →
        exceeds_ratio (s._lastMatches.getD (i + 1) 0) (s._lastMatches.getD i 0) = false := by
    rw [triangulation_policy_decreasing_matches, decreasing_matches_loop_eq_true_iff]
    constructor
    · intro h i hi; exact h i (by omega)
    · intro h i hi; exact h i (by omega)
  refine ⟨hloop, ?_, ?_⟩
  · intro hsmall
    rw [hloop]
    have hiff : ∀ i, exceeds_ratio (s._lastMatches.getD (i + 1) 0) (s._lastMatches.getD i 0)
        = false ↔ 100 * s._lastMatches.getD (i + 1) 0 ≤ 99 * s._lastMatches.getD i 0 := by
      intro i
      have h := exceeds_ratio_iff_of_small (s._lastMatches.getD (i + 1) 0)
        (s._lastMatches.getD i 0)
        (getD_lt_of_forall_lt _ _ (by norm_num) hsmall _)
        (getD_lt_of_forall_lt _ _ (by norm_num) hsmall _)
      rw [← Bool.not_eq_true, h]
      omega
    constructor
    · intro h i hi; exact (hiff i).mp (h i hi)
    · intro h i hi; exact (hiff i).mpr (h i hi)
  · intro htrue hpos i hi
    exact lt_of_exceeds_ratio_eq_false _ _ (hpos i hi) (hloop.mp htrue i hi)

/-- C7 amended, on the toy driver with the window `[1000, 900, 800]`. -/
theorem C7_decreasing_matches_policy_witness :
    (∀ x ∈ (toyWindow [1000, 900, 800])._lastMatches, x < 2 ^ 17)
      ∧ triangulation_policy_decreasing_matches (toyWindow [1000, 900, 800]) = true
      ∧ (∀ i, i + 1 < toyExternals.N_MATCHES_WINDOWS →
          100 * (toyWindow [1000, 900, 800])._lastMatches.getD (i + 1) 0
            ≤ 99 * (toyWindow [1000, 900, 800])._lastMatches.getD i 0)
      ∧ ∀ i, i + 1 < toyExternals.N_MATCHES_WINDOWS →
          (toyWindow [1000, 900, 800])._lastMatches.getD (i + 1) 0
            < (toyWindow [1000, 900, 800])._lastMatches.getD i 0 :=
  have hsmall : ∀ x ∈ (toyWindow [1000, 900, 800])._lastMatches, x < 2 ^ 17 := by decide
  have htrue : triangulation_policy_decreasing_matches (toyWindow [1000, 900, 800]) = true := by
    decide
  ⟨hsmall, htrue,
    ((C7_decreasing_matches_policy (toyWindow [1000, 900, 800])).2.1 hsmall).mp htrue,
    (C7_decreasing_matches_policy (toyWindow [1000, 900, 800])).2.2 htrue (by
      intro i hi
      have hi3 : i + 1 < 3 := hi
      have hcases : i = 0 ∨ i = 1 := by omega
      rcases hcases with rfl | rfl <;> decide)⟩

end poseEstimation

/-! ## Floating-point rounding: lemmas -/

namespace rgbd_slam

section rounding

variable {K : Type} [LinearOrderedField K] [FloorRing K]

/-- An integer is rounded to itself. -/
lemma round_half_even_intCast (m : ℤ) : round_half_even (m : K) = m := by
  unfold round_half_even
  simp

/-- A number of absolute value at least 1 is not rounded to zero. -/
lemma round_half_even_ne_zero (n : K) (h : 1 ≤ |n|) : round_half_even n ≠ 0 := by
  have hfl := Int.floor_le n
  have hlt := Int.lt_floor_add_one n
  unfold round_half_even
  rcases le_abs.mp h with hpos | hneg
  · have h1 : (1 : ℤ) ≤ ⌊n⌋ := Int.le_floor.mpr (by exact_mod_cast hpos)
    split_ifs <;> omega
  · have hn : n ≤ -1 := by linarith
    have h1 : ⌊n⌋ ≤ -1 := by
      have : (⌊n⌋ : K) ≤ ((-1 : ℤ) : K) := by push_cast; linarith
      exact_mod_cast this
    split_ifs with ha hb hc
    · omega
    · have h2 : (⌊n⌋ : K) + 1 / 2 < -1 := by linarith
      have h3 : ⌊n⌋ < -1 := by
        have : (⌊n⌋ : K) < ((-1 : ℤ) : K) := by push_cast; linarith
        exact_mod_cast this
      omega
    · omega
    · have h2 : (⌊n⌋ : K) + 1 / 2 ≤ n := by linarith
      have h3 : ⌊n⌋ < -1 := by
        have : (⌊n⌋ : K) < ((-1 : ℤ) : K) := by push_cast; linarith
        exact_mod_cast this
      omega

/-- Zero is a floating-point number. -/
lemma float_round_zero (p : ℕ) : float_round p (0 : K) = 0 := by
  unfold float_round
  rw [zero_div]
  have h := @round_half_even_intCast K _ _ 0
  rw [Int.cast_zero] at h
  rw [h]
  simp

/-- The exponent of a number that lies between two consecutive powers of
two. -/
lemma int_log_of_bounds (x : K) (e : ℤ) (h1 : (2 : K) ^ e ≤ |x|)
    (h2 : |x| < (2 : K) ^ (e + 1)) : Int.log 2 |x| = e := by
  have hpos : 0 < |x| := lt_of_lt_of_le (by positivity) h1
  have ha : e ≤ Int.log 2 |x| :=
    (Int.zpow_le_iff_le_log (by norm_num) hpos).mp (by exact_mod_cast h1)
  have hb : Int.log 2 |x| < e + 1 :=
    (Int.lt_zpow_iff_log_lt (by norm_num) hpos).mp (by exact_mod_cast h2)
  omega

/-- The rounding of a number that lies between two consecutive powers of
two. -/
lemma float_round_of_bounds (p : ℕ) (x : K) (e : ℤ) (h1 : (2 : K) ^ e ≤ |x|)
    (h2 : |x| < (2 : K) ^ (e + 1)) :
    float_round p x
      = (round_half_even (x / (2 : K) ^ (e + 1 - (p : ℤ))) : K)
        * (2 : K) ^ (e + 1 - (p : ℤ)) := by
  unfold float_round
  rw [int_log_of_bounds x e h1 h2]

/-- A number `m * 2 ^ e` whose significand `m` has at most `p` bits is a
floating-point number of precision `p`. -/
lemma float_round_of_exact (p : ℕ) (m e : ℤ) (hm : |m| < 2 ^ p) :
    float_round p ((m : K) * (2 : K) ^ e) = (m : K) * (2 : K) ^ e := by
  by_cases h0 : m = 0
  · subst h0
    simp [float_round_zero]
  have h2pos : ∀ z : ℤ, (0 : K) < (2 : K) ^ z := fun z => by positivity
  have hx : |(m : K) * (2 : K) ^ e| = (|m| : ℤ) * (2 : K) ^ e := by
    rw [abs_mul, abs_of_pos (h2pos e), Int.cast_abs]
  have hpos : 0 < |(m : K) * (2 : K) ^ e| := by
    rw [hx]
    have : (0 : K) < ((|m| : ℤ) : K) := by exact_mod_cast abs_pos.mpr h0
    positivity
  have hlt : |(m : K) * (2 : K) ^ e| < (2 : K) ^ ((p : ℤ) + e) := by
    rw [hx, zpow_add₀ (by norm_num : (2 : K) ≠ 0)]
    apply mul_lt_mul_of_pos_right _ (h2pos e)
    have : ((|m| : ℤ) : K) < ((2 ^ p : ℤ) : K) := by exact_mod_cast hm
    simpa using this
  have hlog : Int.log 2 |(m : K) * (2 : K) ^ e| < (p : ℤ) + e :=
    (Int.lt_zpow_iff_log_lt (by norm_num) hpos).mp (by exact_mod_cast hlt)
  unfold float_round
  generalize Int.log 2 |(m : K) * (2 : K) ^ e| = l at hlog
  obtain ⟨k, hk⟩ : ∃ k : ℕ, (k : ℤ) = e - (l + 1 - (p : ℤ)) := ⟨(e - (l + 1 - (p : ℤ))).toNat, by
    rw [Int.toNat_of_nonneg]; omega⟩
  have he : e = (k : ℤ) + (l + 1 - (p : ℤ)) := by omega
  have hdiv : (m : K) * (2 : K) ^ e / (2 : K) ^ (l + 1 - (p : ℤ)) = ((m * 2 ^ k : ℤ) : K) := by
    rw [he, zpow_add₀ (by norm_num : (2 : K) ≠ 0), ← mul_assoc, mul_div_assoc,
      div_self (ne_of_gt (h2pos _)), mul_one]
    push_cast
    rw [zpow_natCast]
  rw [hdiv, round_half_even_intCast, he, zpow_add₀ (by norm_num : (2 : K) ≠ 0), zpow_natCast]
  push_cast
  ring

/-- An integer of at most `p` bits is a floating-point number of precision
`p`. -/
lemma float_round_intCast (p : ℕ) (m : ℤ) (hm : |m| < 2 ^ p) :
    float_round p (m : K) = (m : K) := by
  have h := @float_round_of_exact K _ _ p m 0 hm
  simpa using h

/-- Only zero is rounded to zero. -/
lemma float_round_ne_zero (p : ℕ) (hp : 1 ≤ p) (x : K) (hx : x ≠ 0) : float_round p x ≠ 0 := by
  have h2pos : ∀ z : ℤ, (0 : K) < (2 : K) ^ z := fun z => by positivity
  have hpos : 0 < |x| := abs_pos.mpr hx
  have hlog : (2 : K) ^ Int.log 2 |x| ≤ |x| := by
    have := @Int.zpow_log_le_self K _ _ 2 |x| (by norm_num) hpos
    exact_mod_cast this
  unfold float_round
  apply mul_ne_zero _ (ne_of_gt (h2pos _))
  have hge : 1 ≤ |x / (2 : K) ^ (Int.log 2 |x| + 1 - (p : ℤ))| := by
    rw [abs_div, abs_of_pos (h2pos _), le_div_iff₀ (h2pos _), one_mul]
    refine le_trans ?_ hlog
    apply zpow_le_zpow_right₀ (by norm_num)
    omega
  have := round_half_even_ne_zero _ hge
  exact_mod_cast this

/-- A number that is not zero is rounded to a dyadic number that is not
zero. -/
lemma float_round_dyadic (p : ℕ) (hp : 1 ≤ p) (x : K) (hx : x ≠ 0) :
    ∃ a u : ℤ, a ≠ 0 ∧ float_round p x = (a : K) * (2 : K) ^ u := by
  refine ⟨round_half_even (x / (2 : K) ^ (Int.log 2 |x| + 1 - (p : ℤ))),
    Int.log 2 |x| + 1 - (p : ℤ), fun h => ?_, rfl⟩
  apply float_round_ne_zero p hp x hx
  unfold float_round
  rw [h, Int.cast_zero, zero_mul]

end rounding

section rounding_values

variable {K : Type} [LinearOrderedField K] [FloorRing K]

/-- A number less than half a unit above an integer is rounded to it. -/
lemma round_half_even_of_lt (n : K) (f : ℤ) (h1 : (f : K) ≤ n) (h2 : n < (f : K) + 1 / 2) :
    round_half_even n = f := by
  have hfloor : ⌊n⌋ = f := by
    rw [Int.floor_eq_iff]
    exact ⟨h1, by linarith⟩
  unfold round_half_even
  rw [hfloor, if_pos (by linarith)]

/-- A number more than half a unit above an integer, and below the next one,
is rounded to the next one. -/
lemma round_half_even_of_gt (n : K) (f : ℤ) (h1 : (f : K) + 1 / 2 < n) (h2 : n < (f : K) + 1) :
    round_half_even n = f + 1 := by
  have hfloor : ⌊n⌋ = f := by
    rw [Int.floor_eq_iff]
    exact ⟨by linarith, h2⟩
  unfold round_half_even
  rw [hfloor, if_neg (by linarith), if_pos (by linarith)]

/-- A number half a unit above an integer is rounded to the even one of its
two neighbours. -/
lemma round_half_even_of_tie (n : K) (f : ℤ) (h : n = (f : K) + 1 / 2) :
    round_half_even n = if f % 2 = 0 then f else f + 1 := by
  have hfloor : ⌊n⌋ = f := by
    rw [Int.floor_eq_iff]
    exact ⟨by linarith, by linarith⟩
  unfold round_half_even
  rw [hfloor, if_neg (by linarith), if_neg (by linarith)]

/-- A number that is not negative is rounded to an integer that is not
negative. -/
lemma round_half_even_nonneg (n : K) (h : 0 ≤ n) : 0 ≤ round_half_even n := by
  have hfloor : (0 : ℤ) ≤ ⌊n⌋ := Int.floor_nonneg.mpr h
  unfold round_half_even
  split_ifs <;> omega

/-- A number that is not negative is rounded to a floating-point number that
is not negative. -/
lemma float_round_nonneg (p : ℕ) (x : K) (h : 0 ≤ x) : 0 ≤ float_round p x := by
  unfold float_round
  have h2 : (0 : K) < (2 : K) ^ (Int.log 2 |x| + 1 - (p : ℤ)) := by positivity
  have hr := round_half_even_nonneg (x / (2 : K) ^ (Int.log 2 |x| + 1 - (p : ℤ)))
    (div_nonneg h (le_of_lt h2))
  have hr1 : (0 : K) ≤ (round_half_even (x / (2 : K) ^ (Int.log 2 |x| + 1 - (p : ℤ))) : K) := by
    exact_mod_cast hr
  exact mul_nonneg hr1 (le_of_lt h2)

/-- An integer of at most 24 bits is a `float`. -/
lemma to_float_intCast (m : ℤ) (hm : |m| < 2 ^ 24) : to_float (m : K) = (m : K) :=
  float_round_intCast 24 m hm

/-- An integer of at most 53 bits is a `double`. -/
lemma to_double_intCast (m : ℤ) (hm : |m| < 2 ^ 53) : to_double (m : K) = (m : K) :=
  float_round_intCast 53 m hm

/-- A number `m * 2 ^ e` whose significand has at most 24 bits is a `float`. -/
lemma to_float_eq_self (x : K) (m e : ℤ) (hm : |m| < 2 ^ 24) (hx : x = (m : K) * (2 : K) ^ e) :
    to_float x = x := by
  subst hx
  exact float_round_of_exact 24 m e hm

/-- A number `m * 2 ^ e` whose significand has at most 53 bits is a
`double`. -/
lemma to_double_eq_self (x : K) (m e : ℤ) (hm : |m| < 2 ^ 53)
    (hx : x = (m : K) * (2 : K) ^ e) : to_double x = x := by
  subst hx
  exact float_round_of_exact 53 m e hm

/-- The rounding of a number that lies between two consecutive powers of two,
once the rounding of its significand is known. -/
lemma float_round_eq (p : ℕ) (x : K) (e r : ℤ) (h1 : (2 : K) ^ e ≤ |x|)
    (h2 : |x| < (2 : K) ^ (e + 1))
    (hr : round_half_even (x / (2 : K) ^ (e + 1 - (p : ℤ))) = r) :
    float_round p x = (r : K) * (2 : K) ^ (e + 1 - (p : ℤ)) := by
  rw [float_round_of_bounds p x e h1 h2, hr]

end rounding_values

/-- Two integers that are not zero do not lie on a circle whose radius is a
power of two. -/
lemma int_sq_add_sq_ne_four_pow :
    ∀ (n : ℕ) (a b : ℤ), a ≠ 0 → b ≠ 0 → a ^ 2 + b ^ 2 ≠ 4 ^ n := by
  intro n
  induction n with
  | zero =>
    intro a b ha hb h
    have h1 : 0 < a ^ 2 := by positivity
    have h2 : 0 < b ^ 2 := by positivity
    rw [pow_zero] at h
    linarith
  | succ n ih =>
    intro a b ha hb h
    rw [pow_succ (4 : ℤ) n] at h
    rcases Int.even_or_odd' a with ⟨c, rfl | rfl⟩ <;> rcases Int.even_or_odd' b with ⟨d, rfl | rfl⟩
    · have hc : c ≠ 0 := fun hc => ha (by rw [hc]; rfl)
      have hd : d ≠ 0 := fun hd => hb (by rw [hd]; rfl)
      have h4 : 4 * (c ^ 2 + d ^ 2) = 4 * 4 ^ n := by linear_combination h
      exact ih c d hc hd (mul_left_cancel₀ (by norm_num) h4)
    · obtain ⟨M, hM⟩ : ∃ M : ℤ, M = c ^ 2 + d ^ 2 + d - 4 ^ n := ⟨_, rfl⟩
      have : 4 * M = -1 := by rw [hM]; linear_combination h
      omega
    · obtain ⟨M, hM⟩ : ∃ M : ℤ, M = c ^ 2 + c + d ^ 2 - 4 ^ n := ⟨_, rfl⟩
      have : 4 * M = -1 := by rw [hM]; linear_combination h
      omega
    · obtain ⟨M, hM⟩ : ∃ M : ℤ, M = c ^ 2 + c + d ^ 2 + d - 4 ^ n := ⟨_, rfl⟩
      have : 4 * M = -2 := by rw [hM]; linear_combination h
      omega

/-- Two dyadic numbers that are not zero do not lie on the unit circle. -/
lemma dyadic_sq_add_sq_ne_one (a b : ℤ) (u v : ℤ) (ha : a ≠ 0) (hb : b ≠ 0) :
    ((a : ℝ) * (2 : ℝ) ^ u) ^ 2 + ((b : ℝ) * (2 : ℝ) ^ v) ^ 2 ≠ 1 := by
  intro h
  obtain ⟨n, k1, k2, h1, h2⟩ : ∃ n k1 k2 : ℕ, u + (n : ℤ) = k1 ∧ v + (n : ℤ) = k2 :=
    ⟨(-u).toNat + (-v).toNat, (u + ((-u).toNat + (-v).toNat : ℕ)).toNat,
      (v + ((-u).toNat + (-v).toNat : ℕ)).toNat, by omega, by omega⟩
  have hu : u = (k1 : ℤ) - n := by omega
  have hv : v = (k2 : ℤ) - n := by omega
  have h2n : (2 : ℝ) ^ (n : ℤ) ≠ 0 := by positivity
  rw [hu, hv, zpow_sub₀ (by norm_num : (2 : ℝ) ≠ 0), zpow_sub₀ (by norm_num : (2 : ℝ) ≠ 0)] at h
  simp only [zpow_natCast] at h h2n
  field_simp at h
  have hint : (a * 2 ^ k1) ^ 2 + (b * 2 ^ k2) ^ 2 = (4 : ℤ) ^ n := by
    have h4 : ((4 : ℤ) ^ n : ℝ) = ((2 : ℝ) ^ n) ^ 2 := by
      rw [← pow_mul, mul_comm, pow_mul]; norm_num
    have : (((a * 2 ^ k1) ^ 2 + (b * 2 ^ k2) ^ 2 : ℤ) : ℝ) = (((4 : ℤ) ^ n : ℤ) : ℝ) := by
      push_cast
      push_cast at h4
      rw [h4]
      linarith
    exact_mod_cast this
  exact int_sq_add_sq_ne_four_pow n (a * 2 ^ k1) (b * 2 ^ k2)
    (mul_ne_zero ha (by positivity)) (mul_ne_zero hb (by positivity)) hint

end rgbd_slam

/-! ## Quaternion and scaled axis: theorems -/

namespace rgbd_slam

namespace vector3

lemma norm_nonneg (v : vector3) : 0 ≤ v.norm := Real.sqrt_nonneg _

lemma sum_sq_nonneg (v : vector3) : 0 ≤ v.x * v.x + v.y * v.y + v.z * v.z := by
  nlinarith [mul_self_nonneg v.x, mul_self_nonneg v.y, mul_self_nonneg v.z]

lemma norm_mul_self (v : vector3) : v.norm * v.norm = v.x * v.x + v.y * v.y + v.z * v.z :=
  Real.mul_self_sqrt v.sum_sq_nonneg

/-- A vector of norm zero is the zero vector. -/
lemma eq_zero_of_norm_eq_zero (v : vector3) (h : v.norm = 0) : v = ⟨0, 0, 0⟩ := by
  have hsum : v.x * v.x + v.y * v.y + v.z * v.z = 0 := by
    rw [← v.norm_mul_self, h, mul_zero]
  have hx : v.x = 0 := by nlinarith [mul_self_nonneg v.x, mul_self_nonneg v.y, mul_self_nonneg v.z]
  have hy : v.y = 0 := by nlinarith [mul_self_nonneg v.x, mul_self_nonneg v.y, mul_self_nonneg v.z]
  have hz : v.z = 0 := by nlinarith [mul_self_nonneg v.x, mul_self_nonneg v.y, mul_self_nonneg v.z]
  ext <;> assumption

/-- Scaling by a non-negative factor scales the norm. -/
lemma norm_scale (v : vector3) (k : ℝ) (hk : 0 ≤ k) : (v.scale k).norm = k * v.norm := by
  have h : (v.x * k) * (v.x * k) + (v.y * k) * (v.y * k) + (v.z * k) * (v.z * k)
      = (k * v.norm) * (k * v.norm) := by
    have hsq := v.norm_mul_self
    calc (v.x * k) * (v.x * k) + (v.y * k) * (v.y * k) + (v.z * k) * (v.z * k)
        = k * k * (v.x * v.x + v.y * v.y + v.z * v.z) := by ring
      _ = k * k * (v.norm * v.norm) := by rw [hsq]
      _ = (k * v.norm) * (k * v.norm) := by ring
  simp only [norm, scale] at h ⊢
  rw [h]
  exact Real.sqrt_mul_self (mul_nonneg hk (Real.sqrt_nonneg _))

end vector3

namespace pose_optimization

/-- The quaternion built from the zero vector is the identity. -/
lemma get_quaternion_of_zero :
    get_quaternion_from_scale_axis_coefficients ⟨0, 0, 0⟩ = ⟨1, 0, 0, 0⟩ := by
  simp [get_quaternion_from_scale_axis_coefficients, vector3.norm]

/-- The scaled axis of the identity quaternion is the zero vector. -/
lemma get_scaled_axis_of_identity :
    get_scaled_axis_coefficients_from_quaternion ⟨1, 0, 0, 0⟩ = ⟨0, 0, 0⟩ := by
  simp [get_scaled_axis_coefficients_from_quaternion, vector3.norm, vector3.scale,
    quaternion.vec]

/-- The scaled axis of a quaternion with positive `w` and non-zero vector part,
with `atan2` unfolded. -/
lemma get_scaled_axis_of_pos (q : quaternion) (hw : 0 < q.w) (hv : 0 < q.vec.norm) :
    get_scaled_axis_coefficients_from_quaternion q
      = q.vec.scale (2 * Real.arctan (q.vec.norm / q.w) / q.vec.norm) := by
  simp only [get_scaled_axis_coefficients_from_quaternion, atan2, le_of_lt hw, if_true, hv, hw]

/-- The quaternion built from a non-zero vector. -/
lemma get_quaternion_of_pos (v : vector3) (hv : 0 < v.norm) :
    get_quaternion_from_scale_axis_coefficients v
      = ⟨Real.cos (v.norm / 2), v.x * (Real.sin (v.norm / 2) / v.norm),
          v.y * (Real.sin (v.norm / 2) / v.norm), v.z * (Real.sin (v.norm / 2) / v.norm)⟩ := by
  have h2 : v.norm * 0.5 = v.norm / 2 := by ring
  simp only [get_quaternion_from_scale_axis_coefficients, hv, if_true, h2]

/-- A vector is unchanged by scaling with two factors whose product is one. -/
lemma scale_scale_eq (v : vector3) (k l : ℝ) (h : k * l = 1) : (v.scale k).scale l = v := by
  ext <;> simp only [vector3.scale] <;> rw [mul_assoc, h, mul_one]

/-- In double precision the zero vector gives the identity quaternion. -/
lemma binary64_quaternion_of_zero :
    binary64.get_quaternion_from_scale_axis_coefficients ⟨0, 0, 0⟩ = ⟨1, 0, 0, 0⟩ := by
  have hone : to_double (1 : ℝ) = 1 := by
    have h := @float_round_intCast ℝ _ _ 53 1 (by norm_num)
    simpa [to_double] using h
  have hnorm : binary64.norm ⟨0, 0, 0⟩ = 0 := by
    simp [binary64.norm, to_double, float_round_zero]
  simp only [binary64.get_quaternion_from_scale_axis_coefficients, hnorm, lt_irrefl, if_false,
    zero_mul, to_double, float_round_zero, Real.cos_zero]
  rw [show float_round 53 (1 : ℝ) = 1 from hone]

/-- The vector `(1 / 2, 0, 0)` in double precision: the quaternion returned has
two dyadic coefficients that are not zero, and two that are zero. -/
lemma binary64_quaternion_of_half :
    ∃ (a b u v : ℤ), a ≠ 0 ∧ b ≠ 0
      ∧ binary64.get_quaternion_from_scale_axis_coefficients ⟨1 / 2, 0, 0⟩
        = ⟨(a : ℝ) * (2 : ℝ) ^ u, (b : ℝ) * (2 : ℝ) ^ v, 0, 0⟩ := by
  have hquarter : to_double (1 / 4 : ℝ) = 1 / 4 := by
    have h := @float_round_of_exact ℝ _ _ 53 1 (-2) (by norm_num)
    have h4 : ((1 : ℤ) : ℝ) * (2 : ℝ) ^ (-2 : ℤ) = 1 / 4 := by norm_num
    rw [h4] at h
    exact h
  have hhalf : to_double (1 / 2 : ℝ) = 1 / 2 := by
    have h := @float_round_of_exact ℝ _ _ 53 1 (-1) (by norm_num)
    have h2 : ((1 : ℤ) : ℝ) * (2 : ℝ) ^ (-1 : ℤ) = 1 / 2 := by norm_num
    rw [h2] at h
    exact h
  have hzero : to_double (0 : ℝ) = 0 := float_round_zero 53
  have hsqrt : Real.sqrt (1 / 4 : ℝ) = 1 / 2 := by
    rw [show (1 / 4 : ℝ) = (1 / 2) ^ 2 by norm_num, Real.sqrt_sq (by norm_num)]
  have hnorm : binary64.norm ⟨1 / 2, 0, 0⟩ = 1 / 2 := by
    simp only [binary64.norm, mul_zero, hzero, add_zero]
    rw [show (1 / 2 : ℝ) * (1 / 2) = 1 / 4 by norm_num]
    simp only [hquarter, hsqrt, hhalf]
  have hcos : Real.cos (1 / 4) ≠ 0 :=
    ne_of_gt (Real.cos_pos_of_mem_Ioo ⟨by linarith [Real.pi_pos], by linarith [Real.pi_gt_three]⟩)
  have hsin : Real.sin (1 / 4) ≠ 0 :=
    ne_of_gt (Real.sin_pos_of_pos_of_lt_pi (by norm_num) (by linarith [Real.pi_gt_three]))
  have hw : to_double (Real.cos (1 / 4)) ≠ 0 := float_round_ne_zero 53 (by norm_num) _ hcos
  have hs : to_double (Real.sin (1 / 4)) ≠ 0 := float_round_ne_zero 53 (by norm_num) _ hsin
  have hscale : to_double (to_double (Real.sin (1 / 4)) / (1 / 2)) ≠ 0 :=
    float_round_ne_zero 53 (by norm_num) _ (div_ne_zero hs (by norm_num))
  have hx : to_double (1 / 2 * to_double (to_double (Real.sin (1 / 4)) / (1 / 2))) ≠ 0 :=
    float_round_ne_zero 53 (by norm_num) _ (mul_ne_zero (by norm_num) hscale)
  have hpos : (0 : ℝ) < 1 / 2 := by norm_num
  have hha : to_double ((1 / 2 : ℝ) * 0.5) = 1 / 4 := by
    rw [show (1 / 2 : ℝ) * 0.5 = 1 / 4 by norm_num, hquarter]
  obtain ⟨a, u, ha, hwa⟩ := @float_round_dyadic ℝ _ _ 53 (by norm_num) _ hcos
  obtain ⟨b, v, hb, hxb⟩ := @float_round_dyadic ℝ _ _ 53 (by norm_num) _
    (mul_ne_zero (by norm_num : (1 / 2 : ℝ) ≠ 0) hscale)
  refine ⟨a, b, u, v, ha, hb, ?_⟩
  simp only [binary64.get_quaternion_from_scale_axis_coefficients, hnorm, hpos, if_true, hha,
    zero_mul, hzero]
  rw [← hwa, ← hxb]
  rfl

/-- C10, amended: over the reals, that is when every operation is exact, the
quaternion returned by `get_quaternion_from_scale_axis_coefficients v` has
norm exactly 1 for every 3-vector `v`; for `v = 0` it is the identity
quaternion `(1, 0, 0, 0)`, over the reals and in double precision as well. -/
theorem C10_quaternion_from_scale_axis_is_unit (v : vector3) :
    (get_quaternion_from_scale_axis_coefficients v).norm = 1
      ∧ get_quaternion_from_scale_axis_coefficients ⟨0, 0, 0⟩ = ⟨1, 0, 0, 0⟩
      ∧ binary64.get_quaternion_from_scale_axis_coefficients ⟨0, 0, 0⟩ = ⟨1, 0, 0, 0⟩ := by
  refine ⟨?_, get_quaternion_of_zero, binary64_quaternion_of_zero⟩
  by_cases ha : 0 < v.norm
  · have hsq := v.norm_mul_self
    have hne : v.norm ≠ 0 := ne_of_gt ha
    have hcs := Real.sin_sq_add_cos_sq (v.norm * 0.5)
    have hsum : Real.cos (v.norm * 0.5) * Real.cos (v.norm * 0.5)
        + v.x * (Real.sin (v.norm * 0.5) / v.norm) * (v.x * (Real.sin (v.norm * 0.5) / v.norm))
        + v.y * (Real.sin (v.norm * 0.5) / v.norm) * (v.y * (Real.sin (v.norm * 0.5) / v.norm))
        + v.z * (Real.sin (v.norm * 0.5) / v.norm) * (v.z * (Real.sin (v.norm * 0.5) / v.norm))
        = 1 := by
      have : (v.x * v.x + v.y * v.y + v.z * v.z)
          * (Real.sin (v.norm * 0.5) / v.norm) ^ 2 = Real.sin (v.norm * 0.5) ^ 2 := by
        rw [← hsq]; field_simp; ring
      nlinarith
    simp only [get_quaternion_from_scale_axis_coefficients, quaternion.norm, ha, if_true]
    rw [hsum, Real.sqrt_one]
  · have h0 : v.norm = 0 := le_antisymm (not_lt.mp ha) v.norm_nonneg
    have hv := v.eq_zero_of_norm_eq_zero h0
    rw [hv, get_quaternion_of_zero]
    simp [quaternion.norm]

/-- C10 as stated fails: in double precision the quaternion returned for the
vector `(1 / 2, 0, 0)` has the coefficients `cos(1 / 4)` and `sin(1 / 4)` rounded
to the nearest `double`, which are two dyadic numbers that are not zero, and
the sum of the squares of two such numbers is never 1: the norm of the
quaternion is not exactly 1. -/
theorem C10_norm_is_not_one_in_double_precision :
    (binary64.get_quaternion_from_scale_axis_coefficients ⟨1 / 2, 0, 0⟩).norm ≠ 1 := by
  obtain ⟨a, b, u, v, ha, hb, hq⟩ := binary64_quaternion_of_half
  rw [hq]
  intro h
  unfold quaternion.norm at h
  simp only [mul_zero, add_zero] at h
  rw [Real.sqrt_eq_one] at h
  apply dyadic_sq_add_sq_ne_one a b u v ha hb
  rw [← h]
  ring

/-- C9: for every 3-vector `v` with norm strictly below `π` (the zero vector
included), `get_scaled_axis_coefficients_from_quaternion
(get_quaternion_from_scale_axis_coefficients v)` equals `v`, over the reals. -/
theorem C9_scaled_axis_of_quaternion_of_scaled_axis (v : vector3) (h : v.norm < Real.pi) :
    get_scaled_axis_coefficients_from_quaternion
      (get_quaternion_from_scale_axis_coefficients v) = v := by
  by_cases ha : 0 < v.norm
  · have hlo : 0 < v.norm / 2 := by linarith
    have hhi : v.norm / 2 < Real.pi / 2 := by linarith
    have hsin : 0 < Real.sin (v.norm / 2) :=
      Real.sin_pos_of_pos_of_lt_pi hlo (by linarith [Real.pi_pos])
    have hcos : 0 < Real.cos (v.norm / 2) :=
      Real.cos_pos_of_mem_Ioo ⟨by linarith, hhi⟩
    have hk : 0 < Real.sin (v.norm / 2) / v.norm := div_pos hsin ha
    rw [get_quaternion_of_pos v ha]
    have hvec : (quaternion.mk (Real.cos (v.norm / 2))
        (v.x * (Real.sin (v.norm / 2) / v.norm)) (v.y * (Real.sin (v.norm / 2) / v.norm))
        (v.z * (Real.sin (v.norm / 2) / v.norm))).vec
        = v.scale (Real.sin (v.norm / 2) / v.norm) := rfl
    have hnorm : (v.scale (Real.sin (v.norm / 2) / v.norm)).norm = Real.sin (v.norm / 2) := by
      rw [vector3.norm_scale v _ (le_of_lt hk)]
      field_simp
    rw [get_scaled_axis_of_pos _ hcos (by rw [hvec, hnorm]; exact hsin), hvec, hnorm]
    have hatan : Real.arctan (Real.sin (v.norm / 2) / Real.cos (v.norm / 2)) = v.norm / 2 := by
      rw [← Real.tan_eq_sin_div_cos]
      exact Real.arctan_tan (by linarith) hhi
    rw [hatan]
    apply scale_scale_eq
    field_simp
  · have h0 : v.norm = 0 := le_antisymm (not_lt.mp ha) v.norm_nonneg
    rw [v.eq_zero_of_norm_eq_zero h0, get_quaternion_of_zero, get_scaled_axis_of_identity]

/-- C9, at the vector `(1, 0, 0)`, whose norm `1` is below `π`. -/
theorem C9_scaled_axis_of_quaternion_of_scaled_axis_witness :
    (vector3.mk 1 0 0).norm < Real.pi
      ∧ get_scaled_axis_coefficients_from_quaternion
          (get_quaternion_from_scale_axis_coefficients (vector3.mk 1 0 0)) = vector3.mk 1 0 0 :=
  have hnorm : (vector3.mk 1 0 0).norm < Real.pi := by
    have h1 : (vector3.mk 1 0 0).norm = 1 := by simp [vector3.norm]
    rw [h1]
    linarith [Real.pi_gt_three]
  ⟨hnorm, C9_scaled_axis_of_quaternion_of_scaled_axis (vector3.mk 1 0 0) hnorm⟩

/-- For a unit quaternion, the squares of `w` and of the norm of the vector
part add up to one. -/
lemma sq_add_sq_of_unit (q : quaternion) (hunit : q.norm = 1) :
    q.w * q.w + q.vec.norm * q.vec.norm = 1 := by
  have h := (Real.sqrt_eq_one).mp hunit
  rw [q.vec.norm_mul_self]
  simp only [quaternion.vec]
  linarith

/-- A unit quaternion with `w ≥ 0` and rotation angle below `π` has `w > 0`. -/
lemma w_pos_of_rotation_angle_lt_pi (q : quaternion) (hunit : q.norm = 1) (hw : 0 ≤ q.w)
    (hangle : rotation_angle q < Real.pi) : 0 < q.w := by
  rcases lt_or_eq_of_le hw with hpos | hzero
  · exact hpos
  · exfalso
    have hsq := sq_add_sq_of_unit q hunit
    rw [← hzero] at hsq
    have hs : 0 < q.vec.norm := by
      rcases lt_or_eq_of_le q.vec.norm_nonneg with h | h
      · exact h
      · rw [← h] at hsq; norm_num at hsq
    have : rotation_angle q = Real.pi := by
      simp only [rotation_angle, atan2, ← hzero, lt_irrefl, if_false, hs, if_true]
      ring
    linarith

/-- C8: for every unit quaternion `q` with `w ≥ 0` and rotation angle strictly
below `π`, `get_quaternion_from_scale_axis_coefficients
(get_scaled_axis_coefficients_from_quaternion q)` equals `q` itself, hence `q` up
to sign, over the reals. -/
theorem C8_quaternion_of_scaled_axis_of_quaternion (q : quaternion) (hunit : q.norm = 1)
    (hw : 0 ≤ q.w) (hangle : rotation_angle q < Real.pi) :
    get_quaternion_from_scale_axis_coefficients
      (get_scaled_axis_coefficients_from_quaternion q) = q := by
  have hwpos := w_pos_of_rotation_angle_lt_pi q hunit hw hangle
  have hsq := sq_add_sq_of_unit q hunit
  by_cases hs : 0 < q.vec.norm
  · have hθpos : 0 < Real.arctan (q.vec.norm / q.w) := by
      have hmono := Real.arctan_strictMono (div_pos hs hwpos)
      rwa [Real.arctan_zero] at hmono
    have hroot : Real.sqrt (1 + (q.vec.norm / q.w) ^ 2) = 1 / q.w := by
      have : 1 + (q.vec.norm / q.w) ^ 2 = (1 / q.w) * (1 / q.w) := by
        field_simp
        nlinarith
      rw [this]
      exact Real.sqrt_mul_self (le_of_lt (one_div_pos.mpr hwpos))
    have hcos : Real.cos (Real.arctan (q.vec.norm / q.w)) = q.w := by
      rw [Real.cos_arctan, hroot]
      field_simp
    have hsin : Real.sin (Real.arctan (q.vec.norm / q.w)) = q.vec.norm := by
      rw [Real.sin_arctan, hroot]
      field_simp
    have hk : 0 < 2 * Real.arctan (q.vec.norm / q.w) / q.vec.norm :=
      div_pos (by linarith) hs
    have hnorm : (q.vec.scale (2 * Real.arctan (q.vec.norm / q.w) / q.vec.norm)).norm
        = 2 * Real.arctan (q.vec.norm / q.w) := by
      rw [vector3.norm_scale _ _ (le_of_lt hk)]
      field_simp
    rw [get_scaled_axis_of_pos q hwpos hs,
      get_quaternion_of_pos _ (by rw [hnorm]; linarith), hnorm]
    have hhalf : 2 * Real.arctan (q.vec.norm / q.w) / 2 = Real.arctan (q.vec.norm / q.w) := by
      ring
    rw [hhalf, hcos, hsin]
    have hne : q.vec.norm ≠ 0 := ne_of_gt hs
    have hθne : Real.arctan (q.vec.norm / q.w) ≠ 0 := ne_of_gt hθpos
    have hcancel : ∀ c : ℝ,
        c * (2 * Real.arctan (q.vec.norm / q.w) / q.vec.norm)
          * (q.vec.norm / (2 * Real.arctan (q.vec.norm / q.w))) = c := by
      intro c
      field_simp
    ext
    · rfl
    · exact hcancel q.x
    · exact hcancel q.y
    · exact hcancel q.z
  · have h0 : q.vec.norm = 0 := le_antisymm (not_lt.mp hs) q.vec.norm_nonneg
    have hvec := q.vec.eq_zero_of_norm_eq_zero h0
    rw [h0] at hsq
    have hw1 : q.w = 1 := by nlinarith
    have hq : q = ⟨1, 0, 0, 0⟩ := by
      have hx : q.x = 0 := congrArg vector3.x hvec
      have hy : q.y = 0 := congrArg vector3.y hvec
      have hz : q.z = 0 := congrArg vector3.z hvec
      ext <;> assumption
    rw [hq, get_scaled_axis_of_identity, get_quaternion_of_zero]

/-- C8, at the unit quaternion `(3/5, 4/5, 0, 0)`. -/
theorem C8_quaternion_of_scaled_axis_of_quaternion_witness :
    (quaternion.mk (3 / 5) (4 / 5) 0 0).norm = 1
      ∧ 0 ≤ (quaternion.mk (3 / 5) (4 / 5) 0 0).w
      ∧ rotation_angle (quaternion.mk (3 / 5) (4 / 5) 0 0) < Real.pi
      ∧ get_quaternion_from_scale_axis_coefficients
          (get_scaled_axis_coefficients_from_quaternion (quaternion.mk (3 / 5) (4 / 5) 0 0))
          = quaternion.mk (3 / 5) (4 / 5) 0 0 :=
  have hunit : (quaternion.mk (3 / 5) (4 / 5) 0 0).norm = 1 := by
    rw [quaternion.norm, Real.sqrt_eq_one]
    norm_num
  have hw : (0 : ℝ) ≤ (quaternion.mk (3 / 5) (4 / 5) 0 0).w := by norm_num
  have hangle : rotation_angle (quaternion.mk (3 / 5) (4 / 5) 0 0) < Real.pi := by
    have h35 : (0 : ℝ) < 3 / 5 := by norm_num
    simp only [rotation_angle, atan2, h35, if_true]
    linarith [Real.arctan_lt_pi_div_two ((quaternion.mk (3 / 5) (4 / 5) 0 0).vec.norm / (3 / 5))]
  ⟨hunit, hw, hangle,
    C8_quaternion_of_scaled_axis_of_quaternion (quaternion.mk (3 / 5) (4 / 5) 0 0) hunit hw
      hangle⟩

end pose_optimization

end rgbd_slam

/-! ## The generalized loss: theorems -/

namespace rgbd_slam

namespace pose_optimization

/-- C11: for every error `e`, every scale `s > 0` and every `alpha`,
`get_generalized_loss_estimator(e, alpha, s)` returns, with `x = e^2 / s^2`:
`(|alpha - 2| / alpha) * ((x / |alpha - 2| + 1)^(alpha / 2) - 1)` when
`alpha > 2`; `0.5 * x` when `0 < alpha <= 2`; `log(1 + 0.5 * x)` when
`-100 < alpha <= 0`; and `1 - exp(-0.5 * x)` when `alpha <= -100`. -/
theorem C11_generalized_loss_piecewise (e alpha s : ℝ) (hs : 0 < s) :
    (2 < alpha →
        get_generalized_loss_estimator e alpha s
          = some ((|alpha - 2| / alpha)
              * ((e ^ 2 / s ^ 2 / |alpha - 2| + 1) ^ (alpha / 2) - 1)))
      ∧ (0 < alpha → alpha ≤ 2 →
        get_generalized_loss_estimator e alpha s = some (0.5 * (e ^ 2 / s ^ 2)))
      ∧ (-100 < alpha → alpha ≤ 0 →
        get_generalized_loss_estimator e alpha s
          = some (Real.log (1 + 0.5 * (e ^ 2 / s ^ 2))))
      ∧ (alpha ≤ -100 →
        get_generalized_loss_estimator e alpha s
          = some (1 - Real.exp (-0.5 * (e ^ 2 / s ^ 2)))) := by
  have hx : e * e / (s * s) = e ^ 2 / s ^ 2 := by rw [pow_two, pow_two]
  have h2 : (2.0 : ℝ) = 2 := by norm_num
  refine ⟨fun h => ?_, fun h0 h2 => ?_, fun h100 h0 => ?_, fun h100 => ?_⟩
  · simp only [get_generalized_loss_estimator, generalized_loss, hs, if_true, h, hx, h2]
  · have hn : ¬ 2 < alpha := not_lt.mpr h2
    simp only [get_generalized_loss_estimator, generalized_loss, hs, if_true, hn, if_false, h0, hx]
  · have hn : ¬ 2 < alpha := by linarith
    have hn0 : ¬ 0 < alpha := not_lt.mpr h0
    simp only [get_generalized_loss_estimator, generalized_loss, hs, if_true, hn, if_false, hn0,
      h100, hx]
  · have hn : ¬ 2 < alpha := by linarith
    have hn0 : ¬ 0 < alpha := by linarith
    have hn100 : ¬ -100 < alpha := not_lt.mpr h100
    simp only [get_generalized_loss_estimator, generalized_loss, hs, if_true, hn, if_false, hn0,
      hn100, hx]

/-- C11, at the error 3, the default `alpha = 1` and the scale 2. -/
theorem C11_generalized_loss_piecewise_witness :
    (0 : ℝ) < 2 ∧ get_generalized_loss_estimator 3 1 2 = some (0.5 * ((3 : ℝ) ^ 2 / 2 ^ 2)) :=
  ⟨by norm_num, (C11_generalized_loss_piecewise 3 1 2 (by norm_num)).2.1 (by norm_num)
    (by norm_num)⟩

/-- C12 fails on the code: at `alpha = 1`, the error 1 and the scale 1,
`get_generalized_loss_estimator` returns `1 / 2`, the value of the L2 branch
taken for every `alpha` in `]0, 2]`, and not the Charbonnier loss
`sqrt((e / s)^2 + 1) - 1 = sqrt 2 - 1` that its documentation announces. -/
theorem C12_loss_at_alpha_one_is_not_charbonnier :
    get_generalized_loss_estimator 1 1 1 = some (1 / 2)
      ∧ (1 / 2 : ℝ) ≠ Real.sqrt ((1 / 1) ^ 2 + 1) - 1 := by
  constructor
  · simp [get_generalized_loss_estimator, generalized_loss]
    norm_num
  · intro h
    have h2 : Real.sqrt ((1 / 1) ^ 2 + 1) = 3 / 2 := by linarith
    have h3 : Real.sqrt ((1 / 1) ^ 2 + 1) * Real.sqrt ((1 / 1) ^ 2 + 1) = (1 / 1) ^ 2 + 1 :=
      Real.mul_self_sqrt (by norm_num)
    rw [h2] at h3
    norm_num at h3

end pose_optimization

end rgbd_slam

/-! ## The residual functor: theorems -/

namespace rgbd_slam

namespace pose_optimization

namespace Global_Pose_Estimator

/-- Writing at the position that follows the part already written replaces
the head of the rest. -/
lemma set_append_length_cons (done rest : List ℝ) (old new : ℝ) :
    (done ++ old :: rest).set done.length new = done ++ new :: rest := by
  induction done with
  | nil => rfl
  | cons a done ih => simp [List.set, ih]

/-- Reading at the position that follows the part already written gives the
head of the rest. -/
lemma getD_append_length_cons (done rest : List ℝ) (head : ℝ) :
    (done ++ head :: rest).getD done.length 0 = head := by
  induction done with
  | nil => rfl
  | cons a done ih => simpa using ih

/-- The first loop of `operator()` adds up the raw distances and writes them
over the entries of `fvec` that follow the part already written. -/
lemma distances_loop_eq (U : ProjectionExternals) (T : U.matrix44) :
    ∀ (points : List match_point) (done rest : List ℝ) (acc : ℝ),
      (∀ p ∈ points, 0 ≤ U.get_3D_to_2D_distance p._worldPoint p._screenPoint T) →
      points.length ≤ rest.length →
      distances_loop U T points done.length acc (done ++ rest)
        = some (acc + (points.map fun p =>
              U.get_3D_to_2D_distance p._worldPoint p._screenPoint T).sum,
            done ++ (points.map fun p =>
              U.get_3D_to_2D_distance p._worldPoint p._screenPoint T)
              ++ rest.drop points.length) := by
  intro points
  induction points with
  | nil => intro done rest acc _ _; simp [distances_loop]
  | cons p ps ih =>
    intro done rest acc hpos hlen
    cases rest with
    | nil => simp at hlen
    | cons r rest =>
      have hp := hpos p (List.mem_cons_self _ _)
      have hps : ∀ q ∈ ps, 0 ≤ U.get_3D_to_2D_distance q._worldPoint q._screenPoint T :=
        fun q hq => hpos q (List.mem_cons_of_mem _ hq)
      have hlen1 : ps.length ≤ rest.length := by simpa using hlen
      have hstep := ih (done ++ [U.get_3D_to_2D_distance p._worldPoint p._screenPoint T]) rest
        (acc + U.get_3D_to_2D_distance p._worldPoint p._screenPoint T) hps hlen1
      simp only [List.length_append, List.length_singleton, List.append_assoc,
        List.singleton_append] at hstep
      simp [distances_loop, hp, set_append_length_cons, hstep, add_assoc]

/-- The second loop of `operator()` replaces each of the remaining entries by
its weighted loss. -/
lemma scores_loop_eq (self : Global_Pose_Estimator) (mean : ℝ) (hscale : 0 < self._lossScale) :
    ∀ (rest done : List ℝ),
      scores_loop self mean rest.length done.length (done ++ rest)
        = some (done ++ rest.map fun d =>
            self._pointErrorMultiplier
              * generalized_loss (d * d / mean) self._lossAlpha self._lossScale) := by
  intro rest
  induction rest with
  | nil => intro done; simp [scores_loop]
  | cons r rest ih =>
    intro done
    have hstep := ih (done ++ [self._pointErrorMultiplier
      * generalized_loss (r * r / mean) self._lossAlpha self._lossScale])
    simp only [List.length_append, List.length_singleton, List.append_assoc,
      List.singleton_append] at hstep
    simp only [List.length_cons, scores_loop, getD_append_length_cons,
      get_generalized_loss_estimator, hscale, if_true, set_append_length_cons, hstep,
      List.map_cons]

/-- What `operator()` computes for a functor with a positive loss scale, a
parameter vector of six entries and an output vector of the right length, when
no raw distance is negative. -/
lemma call_eq (U : ProjectionExternals) (self : Global_Pose_Estimator) (x fvec : List ℝ)
    (hscale : 0 < self._lossScale) (hpoints : self._points.isEmpty = false)
    (hx : x.length = 6) (hfvec : fvec.length = self._points.length)
    (hpos : ∀ p ∈ self._points,
      0 ≤ U.get_3D_to_2D_distance p._worldPoint p._screenPoint (candidate_transform U x)) :
    call U self x fvec
      = some (0,
          if 0 < (self._points.map fun p => U.get_3D_to_2D_distance p._worldPoint
                p._screenPoint (candidate_transform U x)).sum / (self._points.length : ℝ) then
            self._points.map fun p =>
              self._pointErrorMultiplier * generalized_loss
                (U.get_3D_to_2D_distance p._worldPoint p._screenPoint (candidate_transform U x)
                    * U.get_3D_to_2D_distance p._worldPoint p._screenPoint
                        (candidate_transform U x)
                  / ((self._points.map fun p => U.get_3D_to_2D_distance p._worldPoint
                        p._screenPoint (candidate_transform U x)).sum
                      / (self._points.length : ℝ)))
                self._lossAlpha self._lossScale
          else
            self._points.map fun p =>
              U.get_3D_to_2D_distance p._worldPoint p._screenPoint (candidate_transform U x)) := by
  have hloop := distances_loop_eq U (candidate_transform U x) self._points [] fvec 0 hpos
    (le_of_eq hfvec.symm)
  simp only [List.length_nil, List.nil_append, zero_add, ← hfvec, List.drop_length,
    List.append_nil] at hloop
  have hsum : 0 ≤ (self._points.map fun p => U.get_3D_to_2D_distance p._worldPoint
      p._screenPoint (candidate_transform U x)).sum :=
    List.sum_nonneg (by
      intro d hd
      obtain ⟨p, hp, rfl⟩ := List.mem_map.mp hd
      exact hpos p hp)
  have hmean : 0 ≤ (self._points.map fun p => U.get_3D_to_2D_distance p._worldPoint
      p._screenPoint (candidate_transform U x)).sum / (self._points.length : ℝ) :=
    div_nonneg hsum (Nat.cast_nonneg _)
  have hscores := scores_loop_eq self
    ((self._points.map fun p => U.get_3D_to_2D_distance p._worldPoint
      p._screenPoint (candidate_transform U x)).sum / (self._points.length : ℝ)) hscale
    (self._points.map fun p => U.get_3D_to_2D_distance p._worldPoint
      p._screenPoint (candidate_transform U x)) []
  simp only [List.length_map, List.length_nil, List.nil_append, List.map_map] at hscores
  simp only [call, hpoints, hx, hfvec, and_self, if_true, residuals_for_transform, hloop, hmean]
  split_ifs with h
  · rw [hscores]
    rfl
  · rfl

/-- The loop of the scores does not read `_rotation` and `_position`. -/
lemma scores_loop_update (self : Global_Pose_Estimator) (q : quaternion) (t : vector3)
    (mean : ℝ) :
    ∀ (remaining i : Nat) (fvec : List ℝ),
      scores_loop { self with _rotation := q, _position := t } mean remaining i fvec
        = scores_loop self mean remaining i fvec := by
  intro remaining
  induction remaining with
  | zero => intro i fvec; rfl
  | succ k ih =>
    intro i fvec
    simp only [scores_loop]
    cases get_generalized_loss_estimator (fvec.getD i 0 * fvec.getD i 0 / mean)
        self._lossAlpha self._lossScale with
    | none => rfl
    | some w => exact ih _ _

/-- A list of non-negative reals whose sum is zero holds only zeros. -/
lemma eq_zero_of_sum_eq_zero :
    ∀ (l : List ℝ), (∀ d ∈ l, 0 ≤ d) → l.sum = 0 → ∀ d ∈ l, d = 0 := by
  intro l
  induction l with
  | nil => intro _ _ d hd; simp at hd
  | cons a l ih =>
    intro hpos hsum d hd
    have ha := hpos a (List.mem_cons_self _ _)
    have hl : ∀ d ∈ l, 0 ≤ d := fun d hd => hpos d (List.mem_cons_of_mem _ hd)
    have hls := List.sum_nonneg hl
    rw [List.sum_cons] at hsum
    rcases List.mem_cons.mp hd with rfl | hmem
    · linarith
    · exact ih hl (by linarith) d hmem

/-- C13: for every parameter vector `x` of six entries and every non-empty
list of `N` matches whose raw reprojection distances `d_i` are not negative,
with mean `m`, `operator()` of a functor built by the constructor returns 0 and
writes a residual vector of length `N` with
`f_i = sqrt(pointErrorMultiplier / N) * loss(d_i^2 / m; lossAlpha, lossScale)`
when `m > 0`, and `f_i = 0` for every `i` when `m = 0`. -/
theorem C13_residuals_of_operator (U : ProjectionExternals) (n : Nat)
    (points : List match_point) (worldPosition : vector3) (worldRotation : quaternion)
    (self : Global_Pose_Estimator) (x fvec : List ℝ)
    (hcreate : create U n points worldPosition worldRotation = some self)
    (hx : x.length = 6) (hfvec : fvec.length = points.length)
    (hpos : ∀ p ∈ points, 0 ≤ raw_distance U (candidate_transform U x) p) :
    points ≠ []
      ∧ call U self x fvec
        = some (0, points.map fun p =>
            if 0 < mean_of_distances U (candidate_transform U x) points then
              Real.sqrt (U.point_error_multiplier / (points.length : ℝ))
                * generalized_loss
                    (raw_distance U (candidate_transform U x) p ^ 2
                      / mean_of_distances U (candidate_transform U x) points)
                    U.point_loss_alpha U.point_loss_scale
            else 0) := by
  simp only [create] at hcreate
  split_ifs at hcreate with hok
  obtain ⟨hscale, _, hne⟩ := hok
  have hself := Option.some.inj hcreate
  subst hself
  refine ⟨by intro h; simp [h] at hne, ?_⟩
  have hfun : raw_distance U (candidate_transform U x)
      = fun p => U.get_3D_to_2D_distance p._worldPoint p._screenPoint
          (candidate_transform U x) := rfl
  rw [call_eq U _ x fvec hscale hne hx hfvec hpos]
  simp only [mean_of_distances, hfun] at hpos ⊢
  split_ifs with hm
  · simp only [pow_two]
  · congr 2
    apply List.map_congr_left
    intro p hp
    have hsum0 : 0 ≤ (points.map fun p => U.get_3D_to_2D_distance p._worldPoint
        p._screenPoint (candidate_transform U x)).sum :=
      List.sum_nonneg (by
        intro d hd
        obtain ⟨q, hq, rfl⟩ := List.mem_map.mp hd
        exact hpos q hq)
    have hlen : (0 : ℝ) < (points.length : ℝ) := by
      have : points.length ≠ 0 := by
        intro h
        simp [List.length_eq_zero.mp h] at hne
      exact Nat.cast_pos.mpr (Nat.pos_of_ne_zero this)
    have hsum : (points.map fun p => U.get_3D_to_2D_distance p._worldPoint
        p._screenPoint (candidate_transform U x)).sum = 0 := by
      by_contra hne0
      exact hm (div_pos (lt_of_le_of_ne hsum0 (Ne.symm hne0)) hlen)
    exact eq_zero_of_sum_eq_zero _ (by
      intro d hd
      obtain ⟨q, hq, rfl⟩ := List.mem_map.mp hd
      exact hpos q hq) hsum _ (List.mem_map.mpr ⟨p, hp, rfl⟩)

/-- The toy functor is the one the constructor builds. -/
lemma create_toyEstimator :
    create toyProjection 6 toyMatches ⟨1, 0, 0⟩ ⟨1, 0, 0, 0⟩ = some toyEstimator := by
  simp [create, toyProjection, toyMatches, toyEstimator]

/-- The transformation matrix of the zero parameter vector is that of the pose
with zero translation and identity rotation. -/
lemma candidate_transform_zero (U : ProjectionExternals) :
    candidate_transform U [0, 0, 0, 0, 0, 0]
      = U.compute_world_to_camera_transform ⟨1, 0, 0, 0⟩ ⟨0, 0, 0⟩ := by
  simp [candidate_transform, get_quaternion_from_scale_axis_coefficients, vector3.norm]

/-- C13, on the toy functor with one match at the zero parameter vector. -/
theorem C13_residuals_of_operator_witness :
    create toyProjection 6 toyMatches ⟨1, 0, 0⟩ ⟨1, 0, 0, 0⟩ = some toyEstimator
      ∧ (∀ p ∈ toyMatches,
          0 ≤ raw_distance toyProjection
            (candidate_transform toyProjection [0, 0, 0, 0, 0, 0]) p)
      ∧ call toyProjection toyEstimator [0, 0, 0, 0, 0, 0] [0]
        = some (0, toyMatches.map fun p =>
            if 0 < mean_of_distances toyProjection
                (candidate_transform toyProjection [0, 0, 0, 0, 0, 0]) toyMatches then
              Real.sqrt (toyProjection.point_error_multiplier / (toyMatches.length : ℝ))
                * generalized_loss
                    (raw_distance toyProjection
                        (candidate_transform toyProjection [0, 0, 0, 0, 0, 0]) p ^ 2
                      / mean_of_distances toyProjection
                          (candidate_transform toyProjection [0, 0, 0, 0, 0, 0]) toyMatches)
                    toyProjection.point_loss_alpha toyProjection.point_loss_scale
            else 0) :=
  have hpos : ∀ p ∈ toyMatches,
      0 ≤ raw_distance toyProjection
        (candidate_transform toyProjection [0, 0, 0, 0, 0, 0]) p := by
    intro p _
    exact abs_nonneg _
  ⟨create_toyEstimator, hpos,
    (C13_residuals_of_operator toyProjection 6 toyMatches ⟨1, 0, 0⟩ ⟨1, 0, 0, 0⟩ toyEstimator
      [0, 0, 0, 0, 0, 0] [0] create_toyEstimator rfl rfl hpos).2⟩

/-- C14 as stated fails: the toy functor is built with the predicted position
`(1, 0, 0)`, for which the raw distance of its match is 0; at `x = 0`
`operator()` writes the residual `1 / 2`, the one of the pose with zero
translation, and not the residual 0 of the predicted pose. -/
theorem C14_candidate_pose_counterexample :
    create toyProjection 6 toyMatches ⟨1, 0, 0⟩ ⟨1, 0, 0, 0⟩ = some toyEstimator
      ∧ call toyProjection toyEstimator [0, 0, 0, 0, 0, 0] [0] = some (0, [1 / 2])
      ∧ residuals_for_transform toyProjection toyEstimator
          (toyProjection.compute_world_to_camera_transform toyEstimator._rotation
            toyEstimator._position) [0] = some (0, [0])
      ∧ ([1 / 2] : List ℝ) ≠ [0] := by
  refine ⟨create_toyEstimator, ?_, ?_, by norm_num⟩
  · simp [call, candidate_transform_zero, residuals_for_transform, distances_loop, scores_loop,
      get_generalized_loss_estimator, generalized_loss, toyProjection, toyEstimator, toyMatches]
    norm_num
  · simp [residuals_for_transform, distances_loop, scores_loop, toyProjection, toyEstimator,
      toyMatches]

/-- C14, amended: the result of `operator()` does not depend on the position
and rotation given at construction; the residuals are those of the pose whose
translation is `x(0..2)` and whose rotation is the quaternion of the scaled
axis `x(3..5)`, so that at `x = 0` they are those of the pose with zero
translation and identity rotation. -/
theorem C14_candidate_pose_is_parameter_vector (U : ProjectionExternals)
    (self : Global_Pose_Estimator) (q : quaternion) (t : vector3) (x fvec : List ℝ) :
    call U { self with _rotation := q, _position := t } x fvec = call U self x fvec
      ∧ call U self x fvec
        = (if self._points.isEmpty = false ∧ x.length = 6 ∧ fvec.length = self._points.length
            then
              residuals_for_transform U self
                (U.compute_world_to_camera_transform
                  (get_quaternion_from_scale_axis_coefficients
                    ⟨x.getD 3 0, x.getD 4 0, x.getD 5 0⟩)
                  ⟨x.getD 0 0, x.getD 1 0, x.getD 2 0⟩) fvec
            else none)
      ∧ candidate_transform U [0, 0, 0, 0, 0, 0]
        = U.compute_world_to_camera_transform ⟨1, 0, 0, 0⟩ ⟨0, 0, 0⟩ := by
  refine ⟨?_, rfl, candidate_transform_zero U⟩
  simp only [call, residuals_for_transform, scores_loop_update]

end Global_Pose_Estimator

end pose_optimization

end rgbd_slam

/-! ## Similarity of shape primitives: theorems -/

namespace rgbd_slam

namespace features

namespace primitives

/-- With non-empty masks of equal size `get_IOU` returns the ratio of the
pixel counts. -/
lemma get_IOU_eq (shapeMask : Mat Nat) (prim : Primitive)
    (hself : shapeMask.empty = false) (hprim : prim._shapeMask.empty = false)
    (hrows : shapeMask.rows = prim._shapeMask.rows)
    (hcols : shapeMask.cols = prim._shapeMask.cols) :
    Primitive.get_IOU shapeMask prim = some (Primitive.IOU_of_masks shapeMask prim._shapeMask) := by
  simp [Primitive.get_IOU, hself, hprim, hrows, hcols]

/-- The answer of `Plane::is_similar` for a plane, once the IoU is known. -/
lemma plane_is_similar_plane (P : SimilarityParameters) (self p : Plane) (iou : ℚ)
    (hiou : Primitive.get_IOU self._shapeMask (Primitive.plane p) = some iou) :
    Plane.is_similar P self (Primitive.plane p)
      = some (decide (P.minimum_iou_for_match ≤ iou
          ∧ P.minimum_normals_dot_difference < (self._normal.dot p._normal + 1) / 2)) := by
  by_cases hlow : iou < P.minimum_iou_for_match
  · simp [Plane.is_similar, Primitive.get_primitive_type, hiou, hlow, not_le.mpr hlow]
  · simp [Plane.is_similar, Primitive.get_primitive_type, hiou, hlow, not_lt.mp hlow]

/-- The answer of `Plane::is_similar` for a cylinder is `false`. -/
lemma plane_is_similar_cylinder (P : SimilarityParameters) (self : Plane) (c : Cylinder)
    (iou : ℚ) (hiou : Primitive.get_IOU self._shapeMask (Primitive.cylinder c) = some iou) :
    Plane.is_similar P self (Primitive.cylinder c) = some false := by
  by_cases hlow : iou < P.minimum_iou_for_match
  · simp [Plane.is_similar, Primitive.get_primitive_type, hiou, hlow]
  · simp [Plane.is_similar, Primitive.get_primitive_type, hiou, hlow]

/-- The answer of `Cylinder::is_similar` for a cylinder, once the IoU is
known. -/
lemma cylinder_is_similar_cylinder (P : SimilarityParameters) (self c : Cylinder) (iou : ℚ)
    (hiou : Primitive.get_IOU self._shapeMask (Primitive.cylinder c) = some iou) :
    Cylinder.is_similar P self (Primitive.cylinder c)
      = some (decide (P.minimum_iou_for_match ≤ iou
          ∧ P.minimum_normals_dot_difference < |self._normal.dot c._normal|)) := by
  by_cases hlow : iou < P.minimum_iou_for_match
  · simp [Cylinder.is_similar, Primitive.get_primitive_type, hiou, hlow, not_le.mpr hlow]
  · simp [Cylinder.is_similar, Primitive.get_primitive_type, hiou, hlow, not_lt.mp hlow]

/-- The answer of `Cylinder::is_similar` for a plane is `false`. -/
lemma cylinder_is_similar_plane (P : SimilarityParameters) (self : Cylinder) (p : Plane)
    (iou : ℚ) (hiou : Primitive.get_IOU self._shapeMask (Primitive.plane p) = some iou) :
    Cylinder.is_similar P self (Primitive.plane p) = some false := by
  by_cases hlow : iou < P.minimum_iou_for_match
  · simp [Cylinder.is_similar, Primitive.get_primitive_type, hiou, hlow]
  · simp [Cylinder.is_similar, Primitive.get_primitive_type, hiou, hlow]

/-- C16: for primitives with non-empty masks of equal size,
`Plane::is_similar(p)` returns, and returns true exactly when `p` is a plane,
the IoU of the two masks is at least `minimumIoU` and
`(n1.n2 + 1) / 2 > minNormalsDot`; `Cylinder::is_similar(p)` returns, and
returns true exactly when `p` is a cylinder, the IoU is at least `minimumIoU`
and `|n1.n2| > minNormalsDot`; the similarity of a plane and a cylinder is
false in both directions. -/
theorem C16_is_similar (P : SimilarityParameters) (plane : Plane) (cylinder : Cylinder)
    (prim : Primitive)
    (hprim : prim._shapeMask.empty = false)
    (hplane : plane._shapeMask.empty = false)
    (hplaneRows : plane._shapeMask.rows = prim._shapeMask.rows)
    (hplaneCols : plane._shapeMask.cols = prim._shapeMask.cols)
    (hcylinder : cylinder._shapeMask.empty = false)
    (hcylinderRows : cylinder._shapeMask.rows = prim._shapeMask.rows)
    (hcylinderCols : cylinder._shapeMask.cols = prim._shapeMask.cols) :
    (∃ answer, Plane.is_similar P plane prim = some answer
        ∧ (answer = true ↔
            ∃ p, prim = Primitive.plane p
              ∧ P.minimum_iou_for_match
                  ≤ Primitive.IOU_of_masks plane._shapeMask p._shapeMask
              ∧ P.minimum_normals_dot_difference < (plane._normal.dot p._normal + 1) / 2))
      ∧ (∃ answer, Cylinder.is_similar P cylinder prim = some answer
        ∧ (answer = true ↔
            ∃ c, prim = Primitive.cylinder c
              ∧ P.minimum_iou_for_match
                  ≤ Primitive.IOU_of_masks cylinder._shapeMask c._shapeMask
              ∧ P.minimum_normals_dot_difference < |cylinder._normal.dot c._normal|))
      ∧ (∀ c, prim = Primitive.cylinder c → Plane.is_similar P plane prim = some false)
      ∧ (∀ p, prim = Primitive.plane p → Cylinder.is_similar P cylinder prim = some false) := by
  have hiouP := get_IOU_eq plane._shapeMask prim hplane hprim hplaneRows hplaneCols
  have hiouC := get_IOU_eq cylinder._shapeMask prim hcylinder hprim hcylinderRows hcylinderCols
  cases prim with
  | plane p =>
    refine ⟨⟨_, plane_is_similar_plane P plane p _ hiouP, ?_⟩,
      ⟨_, cylinder_is_similar_plane P cylinder p _ hiouC, ?_⟩,
      fun c hc => (by cases hc), fun q _ => cylinder_is_similar_plane P cylinder p _ hiouC⟩
    · simp only [decide_eq_true_eq, Primitive._shapeMask]
      constructor
      · intro h; exact ⟨p, rfl, h⟩
      · rintro ⟨q, hq, h⟩; cases hq; exact h
    · simp
  | cylinder c =>
    refine ⟨⟨_, plane_is_similar_cylinder P plane c _ hiouP, ?_⟩,
      ⟨_, cylinder_is_similar_cylinder P cylinder c _ hiouC, ?_⟩,
      fun q _ => plane_is_similar_cylinder P plane c _ hiouP, fun p hp => (by cases hp)⟩
    · simp
    · simp only [decide_eq_true_eq, Primitive._shapeMask]
      constructor
      · intro h; exact ⟨c, rfl, h⟩
      · rintro ⟨q, hq, h⟩; cases hq; exact h

/-- C16, on the toy plane and the toy cylinder. -/
theorem C16_is_similar_witness :
    (Primitive.plane toyPlane)._shapeMask.empty = false
      ∧ toyPlane._shapeMask.rows = (Primitive.plane toyPlane)._shapeMask.rows
      ∧ toyCylinder._shapeMask.rows = (Primitive.plane toyPlane)._shapeMask.rows
      ∧ (∃ answer,
          Plane.is_similar toySimilarityParameters toyPlane (Primitive.plane toyPlane)
              = some answer
            ∧ (answer = true ↔
                ∃ p, Primitive.plane toyPlane = Primitive.plane p
                  ∧ toySimilarityParameters.minimum_iou_for_match
                      ≤ Primitive.IOU_of_masks toyPlane._shapeMask p._shapeMask
                  ∧ toySimilarityParameters.minimum_normals_dot_difference
                      < (toyPlane._normal.dot p._normal + 1) / 2))
      ∧ Cylinder.is_similar toySimilarityParameters toyCylinder (Primitive.plane toyPlane)
          = some false :=
  ⟨rfl, rfl, rfl,
    (C16_is_similar toySimilarityParameters toyPlane toyCylinder (Primitive.plane toyPlane)
      rfl rfl rfl rfl rfl rfl rfl).1,
    (C16_is_similar toySimilarityParameters toyPlane toyCylinder (Primitive.plane toyPlane)
      rfl rfl rfl rfl rfl rfl rfl).2.2.2 toyPlane rfl⟩

end primitives

end features

end rgbd_slam

/-! ## Identifiers of the map primitives: theorems -/

namespace rgbd_slam

namespace map_management

/-- As long as the static counter does not wrap, successive constructions
receive successive identifiers. -/
lemma construct_all_ids {P : Type} :
    ∀ (arguments : List (P × (Nat × Nat × Nat))) (currentPrimitiveId : Nat),
      currentPrimitiveId + arguments.length ≤ 2 ^ 64 →
      (construct_all currentPrimitiveId arguments).1.map (fun primitive => primitive._id)
        = List.range' currentPrimitiveId arguments.length := by
  intro arguments
  induction arguments with
  | nil => intro c _; rfl
  | cons argument arguments ih =>
    intro c hc
    simp only [construct_all, Primitive.create, List.map_cons, List.length_cons, List.range'_succ]
    congr 1
    cases arguments with
    | nil => rfl
    | cons next arguments =>
      have hlt : c + 1 < 2 ^ 64 := by
        simp only [List.length_cons] at hc
        omega
      rw [Nat.mod_eq_of_lt hlt]
      exact ih (c + 1) (by simp only [List.length_cons] at hc ⊢; omega)

/-- C17: for every sequence of constructions of `map_management::Primitive`
from the start of the process (fewer than `2 ^ 64` of them, the range of the
`size_t` counter), the `k`-th constructed primitive (counting from 0 here)
receives the identifier `k + 1`; the identifiers are strictly increasing in
construction order, pairwise distinct and never 0, the unmatched identifier; a
default `MatchedPrimitive` is unmatched, and `is_matched` is true exactly when
the match identifier is not zero. -/
theorem C17_primitive_ids {P : Type} (arguments : List (P × (Nat × Nat × Nat)))
    (hlength : arguments.length < 2 ^ 64) :
    (construct_all initial_currentPrimitiveId arguments).1.length = arguments.length
      ∧ (∀ k, k < arguments.length →
          (((construct_all initial_currentPrimitiveId arguments).1.map
            fun primitive => primitive._id).getD k 0) = k + 1)
      ∧ ((construct_all initial_currentPrimitiveId arguments).1.map
          fun primitive => primitive._id).Pairwise (· < ·)
      ∧ ((construct_all initial_currentPrimitiveId arguments).1.map
          fun primitive => primitive._id).Nodup
      ∧ (∀ primitive ∈ (construct_all initial_currentPrimitiveId arguments).1,
          primitive._id ≠ UNMATCHED_PRIMITIVE_ID)
      ∧ MatchedPrimitive.create.is_matched = false
      ∧ ∀ m : MatchedPrimitive, m.is_matched = true ↔ m._matchId ≠ 0 := by
  have hids := construct_all_ids arguments initial_currentPrimitiveId
    (by simp only [initial_currentPrimitiveId]; omega)
  have hlen : (construct_all initial_currentPrimitiveId arguments).1.length
      = arguments.length := by
    have := congrArg List.length hids
    simpa using this
  refine ⟨hlen, ?_, ?_, ?_, ?_, rfl, ?_⟩
  · intro k hk
    rw [hids, List.getD_eq_getElem _ _ (by simpa using hk), List.getElem_range']
    simp only [initial_currentPrimitiveId]
    omega
  · rw [hids]
    exact List.pairwise_lt_range' _ _
  · rw [hids]
    exact List.nodup_range' _ _
  · intro primitive hmem
    have hin : primitive._id ∈ List.range' initial_currentPrimitiveId arguments.length := by
      rw [← hids]
      exact List.mem_map.mpr ⟨primitive, hmem, rfl⟩
    rw [List.mem_range'_1] at hin
    simp only [initial_currentPrimitiveId, UNMATCHED_PRIMITIVE_ID] at hin ⊢
    omega
  · intro m
    simp [MatchedPrimitive.is_matched, UNMATCHED_PRIMITIVE_ID]

/-- C17, on three constructions. -/
theorem C17_primitive_ids_witness :
    ([((), (3, 5, 7)), ((), (300, 2, 1)), ((), (0, 0, 0))] : List (Unit × (Nat × Nat × Nat))).length
        < 2 ^ 64
      ∧ ((construct_all initial_currentPrimitiveId
            ([((), (3, 5, 7)), ((), (300, 2, 1)), ((), (0, 0, 0))] :
              List (Unit × (Nat × Nat × Nat)))).1.map
          fun primitive => primitive._id).Pairwise (· < ·) :=
  ⟨by decide,
    (C17_primitive_ids
      ([((), (3, 5, 7)), ((), (300, 2, 1)), ((), (0, 0, 0))] : List (Unit × (Nat × Nat × Nat)))
      (by decide)).2.2.1⟩

end map_management

end rgbd_slam

/-! ## The RGB-D driver: theorems -/

namespace rgbd_slam

namespace RGBD_SLAM

variable {E : SlamExternals}

/-- The recorded flags of two histories put end to end. -/
lemma redetect_flags_append (a b : List SlamCall) :
    redetect_flags (a ++ b) = redetect_flags a ++ redetect_flags b := by
  induction a with
  | nil => rfl
  | cons call a ih => cases call <;> simp [redetect_flags, ih]

/-- The counter and the recorded flags after one call of `compute_new_pose`. -/
lemma compute_new_pose_counter (s : RGBD_SLAM E) (grayImage depthImage : E.Mat)
    (cloud : E.MatrixXf) :
    (compute_new_pose s grayImage depthImage cloud).2._computeKeypointCount
        = (if s._computeKeypointCount % E.get_keypoint_refresh_frequency = 0 then 0
            else s._computeKeypointCount) + 1
      ∧ redetect_flags (compute_new_pose s grayImage depthImage cloud).2.calls
        = redetect_flags s.calls
            ++ [decide (s._computeKeypointCount % E.get_keypoint_refresh_frequency = 0)]
      ∧ (compute_new_pose s grayImage depthImage cloud).2._width = s._width
      ∧ (compute_new_pose s grayImage depthImage cloud).2._height = s._height := by
  simp only [compute_new_pose]
  split_ifs <;> simp_all [redetect_flags_append, redetect_flags]

/-- The counter and the recorded flags after one call of `track`. -/
lemma track_counter (s s1 : RGBD_SLAM E) (rgb depth : E.Mat) (detectLines : Bool) (pose : E.Pose)
    (h : track s rgb depth detectLines = some (pose, s1)) :
    s1._computeKeypointCount
        = (if s._computeKeypointCount % E.get_keypoint_refresh_frequency = 0 then 0
            else s._computeKeypointCount) + 1
      ∧ redetect_flags s1.calls
        = redetect_flags s.calls
            ++ [decide (s._computeKeypointCount % E.get_keypoint_refresh_frequency = 0)] := by
  simp only [track] at h
  split_ifs at h with hsize hlines
  all_goals
    simp only [Option.some.injEq, Prod.mk.injEq] at h
    obtain ⟨_, rfl⟩ := h
    constructor
    · show (compute_new_pose _ _ _ _).2._computeKeypointCount = _
      rw [(compute_new_pose_counter _ _ _ _).1]
    · show redetect_flags ((compute_new_pose _ _ _ _).2.calls ++ [SlamCall.update_model]) = _
      rw [redetect_flags_append, (compute_new_pose_counter _ _ _ _).2.1]
      simp [redetect_flags, redetect_flags_append]

/-- The value of the counter after `k` calls: zero before the first call, and
then between 1 and the refresh frequency. -/
lemma counter_step (f k : Nat) (hf : 1 ≤ f) :
    (if (if k = 0 then 0 else (k - 1) % f + 1) % f = 0 then 0
        else (if k = 0 then 0 else (k - 1) % f + 1)) + 1
      = k % f + 1
    ∧ ((if k = 0 then 0 else (k - 1) % f + 1) % f = 0 ↔ k % f = 0) := by
  rcases Nat.eq_zero_or_pos k with rfl | hk
  · simp
  · have hk0 : k ≠ 0 := by omega
    have hmod : ((k - 1) % f + 1) % f = k % f := by
      rw [Nat.mod_add_mod]
      congr 1
      omega
    have hlt : (k - 1) % f < f := Nat.mod_lt _ (by omega)
    simp only [hk0, if_false, hmod, iff_self, and_true]
    split_ifs with h0
    · rw [h0]
    · have hne : (k - 1) % f + 1 ≠ f := by
        intro heq
        rw [heq, Nat.mod_self] at hmod
        exact h0 hmod.symm
      have hlt2 : (k - 1) % f + 1 < f := by omega
      rw [Nat.mod_eq_of_lt hlt2] at hmod
      omega

/-- After `k` calls of `track` the counter and the recorded flags are those of
a counter that redetects at the calls whose rank is a multiple of the refresh
frequency. -/
lemma track_all_counter (hf : 1 ≤ E.get_keypoint_refresh_frequency) :
    ∀ (frames : List (E.Mat × E.Mat × Bool)) (s s1 : RGBD_SLAM E) (k : Nat),
      s._computeKeypointCount
          = (if k = 0 then 0 else (k - 1) % E.get_keypoint_refresh_frequency + 1) →
      track_all s frames = some s1 →
      redetect_flags s1.calls
        = redetect_flags s.calls
            ++ (List.range' k frames.length).map
                fun j => decide (j % E.get_keypoint_refresh_frequency = 0) := by
  intro frames
  induction frames with
  | nil =>
    intro s s1 k _ h
    simp only [track_all, Option.some.injEq] at h
    subst h
    simp
  | cons frame frames ih =>
    intro s s1 k hcount h
    simp only [track_all] at h
    cases htrack : track s frame.1 frame.2.1 frame.2.2 with
    | none => simp [htrack] at h
    | some result =>
      obtain ⟨pose, s2⟩ := result
      simp only [htrack] at h
      obtain ⟨hc, hflags⟩ := track_counter s s2 _ _ _ pose htrack
      obtain ⟨hstep, hiff⟩ := counter_step E.get_keypoint_refresh_frequency k hf
      rw [hcount] at hc hflags
      rw [hstep] at hc
      have hnext := ih s2 s1 (k + 1) (by simpa using hc) h
      rw [hnext, hflags]
      simp only [hiff, List.length_cons, List.range'_succ, List.map_cons, List.append_assoc,
        List.singleton_append]

/-- C18: for every keypoint refresh frequency `f >= 1`, after any number of
calls of `track` on an object just constructed, the `k`-th call of
`compute_new_pose` (counting from 0) has asked the keypoint extractor to
redetect exactly when `k mod f = 0`. -/
theorem C18_redetect_every_refresh_frequency
    (hf : 1 ≤ E.get_keypoint_refresh_frequency) (startPose : E.Pose)
    (imageWidth imageHeight : Nat) (members : E.Members) (s0 s : RGBD_SLAM E)
    (frames : List (E.Mat × E.Mat × Bool))
    (hcreate : create startPose imageWidth imageHeight members = some s0)
    (hrun : track_all s0 frames = some s) :
    redetect_flags s.calls
      = (List.range frames.length).map
          fun k => decide (k % E.get_keypoint_refresh_frequency = 0) := by
  simp only [create] at hcreate
  split_ifs at hcreate
  have hs0 := Option.some.inj hcreate
  subst hs0
  have h := track_all_counter hf frames _ s 0 rfl hrun
  rw [h, List.range_eq_range']
  simp [redetect_flags]

/-- C18, on four frames of the toy driver, with the frequency 3. -/
theorem C18_redetect_every_refresh_frequency_witness :
    1 ≤ toySlamExternals.get_keypoint_refresh_frequency
      ∧ @create toySlamExternals (0 : Int) 2 2 () = some toySlamInitial
      ∧ track_all toySlamInitial toySlamFrames = some toySlamFinal
      ∧ redetect_flags toySlamFinal.calls
        = (List.range toySlamFrames.length).map
            fun k => decide (k % toySlamExternals.get_keypoint_refresh_frequency = 0) :=
  ⟨by decide, rfl, rfl,
    @C18_redetect_every_refresh_frequency toySlamExternals (by decide) (0 : Int) 2 2 ()
      toySlamInitial toySlamFinal toySlamFrames rfl rfl⟩

/-- C19 as stated fails: on the toy driver the optimizer is run, reports a
failure and gives the pose 100, and `compute_new_pose` returns the pose 1
predicted by the motion model, not the pose of the optimizer. -/
theorem C19_failed_optimization_counterexample :
    toySlamRunning._computeKeypointCount ≠ 0
      ∧ toySlamExternals.get_minimum_point_count_for_optimization
          ≤ toySlamExternals.matches_size
              (matching toySlamRunning (7 : Nat) (7 : Nat) ()).2.2
      ∧ (optimization toySlamRunning (7 : Nat) (7 : Nat) ()).1 = false
      ∧ (optimization toySlamRunning (7 : Nat) (7 : Nat) ()).2.1 = (100 : Int)
      ∧ (compute_new_pose toySlamRunning (7 : Nat) (7 : Nat) ()).1 = (1 : Int)
      ∧ (compute_new_pose toySlamRunning (7 : Nat) (7 : Nat) ()).1
          ≠ (optimization toySlamRunning (7 : Nat) (7 : Nat) ()).2.1 := by
  decide

/-- C19, amended: whenever the optimizer is run and `compute_optimized_pose`
returns false, `compute_new_pose` returns the pose predicted by the motion
model, the pose computed by the optimizer is dropped, and `LocalMap::update`
is not called for that frame. -/
theorem C19_failed_optimization_keeps_predicted_pose (s : RGBD_SLAM E)
    (grayImage depthImage : E.Mat) (cloud : E.MatrixXf)
    (hcount : s._computeKeypointCount ≠ 0)
    (henough : E.get_minimum_point_count_for_optimization
      ≤ E.matches_size (matching s grayImage depthImage cloud).2.2)
    (hfail : (optimization s grayImage depthImage cloud).1 = false) :
    (compute_new_pose s grayImage depthImage cloud).1
        = (matching s grayImage depthImage cloud).2.1
      ∧ (compute_new_pose s grayImage depthImage cloud).2.calls
        = s.calls ++ [SlamCall.predict_next_pose, SlamCall.get_tracked_keypoints_features,
            SlamCall.compute_keypoints
              (decide (s._computeKeypointCount % E.get_keypoint_refresh_frequency = 0)),
            SlamCall.find_primitives, SlamCall.find_keypoint_matches,
            SlamCall.find_primitive_matches, SlamCall.compute_optimized_pose]
      ∧ SlamCall.localMap_update ∉
          (compute_new_pose s grayImage depthImage cloud).2.calls.drop s.calls.length := by
  simp only [matching, optimization] at henough hfail
  have hcalls : (compute_new_pose s grayImage depthImage cloud).2.calls
      = s.calls ++ [SlamCall.predict_next_pose, SlamCall.get_tracked_keypoints_features,
          SlamCall.compute_keypoints
            (decide (s._computeKeypointCount % E.get_keypoint_refresh_frequency = 0)),
          SlamCall.find_primitives, SlamCall.find_keypoint_matches,
          SlamCall.find_primitive_matches, SlamCall.compute_optimized_pose] := by
    simp only [compute_new_pose, hcount, henough, hfail]
    split_ifs <;> simp_all
  refine ⟨?_, hcalls, ?_⟩
  · simp only [compute_new_pose, matching, hcount, henough, hfail]
    split_ifs <;> simp_all
  · rw [hcalls]
    simp

/-- C19 amended, on the toy driver. -/
theorem C19_failed_optimization_keeps_predicted_pose_witness :
    toySlamRunning._computeKeypointCount ≠ 0
      ∧ (optimization toySlamRunning (7 : Nat) (7 : Nat) ()).1 = false
      ∧ (compute_new_pose toySlamRunning (7 : Nat) (7 : Nat) ()).1
        = (matching toySlamRunning (7 : Nat) (7 : Nat) ()).2.1
      ∧ SlamCall.localMap_update ∉
          (compute_new_pose toySlamRunning (7 : Nat) (7 : Nat) ()).2.calls.drop
            toySlamRunning.calls.length :=
  ⟨by decide, by decide,
    (C19_failed_optimization_keeps_predicted_pose toySlamRunning (7 : Nat) (7 : Nat) () (by decide) (by decide) (by decide)).1,
    (C19_failed_optimization_keeps_predicted_pose toySlamRunning (7 : Nat) (7 : Nat) () (by decide) (by decide) (by decide)).2.2⟩

end RGBD_SLAM

end rgbd_slam

/-! ## Primitive detection: theorems -/

namespace rgbd_slam

namespace features

namespace primitives

namespace Mat

/-- A fold by `max` is at least its initial value and each element. -/
lemma foldl_max_le (l : List Nat) (init : Nat) :
    init ≤ l.foldl max init ∧ ∀ x ∈ l, x ≤ l.foldl max init := by
  induction l generalizing init with
  | nil => simp
  | cons a l ih =>
    simp only [List.foldl_cons, List.mem_cons]
    refine ⟨le_trans (le_max_left init a) (ih _).1, fun x hx => ?_⟩
    rcases hx with rfl | hx
    · exact le_trans (le_max_right init x) (ih _).1
    · exact (ih _).2 x hx

/-- Every element of a matrix is at most its greatest element. -/
lemma le_maxValue (m : Mat Nat) (r c : Nat) (hr : r < m.rows) (hc : c < m.cols) :
    m.data r c ≤ m.maxValue := by
  unfold maxValue
  have h1 : m.data r c ≤ ((List.range m.cols).map fun c => m.data r c).foldl max 0 :=
    (foldl_max_le _ 0).2 _ (List.mem_map.mpr ⟨c, List.mem_range.mpr hc, rfl⟩)
  refine le_trans h1 ((foldl_max_le _ 0).2 _ (List.mem_map.mpr ⟨r, List.mem_range.mpr hr, rfl⟩))

/-- The element of a matrix after `setTo`. -/
lemma setTo_data {α : Type} (m : Mat α) (value : α) (mask : Nat → Nat → Bool) (r c : Nat) :
    (m.setTo value mask).data r c = if mask r c then value else m.data r c := rfl

/-- One step of the erosion does not increase the value. -/
lemma ite_min_le (p : Prop) [Decidable p] (v x : Nat) : (if p then min v x else v) ≤ v := by
  split_ifs
  · exact min_le_left _ _
  · exact le_refl _

/-- The erosion does not increase an element. -/
lemma erode_cross_le (m : Mat Nat) (r c : Nat) : m.erode_cross.data r c ≤ m.data r c :=
  le_trans (ite_min_le _ _ _) (le_trans (ite_min_le _ _ _)
    (le_trans (ite_min_le _ _ _) (ite_min_le _ _ _)))

end Mat

namespace Primitive_Detection

variable {X : DetectionExternals}

/-- On a cell that is not unassigned `region_growing` returns at once. -/
lemma region_growing_of_assigned (D : Primitive_Detection X) (fuel : Nat)
    (activationMap : Nat → Bool) (x y : Nat) (normal : vector3) (d : ℚ)
    (h : D._unassignedMask ((x + D._horizontalCellsCount * y) % 2 ^ 32) = false) :
    region_growing D (fuel + 1) activationMap x y normal d = some activationMap := by
  rw [region_growing]
  simp only [h, true_or, if_true]
  split_ifs <;> rfl

/-- When no cell is activated the merge loop changes nothing. -/
lemma merge_activated_cells_of_cleared (D : Primitive_Detection X)
    (newPlaneSegment : X.Plane_Segment) (remainingPlanarCells : Nat)
    (h : ∀ i, D._activationMap i = false) :
    merge_activated_cells D newPlaneSegment remainingPlanarCells
      = (newPlaneSegment, 0, D._histogram, D._unassignedMask, remainingPlanarCells) := by
  unfold merge_activated_cells
  generalize D._totalCellCount = n
  induction n with
  | zero => rfl
  | succ n ih => rw [List.range_succ, List.foldl_append, ih]; simp [h]

/-- The seed candidates of the toy state: the cell 1. -/
lemma toyGrowStuck_candidates :
    toyGrowStuck.detector._histogram.get_points_from_most_frequent_bin = [1] := by
  decide

/-- The MSE of the cell 1 is not below `minMSE`: the seed stays the cell 0. -/
lemma toyGrowStuck_seed : select_seed toyGrowStuck.detector [1] = 0 := by
  simp [select_seed, toyGrowStuck, toyDetector, toyDetectionExternals, toyPlanarCell,
    INT_MAX_as_float]

/-- The cell 0 is not in the histogram of the toy state: removing it changes
nothing. -/
lemma toyGrowStuck_histogram :
    toyGrowStuck.detector._histogram.remove_point 0 = toyGrowStuck.detector._histogram := by
  simp only [Histogram.remove_point, toyGrowStuck]
  congr 1
  funext i
  by_cases hi : i = 0
  · subst hi; simp
  · simp [hi]

/-- One iteration on the toy state ends by `continue` in the same state. -/
lemma toyGrowStuck_iteration :
    grow_iteration toyGrowStuck = some (LoopStep.again toyGrowStuck) := by
  unfold grow_iteration
  simp only [toyGrowStuck_candidates, toyGrowStuck_seed]
  have hgrow : region_growing toyGrowStuck.detector (toyGrowStuck.detector._totalCellCount + 1)
      (fun _ => false) (0 % toyGrowStuck.detector._horizontalCellsCount % 2 ^ 16)
      (0 / toyGrowStuck.detector._horizontalCellsCount % 2 ^ 16)
      (toyDetectionExternals.get_normal (toyGrowStuck.detector._planeGrid 0))
      (toyDetectionExternals.get_plane_d (toyGrowStuck.detector._planeGrid 0))
      = some fun _ => false :=
    region_growing_of_assigned _ _ _ _ _ _ _ (by decide)
  rw [hgrow]
  have hmerge : merge_activated_cells
      { toyGrowStuck.detector with _activationMap := fun _ => false }
      (toyGrowStuck.detector._planeGrid 0) toyGrowStuck.remainingPlanarCells
      = (toyGrowStuck.detector._planeGrid 0, 0, toyGrowStuck.detector._histogram,
          toyGrowStuck.detector._unassignedMask, toyGrowStuck.remainingPlanarCells) :=
    merge_activated_cells_of_cleared _ _ _ (fun _ => rfl)
  simp only [hmerge, toyGrowStuck_histogram]
  have h1 : ¬ ([1] : List Nat).length < toyDetectionExternals.get_minimum_plane_seed_count := by
    decide
  have h2 : 0 < toyDetectionExternals.get_minimum_cell_activated := by decide
  simp only [h1, h2, if_false, if_true]
  rfl

/-- C20 fails on the code: on a row of two cells, the first without a plane
and the second planar with an MSE of `2 ^ 31`, the counter of remaining planar
cells is 1, the number of unassigned cells; no candidate has an MSE below the
initial `minMSE`, the seed stays the cell 0, which is not unassigned, nothing
is activated, and the iteration ends by `continue` in the state it started
from: the loop is not left, whatever the number of iterations allowed. -/
theorem C20_seed_loop_does_not_terminate :
    toyGrowStuck.remainingPlanarCells
        = ((List.range toyGrowStuck.detector._totalCellCount).filter fun i =>
            toyGrowStuck.detector._unassignedMask i).length
      ∧ grow_iteration toyGrowStuck = some (LoopStep.again toyGrowStuck)
      ∧ ∀ fuel, grow_planes_and_cylinders fuel toyGrowStuck = none := by
  refine ⟨by decide, toyGrowStuck_iteration, fun fuel => ?_⟩
  induction fuel with
  | zero => rfl
  | succ fuel ih =>
    have hpos : 0 < toyGrowStuck.remainingPlanarCells := by decide
    simp only [grow_planes_and_cylinders, hpos, if_true, toyGrowStuck_iteration, ih]

/-- The loop over two lists of entries put end to end. -/
lemma refine_cylinders_append (depthCloudArray : Nat → vector3)
    (cylinderToRegionMap : List (Nat × Nat)) (l1 l2 : List Nat) (R : RefineState X) :
    refine_cylinders depthCloudArray cylinderToRegionMap (l1 ++ l2) R
      = (refine_cylinders depthCloudArray cylinderToRegionMap l1 R).bind
          (refine_cylinders depthCloudArray cylinderToRegionMap l2) := by
  induction l1 generalizing R with
  | nil => simp [refine_cylinders]
  | cons i l1 ih =>
    simp only [List.cons_append, refine_cylinders]
    generalize refine_cylinder depthCloudArray cylinderToRegionMap R i = step
    cases step with
    | none => simp
    | some R1 => simp [ih]

/-- The body of the loop of `refine_cylinder_boundaries` for a region that
survives the erosion: the allocator is incremented and the label, its low
eight bits, is written where the eroded mask is set. -/
lemma refine_cylinder_of_survivor (depthCloudArray : Nat → vector3)
    (cylinderToRegionMap : List (Nat × Nat)) (R : RefineState X) (i : Nat) (region : Nat × Nat)
    (cylinderSeg : X.Cylinder_Segment)
    (hmap : cylinderToRegionMap[i]? = some region)
    (hseg : R.detector._cylinderSegments[region.1]? = some cylinderSeg)
    (hsize : R.detector._mask.rows * R.detector._mask.cols ≠ 0)
    (hmax : 0 < ((Mat.fill R.detector._mask.rows R.detector._mask.cols 0).setTo 1 fun r c =>
        decide (R.detector._gridCylinderSegMap.data r c = ((i + 1 : Nat) : Int))).erode_cross.maxValue) :
    ∃ R1, refine_cylinder depthCloudArray cylinderToRegionMap R i = some R1
      ∧ R1.idAllocator = (R.idAllocator + 1) % 2 ^ 32
      ∧ R1.detector._gridCylinderSegMapEroded
          = R.detector._gridCylinderSegMapEroded.setTo ((R.idAllocator + 1) % 2 ^ 32 % 2 ^ 8)
              (fun r c => decide (0 < ((Mat.fill R.detector._mask.rows R.detector._mask.cols 0).setTo 1
                fun r c => decide (R.detector._gridCylinderSegMap.data r c
                  = ((i + 1 : Nat) : Int))).erode_cross.data r c))
      ∧ R1.primitiveSegments.length = R.primitiveSegments.length + 1
      ∧ R1.detector._gridCylinderSegMap = R.detector._gridCylinderSegMap
      ∧ R1.detector._cylinderSegments = R.detector._cylinderSegments
      ∧ R1.detector._mask.rows = R.detector._mask.rows
      ∧ R1.detector._mask.cols = R.detector._mask.cols
      ∧ R1.detector._gridPlaneSegMapEroded = R.detector._gridPlaneSegMapEroded
      ∧ R1.detector._verticalCellsCount = R.detector._verticalCellsCount
      ∧ R1.detector._horizontalCellsCount = R.detector._horizontalCellsCount
      ∧ R1.detector._cellWidth = R.detector._cellWidth
      ∧ R1.detector._cellHeight = R.detector._cellHeight := by
  have hmax1 := not_le.mpr hmax
  have hempty : ((Mat.fill R.detector._mask.rows R.detector._mask.cols (0 : Nat)).setTo 1 fun r c =>
        decide (R.detector._gridCylinderSegMap.data r c = ((i + 1 : Nat) : Int))).dilate_square.empty
      = false := by
    simp [Mat.empty, Mat.dilate_square, Mat.setTo, Mat.fill, hsize]
  unfold refine_cylinder
  simp only [hmax1, if_false, hmap, hseg, hempty, Bool.false_eq_true]
  simp only [Option.some.injEq, exists_eq_left', List.length_append, List.length_singleton, and_self,
    Mat.setTo, Mat.fill]

/-- The mask of the region `n` of `toyManyCylinders`. -/
lemma toyManyCylinders_mask (n c : Nat) :
    ((Mat.fill 1 621 (0 : Nat)).setTo 1 fun r c =>
        decide (toyManyCylinders._gridCylinderSegMap.data r c = ((n + 1 : Nat) : Int))).data 0 c
      = if c < 621 ∧ c / 3 = n then 1 else 0 := by
  simp only [Mat.setTo, Mat.fill, toyManyCylinders]
  by_cases hc : c < 621
  · by_cases hn : c / 3 = n
    · simp [hc, hn]
    · have hn1 : ¬ ((c : Int) / 3 = (n : Int)) := by omega
      simp [hc, hn, hn1]
  · have h0 : ¬ (0 : Int) = (n : Int) + 1 := by omega
    simp [hc, h0]

/-- The middle cell of each region of `toyManyCylinders` survives the
erosion. -/
lemma toyManyCylinders_eroded (n : Nat) (hn : n < 207) :
    ((Mat.fill 1 621 (0 : Nat)).setTo 1 fun r c =>
        decide (toyManyCylinders._gridCylinderSegMap.data r c
          = ((n + 1 : Nat) : Int))).erode_cross.data 0 (3 * n + 1) = 1 := by
  have h0 := toyManyCylinders_mask n (3 * n)
  have h1 := toyManyCylinders_mask n (3 * n + 1)
  have h2 := toyManyCylinders_mask n (3 * n + 1 + 1)
  have e0 : 3 * n / 3 = n := by omega
  have e1 : (3 * n + 1) / 3 = n := by omega
  have e2 : (3 * n + 1 + 1) / 3 = n := by omega
  have l0 : 3 * n < 621 := by omega
  have l1 : 3 * n + 1 < 621 := by omega
  have l2 : 3 * n + 1 + 1 < 621 := by omega
  simp only [e0, e1, e2, l0, l1, l2, and_self, if_true] at h0 h1 h2
  have hrows : ((Mat.fill 1 621 (0 : Nat)).setTo 1 fun r c =>
        decide (toyManyCylinders._gridCylinderSegMap.data r c = ((n + 1 : Nat) : Int))).rows = 1 := rfl
  have hcols : ((Mat.fill 1 621 (0 : Nat)).setTo 1 fun r c =>
        decide (toyManyCylinders._gridCylinderSegMap.data r c = ((n + 1 : Nat) : Int))).cols = 621 := rfl
  simp only [Mat.erode_cross, hrows, hcols, Nat.add_sub_cancel, h0, h1, h2]
  simp [l2]

/-- After the first `n` regions of `toyManyCylinders` the allocator is
`50 + n` and the middle cell of the region `k < n` holds the label
`(51 + k) mod 256`. -/
lemma toyManyCylinders_refined (n : Nat) (hn : n ≤ 207) :
    ∃ R : RefineState toyDetectionExternals,
      refine_cylinders toyCloud toyCylinderToRegionMap (List.range n)
          { detector := toyManyCylinders, idAllocator := CYLINDER_CODE_OFFSET,
            primitiveSegments := [] } = some R
        ∧ R.idAllocator = 50 + n
        ∧ R.primitiveSegments.length = n
        ∧ R.detector._gridCylinderSegMap = toyManyCylinders._gridCylinderSegMap
        ∧ R.detector._cylinderSegments = [()]
        ∧ R.detector._mask.rows = 1
        ∧ R.detector._mask.cols = 621
        ∧ R.detector._gridPlaneSegMapEroded = Mat.fill 1 621 0
        ∧ R.detector._verticalCellsCount = 1
        ∧ R.detector._horizontalCellsCount = 621
        ∧ R.detector._cellWidth = 1
        ∧ R.detector._cellHeight = 1
        ∧ ∀ k, k < n → R.detector._gridCylinderSegMapEroded.data 0 (3 * k + 1) = (51 + k) % 256 := by
  induction n with
  | zero =>
    exact ⟨_, rfl, rfl, rfl, rfl, rfl, rfl, rfl, rfl, rfl, rfl, rfl, rfl, fun k hk => by omega⟩
  | succ n ih =>
    obtain ⟨R, hrun, halloc, hprims, hgrid, hsegs, hrows, hcols, hplane, hvc, hhc, hcw, hch,
      hlabels⟩ := ih (by omega)
    have hn1 : n < 207 := by omega
    have hmap : toyCylinderToRegionMap[n]? = some (0, n) := by
      simp [toyCylinderToRegionMap, List.getElem?_map, List.getElem?_range hn1]
    have hseg : R.detector._cylinderSegments[((0, n) : Nat × Nat).1]? = some () := by
      rw [hsegs]; rfl
    have hsize : R.detector._mask.rows * R.detector._mask.cols ≠ 0 := by
      rw [hrows, hcols]; decide
    have hmax : 0 < ((Mat.fill R.detector._mask.rows R.detector._mask.cols 0).setTo 1 fun r c =>
        decide (R.detector._gridCylinderSegMap.data r c
          = ((n + 1 : Nat) : Int))).erode_cross.maxValue := by
      rw [hrows, hcols, hgrid]
      have h := Mat.le_maxValue ((Mat.fill 1 621 (0 : Nat)).setTo 1 fun r c =>
        decide (toyManyCylinders._gridCylinderSegMap.data r c
          = ((n + 1 : Nat) : Int))).erode_cross 0 (3 * n + 1) (show 0 < 1 from Nat.one_pos)
        (by show 3 * n + 1 < 621; omega)
      rw [toyManyCylinders_eroded n hn1] at h
      exact h
    obtain ⟨R1, hstep, halloc1, heroded1, hprims1, hgrid1, hsegs1, hrows1, hcols1, hplane1, hvc1,
      hhc1, hcw1, hch1⟩ :=
      refine_cylinder_of_survivor toyCloud toyCylinderToRegionMap R n (0, n) () hmap hseg hsize hmax
    refine ⟨R1, ?_, ?_, ?_, hgrid1.trans hgrid, hsegs1.trans hsegs, hrows1.trans hrows,
      hcols1.trans hcols, hplane1.trans hplane, hvc1.trans hvc, hhc1.trans hhc, hcw1.trans hcw,
      hch1.trans hch, ?_⟩
    · rw [List.range_succ, refine_cylinders_append, hrun]
      simp [refine_cylinders, hstep]
    · rw [halloc1, halloc]; omega
    · rw [hprims1, hprims]
    · intro k hk
      rw [heroded1, hrows, hcols, hgrid, halloc]
      have hid : (50 + n + 1) % 2 ^ 32 % 2 ^ 8 = (51 + n) % 256 := by omega
      rw [hid, Mat.setTo_data]
      by_cases hkn : k = n
      · rw [hkn]
        simp only [toyManyCylinders_eroded n hn1]
        simp
      · have hlt : k < n := by omega
        have hle := Mat.erode_cross_le ((Mat.fill 1 621 (0 : Nat)).setTo 1 fun r c =>
          decide (toyManyCylinders._gridCylinderSegMap.data r c
            = ((n + 1 : Nat) : Int))) 0 (3 * k + 1)
        rw [toyManyCylinders_mask] at hle
        have hne : ¬ (3 * k + 1 < 621 ∧ (3 * k + 1) / 3 = n) := by omega
        rw [if_neg hne] at hle
        have hzero := Nat.le_zero.mp hle
        simp only [hzero, lt_self_iff_false, decide_False, Bool.false_eq_true, if_false]
        exact hlabels k hlt

/-- The display of a cell does not write outside the columns of the cell. -/
lemma display_cell_of_other_column (D : Primitive_Detection X) (cellR cellC : Nat)
    (segOut : Mat Nat) (r c : Nat)
    (h : ¬ (cellC * D._cellWidth ≤ c ∧ c < cellC * D._cellWidth + D._cellWidth)) :
    (display_cell D cellR cellC segOut).data r c = segOut.data r c := by
  have hcell : (decide (cellR * D._cellHeight ≤ r) && decide (r < cellR * D._cellHeight + D._cellHeight)
      && decide (cellC * D._cellWidth ≤ c) && decide (c < cellC * D._cellWidth + D._cellWidth))
      = false := by
    rw [Bool.and_assoc, Bool.and_eq_false_iff]
    right
    simpa using h
  unfold display_cell
  simp only
  split_ifs
  · rw [Mat.setTo_data, hcell]; rfl
  · rw [Mat.setTo_data, hcell]; rfl
  · simp only [hcell, Bool.false_eq_true, false_and, if_false]

/-- The display of a cell of an eroded cylinder, without plane, writes the
label of the cylinder on the pixels of the cell. -/
lemma display_cell_of_cylinder (D : Primitive_Detection X) (cellR cellC : Nat)
    (segOut : Mat Nat) (r c : Nat)
    (hplane : D._gridPlaneSegMapEroded.data cellR cellC = 0)
    (hcylinder : 0 < D._gridCylinderSegMapEroded.data cellR cellC)
    (hr : cellR * D._cellHeight ≤ r ∧ r < cellR * D._cellHeight + D._cellHeight)
    (hc : cellC * D._cellWidth ≤ c ∧ c < cellC * D._cellWidth + D._cellWidth) :
    (display_cell D cellR cellC segOut).data r c = D._gridCylinderSegMapEroded.data cellR cellC := by
  have hcell : (decide (cellR * D._cellHeight ≤ r) && decide (r < cellR * D._cellHeight + D._cellHeight)
      && decide (cellC * D._cellWidth ≤ c) && decide (c < cellC * D._cellWidth + D._cellWidth))
      = true := by
    simp [hr.1, hr.2, hc.1, hc.2]
  unfold display_cell
  simp only [hplane, lt_self_iff_false, if_false, hcylinder, if_true]
  rw [Mat.setTo_data, hcell]
  rfl

/-- With cells of one pixel, the display of the first row leaves at the pixel of
a cell of an eroded cylinder, without plane, the label of the cylinder. -/
lemma display_row_of_cylinder (D : Primitive_Detection X) (column : Nat)
    (hwidth : D._cellWidth = 1) (hheight : D._cellHeight = 1)
    (hplane : D._gridPlaneSegMapEroded.data 0 column = 0)
    (hcylinder : 0 < D._gridCylinderSegMapEroded.data 0 column) (n : Nat) (segOut : Mat Nat)
    (hn : column < n) :
    ((List.range n).foldl (fun segOut cellC => display_cell D 0 cellC segOut) segOut).data 0 column
      = D._gridCylinderSegMapEroded.data 0 column := by
  induction n with
  | zero => omega
  | succ n ih =>
    rw [List.range_succ, List.foldl_append]
    simp only [List.foldl_cons, List.foldl_nil]
    by_cases hcol : column = n
    · rw [← hcol]
      exact display_cell_of_cylinder D 0 column _ 0 column hplane hcylinder
        (by rw [hheight]; omega) (by rw [hwidth]; omega)
    · rw [display_cell_of_other_column D 0 n _ 0 column (by rw [hwidth]; omega)]
      exact ih (by omega)

/-- C15 fails on the code: on a row of 621 cells covered by 207 cylinder
regions of three cells each and no plane, `refine_cylinder_boundaries` returns
207 cylinders and writes the label 1, which is below `CYLINDER_CODE_OFFSET`,
for the last of them in the eroded grid map; `set_masked_display` then writes 1
at the pixel of that cell. -/
theorem C15_cylinder_label_leaves_its_range :
    ∃ (D : Primitive_Detection toyDetectionExternals) (primitiveSegments : List Primitive),
      refine_cylinder_boundaries toyManyCylinders toyCloud toyCylinderToRegionMap []
          = some (D, primitiveSegments)
        ∧ primitiveSegments.length = 207
        ∧ D._gridPlaneSegMapEroded.data 0 619 = 0
        ∧ D._gridCylinderSegMapEroded.data 0 619 = 1
        ∧ (∀ segOut : Mat Nat, (set_masked_display D segOut).data 0 619 = 1)
        ∧ 1 < CYLINDER_CODE_OFFSET := by
  obtain ⟨R, hrun, _, hprims, _, _, _, _, hplane, hvc, hhc, hcw, hch, hlabels⟩ :=
    toyManyCylinders_refined 207 (le_refl _)
  have hlabel : R.detector._gridCylinderSegMapEroded.data 0 619 = 1 := hlabels 206 (by decide)
  have hplane0 : R.detector._gridPlaneSegMapEroded.data 0 619 = 0 := by rw [hplane]; rfl
  refine ⟨R.detector, R.primitiveSegments, ?_, hprims, hplane0, hlabel, fun segOut => ?_, by decide⟩
  · have hlen : toyCylinderToRegionMap.length = 207 := by simp [toyCylinderToRegionMap]
    have huse : toyManyCylinders._useCylinderDetection = true := rfl
    simp only [refine_cylinder_boundaries, huse, Bool.true_eq_false, if_false, hlen, hrun]
  · unfold set_masked_display
    rw [hvc, hhc]
    have hrange : List.range 1 = [0] := rfl
    simp only [hrange, List.foldl_cons, List.foldl_nil]
    rw [display_row_of_cylinder R.detector 619 hcw hch hplane0 (by rw [hlabel]; decide) 621 segOut
      (by decide)]
    exact hlabel

end Primitive_Detection

end primitives

end features

end rgbd_slam

/-! ## The keypoint counter of the RGB-D driver -/

namespace rgbd_slam

namespace RGBD_SLAM

variable {E : SlamExternals}

/-- The counter after the calls of `track` on a list of frames. -/
lemma track_all_count (hf : 1 ≤ E.get_keypoint_refresh_frequency) :
    ∀ (frames : List (E.Mat × E.Mat × Bool)) (s s1 : RGBD_SLAM E) (k : Nat),
      s._computeKeypointCount
          = (if k = 0 then 0 else (k - 1) % E.get_keypoint_refresh_frequency + 1) →
      track_all s frames = some s1 →
      s1._computeKeypointCount
        = (if k + frames.length = 0 then 0
            else (k + frames.length - 1) % E.get_keypoint_refresh_frequency + 1) := by
  intro frames
  induction frames with
  | nil =>
    intro s s1 k hcount h
    simp only [track_all, Option.some.injEq] at h
    subst h
    simpa using hcount
  | cons frame frames ih =>
    intro s s1 k hcount h
    simp only [track_all] at h
    cases htrack : track s frame.1 frame.2.1 frame.2.2 with
    | none => simp [htrack] at h
    | some result =>
      obtain ⟨pose, s2⟩ := result
      simp only [htrack] at h
      obtain ⟨hc, _⟩ := track_counter s s2 _ _ _ pose htrack
      obtain ⟨hstep, _⟩ := counter_step E.get_keypoint_refresh_frequency k hf
      rw [hcount, hstep] at hc
      have hnext := ih s2 s1 (k + 1) (by simpa using hc) h
      rw [hnext, List.length_cons]
      have e : k + 1 + frames.length = k + (frames.length + 1) := by omega
      rw [e]

/-- Whether `compute_new_pose` calls the optimizer. -/
lemma compute_optimized_pose_mem (s : RGBD_SLAM E) (grayImage depthImage : E.Mat)
    (cloud : E.MatrixXf) :
    SlamCall.compute_optimized_pose
        ∈ (compute_new_pose s grayImage depthImage cloud).2.calls.drop s.calls.length
      ↔ s._computeKeypointCount ≠ 0
        ∧ E.get_minimum_point_count_for_optimization
          ≤ E.matches_size (matching s grayImage depthImage cloud).2.2 := by
  simp only [compute_new_pose, matching]
  generalize (s._computeKeypointCount % E.get_keypoint_refresh_frequency == 0) = flag
  split_ifs <;> simp_all

/-- C30: for every keypoint refresh frequency `f >= 1`, after any number of
calls of `track` on an object just constructed, the keypoint counter is 0
exactly when no call has been made, so that only the first call of
`compute_new_pose` starts with the counter 0; it lies in `1..f` at the start of
every later call; and a call of `compute_new_pose` that starts with this
counter runs the pose optimisation exactly when it is not the first call and
the number of matched points reaches the configured minimum. -/
theorem C30_counter_is_zero_on_first_call_only
    (hf : 1 ≤ E.get_keypoint_refresh_frequency) (startPose : E.Pose)
    (imageWidth imageHeight : Nat) (members : E.Members) (s0 s : RGBD_SLAM E)
    (frames : List (E.Mat × E.Mat × Bool))
    (hcreate : create startPose imageWidth imageHeight members = some s0)
    (hrun : track_all s0 frames = some s) :
    (s._computeKeypointCount = 0 ↔ frames = [])
      ∧ (frames ≠ [] →
          1 ≤ s._computeKeypointCount
            ∧ s._computeKeypointCount ≤ E.get_keypoint_refresh_frequency)
      ∧ ∀ (next : RGBD_SLAM E) (grayImage depthImage : E.Mat) (cloud : E.MatrixXf),
          next._computeKeypointCount = s._computeKeypointCount →
          (SlamCall.compute_optimized_pose
              ∈ (compute_new_pose next grayImage depthImage cloud).2.calls.drop next.calls.length
            ↔ frames ≠ []
              ∧ E.get_minimum_point_count_for_optimization
                ≤ E.matches_size (matching next grayImage depthImage cloud).2.2) := by
  simp only [create] at hcreate
  split_ifs at hcreate
  have hs0 := Option.some.inj hcreate
  subst hs0
  have hcount := track_all_count hf frames _ s 0 rfl hrun
  simp only [zero_add] at hcount
  have hlt : (frames.length - 1) % E.get_keypoint_refresh_frequency
      < E.get_keypoint_refresh_frequency := Nat.mod_lt _ (by omega)
  have hzero : s._computeKeypointCount = 0 ↔ frames = [] := by
    rw [hcount, ← List.length_eq_zero]
    split_ifs with h
    · simp [h]
    · simp [h]
  refine ⟨hzero, fun hne => ?_, fun next grayImage depthImage cloud hnext => ?_⟩
  · have hlen : frames.length ≠ 0 := fun h => hne (List.length_eq_zero.mp h)
    rw [hcount, if_neg hlen]
    omega
  · rw [compute_optimized_pose_mem, hnext, Ne, hzero]

/-- C30, on four frames of the toy driver, with the frequency 3. -/
theorem C30_counter_is_zero_on_first_call_only_witness :
    1 ≤ toySlamExternals.get_keypoint_refresh_frequency
      ∧ @create toySlamExternals (0 : Int) 2 2 () = some toySlamInitial
      ∧ track_all toySlamInitial toySlamFrames = some toySlamFinal
      ∧ toySlamFinal._computeKeypointCount ≠ 0
      ∧ 1 ≤ toySlamFinal._computeKeypointCount
      ∧ toySlamFinal._computeKeypointCount ≤ toySlamExternals.get_keypoint_refresh_frequency
      ∧ SlamCall.compute_optimized_pose
          ∈ (compute_new_pose toySlamFinal (9 : Nat) (9 : Nat) ()).2.calls.drop
              toySlamFinal.calls.length :=
  ⟨by decide, rfl, rfl, by decide,
    ((@C30_counter_is_zero_on_first_call_only toySlamExternals (by decide) (0 : Int) 2 2 ()
      toySlamInitial toySlamFinal toySlamFrames rfl rfl).2.1 (by decide)).1,
    ((@C30_counter_is_zero_on_first_call_only toySlamExternals (by decide) (0 : Int) 2 2 ()
      toySlamInitial toySlamFinal toySlamFrames rfl rfl).2.1 (by decide)).2,
    ((@C30_counter_is_zero_on_first_call_only toySlamExternals (by decide) (0 : Int) 2 2 ()
      toySlamInitial toySlamFinal toySlamFrames rfl rfl).2.2 toySlamFinal (9 : Nat) (9 : Nat) ()
        rfl).mpr ⟨by decide, by decide⟩⟩

end RGBD_SLAM

end rgbd_slam

/-! ## Intersection over union of two masks -/

namespace rgbd_slam

namespace features

namespace primitives

namespace Mat

/-- Two matrices of the same size whose elements vanish at the same places
have the same count of elements that are not zero. -/
lemma countNonZero_congr (a b : Mat Nat) (hrows : a.rows = b.rows) (hcols : a.cols = b.cols)
    (h : ∀ r c, a.data r c ≠ 0 ↔ b.data r c ≠ 0) : a.countNonZero = b.countNonZero := by
  unfold countNonZero
  rw [hrows, hcols]
  congr 1
  apply List.map_congr_left
  intro r _
  congr 1
  apply List.filter_congr
  intro c _
  rw [Bool.eq_iff_iff]
  simp only [bne_iff_ne]
  exact h r c

/-- The count of elements that are not zero is monotone in the set of places
that do not vanish. -/
lemma countNonZero_mono (a b : Mat Nat) (hrows : a.rows = b.rows) (hcols : a.cols = b.cols)
    (h : ∀ r c, a.data r c ≠ 0 → b.data r c ≠ 0) : a.countNonZero ≤ b.countNonZero := by
  unfold countNonZero
  rw [hrows, hcols]
  apply List.sum_le_sum
  intro r _
  apply List.Sublist.length_le
  apply List.monotone_filter_right
  intro c hc
  have := h r c
  simpa using this (by simpa using hc)

/-- A bitwise or is not zero exactly when one of its operands is not zero. -/
lemma or_ne_zero (x y : Nat) : x ||| y ≠ 0 ↔ x ≠ 0 ∨ y ≠ 0 := by
  constructor
  · intro h
    by_contra hcon
    push_neg at hcon
    rw [hcon.1, hcon.2] at h
    exact h rfl
  · intro h hzero
    have hb : ∀ i, (x.testBit i || y.testBit i) = false := fun i => by
      rw [← Nat.testBit_or, hzero, Nat.zero_testBit]
    have hx : x = 0 := by
      apply Nat.eq_of_testBit_eq
      intro i
      have := hb i
      simp_all
    have hy : y = 0 := by
      apply Nat.eq_of_testBit_eq
      intro i
      have := hb i
      simp_all
    rcases h with h | h
    · exact h hx
    · exact h hy

/-- The operands of a bitwise and that is not zero are not zero. -/
lemma and_ne_zero_imp (x y : Nat) (h : x &&& y ≠ 0) : x ≠ 0 ∧ y ≠ 0 := by
  have h1 : x &&& y ≤ x := Nat.and_le_left
  have h2 : x &&& y ≤ y := Nat.and_le_right
  omega

end Mat

namespace Primitive

/-- The value of `get_IOU` in terms of the two pixel counts. -/
lemma IOU_of_masks_eq (a b : Mat Nat) :
    IOU_of_masks a b
      = if (a.bitwise_or b).countNonZero = 0 then 0
        else ((a.bitwise_and b).countNonZero : ℚ) / ((a.bitwise_or b).countNonZero : ℚ) := by
  unfold IOU_of_masks
  by_cases h : (a.bitwise_or b).countNonZero = 0
  · simp [h]
  · have hpos : ¬ (((a.bitwise_or b).countNonZero : Nat) : Int) ≤ 0 := by omega
    simp [h, hpos]

/-- The number of non-zero pixels of the union is the number of pixels set in
either mask. -/
lemma countNonZero_bitwise_or (a b : Mat Nat) :
    (a.bitwise_or b).countNonZero = Mat.count_set_in_either a b := by
  unfold Mat.countNonZero Mat.count_set_in_either Mat.bitwise_or
  simp only
  congr 1
  apply List.map_congr_left
  intro r _
  congr 1
  apply List.filter_congr
  intro c _
  rw [Bool.eq_iff_iff]
  simp only [bne_iff_ne, decide_eq_true_eq]
  exact Mat.or_ne_zero _ _

/-- For masks of zeros and ones, the number of non-zero pixels of the
intersection is the number of pixels set in both masks. -/
lemma countNonZero_bitwise_and (a b : Mat Nat) (ha : a.is_binary) (hb : b.is_binary) :
    (a.bitwise_and b).countNonZero = Mat.count_set_in_both a b := by
  unfold Mat.countNonZero Mat.count_set_in_both Mat.bitwise_and
  simp only
  congr 1
  apply List.map_congr_left
  intro r _
  congr 1
  apply List.filter_congr
  intro c _
  rw [Bool.eq_iff_iff]
  simp only [bne_iff_ne, decide_eq_true_eq]
  rcases ha r c with h1 | h1 <;> rcases hb r c with h2 | h2 <;> simp [h1, h2]

/-- The intersection has at most as many non-zero pixels as the union. -/
lemma countNonZero_and_le_or (a b : Mat Nat) :
    (a.bitwise_and b).countNonZero ≤ (a.bitwise_or b).countNonZero := by
  refine Mat.countNonZero_mono (a.bitwise_and b) (a.bitwise_or b) rfl rfl ?_
  intro r c h
  exact (Mat.or_ne_zero _ _).mpr (Or.inl (Mat.and_ne_zero_imp _ _ h).1)

/-- The value of `get_IOU` does not depend on the order of the two masks. -/
lemma IOU_of_masks_comm (a b : Mat Nat) (hrows : a.rows = b.rows) (hcols : a.cols = b.cols) :
    IOU_of_masks a b = IOU_of_masks b a := by
  have hor : (a.bitwise_or b).countNonZero = (b.bitwise_or a).countNonZero :=
    Mat.countNonZero_congr _ _ hrows hcols (fun r c => by
      show a.data r c ||| b.data r c ≠ 0 ↔ b.data r c ||| a.data r c ≠ 0
      rw [Nat.or_comm])
  have hand : (a.bitwise_and b).countNonZero = (b.bitwise_and a).countNonZero :=
    Mat.countNonZero_congr _ _ hrows hcols (fun r c => by
      show a.data r c &&& b.data r c ≠ 0 ↔ b.data r c &&& a.data r c ≠ 0
      rw [Nat.and_comm])
  rw [IOU_of_masks_eq, IOU_of_masks_eq, hor, hand]

/-- The value of `get_IOU` for a mask and itself. -/
lemma IOU_of_masks_self (a : Mat Nat) (h : 0 < a.countNonZero) : IOU_of_masks a a = 1 := by
  have hor : (a.bitwise_or a).countNonZero = a.countNonZero :=
    Mat.countNonZero_congr _ _ rfl rfl (fun r c => by
      show a.data r c ||| a.data r c ≠ 0 ↔ a.data r c ≠ 0
      rw [Nat.or_self])
  have hand : (a.bitwise_and a).countNonZero = a.countNonZero :=
    Mat.countNonZero_congr _ _ rfl rfl (fun r c => by
      show a.data r c &&& a.data r c ≠ 0 ↔ a.data r c ≠ 0
      rw [Nat.and_self])
  have hne : a.countNonZero ≠ 0 := by omega
  have hq : (a.countNonZero : ℚ) ≠ 0 := by exact_mod_cast hne
  rw [IOU_of_masks_eq, hor, hand, if_neg hne, div_self hq]

end Primitive

/-- C29, amended: for two primitives `A` and `B` whose masks are not empty and
have the same size, which is what `get_IOU` asserts, `get_IOU` returns a value; when
the masks hold only the values 0 and 1, this value is the number of pixels set
in both masks divided by the number of pixels set in either mask, or 0 when
no pixel is set in either; the value lies in `[0, 1]`; `get_IOU` of `B` with
`A` returns the same value; and a primitive whose mask has a set pixel has the
IoU 1 with itself. -/
theorem C29_get_IOU (A B : Primitive)
    (hA : A._shapeMask.empty = false) (hB : B._shapeMask.empty = false)
    (hrows : A._shapeMask.rows = B._shapeMask.rows)
    (hcols : A._shapeMask.cols = B._shapeMask.cols) :
    ∃ iou : ℚ,
      Primitive.get_IOU A._shapeMask B = some iou
        ∧ (A._shapeMask.is_binary → B._shapeMask.is_binary →
            iou = if Mat.count_set_in_either A._shapeMask B._shapeMask = 0 then 0
              else (Mat.count_set_in_both A._shapeMask B._shapeMask : ℚ)
                / (Mat.count_set_in_either A._shapeMask B._shapeMask : ℚ))
        ∧ 0 ≤ iou ∧ iou ≤ 1
        ∧ Primitive.get_IOU B._shapeMask A = some iou
        ∧ (0 < A._shapeMask.countNonZero → Primitive.get_IOU A._shapeMask A = some 1) := by
  refine ⟨Primitive.IOU_of_masks A._shapeMask B._shapeMask,
    get_IOU_eq _ _ hA hB hrows hcols, fun ha hb => ?_, ?_, ?_, ?_, fun hset => ?_⟩
  · rw [Primitive.IOU_of_masks_eq, Primitive.countNonZero_bitwise_or,
      Primitive.countNonZero_bitwise_and _ _ ha hb]
  · rw [Primitive.IOU_of_masks_eq]
    split_ifs
    · exact le_refl _
    · exact div_nonneg (Nat.cast_nonneg _) (Nat.cast_nonneg _)
  · rw [Primitive.IOU_of_masks_eq]
    split_ifs with h
    · exact zero_le_one
    · have hpos : (0 : ℚ) < ((A._shapeMask.bitwise_or B._shapeMask).countNonZero : ℚ) := by
        exact_mod_cast Nat.pos_of_ne_zero h
      rw [div_le_one hpos]
      exact_mod_cast Primitive.countNonZero_and_le_or _ _
  · rw [get_IOU_eq _ _ hB hA hrows.symm hcols.symm,
      Primitive.IOU_of_masks_comm _ _ hrows hcols]
  · rw [get_IOU_eq _ _ hA hA rfl rfl, Primitive.IOU_of_masks_self _ hset]

/-- C29, on the toy plane and the toy cylinder, whose masks are one row of two
pixels with the values 0 and 1, the first full and the second with one pixel
set: `get_IOU` returns `1 / 2` in both orders. -/
theorem C29_get_IOU_witness :
    (Primitive.plane toyPlane)._shapeMask.empty = false
      ∧ (Primitive.cylinder toyCylinder)._shapeMask.empty = false
      ∧ (Primitive.plane toyPlane)._shapeMask.rows
          = (Primitive.cylinder toyCylinder)._shapeMask.rows
      ∧ (Primitive.plane toyPlane)._shapeMask.cols
          = (Primitive.cylinder toyCylinder)._shapeMask.cols
      ∧ Primitive.get_IOU (Primitive.plane toyPlane)._shapeMask (Primitive.cylinder toyCylinder)
          = some (1 / 2)
      ∧ Primitive.get_IOU (Primitive.cylinder toyCylinder)._shapeMask
          (Primitive.plane toyPlane) = some (1 / 2) := by
  obtain ⟨iou, hrun, hformula, _, _, hsymm, _⟩ :=
    C29_get_IOU (Primitive.plane toyPlane) (Primitive.cylinder toyCylinder) rfl rfl rfl rfl
  have hfull : (Primitive.plane toyPlane)._shapeMask.is_binary := fun _ _ => Or.inr rfl
  have hhalf : (Primitive.cylinder toyCylinder)._shapeMask.is_binary := by
    intro r c
    by_cases hc : c = 0
    · exact Or.inr (if_pos hc)
    · exact Or.inl (if_neg hc)
  have heither : Mat.count_set_in_either (Primitive.plane toyPlane)._shapeMask
      (Primitive.cylinder toyCylinder)._shapeMask = 2 := by decide
  have hboth : Mat.count_set_in_both (Primitive.plane toyPlane)._shapeMask
      (Primitive.cylinder toyCylinder)._shapeMask = 1 := by decide
  have hvalue : iou = 1 / 2 := by
    rw [hformula hfull hhalf, heither, hboth]
    norm_num
  rw [hvalue] at hrun hsymm
  exact ⟨rfl, rfl, rfl, rfl, hrun, hsymm⟩

/-- C29 as stated fails: two planes whose masks are one pixel, with the value 1
for the first and 2 for the second, have masks of equal size; the pixel is set
in both masks, so the quotient of the claim is `1 / 1`, and `get_IOU` returns
0, because the bitwise and of 1 and 2 is 0.  A plane whose mask is one pixel
with the value 0 has a mask that is not empty, and `get_IOU` of this plane
with itself returns 0, not 1. -/
theorem C29_get_IOU_counterexample :
    (toyPixelPlane 1)._shapeMask.empty = false
      ∧ (toyPixelPlane 2)._shapeMask.empty = false
      ∧ (toyPixelPlane 1)._shapeMask.rows = (toyPixelPlane 2)._shapeMask.rows
      ∧ (toyPixelPlane 1)._shapeMask.cols = (toyPixelPlane 2)._shapeMask.cols
      ∧ Mat.count_set_in_both (toyPixelPlane 1)._shapeMask (toyPixelPlane 2)._shapeMask = 1
      ∧ Mat.count_set_in_either (toyPixelPlane 1)._shapeMask (toyPixelPlane 2)._shapeMask = 1
      ∧ Primitive.get_IOU (toyPixelPlane 1)._shapeMask (Primitive.plane (toyPixelPlane 2))
          = some 0
      ∧ (toyPixelPlane 0)._shapeMask.empty = false
      ∧ Primitive.get_IOU (toyPixelPlane 0)._shapeMask (Primitive.plane (toyPixelPlane 0))
          = some 0 := by
  refine ⟨rfl, rfl, rfl, rfl, by decide, by decide, ?_, rfl, ?_⟩
  · rw [get_IOU_eq (toyPixelPlane 1)._shapeMask (Primitive.plane (toyPixelPlane 2)) rfl rfl rfl
      rfl, Primitive.IOU_of_masks_eq]
    have hor : (((toyPixelPlane 1)._shapeMask).bitwise_or
        (Primitive.plane (toyPixelPlane 2))._shapeMask).countNonZero = 1 := by decide
    have hand : (((toyPixelPlane 1)._shapeMask).bitwise_and
        (Primitive.plane (toyPixelPlane 2))._shapeMask).countNonZero = 0 := by decide
    rw [hor, hand]
    norm_num
  · rw [get_IOU_eq (toyPixelPlane 0)._shapeMask (Primitive.plane (toyPixelPlane 0)) rfl rfl rfl
      rfl, Primitive.IOU_of_masks_eq]
    have hor : (((toyPixelPlane 0)._shapeMask).bitwise_or
        (Primitive.plane (toyPixelPlane 0))._shapeMask).countNonZero = 0 := by decide
    rw [hor]
    norm_num

end primitives

end features

end rgbd_slam

/-! ## Region growing -/

namespace rgbd_slam

namespace features

namespace primitives

namespace Primitive_Detection

variable {X : DetectionExternals}

/-- Activating an inactive cell of the grid leaves fewer inactive cells. -/
lemma inactive_card_update (total index : Nat) (act : Nat → Bool) (hindex : index < total)
    (hact : act index = false) :
    ((Finset.range total).filter fun i => (if i = index then true else act i) = false).card
      < ((Finset.range total).filter fun i => act i = false).card := by
  apply Finset.card_lt_card
  rw [Finset.ssubset_iff_of_subset]
  · refine ⟨index, ?_, ?_⟩
    · simp [hindex, hact]
    · simp
  · intro i hi
    simp only [Finset.mem_filter, Finset.mem_range] at hi ⊢
    refine ⟨hi.1, ?_⟩
    by_cases h : i = index
    · simp [h] at hi
    · simpa [h] using hi.2

/-- A map with more active cells has no more inactive cells. -/
lemma inactive_card_mono (total : Nat) (act act1 : Nat → Bool)
    (hmono : ∀ i, act i = true → act1 i = true) :
    ((Finset.range total).filter fun i => act1 i = false).card
      ≤ ((Finset.range total).filter fun i => act i = false).card := by
  apply Finset.card_le_card
  intro i hi
  simp only [Finset.mem_filter, Finset.mem_range] at hi ⊢
  refine ⟨hi.1, ?_⟩
  by_contra h
  have := hmono i (by simpa using h)
  rw [hi.2] at this
  exact Bool.false_ne_true this

/-- What `region_growing` does when its nesting depth exceeds the number of
inactive cells: it returns, every active cell stays active, and a newly
activated cell is a cell of the grid that is unassigned and passes the two
tests, against the plane given to the call when it is the cell of the call, and
against the plane of an activated cell otherwise. -/
lemma region_growing_spec (D : Primitive_Detection X) :
    ∀ (fuel : Nat) (act : Nat → Bool) (x y : Nat) (normal : vector3) (d : ℚ),
      ((Finset.range D._totalCellCount).filter fun i => act i = false).card < fuel →
      ∃ act1 : Nat → Bool,
        region_growing D fuel act x y normal d = some act1
          ∧ (∀ i, act i = true → act1 i = true)
          ∧ ∀ i, act1 i = true → act i = true ∨
              (i < D._totalCellCount ∧ D._unassignedMask i = true
                ∧ ((i = (x + D._horizontalCellsCount * y) % 2 ^ 32
                      ∧ D._minCosAngleForMerge ≤ normal.dot (X.get_normal (D._planeGrid i))
                      ∧ (normal.dot (X.get_mean (D._planeGrid i)) + d) ^ 2
                          ≤ D._cellDistanceTols i)
                    ∨ ∃ j, act1 j = true
                      ∧ D._minCosAngleForMerge
                          ≤ (X.get_normal (D._planeGrid j)).dot (X.get_normal (D._planeGrid i))
                      ∧ ((X.get_normal (D._planeGrid j)).dot (X.get_mean (D._planeGrid i))
                            + X.get_plane_d (D._planeGrid j)) ^ 2
                          ≤ D._cellDistanceTols i)) := by
  intro fuel
  induction fuel with
  | zero => intro act x y normal d h; omega
  | succ fuel ih =>
    intro act x y normal d hfuel
    rw [region_growing]
    simp only
    by_cases hout : D._totalCellCount ≤ (x + D._horizontalCellsCount * y) % 2 ^ 32
    · rw [if_pos hout]
      exact ⟨act, rfl, fun i h => h, fun i h => Or.inl h⟩
    rw [if_neg hout]
    by_cases hskip : D._unassignedMask ((x + D._horizontalCellsCount * y) % 2 ^ 32) = false
        ∨ act ((x + D._horizontalCellsCount * y) % 2 ^ 32) = true
    · rw [if_pos hskip]
      exact ⟨act, rfl, fun i h => h, fun i h => Or.inl h⟩
    rw [if_neg hskip]
    by_cases htest : normal.dot (X.get_normal (D._planeGrid ((x + D._horizontalCellsCount * y) % 2 ^ 32)))
          < D._minCosAngleForMerge
        ∨ D._cellDistanceTols ((x + D._horizontalCellsCount * y) % 2 ^ 32)
          < (normal.dot (X.get_mean (D._planeGrid ((x + D._horizontalCellsCount * y) % 2 ^ 32)))
              + d) ^ 2
    · rw [if_pos htest]
      exact ⟨act, rfl, fun i h => h, fun i h => Or.inl h⟩
    rw [if_neg htest]
    push_neg at hout hskip htest
    generalize hindex : (x + D._horizontalCellsCount * y) % 2 ^ 32 = index at *
    have hun : D._unassignedMask index = true := by simpa using hskip.1
    have hact : act index = false := by simpa using hskip.2
    -- the state after the activation of the cell
    have hcard := inactive_card_update D._totalCellCount index act hout hact
    have hfuel1 : ((Finset.range D._totalCellCount).filter
        fun i => (if i = index then true else act i) = false).card < fuel := by omega
    -- one conditional recursive call
    have hcall : ∀ (c : Prop) [Decidable c] (a : Nat → Bool) (x1 y1 : Nat),
        ((Finset.range D._totalCellCount).filter fun i => a i = false).card < fuel →
        a index = true →
        ∃ a1 : Nat → Bool,
          (if c then region_growing D fuel a x1 y1 (X.get_normal (D._planeGrid index))
              (X.get_plane_d (D._planeGrid index)) else some a) = some a1
            ∧ (∀ i, a i = true → a1 i = true)
            ∧ ∀ i, a1 i = true → a i = true ∨
                (i < D._totalCellCount ∧ D._unassignedMask i = true
                  ∧ ∃ j, a1 j = true
                    ∧ D._minCosAngleForMerge
                        ≤ (X.get_normal (D._planeGrid j)).dot (X.get_normal (D._planeGrid i))
                    ∧ ((X.get_normal (D._planeGrid j)).dot (X.get_mean (D._planeGrid i))
                          + X.get_plane_d (D._planeGrid j)) ^ 2
                        ≤ D._cellDistanceTols i) := by
      intro c _ a x1 y1 ha haindex
      by_cases hc : c
      · rw [if_pos hc]
        obtain ⟨a1, hrun, hmono, hnew⟩ := ih a x1 y1 _ _ ha
        refine ⟨a1, hrun, hmono, fun i hi => ?_⟩
        rcases hnew i hi with h | ⟨hlt, hu, h⟩
        · exact Or.inl h
        · refine Or.inr ⟨hlt, hu, ?_⟩
          rcases h with ⟨_, h1, h2⟩ | h
          · exact ⟨index, hmono index haindex, h1, h2⟩
          · exact h
      · rw [if_neg hc]
        exact ⟨a, rfl, fun i h => h, fun i h => Or.inl h⟩
    have hstart : (if index = index then true else act index) = true := by simp
    obtain ⟨a2, hrun2, hmono2, hnew2⟩ := hcall (0 < x) _ (x - 1) y hfuel1 hstart
    have hfuel2 := lt_of_le_of_lt (inactive_card_mono D._totalCellCount _ a2 hmono2) hfuel1
    obtain ⟨a3, hrun3, hmono3, hnew3⟩ := hcall (x < (D._width + 2 ^ 32 - 1) % 2 ^ 32) a2
      ((x + 1) % 2 ^ 16) y hfuel2 (hmono2 _ hstart)
    have hfuel3 := lt_of_le_of_lt (inactive_card_mono D._totalCellCount _ a3 hmono3) hfuel2
    obtain ⟨a4, hrun4, hmono4, hnew4⟩ := hcall (0 < y) a3 x (y - 1) hfuel3
      (hmono3 _ (hmono2 _ hstart))
    have hfuel4 := lt_of_le_of_lt (inactive_card_mono D._totalCellCount _ a4 hmono4) hfuel3
    obtain ⟨a5, hrun5, hmono5, hnew5⟩ := hcall (y < (D._height + 2 ^ 32 - 1) % 2 ^ 32) a4 x
      ((y + 1) % 2 ^ 16) hfuel4 (hmono4 _ (hmono3 _ (hmono2 _ hstart)))
    refine ⟨a5, ?_, ?_, ?_⟩
    · rw [hrun2, Option.some_bind, hrun3, Option.some_bind, hrun4, Option.some_bind, hrun5]
    · intro i hi
      apply hmono5; apply hmono4; apply hmono3; apply hmono2
      by_cases h : i = index
      · simp [h]
      · simpa [h] using hi
    · intro i hi
      -- lift a parent through the later maps
      have lift5 : ∀ j, a5 j = true → a5 j = true := fun j h => h
      have lift4 : ∀ j, a4 j = true → a5 j = true := fun j h => hmono5 j h
      have lift3 : ∀ j, a3 j = true → a5 j = true := fun j h => lift4 j (hmono4 j h)
      have lift2 : ∀ j, a2 j = true → a5 j = true := fun j h => lift3 j (hmono3 j h)
      rcases hnew5 i hi with h5 | ⟨hlt, hu, j, hj, ht⟩
      swap
      · exact Or.inr ⟨hlt, hu, Or.inr ⟨j, lift5 j hj, ht⟩⟩
      rcases hnew4 i h5 with h4 | ⟨hlt, hu, j, hj, ht⟩
      swap
      · exact Or.inr ⟨hlt, hu, Or.inr ⟨j, lift4 j hj, ht⟩⟩
      rcases hnew3 i h4 with h3 | ⟨hlt, hu, j, hj, ht⟩
      swap
      · exact Or.inr ⟨hlt, hu, Or.inr ⟨j, lift3 j hj, ht⟩⟩
      rcases hnew2 i h3 with h2 | ⟨hlt, hu, j, hj, ht⟩
      swap
      · exact Or.inr ⟨hlt, hu, Or.inr ⟨j, lift2 j hj, ht⟩⟩
      by_cases h : i = index
      · subst h
        exact Or.inr ⟨hout, hun, Or.inl ⟨rfl, htest.1, htest.2⟩⟩
      · exact Or.inl (by simpa [h] using h2)

/-- The region grown in `toyWrappedGrid` from the cell (1, 0): the cells 1 and
2. -/
lemma toyWrappedGrid_grown :
    region_growing toyWrappedGrid (toyWrappedGrid._totalCellCount + 1) (fun _ => false) 1 0
        (toyDetectionExternals.get_normal (toyWrappedGrid._planeGrid 1))
        (toyDetectionExternals.get_plane_d (toyWrappedGrid._planeGrid 1))
      = some (fun i => decide (i = 2) || decide (i = 1)) := by
  simp [region_growing, toyWrappedGrid, toyDetector, toyDetectionExternals, toyPlanarCell,
    toyEmptyCell, vector3.dot]
  norm_num

/-- The region grown in `toyBentRow` from the cell 0: the three cells. -/
lemma toyBentRow_grown :
    region_growing toyBentRow (toyBentRow._totalCellCount + 1) (fun _ => false) 0 0
        (toyDetectionExternals.get_normal (toyBentRow._planeGrid 0))
        (toyDetectionExternals.get_plane_d (toyBentRow._planeGrid 0))
      = some (fun i => decide (i = 2) || (decide (i = 1) || decide (i = 0))) := by
  simp [region_growing, toyBentRow, toyDetector, toyDetectionExternals, toyTiltedCell,
    vector3.dot]
  norm_num

/-- C22 fails on the code: in the grid `toyWrappedGrid` of 2 x 2 cells of
2 x 2 pixels, `region_growing` from the seed cell (1, 0), the last cell of the
first row, activates the cell 2, the first cell of the second row; the cells 1
and 2 are not neighbours in the cell grid, and no chain of activated
neighbours joins the seed to the cell 2. -/
theorem C22_region_is_not_4_connected :
    ∃ act1 : Nat → Bool,
      region_growing toyWrappedGrid (toyWrappedGrid._totalCellCount + 1) (fun _ => false) 1 0
          (toyDetectionExternals.get_normal (toyWrappedGrid._planeGrid 1))
          (toyDetectionExternals.get_plane_d (toyWrappedGrid._planeGrid 1)) = some act1
        ∧ toyWrappedGrid._horizontalCellsCount = 2
        ∧ toyWrappedGrid._verticalCellsCount = 2
        ∧ act1 1 = true ∧ act1 2 = true
        ∧ ¬ grid_neighbours toyWrappedGrid._horizontalCellsCount 1 2
        ∧ ¬ joined_by_activated_cells toyWrappedGrid._horizontalCellsCount act1 1 2 := by
  refine ⟨_, toyWrappedGrid_grown, rfl, rfl, by decide, by decide, ?_, ?_⟩
  · unfold grid_neighbours
    decide
  · intro hjoined
    rcases Relation.ReflTransGen.cases_tail hjoined with h | ⟨c, _, hc, _, hn⟩
    · exact absurd h (by decide)
    · have hc12 : c = 2 ∨ c = 1 := by simpa using hc
      rcases hc12 with rfl | rfl
      · revert hn; unfold grid_neighbours; decide
      · revert hn; unfold grid_neighbours; decide

/-- C23 as stated fails: in the row `toyBentRow` grown from the cell 0 with the
plane of that cell, the cell 2 is activated although the dot product of the
normal of the seed with its normal, `119 / 169`, is not above the threshold
`9 / 10`. -/
theorem C23_tests_counterexample :
    ∃ act1 : Nat → Bool,
      region_growing toyBentRow (toyBentRow._totalCellCount + 1) (fun _ => false) 0 0
          (toyDetectionExternals.get_normal (toyBentRow._planeGrid 0))
          (toyDetectionExternals.get_plane_d (toyBentRow._planeGrid 0)) = some act1
        ∧ act1 2 = true
        ∧ ¬ toyBentRow._minCosAngleForMerge
            < (toyDetectionExternals.get_normal (toyBentRow._planeGrid 0)).dot
              (toyDetectionExternals.get_normal (toyBentRow._planeGrid 2)) := by
  refine ⟨_, toyBentRow_grown, by decide, ?_⟩
  simp [toyBentRow, toyDetector, toyDetectionExternals, toyTiltedCell, vector3.dot]
  norm_num

/-- C27: for every grid, every seed coordinate, every activation map and every
plane, `region_growing` returns as soon as the recursion depth allowed is
above the number of cells of the grid; it keeps the cells that were activated,
every cell it activates is a cell of the grid that was inactive and is
unassigned, and the cells it activates are at most as many as the cells of the
grid. -/
theorem C27_region_growing_terminates (D : Primitive_Detection X) (extra : Nat)
    (act : Nat → Bool) (x y : Nat) (normal : vector3) (d : ℚ) :
    ∃ act1 : Nat → Bool,
      region_growing D (D._totalCellCount + 1 + extra) act x y normal d = some act1
        ∧ (∀ i, act i = true → act1 i = true)
        ∧ (∀ i, act1 i = true → act i = false →
            i < D._totalCellCount ∧ D._unassignedMask i = true)
        ∧ ((Finset.range D._totalCellCount).filter
            fun i => act1 i = true ∧ act i = false).card ≤ D._totalCellCount := by
  have hcard : ((Finset.range D._totalCellCount).filter fun i => act i = false).card
      < D._totalCellCount + 1 + extra := by
    have h1 := Finset.card_filter_le (Finset.range D._totalCellCount) (fun i => act i = false)
    rw [Finset.card_range] at h1
    omega
  obtain ⟨act1, hrun, hmono, hnew⟩ := region_growing_spec D _ act x y normal d hcard
  refine ⟨act1, hrun, hmono, fun i hi hact => ?_, ?_⟩
  · rcases hnew i hi with h | ⟨hlt, hun, _⟩
    · rw [hact] at h
      exact absurd h (by decide)
    · exact ⟨hlt, hun⟩
  · have h1 := Finset.card_filter_le (Finset.range D._totalCellCount)
      (fun i => act1 i = true ∧ act i = false)
    rw [Finset.card_range] at h1
    exact h1

/-- A cell reached from another one is still so when more cells are
activated. -/
lemma reached_from_mono (D : Primitive_Detection X) (a a1 : Nat → Bool)
    (hmono : ∀ i, a i = true → a1 i = true) (j i : Nat) (h : reached_from D a j i) :
    reached_from D a1 j i :=
  ⟨hmono j h.1, h.2⟩

/-- What `region_growing` does when its nesting depth exceeds the number of
inactive cells: it returns, every active cell stays active, and when a cell is
newly activated, the cell of the call was inactive and passes the two tests
against the plane given to the call, and the newly activated cell is a cell of
the grid that is unassigned and is joined to the cell of the call by a chain
of cells, each reached from the one before. -/
lemma region_growing_parent (D : Primitive_Detection X) :
    ∀ (fuel : Nat) (act : Nat → Bool) (x y : Nat) (normal : vector3) (d : ℚ),
      ((Finset.range D._totalCellCount).filter fun i => act i = false).card < fuel →
      ∃ act1 : Nat → Bool,
        region_growing D fuel act x y normal d = some act1
          ∧ (∀ i, act i = true → act1 i = true)
          ∧ ∀ i, act1 i = true → act i = true ∨
              (i < D._totalCellCount ∧ D._unassignedMask i = true
                ∧ act (cell_index D x y) = false
                ∧ D._minCosAngleForMerge
                    ≤ normal.dot (X.get_normal (D._planeGrid (cell_index D x y)))
                ∧ (normal.dot (X.get_mean (D._planeGrid (cell_index D x y))) + d) ^ 2
                    ≤ D._cellDistanceTols (cell_index D x y)
                ∧ Relation.ReflTransGen (reached_from D act1) (cell_index D x y) i) := by
  intro fuel
  induction fuel with
  | zero => intro act x y normal d h; omega
  | succ fuel ih =>
    intro act x y normal d hfuel
    rw [region_growing]
    simp only
    unfold cell_index
    by_cases hout : D._totalCellCount ≤ (x + D._horizontalCellsCount * y) % 2 ^ 32
    · rw [if_pos hout]
      exact ⟨act, rfl, fun i h => h, fun i h => Or.inl h⟩
    rw [if_neg hout]
    by_cases hskip : D._unassignedMask ((x + D._horizontalCellsCount * y) % 2 ^ 32) = false
        ∨ act ((x + D._horizontalCellsCount * y) % 2 ^ 32) = true
    · rw [if_pos hskip]
      exact ⟨act, rfl, fun i h => h, fun i h => Or.inl h⟩
    rw [if_neg hskip]
    by_cases htest : normal.dot (X.get_normal (D._planeGrid ((x + D._horizontalCellsCount * y) % 2 ^ 32)))
          < D._minCosAngleForMerge
        ∨ D._cellDistanceTols ((x + D._horizontalCellsCount * y) % 2 ^ 32)
          < (normal.dot (X.get_mean (D._planeGrid ((x + D._horizontalCellsCount * y) % 2 ^ 32)))
              + d) ^ 2
    · rw [if_pos htest]
      exact ⟨act, rfl, fun i h => h, fun i h => Or.inl h⟩
    rw [if_neg htest]
    push_neg at hout hskip htest
    have hcell : cell_index D x y = (x + D._horizontalCellsCount * y) % 2 ^ 32 := rfl
    generalize hindex : (x + D._horizontalCellsCount * y) % 2 ^ 32 = index at *
    have hun : D._unassignedMask index = true := by simpa using hskip.1
    have hact : act index = false := by simpa using hskip.2
    -- the state after the activation of the cell
    have hcard := inactive_card_update D._totalCellCount index act hout hact
    have hfuel1 : ((Finset.range D._totalCellCount).filter
        fun i => (if i = index then true else act i) = false).card < fuel := by omega
    -- one conditional recursive call
    have hcall : ∀ (c : Prop) [Decidable c] (a : Nat → Bool) (x1 y1 : Nat),
        (c → recursive_call_of D x y x1 y1) →
        ((Finset.range D._totalCellCount).filter fun i => a i = false).card < fuel →
        a index = true →
        ∃ a1 : Nat → Bool,
          (if c then region_growing D fuel a x1 y1 (X.get_normal (D._planeGrid index))
              (X.get_plane_d (D._planeGrid index)) else some a) = some a1
            ∧ (∀ i, a i = true → a1 i = true)
            ∧ ∀ i, a1 i = true → a i = true ∨
                (i < D._totalCellCount ∧ D._unassignedMask i = true
                  ∧ Relation.ReflTransGen (reached_from D a1) index i) := by
      intro c _ a x1 y1 hstep ha haindex
      by_cases hc : c
      · rw [if_pos hc]
        obtain ⟨a1, hrun, hmono, hnew⟩ := ih a x1 y1 _ _ ha
        refine ⟨a1, hrun, hmono, fun i hi => ?_⟩
        rcases hnew i hi with h | ⟨hlt, hu, hfalse, h1, h2, hchain⟩
        · exact Or.inl h
        · refine Or.inr ⟨hlt, hu, Relation.ReflTransGen.head ?_ hchain⟩
          refine ⟨hmono index haindex, ?_, ⟨x, y, x1, y1, hstep hc, hcell, rfl⟩, h1, h2⟩
          intro heq
          rw [← heq, haindex] at hfalse
          exact absurd hfalse (by decide)
      · rw [if_neg hc]
        exact ⟨a, rfl, fun i h => h, fun i h => Or.inl h⟩
    have hstart : (if index = index then true else act index) = true := by simp
    obtain ⟨a2, hrun2, hmono2, hnew2⟩ := hcall (0 < x) _ (x - 1) y
      (fun h => Or.inl ⟨h, rfl, rfl⟩) hfuel1 hstart
    have hfuel2 := lt_of_le_of_lt (inactive_card_mono D._totalCellCount _ a2 hmono2) hfuel1
    obtain ⟨a3, hrun3, hmono3, hnew3⟩ := hcall (x < (D._width + 2 ^ 32 - 1) % 2 ^ 32) a2
      ((x + 1) % 2 ^ 16) y (fun h => Or.inr (Or.inl ⟨h, rfl, rfl⟩)) hfuel2 (hmono2 _ hstart)
    have hfuel3 := lt_of_le_of_lt (inactive_card_mono D._totalCellCount _ a3 hmono3) hfuel2
    obtain ⟨a4, hrun4, hmono4, hnew4⟩ := hcall (0 < y) a3 x (y - 1)
      (fun h => Or.inr (Or.inr (Or.inl ⟨h, rfl, rfl⟩))) hfuel3
      (hmono3 _ (hmono2 _ hstart))
    have hfuel4 := lt_of_le_of_lt (inactive_card_mono D._totalCellCount _ a4 hmono4) hfuel3
    obtain ⟨a5, hrun5, hmono5, hnew5⟩ := hcall (y < (D._height + 2 ^ 32 - 1) % 2 ^ 32) a4 x
      ((y + 1) % 2 ^ 16) (fun h => Or.inr (Or.inr (Or.inr ⟨h, rfl, rfl⟩))) hfuel4
      (hmono4 _ (hmono3 _ (hmono2 _ hstart)))
    refine ⟨a5, ?_, ?_, ?_⟩
    · rw [hrun2, Option.some_bind, hrun3, Option.some_bind, hrun4, Option.some_bind, hrun5]
    · intro i hi
      apply hmono5; apply hmono4; apply hmono3; apply hmono2
      by_cases h : i = index
      · simp [h]
      · simpa [h] using hi
    · intro i hi
      -- lift a chain through the later maps
      have lift4 : ∀ j, a4 j = true → a5 j = true := fun j h => hmono5 j h
      have lift3 : ∀ j, a3 j = true → a5 j = true := fun j h => lift4 j (hmono4 j h)
      have lift2 : ∀ j, a2 j = true → a5 j = true := fun j h => lift3 j (hmono3 j h)
      have chain : ∀ (a : Nat → Bool), (∀ j, a j = true → a5 j = true) →
          Relation.ReflTransGen (reached_from D a) index i →
          Relation.ReflTransGen (reached_from D a5) index i :=
        fun a hlift h => Relation.ReflTransGen.mono (reached_from_mono D a a5 hlift) h
      rcases hnew5 i hi with h5 | ⟨hlt, hu, hj⟩
      swap
      · exact Or.inr ⟨hlt, hu, hact, htest.1, htest.2, hj⟩
      rcases hnew4 i h5 with h4 | ⟨hlt, hu, hj⟩
      swap
      · exact Or.inr ⟨hlt, hu, hact, htest.1, htest.2, chain a4 lift4 hj⟩
      rcases hnew3 i h4 with h3 | ⟨hlt, hu, hj⟩
      swap
      · exact Or.inr ⟨hlt, hu, hact, htest.1, htest.2, chain a3 lift3 hj⟩
      rcases hnew2 i h3 with h2 | ⟨hlt, hu, hj⟩
      swap
      · exact Or.inr ⟨hlt, hu, hact, htest.1, htest.2, chain a2 lift2 hj⟩
      by_cases h : i = index
      · subst h
        exact Or.inr ⟨hout, hun, hact, htest.1, htest.2, Relation.ReflTransGen.refl⟩
      · exact Or.inl (by simpa [h] using h2)

/-- C23, amended: `region_growing` from an empty activation map returns, and
for every cell it activates: the cell is a cell of the grid and is unassigned;
the seed cell passes the two tests `minCosAngleForMerge <= n . cellNormal` and
`(n . cellMean + d) ^ 2 <= tol(cell)` against the plane `(n, d)` passed by the
caller; the cell is joined to the seed cell by a chain of activated cells in
which each cell was reached from the one before, by one of the four recursive
calls, and passes the two tests against the plane of the one before; so a cell
other than the seed cell passes the two tests against the plane of the
activated cell from which it was reached, and not against the plane of the
seed. -/
theorem C23_activated_cell_passes_tests_of_its_parent (D : Primitive_Detection X)
    (x y : Nat) (seedPlaneNormal : vector3) (seedPlaneD : ℚ) :
    ∃ act1 : Nat → Bool,
      region_growing D (D._totalCellCount + 1) (fun _ => false) x y seedPlaneNormal seedPlaneD
          = some act1
        ∧ ∀ i, act1 i = true →
            i < D._totalCellCount ∧ D._unassignedMask i = true
              ∧ D._minCosAngleForMerge
                  ≤ seedPlaneNormal.dot (X.get_normal (D._planeGrid (cell_index D x y)))
              ∧ (seedPlaneNormal.dot (X.get_mean (D._planeGrid (cell_index D x y)))
                    + seedPlaneD) ^ 2
                  ≤ D._cellDistanceTols (cell_index D x y)
              ∧ Relation.ReflTransGen (reached_from D act1) (cell_index D x y) i
              ∧ (i = cell_index D x y ∨ ∃ j, reached_from D act1 j i) := by
  have hcard : ((Finset.range D._totalCellCount).filter
      fun i => (fun _ => false : Nat → Bool) i = false).card < D._totalCellCount + 1 := by
    have h1 := Finset.card_filter_le (Finset.range D._totalCellCount)
      (fun i => (fun _ => false : Nat → Bool) i = false)
    rw [Finset.card_range] at h1
    omega
  obtain ⟨act1, hrun, _, hnew⟩ :=
    region_growing_parent D _ (fun _ => false) x y seedPlaneNormal seedPlaneD hcard
  refine ⟨act1, hrun, fun i hi => ?_⟩
  rcases hnew i hi with h | ⟨hlt, hu, _, h1, h2, hchain⟩
  · exact absurd h (by decide)
  · refine ⟨hlt, hu, h1, h2, hchain, ?_⟩
    rcases Relation.ReflTransGen.cases_tail hchain with h | ⟨j, _, hj⟩
    · exact Or.inl h
    · exact Or.inr ⟨j, hj⟩

/-! ## Merging of planes -/

/-- Reading a list of labels after one of them is written. -/
lemma getD_set (labels : List Nat) (c value k : Nat) (hc : c < labels.length) :
    (labels.set c value).getD k 0 = if k = c then value else labels.getD k 0 := by
  by_cases h : k = c
  · subst h
    simp [List.getD_eq_getElem?_getD, List.getElem?_set, hc]
  · have h1 : c ≠ k := fun e => h e.symm
    simp [List.getD_eq_getElem?_getD, List.getElem?_set, h, h1]

/-- The initial labels `0, 1, ..., n - 1` satisfy the invariant. -/
lemma labels_ok_range (n r : Nat) : labels_ok n r (List.range n) := by
  refine ⟨List.length_range n, fun k hk => ?_⟩
  have h : (List.range n).getD k 0 = k := by
    rw [List.getD_eq_getElem _ _ (by simpa using hk)]
    simp
  rw [h, h]
  exact ⟨le_refl _, rfl, fun hne => absurd rfl hne⟩

/-- The invariant is kept when the row index advances. -/
lemma labels_ok_succ (n r : Nat) (labels : List Nat) (h : labels_ok n r labels) :
    labels_ok n (r + 1) labels :=
  ⟨h.1, fun k hk => ⟨(h.2 k hk).1, (h.2 k hk).2.1, fun hne => by
    have := (h.2 k hk).2.2 hne
    omega⟩⟩

/-- The invariant is kept when a plane `c` above the row `r` is given the
label of the row. -/
lemma labels_ok_set (n r c : Nat) (labels : List Nat) (h : labels_ok n r labels)
    (hr : r < c) (hc : c < n) :
    labels_ok n r (labels.set c (labels.getD r 0)) := by
  obtain ⟨hlen, hk⟩ := h
  have hrn : r < n := by omega
  obtain ⟨hr1, hr2, _⟩ := hk r hrn
  refine ⟨by simpa using hlen, fun k hkn => ?_⟩
  have hclen : c < labels.length := by omega
  obtain ⟨h1, h2, h3⟩ := hk k hkn
  rw [getD_set _ _ _ _ hclen]
  by_cases hkc : k = c
  · subst hkc
    simp only [if_true]
    rw [getD_set _ _ _ _ hclen]
    have hne : labels.getD r 0 ≠ k := by omega
    rw [if_neg hne]
    exact ⟨by omega, hr2, fun _ => hr1⟩
  · simp only [hkc, if_false]
    rw [getD_set _ _ _ _ hclen]
    have hne : labels.getD k 0 ≠ c := by
      intro heq
      by_cases hkk : labels.getD k 0 = k
      · exact hkc (hkk.symm.trans heq)
      · have := h3 hkk
        omega
    rw [if_neg hne]
    exact ⟨h1, h2, h3⟩

/-- The inner loop keeps the invariant of the labels, the number of plane
segments and the label of the row. -/
lemma merge_candidates_ok (D : Primitive_Detection X) (n r : Nat) :
    ∀ (candidates : List Nat) (state : MergeState X × Bool),
      (∀ c ∈ candidates, r < c ∧ c < n) →
      r < n →
      state.1.planeSegments.length = n →
      labels_ok n r state.1.planeMergeLabels →
      ∃ state1, merge_candidates D r (state.1.planeMergeLabels.getD r 0) candidates state
          = some state1
        ∧ state1.1.planeSegments.length = n
        ∧ labels_ok n r state1.1.planeMergeLabels
        ∧ state1.1.planeMergeLabels.getD r 0 = state.1.planeMergeLabels.getD r 0
        ∧ state1.1.planesAssocMat.cols = state.1.planesAssocMat.cols := by
  intro candidates
  induction candidates with
  | nil => intro state _ _ hseg hlab; exact ⟨state, rfl, hseg, hlab, rfl, rfl⟩
  | cons c candidates ih =>
    intro state hcand hrn hseg hlab
    obtain ⟨hrc, hcn⟩ := hcand c (List.mem_cons_self _ _)
    have hrest : ∀ c1 ∈ candidates, r < c1 ∧ c1 < n :=
      fun c1 h1 => hcand c1 (List.mem_cons_of_mem _ h1)
    have hid : state.1.planeMergeLabels.getD r 0 < n := by
      have := (hlab.2 r hrn).1
      omega
    have hstep : ∃ state1, merge_candidate D r (state.1.planeMergeLabels.getD r 0) c state
          = some state1
        ∧ state1.1.planeSegments.length = n
        ∧ labels_ok n r state1.1.planeMergeLabels
        ∧ state1.1.planeMergeLabels.getD r 0 = state.1.planeMergeLabels.getD r 0
        ∧ state1.1.planesAssocMat.cols = state.1.planesAssocMat.cols := by
      unfold merge_candidate
      simp only
      by_cases hassoc : state.1.planesAssocMat.data r c = true
      · rw [if_pos hassoc]
        have hb1 : state.1.planeMergeLabels.getD r 0 < state.1.planeSegments.length := by omega
        have hb2 : c < state.1.planeSegments.length := by omega
        obtain ⟨testPlane, h1⟩ :
            ∃ t, state.1.planeSegments[state.1.planeMergeLabels.getD r 0]? = some t :=
          ⟨_, List.getElem?_eq_getElem hb1⟩
        obtain ⟨mergePlane, h2⟩ : ∃ t, state.1.planeSegments[c]? = some t :=
          ⟨_, List.getElem?_eq_getElem hb2⟩
        rw [h1, h2]
        simp only
        split_ifs
        · refine ⟨_, rfl, by simpa using hseg, labels_ok_set n r c _ hlab hrc hcn, ?_, rfl⟩
          rw [getD_set _ _ _ _ (by rw [hlab.1]; exact hcn)]
          have : r ≠ c := by omega
          simp [this]
        · exact ⟨_, rfl, hseg, hlab, rfl, rfl⟩
      · rw [if_neg hassoc]
        exact ⟨state, rfl, hseg, hlab, rfl, rfl⟩
    obtain ⟨state1, hrun1, hseg1, hlab1, hsame1, hcols1⟩ := hstep
    obtain ⟨state2, hrun2, hseg2, hlab2, hsame2, hcols2⟩ := ih state1 hrest hrn hseg1 hlab1
    refine ⟨state2, ?_, hseg2, hlab2, hsame2.trans hsame1, hcols2.trans hcols1⟩
    simp only [merge_candidates, hrun1, Option.some_bind]
    rw [← hsame1]
    exact hrun2

/-- The body of the outer loop keeps the invariant of the labels for the next
row. -/
lemma merge_row_ok (D : Primitive_Detection X) (n r : Nat) (S : MergeState X)
    (hrn : r < n) (hcols : S.planesAssocMat.cols = n) (hseg : S.planeSegments.length = n)
    (hlab : labels_ok n r S.planeMergeLabels) :
    ∃ S1, merge_row D r S = some S1
      ∧ S1.planesAssocMat.cols = n
      ∧ S1.planeSegments.length = n
      ∧ labels_ok n (r + 1) S1.planeMergeLabels := by
  have hrlen : r < S.planeMergeLabels.length := by rw [hlab.1]; exact hrn
  have hlabel : S.planeMergeLabels[r]? = some (S.planeMergeLabels.getD r 0) := by
    rw [List.getD_eq_getElem _ _ hrlen]
    exact List.getElem?_eq_getElem hrlen
  have hid : S.planeMergeLabels.getD r 0 < n := by
    have := (hlab.2 r hrn).1
    omega
  have hb : S.planeMergeLabels.getD r 0 < S.planeSegments.length := by omega
  obtain ⟨testPlane, htest⟩ : ∃ t, S.planeSegments[S.planeMergeLabels.getD r 0]? = some t :=
    ⟨_, List.getElem?_eq_getElem hb⟩
  have hcand : ∀ c ∈ (List.range (S.planesAssocMat.cols - (r + 1))).map fun k => r + 1 + k,
      r < c ∧ c < n := by
    intro c hc
    obtain ⟨k, hk, rfl⟩ := List.mem_map.mp hc
    have := List.mem_range.mp hk
    omega
  obtain ⟨state1, hrun, hseg1, hlab1, hsame1, hcols1⟩ :=
    merge_candidates_ok D n r _ (S, false) hcand hrn hseg hlab
  unfold merge_row
  simp only [hlabel, htest]
  rw [hrun, Option.some_bind]
  by_cases hexp : state1.2 = true
  · rw [if_pos hexp]
    have hb1 : S.planeMergeLabels.getD r 0 < state1.1.planeSegments.length := by omega
    obtain ⟨testPlane1, htest1⟩ :
        ∃ t, state1.1.planeSegments[S.planeMergeLabels.getD r 0]? = some t :=
      ⟨_, List.getElem?_eq_getElem hb1⟩
    rw [htest1]
    exact ⟨_, rfl, hcols1.trans hcols, by simpa using hseg1, labels_ok_succ n r _ hlab1⟩
  · rw [if_neg hexp]
    exact ⟨_, rfl, hcols1.trans hcols, hseg1, labels_ok_succ n r _ hlab1⟩

/-- The outer loop over the rows `r`, `r + 1`, ... keeps the invariant of the
labels. -/
lemma merge_rows_ok (D : Primitive_Detection X) (n : Nat) :
    ∀ (count r : Nat) (S : MergeState X),
      r + count ≤ n → S.planesAssocMat.cols = n → S.planeSegments.length = n →
      labels_ok n r S.planeMergeLabels →
      ∃ S1, merge_rows D ((List.range count).map fun k => r + k) S = some S1
        ∧ S1.planeSegments.length = n
        ∧ labels_ok n (r + count) S1.planeMergeLabels := by
  intro count
  induction count with
  | zero => intro r S _ _ hseg hlab; exact ⟨S, rfl, hseg, hlab⟩
  | succ count ih =>
    intro r S hle hcols hseg hlab
    obtain ⟨S1, hrun1, hcols1, hseg1, hlab1⟩ := merge_row_ok D n r S (by omega) hcols hseg hlab
    obtain ⟨S2, hrun2, hseg2, hlab2⟩ := ih (r + 1) S1 (by omega) hcols1 hseg1 hlab1
    refine ⟨S2, ?_, hseg2, by rw [show r + (count + 1) = r + 1 + count by omega]; exact hlab2⟩
    rw [List.range_succ_eq_map, List.map_cons, List.map_map]
    simp only [merge_rows, Nat.add_zero, hrun1, Option.some_bind]
    have hfun : ((fun k => r + k) ∘ Nat.succ) = fun k => r + 1 + k := by
      funext k
      simp only [Function.comp, Nat.succ_eq_add_one]
      omega
    rw [hfun]
    exact hrun2

/-- A pixel comparison keeps the size of the association matrix. -/
lemma connect_pixel_size (segmentMap : Mat Int) (r c : Nat) (A : Mat Bool) :
    (connect_pixel segmentMap r c A).rows = A.rows
      ∧ (connect_pixel segmentMap r c A).cols = A.cols := by
  unfold connect_pixel
  simp only
  split_ifs <;> exact ⟨rfl, rfl⟩

/-- A loop of steps that keep the size of a matrix keeps it. -/
lemma foldl_size {β : Type} (f : Mat Bool → β → Mat Bool)
    (hf : ∀ A b, (f A b).rows = A.rows ∧ (f A b).cols = A.cols) :
    ∀ (l : List β) (A : Mat Bool),
      (l.foldl f A).rows = A.rows ∧ (l.foldl f A).cols = A.cols := by
  intro l
  induction l with
  | nil => intro A; exact ⟨rfl, rfl⟩
  | cons b l ih =>
    intro A
    rw [List.foldl_cons]
    exact ⟨(ih _).1.trans (hf A b).1, (ih _).2.trans (hf A b).2⟩

/-- The scan of `get_connected_components` keeps the size of the association
matrix, whatever the two scan counts. -/
lemma scan_size (segmentMap : Mat Int) (rowCount colCount : Nat) (A : Mat Bool) :
    ((List.range rowCount).foldl
        (fun planesAssociationMatrix r =>
          (List.range colCount).foldl
            (fun planesAssociationMatrix c =>
              connect_pixel segmentMap r c planesAssociationMatrix)
            planesAssociationMatrix)
        A).rows = A.rows
      ∧ ((List.range rowCount).foldl
        (fun planesAssociationMatrix r =>
          (List.range colCount).foldl
            (fun planesAssociationMatrix c =>
              connect_pixel segmentMap r c planesAssociationMatrix)
            planesAssociationMatrix)
        A).cols = A.cols := by
  apply foldl_size
  intro A1 r
  apply foldl_size
  intro A2 c
  exact connect_pixel_size segmentMap r c A2

/-- The function `get_connected_components` keeps the size of the association
matrix. -/
lemma get_connected_components_size (segmentMap : Mat Int) (A : Mat Bool) :
    (get_connected_components segmentMap A).rows = A.rows
      ∧ (get_connected_components segmentMap A).cols = A.cols :=
  scan_size segmentMap _ _ A

/-- The mask of `refine_plane_boundaries` for the plane `i` is set exactly on
the cells of the planes `j >= i` that carry the label of `i`. -/
lemma merged_plane_mask_data (D : Primitive_Detection X) (labels : List Nat) (i r c : Nat) :
    ((merged_plane_mask D labels i).data r c = 1
        ∧ ∃ j, i ≤ j ∧ j < D._planeSegments.length
            ∧ labels.getD j 0 = labels.getD i 0
            ∧ D._gridPlaneSegmentMap.data r c = ((j + 1 : Nat) : Int))
      ∨ ((merged_plane_mask D labels i).data r c = 0
        ∧ ¬ ∃ j, i ≤ j ∧ j < D._planeSegments.length
            ∧ labels.getD j 0 = labels.getD i 0
            ∧ D._gridPlaneSegmentMap.data r c = ((j + 1 : Nat) : Int)) := by
  have hfold : ∀ (l : List Nat) (mask : Mat Nat),
      ((l.foldl (fun mask j =>
          if labels.getD j 0 = labels.getD i 0 then
            mask.setTo 1 fun r c => decide (D._gridPlaneSegmentMap.data r c = ((j + 1 : Nat) : Int))
          else mask) mask).data r c = 1
          ∧ ∃ j, j ∈ l ∧ labels.getD j 0 = labels.getD i 0
              ∧ D._gridPlaneSegmentMap.data r c = ((j + 1 : Nat) : Int))
        ∨ ((l.foldl (fun mask j =>
          if labels.getD j 0 = labels.getD i 0 then
            mask.setTo 1 fun r c => decide (D._gridPlaneSegmentMap.data r c = ((j + 1 : Nat) : Int))
          else mask) mask).data r c = mask.data r c
          ∧ ¬ ∃ j, j ∈ l ∧ labels.getD j 0 = labels.getD i 0
              ∧ D._gridPlaneSegmentMap.data r c = ((j + 1 : Nat) : Int)) := by
    intro l
    induction l with
    | nil => intro mask; exact Or.inr ⟨rfl, by simp⟩
    | cons j l ih =>
      intro mask
      rw [List.foldl_cons]
      rcases ih (if labels.getD j 0 = labels.getD i 0 then
            mask.setTo 1 fun r c => decide (D._gridPlaneSegmentMap.data r c = ((j + 1 : Nat) : Int))
          else mask) with ⟨h1, j1, hj1, h2, h3⟩ | ⟨h1, hnone⟩
      · exact Or.inl ⟨h1, j1, List.mem_cons_of_mem _ hj1, h2, h3⟩
      · by_cases hj : labels.getD j 0 = labels.getD i 0
            ∧ D._gridPlaneSegmentMap.data r c = ((j + 1 : Nat) : Int)
        · refine Or.inl ⟨?_, j, List.mem_cons_self _ _, hj.1, hj.2⟩
          rw [h1, if_pos hj.1, Mat.setTo_data]
          exact if_pos (decide_eq_true hj.2)
        · refine Or.inr ⟨?_, ?_⟩
          · rw [h1]
            by_cases hlab : labels.getD j 0 = labels.getD i 0
            · rw [if_pos hlab, Mat.setTo_data]
              have hne : ¬ D._gridPlaneSegmentMap.data r c = ((j + 1 : Nat) : Int) :=
                fun h => hj ⟨hlab, h⟩
              exact if_neg (by rw [decide_eq_true_eq]; exact hne)
            · rw [if_neg hlab]
          · rintro ⟨j1, hj1, h2, h3⟩
            rcases List.mem_cons.mp hj1 with rfl | hmem
            · exact hj ⟨h2, h3⟩
            · exact hnone ⟨j1, hmem, h2, h3⟩
  have hiff : (∃ j, j ∈ (List.range (D._planeSegments.length - i)).map (fun k => i + k)
        ∧ labels.getD j 0 = labels.getD i 0
        ∧ D._gridPlaneSegmentMap.data r c = ((j + 1 : Nat) : Int))
      ↔ ∃ j, i ≤ j ∧ j < D._planeSegments.length ∧ labels.getD j 0 = labels.getD i 0
        ∧ D._gridPlaneSegmentMap.data r c = ((j + 1 : Nat) : Int) := by
    constructor
    · rintro ⟨j, hj, h1, h2⟩
      obtain ⟨k, hk, rfl⟩ := List.mem_map.mp hj
      have := List.mem_range.mp hk
      exact ⟨i + k, by omega, by omega, h1, h2⟩
    · rintro ⟨j, hij, hjn, h1, h2⟩
      exact ⟨j, List.mem_map.mpr ⟨j - i, List.mem_range.mpr (by omega), by omega⟩, h1, h2⟩
  unfold merged_plane_mask
  rcases hfold ((List.range (D._planeSegments.length - i)).map fun k => i + k)
      (Mat.fill D._mask.rows D._mask.cols 0) with ⟨h1, h2⟩ | ⟨h1, h2⟩
  · exact Or.inl ⟨h1, hiff.mp h2⟩
  · exact Or.inr ⟨h1, fun h => h2 (hiff.mpr h)⟩

/-- The labels left by the loops of `merge_planes`, for any association
matrix of the right size. -/
lemma merge_rows_labels (D : Primitive_Detection X) (assoc : Mat Bool)
    (hcols : assoc.cols = D._planeSegments.length) :
    ∃ S, merge_rows D (List.range D._planeSegments.length)
          { planeSegments := D._planeSegments
            planeMergeLabels := List.range D._planeSegments.length
            planesAssocMat := assoc } = some S
      ∧ S.planeSegments.length = D._planeSegments.length
      ∧ S.planeMergeLabels.length = D._planeSegments.length
      ∧ ∀ k, k < D._planeSegments.length →
          S.planeMergeLabels.getD k 0 ≤ k
            ∧ S.planeMergeLabels.getD (S.planeMergeLabels.getD k 0) 0
              = S.planeMergeLabels.getD k 0 := by
  obtain ⟨S, hrun, hseg, hlab⟩ := merge_rows_ok D D._planeSegments.length
    D._planeSegments.length 0
    { planeSegments := D._planeSegments
      planeMergeLabels := List.range D._planeSegments.length
      planesAssocMat := assoc } (by omega) hcols rfl (labels_ok_range _ _)
  refine ⟨S, ?_, hseg, hlab.1, fun k hk => ⟨(hlab.2 k hk).1, (hlab.2 k hk).2.1⟩⟩
  have hmap : (List.range D._planeSegments.length).map (fun k => 0 + k)
      = List.range D._planeSegments.length := by
    simp
  rw [hmap] at hrun
  exact hrun

/-- C28: for every detector and every association matrix of the size of the
list of plane segments, the loops of `merge_planes` return labels such that
`labels[k] <= k` and `labels[labels[k]] = labels[k]` for every plane `k`;
`merge_planes` itself returns such labels, and for every representative `i`
the mask that `refine_plane_boundaries` builds by scanning the indices
`j >= i` has the value 1 exactly at the cells of the planes labelled `i`, all
of them, and the value 0 elsewhere. -/
theorem C28_merge_labels (D : Primitive_Detection X) (assoc : Mat Bool)
    (hrows : assoc.rows = D._planeSegments.length)
    (hcols : assoc.cols = D._planeSegments.length) :
    (∃ S, merge_rows D (List.range assoc.rows)
          { planeSegments := D._planeSegments
            planeMergeLabels := List.range D._planeSegments.length
            planesAssocMat := assoc } = some S
        ∧ S.planeMergeLabels.length = D._planeSegments.length
        ∧ ∀ k, k < D._planeSegments.length →
            S.planeMergeLabels.getD k 0 ≤ k
              ∧ S.planeMergeLabels.getD (S.planeMergeLabels.getD k 0) 0
                = S.planeMergeLabels.getD k 0)
      ∧ ∃ (D1 : Primitive_Detection X) (labels : List Nat),
          merge_planes D [] = some (D1, labels)
            ∧ labels.length = D._planeSegments.length
            ∧ (∀ k, k < D._planeSegments.length →
                labels.getD k 0 ≤ k ∧ labels.getD (labels.getD k 0) 0 = labels.getD k 0)
            ∧ ∀ i, i < D._planeSegments.length → labels.getD i 0 = i → ∀ r c,
                ((merged_plane_mask D1 labels i).data r c = 1
                    ↔ ∃ j, j < D._planeSegments.length ∧ labels.getD j 0 = i
                        ∧ D._gridPlaneSegmentMap.data r c = ((j + 1 : Nat) : Int))
                  ∧ ((merged_plane_mask D1 labels i).data r c = 1
                    ∨ (merged_plane_mask D1 labels i).data r c = 0) := by
  constructor
  · obtain ⟨S, hrun, _, hlen, hlab⟩ := merge_rows_labels D assoc hcols
    rw [hrows]
    exact ⟨S, hrun, hlen, hlab⟩
  · obtain ⟨hr, hc⟩ := get_connected_components_size D._gridPlaneSegmentMap
      (Mat.fill D._planeSegments.length D._planeSegments.length false)
    obtain ⟨S, hrun, hseg, hlen, hlab⟩ := merge_rows_labels D
      (get_connected_components D._gridPlaneSegmentMap
        (Mat.fill D._planeSegments.length D._planeSegments.length false)) hc
    refine ⟨{ D with _planeSegments := S.planeSegments }, S.planeMergeLabels, ?_, hlen, hlab,
      fun i hi hrep r c => ?_⟩
    · unfold merge_planes
      simp only [List.nil_append, hr]
      have hfill : (Mat.fill D._planeSegments.length D._planeSegments.length false).rows
          = D._planeSegments.length := rfl
      rw [hfill, hrun]
      rfl
    · have hdata := merged_plane_mask_data { D with _planeSegments := S.planeSegments }
        S.planeMergeLabels i r c
      simp only [hseg, hrep] at hdata
      have hiff : (∃ j, i ≤ j ∧ j < D._planeSegments.length ∧ S.planeMergeLabels.getD j 0 = i
            ∧ D._gridPlaneSegmentMap.data r c = ((j + 1 : Nat) : Int))
          ↔ ∃ j, j < D._planeSegments.length ∧ S.planeMergeLabels.getD j 0 = i
            ∧ D._gridPlaneSegmentMap.data r c = ((j + 1 : Nat) : Int) := by
        constructor
        · rintro ⟨j, _, h1, h2, h3⟩
          exact ⟨j, h1, h2, h3⟩
        · rintro ⟨j, h1, h2, h3⟩
          have := (hlab j h1).1
          exact ⟨j, by omega, h1, h2, h3⟩
      rcases hdata with ⟨h1, h2⟩ | ⟨h1, h2⟩
      · exact ⟨⟨fun _ => hiff.mp h2, fun _ => h1⟩, Or.inl h1⟩
      · refine ⟨⟨fun h => ?_, fun h => absurd (hiff.mpr h) h2⟩, Or.inr h1⟩
        rw [h1] at h
        exact absurd h (by decide)

/-- C28, on the toy detector with two plane segments and an association
matrix that is true everywhere. -/
theorem C28_merge_labels_witness :
    (Mat.fill 2 2 true).rows = toyTwoPlanes._planeSegments.length
      ∧ (Mat.fill 2 2 true).cols = toyTwoPlanes._planeSegments.length
      ∧ ∃ (D1 : Primitive_Detection toyDetectionExternals) (labels : List Nat),
          merge_planes toyTwoPlanes [] = some (D1, labels)
            ∧ labels.length = 2
            ∧ labels.getD 1 0 ≤ 1
            ∧ labels.getD (labels.getD 1 0) 0 = labels.getD 1 0 :=
  ⟨rfl, rfl,
    (C28_merge_labels toyTwoPlanes (Mat.fill 2 2 true) rfl rfl).2.imp fun _ h =>
      h.imp fun _ h1 => ⟨h1.1, h1.2.1, (h1.2.2.1 1 (by decide)).1, (h1.2.2.1 1 (by decide)).2⟩⟩

/-- C24 fails on the code: in the grid `toyCornerGrid` of 2 x 2 cells the
plane 2 holds the last cell, next to a cell of the plane 1 in the last row and
to a cell of the plane 1 in the last column, and `get_connected_components`
leaves `A[0][1]` and `A[1][0]` false. -/
theorem C24_last_row_and_column_are_not_scanned :
    toyCornerGrid.data 1 0 = 1 ∧ toyCornerGrid.data 1 1 = 2
      ∧ toyCornerGrid.data 0 1 = 1
      ∧ (get_connected_components toyCornerGrid (Mat.fill 2 2 false)).data 0 1 = false
      ∧ (get_connected_components toyCornerGrid (Mat.fill 2 2 false)).data 1 0 = false := by
  decide

/-! ## Histogram angles and cell tolerances -/

/-- For a normal that does not face the camera the second angle is finite. -/
lemma histogram_angles_of_tilted (planeNormal : vector3)
    (h : planeNormal.x ≠ 0 ∨ planeNormal.y ≠ 0) :
    (histogram_angles planeNormal).2
      = Double.finite (pose_optimization.atan2
          ((planeNormal.x : ℝ)
            * (1 / Real.sqrt ((planeNormal.x : ℝ) * planeNormal.x
                + (planeNormal.y : ℝ) * planeNormal.y)))
          ((planeNormal.y : ℝ)
            * (1 / Real.sqrt ((planeNormal.x : ℝ) * planeNormal.x
                + (planeNormal.y : ℝ) * planeNormal.y)))) := by
  have hpos : 0 < (planeNormal.x : ℝ) * planeNormal.x + (planeNormal.y : ℝ) * planeNormal.y := by
    rcases h with h | h
    · have hx : (planeNormal.x : ℝ) ≠ 0 := by exact_mod_cast h
      have := mul_self_pos.mpr hx
      have := mul_self_nonneg (planeNormal.y : ℝ)
      linarith
    · have hy : (planeNormal.y : ℝ) ≠ 0 := by exact_mod_cast h
      have := mul_self_pos.mpr hy
      have := mul_self_nonneg (planeNormal.x : ℝ)
      linarith
  have hsqrt : Real.sqrt ((planeNormal.x : ℝ) * planeNormal.x
      + (planeNormal.y : ℝ) * planeNormal.y) ≠ 0 := (Real.sqrt_pos.mpr hpos).ne'
  simp only [histogram_angles, Double.one_div, hsqrt, if_false, Double.mul_finite, Double.atan2]

/-- C21 fails on the code: the planar cell of `toyFacingCell` has the unit
normal `(0, 0, -1)`; the divisor `sqrt(nx * nx + ny * ny)` of `init_histogram`
is zero for it, the quotient is infinite, its products by `nx = 0` and
`ny = 0` are not numbers, and the second histogram angle of the cell is not a
number. -/
theorem C21_facing_plane_divides_by_zero :
    toyDetectionExternals.is_planar (toyFacingCell._planeGrid 0) = true
      ∧ (toyDetectionExternals.get_normal (toyFacingCell._planeGrid 0)).dot
          (toyDetectionExternals.get_normal (toyFacingCell._planeGrid 0)) = 1
      ∧ Real.sqrt
          (((toyDetectionExternals.get_normal (toyFacingCell._planeGrid 0)).x : ℝ)
              * (toyDetectionExternals.get_normal (toyFacingCell._planeGrid 0)).x
            + ((toyDetectionExternals.get_normal (toyFacingCell._planeGrid 0)).y : ℝ)
              * (toyDetectionExternals.get_normal (toyFacingCell._planeGrid 0)).y) = 0
      ∧ (init_histogram_loop toyFacingCell).1 0 = some (Double.finite 0, Double.nan) := by
  refine ⟨rfl, ?_, ?_, ?_⟩
  · simp [toyFacingCell, toyDetectionExternals, toyPlanarCell, vector3.dot]
  · simp [toyFacingCell, toyDetectionExternals, toyPlanarCell]
  · have hrange : List.range toyFacingCell._totalCellCount = [0] := rfl
    unfold init_histogram_loop
    rw [hrange]
    simp [toyFacingCell, toyDetectionExternals, toyPlanarCell,
      histogram_angles, Double.one_div, Double.mul_finite, Double.atan2, Double.acos]

/-- The loop of `init_planar_cell_fitting` over the first `k` cells: the
cells below `k` hold their fitted segment and their tolerance, the others are
as they were. -/
lemma init_planar_cell_fitting_prefix (D : Primitive_Detection X)
    (init_plane_segment : X.Plane_Segment → (Nat → vector3) → Nat → X.Plane_Segment)
    (store : ℝ → ℝ) (depthCloudArray : Nat → vector3) (cellDistanceTols : Nat → ℝ) :
    ∀ (k : Nat) (grid : Nat → X.Plane_Segment) (tols : Nat → ℝ),
      (List.range k).foldl
        (fun (state : Option ((Nat → X.Plane_Segment) × (Nat → ℝ))) stackedCellId =>
          state.bind fun state =>
            if X.is_planar (init_plane_segment (state.1 stackedCellId) depthCloudArray
                stackedCellId) then
              (cell_diameter
                  (depthCloudArray
                    (stackedCellId * D._pointsPerCellCount + D._pointsPerCellCount - 1))
                  (depthCloudArray (stackedCellId * D._pointsPerCellCount))).map
                fun (cellDiameter : Nat) =>
                  ((fun i =>
                      if i = stackedCellId then
                        init_plane_segment (state.1 stackedCellId) depthCloudArray stackedCellId
                      else state.1 i),
                    fun i =>
                      if i = stackedCellId then
                        cell_tolerance D store cellDiameter
                      else state.2 i)
            else
              some ((fun i =>
                  if i = stackedCellId then
                    init_plane_segment (state.1 stackedCellId) depthCloudArray stackedCellId
                  else state.1 i), state.2))
        (some (D._planeGrid, cellDistanceTols)) = some (grid, tols) →
      (∀ i, k ≤ i → grid i = D._planeGrid i ∧ tols i = cellDistanceTols i)
        ∧ ∀ i, i < k →
            grid i = init_plane_segment (D._planeGrid i) depthCloudArray i
              ∧ (X.is_planar (grid i) = true →
                  ∃ cellDiameter : Nat,
                    cell_diameter
                        (depthCloudArray (i * D._pointsPerCellCount + D._pointsPerCellCount - 1))
                        (depthCloudArray (i * D._pointsPerCellCount)) = some cellDiameter
                      ∧ tols i = cell_tolerance D store cellDiameter)
              ∧ (X.is_planar (grid i) = false → tols i = cellDistanceTols i) := by
  intro k
  induction k with
  | zero =>
    intro grid tols h
    simp only [List.range_zero, List.foldl_nil, Option.some.injEq, Prod.mk.injEq] at h
    obtain ⟨rfl, rfl⟩ := h
    exact ⟨fun i _ => ⟨rfl, rfl⟩, fun i hi => absurd hi (by omega)⟩
  | succ k ih =>
    intro grid tols h
    rw [List.range_succ, List.foldl_append] at h
    simp only [List.foldl_cons, List.foldl_nil] at h
    cases hprev : (List.range k).foldl
        (fun (state : Option ((Nat → X.Plane_Segment) × (Nat → ℝ))) stackedCellId =>
          state.bind fun state =>
            if X.is_planar (init_plane_segment (state.1 stackedCellId) depthCloudArray
                stackedCellId) then
              (cell_diameter
                  (depthCloudArray
                    (stackedCellId * D._pointsPerCellCount + D._pointsPerCellCount - 1))
                  (depthCloudArray (stackedCellId * D._pointsPerCellCount))).map
                fun (cellDiameter : Nat) =>
                  ((fun i =>
                      if i = stackedCellId then
                        init_plane_segment (state.1 stackedCellId) depthCloudArray stackedCellId
                      else state.1 i),
                    fun i =>
                      if i = stackedCellId then
                        cell_tolerance D store cellDiameter
                      else state.2 i)
            else
              some ((fun i =>
                  if i = stackedCellId then
                    init_plane_segment (state.1 stackedCellId) depthCloudArray stackedCellId
                  else state.1 i), state.2))
        (some (D._planeGrid, cellDistanceTols)) with
    | none =>
      rw [hprev] at h
      simp at h
    | some prev =>
      obtain ⟨grid0, tols0⟩ := prev
      obtain ⟨hrest, hdone⟩ := ih grid0 tols0 hprev
      rw [hprev] at h
      simp only [Option.some_bind] at h
      have hk := (hrest k (le_refl k)).1
      by_cases hplanar : X.is_planar (init_plane_segment (grid0 k) depthCloudArray k) = true
      · rw [if_pos hplanar] at h
        cases hdiam : cell_diameter
            (depthCloudArray (k * D._pointsPerCellCount + D._pointsPerCellCount - 1))
            (depthCloudArray (k * D._pointsPerCellCount)) with
        | none =>
          rw [hdiam] at h
          simp at h
        | some cellDiameter =>
          rw [hdiam] at h
          simp only [Option.map_some', Option.some.injEq, Prod.mk.injEq] at h
          obtain ⟨rfl, rfl⟩ := h
          refine ⟨fun i hi => ?_, fun i hi => ?_⟩
          · have hne : i ≠ k := by omega
            simp only [hne, if_false]
            exact hrest i (by omega)
          · by_cases hik : i = k
            · subst hik
              simp only [if_true]
              rw [hk] at hplanar ⊢
              exact ⟨rfl, fun _ => ⟨cellDiameter, hdiam, rfl⟩, fun hf => by
                rw [hplanar] at hf
                exact absurd hf (by decide)⟩
            · simp only [hik, if_false]
              exact hdone i (by omega)
      · rw [if_neg hplanar] at h
        simp only [Option.some.injEq, Prod.mk.injEq] at h
        obtain ⟨rfl, rfl⟩ := h
        refine ⟨fun i hi => ?_, fun i hi => ?_⟩
        · have hne : i ≠ k := by omega
          simp only [hne, if_false]
          exact hrest i (by omega)
        · by_cases hik : i = k
          · subst hik
            simp only [if_true]
            rw [hk] at hplanar ⊢
            exact ⟨rfl, fun ht => absurd ht hplanar, fun _ => (hrest i (le_refl i)).2⟩
          · simp only [hik, if_false]
            exact hdone i (by omega)

/-- The truncated value is the integer part of the norm computed in single
precision. -/
lemma cell_diameter_eq (last first : vector3) (cellDiameter : Nat)
    (h : cell_diameter last first = some cellDiameter) :
    (cellDiameter : ℝ) ≤ block_difference_norm last first
      ∧ block_difference_norm last first < (cellDiameter : ℝ) + 1 := by
  unfold cell_diameter at h
  simp only at h
  split_ifs at h
  have heq := Option.some.inj h
  rw [← heq]
  have hnonneg : 0 ≤ block_difference_norm last first :=
    float_round_nonneg 24 _ (Real.sqrt_nonneg _)
  exact ⟨Nat.floor_le hnonneg, Nat.lt_floor_add_one _⟩

/-- C25, amended: after `init_planar_cell_fitting` every cell holds its fitted
segment; a planar cell has the tolerance
`store((clamp(float(D) * s, 20, maxMergeDist))^2)`, where `D` is the integer
part of the distance between the first and the last cloud point of the cell
as the code computes it in single precision, `s` is
`sqrt(1 - minCosAngleForMerge^2)` computed in double precision and converted to
`float`, the product is rounded to `float`, and `store` is the conversion to
the type of the elements of `_cellDistanceTols`; a cell that is not planar
keeps the tolerance 0. -/
theorem C25_tolerance_uses_truncated_diameter (D : Primitive_Detection X)
    (init_plane_segment : X.Plane_Segment → (Nat → vector3) → Nat → X.Plane_Segment)
    (store : ℝ → ℝ) (depthCloudArray : Nat → vector3) (grid : Nat → X.Plane_Segment)
    (tols : Nat → ℝ)
    (hrun : init_planar_cell_fitting D init_plane_segment store depthCloudArray (fun _ => 0)
      = some (grid, tols))
    (cell : Nat) (hcell : cell < D._totalCellCount) :
    grid cell = init_plane_segment (D._planeGrid cell) depthCloudArray cell
      ∧ (X.is_planar (grid cell) = true →
          ∃ cellDiameter : Nat,
            (cellDiameter : ℝ)
                ≤ block_difference_norm
                    (depthCloudArray (cell * D._pointsPerCellCount + D._pointsPerCellCount - 1))
                    (depthCloudArray (cell * D._pointsPerCellCount))
              ∧ block_difference_norm
                    (depthCloudArray (cell * D._pointsPerCellCount + D._pointsPerCellCount - 1))
                    (depthCloudArray (cell * D._pointsPerCellCount))
                < (cellDiameter : ℝ) + 1
              ∧ tols cell
                = store
                    (to_double
                      (clamp
                          (to_float (to_float (cellDiameter : ℝ) * sin_cos_angle_for_merge D))
                          20 (D._maxMergeDist : ℝ) ^ 2)))
      ∧ (X.is_planar (grid cell) = false → tols cell = 0) := by
  obtain ⟨_, hdone⟩ := init_planar_cell_fitting_prefix D init_plane_segment store
    depthCloudArray (fun _ => 0) D._totalCellCount grid tols hrun
  obtain ⟨hgrid, hplanar, hother⟩ := hdone cell hcell
  refine ⟨hgrid, fun hp => ?_, hother⟩
  obtain ⟨cellDiameter, hdiam, htol⟩ := hplanar hp
  obtain ⟨hle, hlt⟩ := cell_diameter_eq _ _ cellDiameter hdiam
  exact ⟨cellDiameter, hle, hlt, htol⟩

/-- The sine of the toy cell: the threshold 0 on the cosine gives 1. -/
lemma toyWideCell_sine : sin_cos_angle_for_merge toyWideCell = 1 := by
  have hcos : ((toyWideCell._minCosAngleForMerge : ℚ) : ℝ) = 0 := by
    have h : toyWideCell._minCosAngleForMerge = 0 := rfl
    rw [h, Rat.cast_zero]
  have h0 : to_double (0 : ℝ) = 0 := float_round_zero 53
  have h1 : to_double (1 : ℝ) = 1 := to_double_eq_self 1 1 0 (by norm_num) (by norm_num)
  have hf1 : to_float (1 : ℝ) = 1 := to_float_eq_self 1 1 0 (by norm_num) (by norm_num)
  unfold sin_cos_angle_for_merge
  rw [hcos]
  norm_num [h0, h1, hf1]

/-- The first and the last point of the cell 0 of `toyWideCloud`: their
distance `50.5` is computed exactly in single precision. -/
lemma toyWideCloud_norm : block_difference_norm (toyWideCloud 3) (toyWideCloud 0) = 101 / 2 := by
  have hcloud3 : toyWideCloud 3 = ⟨101 / 2, 0, 0⟩ := rfl
  have hcloud0 : toyWideCloud 0 = ⟨0, 0, 0⟩ := rfl
  have h0 : to_float (0 : ℝ) = 0 := float_round_zero 24
  have hx : to_float (101 / 2 : ℝ) = 101 / 2 :=
    to_float_eq_self _ 101 (-1) (by norm_num) (by norm_num)
  have hxx : to_float (10201 / 4 : ℝ) = 10201 / 4 :=
    to_float_eq_self _ 10201 (-2) (by norm_num) (by norm_num)
  have hsqrt : Real.sqrt (10201 / 4 : ℝ) = 101 / 2 := by
    rw [show (10201 / 4 : ℝ) = (101 / 2) ^ 2 by norm_num, Real.sqrt_sq (by norm_num)]
  unfold block_difference_norm
  rw [hcloud3, hcloud0]
  simp only [sub_zero, Rat.cast_zero, h0, mul_zero, add_zero]
  have hcast : (((101 / 2 : ℚ)) : ℝ) = 101 / 2 := by norm_num
  rw [hcast, hx, show (101 / 2 : ℝ) * (101 / 2) = 10201 / 4 by norm_num]
  simp only [hxx, hsqrt, hx]

/-- The diameter of the toy cell for `toyWideCloud` is truncated to 50. -/
lemma toyWideCell_diameter :
    cell_diameter (toyWideCloud 3) (toyWideCloud 0) = some 50 := by
  unfold cell_diameter
  simp only [toyWideCloud_norm]
  have hlt : (101 / 2 : ℝ) < 2 ^ 32 := by norm_num
  rw [if_pos hlt]
  congr 1
  rw [Nat.floor_eq_iff (by norm_num)]
  constructor <;> norm_num

/-- The first and the last point of the cell 0 of `toyRoundedCloud`: their
distance computed in single precision is 65. -/
lemma toyRoundedCloud_norm :
    block_difference_norm (toyRoundedCloud 3) (toyRoundedCloud 0) = 65 := by
  have hcloud3 : toyRoundedCloud 3 = ⟨33 - 1 / 262144, 56, 0⟩ := rfl
  have hcloud0 : toyRoundedCloud 0 = ⟨0, 0, 0⟩ := rfl
  have h0 : to_float (0 : ℝ) = 0 := float_round_zero 24
  have hx : to_float (8650751 / 262144 : ℝ) = 8650751 / 262144 :=
    to_float_eq_self _ 8650751 (-18) (by norm_num) (by norm_num)
  have hy : to_float (56 : ℝ) = 56 := to_float_eq_self _ 56 0 (by norm_num) (by norm_num)
  have hyy : to_float (3136 : ℝ) = 3136 := to_float_eq_self _ 3136 0 (by norm_num) (by norm_num)
  -- the square of the first difference is rounded up
  have hxx : to_float ((8650751 / 262144 : ℝ) * (8650751 / 262144)) = 4460543 / 4096 := by
    have h := @float_round_eq ℝ _ _ 24 ((8650751 / 262144 : ℝ) * (8650751 / 262144)) 10 8921086
      (by rw [abs_of_pos (by norm_num)]; norm_num)
      (by rw [abs_of_pos (by norm_num)]; norm_num)
      (by
        have := @round_half_even_of_gt ℝ _ _
          ((8650751 / 262144 : ℝ) * (8650751 / 262144) / (2 : ℝ) ^ ((10 : ℤ) + 1 - ((24 : ℕ) : ℤ)))
          8921085 (by norm_num) (by norm_num)
        rw [this]
        norm_num)
    unfold to_float
    rw [h]
    norm_num
  -- the sum of the two squares lies half way between two floats
  have hsum : to_float ((4460543 / 4096 : ℝ) + 3136) = 4225 := by
    have h := @float_round_eq ℝ _ _ 24 ((4460543 / 4096 : ℝ) + 3136) 12 8652800
      (by rw [abs_of_pos (by norm_num)]; norm_num)
      (by rw [abs_of_pos (by norm_num)]; norm_num)
      (by
        have := @round_half_even_of_tie ℝ _ _
          (((4460543 / 4096 : ℝ) + 3136) / (2 : ℝ) ^ ((12 : ℤ) + 1 - ((24 : ℕ) : ℤ)))
          8652799 (by norm_num)
        rw [this]
        norm_num)
    unfold to_float
    rw [h]
    norm_num
  have h4225 : to_float (4225 : ℝ) = 4225 :=
    to_float_eq_self _ 4225 0 (by norm_num) (by norm_num)
  have h65 : to_float (65 : ℝ) = 65 := to_float_eq_self _ 65 0 (by norm_num) (by norm_num)
  have hsqrt : Real.sqrt (4225 : ℝ) = 65 := by
    rw [show (4225 : ℝ) = 65 ^ 2 by norm_num, Real.sqrt_sq (by norm_num)]
  unfold block_difference_norm
  rw [hcloud3, hcloud0]
  simp only [sub_zero, Rat.cast_zero, h0, mul_zero, add_zero]
  have hcast : (((33 - 1 / 262144 : ℚ)) : ℝ) = 8650751 / 262144 := by norm_num
  have hcast56 : (((56 : ℚ)) : ℝ) = 56 := by norm_num
  rw [hcast, hcast56, hx, hy, hxx, show (56 : ℝ) * 56 = 3136 by norm_num, hyy, hsum]
  simp only [h4225, hsqrt, h65]

/-- The tolerance of the toy cell for a diameter between 20 and 100 that is
a `float`: its square, when the square is a `float` too. -/
lemma toyWideCell_tolerance (cellDiameter : Nat) (h20 : 20 ≤ cellDiameter)
    (h100 : cellDiameter ≤ 100) :
    cell_tolerance toyWideCell to_float cellDiameter = ((cellDiameter : ℝ)) ^ 2 := by
  have hmax : ((toyWideCell._maxMergeDist : ℚ) : ℝ) = 100 := by
    have h : toyWideCell._maxMergeDist = 100 := rfl
    rw [h]
    norm_num
  have hd : to_float (cellDiameter : ℝ) = (cellDiameter : ℝ) := by
    have h := @to_float_intCast ℝ _ _ (cellDiameter : ℤ) (by
      rw [abs_of_nonneg (by positivity)]
      have : (cellDiameter : ℤ) ≤ 100 := by exact_mod_cast h100
      omega)
    simpa using h
  have hsq : to_double ((cellDiameter : ℝ) ^ 2) = (cellDiameter : ℝ) ^ 2 := by
    have h := @to_double_intCast ℝ _ _ ((cellDiameter : ℤ) ^ 2) (by
      rw [abs_of_nonneg (by positivity)]
      have h1 : (cellDiameter : ℤ) ≤ 100 := by exact_mod_cast h100
      have h0 : (0 : ℤ) ≤ cellDiameter := by positivity
      nlinarith)
    simpa using h
  have hsqf : to_float ((cellDiameter : ℝ) ^ 2) = (cellDiameter : ℝ) ^ 2 := by
    have h := @to_float_intCast ℝ _ _ ((cellDiameter : ℤ) ^ 2) (by
      rw [abs_of_nonneg (by positivity)]
      have h1 : (cellDiameter : ℤ) ≤ 100 := by exact_mod_cast h100
      have h0 : (0 : ℤ) ≤ cellDiameter := by positivity
      nlinarith)
    simpa using h
  have hlo : ¬ (cellDiameter : ℝ) < 20 := by
    have : (20 : ℝ) ≤ cellDiameter := by exact_mod_cast h20
    linarith
  have hhi : ¬ (100 : ℝ) < cellDiameter := by
    have : (cellDiameter : ℝ) ≤ 100 := by exact_mod_cast h100
    linarith
  unfold cell_tolerance
  rw [toyWideCell_sine, mul_one, hd, hd, hmax]
  unfold clamp
  rw [if_neg hlo, if_neg hhi, hsq, hsqf]

/-- The run of `init_planar_cell_fitting` on the toy cell with a cloud, when
the diameter of the cell is known: the segment is kept and the tolerance is
that of the diameter. -/
lemma toyWideCell_fitted (depthCloudArray : Nat → vector3) (cellDiameter : Nat)
    (h : cell_diameter (depthCloudArray 3) (depthCloudArray 0) = some cellDiameter) :
    @init_planar_cell_fitting toyDetectionExternals toyWideCell
        (fun segment _ _ => segment) to_float depthCloudArray (fun _ => 0)
      = some (fun i => if i = 0 then toyWideCell._planeGrid 0 else toyWideCell._planeGrid i,
          fun i => if i = 0 then cell_tolerance toyWideCell to_float cellDiameter else 0) := by
  have hrange : List.range toyWideCell._totalCellCount = [0] := rfl
  have hplanar : toyDetectionExternals.is_planar (toyWideCell._planeGrid 0) = true := rfl
  have hppc : toyWideCell._pointsPerCellCount = 4 := rfl
  unfold init_planar_cell_fitting
  rw [hrange]
  simp only [List.foldl_cons, List.foldl_nil, Option.some_bind, hplanar, if_true, hppc,
    Nat.zero_mul, Nat.zero_add]
  rw [show (4 - 1 : Nat) = 3 from rfl, h]
  rfl

/-- The diameter of the toy cell for `toyRoundedCloud` is 65. -/
lemma toyRoundedCell_diameter :
    cell_diameter (toyRoundedCloud 3) (toyRoundedCloud 0) = some 65 := by
  unfold cell_diameter
  simp only [toyRoundedCloud_norm]
  have hlt : (65 : ℝ) < 2 ^ 32 := by norm_num
  rw [if_pos hlt]
  congr 1
  rw [Nat.floor_eq_iff (by norm_num)]
  constructor <;> norm_num

/-- C25, amended, on the toy cell of four points whose first and last points
are `(0, 0, 0)` and `(33 - 2 ^ -18, 56, 0)`: the run returns, the cell 0 keeps
its segment, and its tolerance is the one of the theorem for a natural number
within one unit below the norm computed in single precision; this norm is 65
though the two points are less than 65 apart, and the tolerance is
`65 ^ 2 = 4225`. -/
theorem C25_tolerance_uses_truncated_diameter_witness :
    ∃ (grid : Nat → ToyPlaneSegment) (tols : Nat → ℝ),
      @init_planar_cell_fitting toyDetectionExternals toyWideCell (fun segment _ _ => segment)
          to_float toyRoundedCloud (fun _ => 0) = some (grid, tols)
        ∧ 0 < toyWideCell._totalCellCount
        ∧ grid 0 = toyWideCell._planeGrid 0
        ∧ (∃ cellDiameter : Nat,
            (cellDiameter : ℝ)
                ≤ block_difference_norm (toyRoundedCloud (0 * 4 + 4 - 1)) (toyRoundedCloud (0 * 4))
              ∧ block_difference_norm (toyRoundedCloud (0 * 4 + 4 - 1)) (toyRoundedCloud (0 * 4))
                < (cellDiameter : ℝ) + 1
              ∧ tols 0
                = to_float
                    (to_double
                      (clamp
                          (to_float
                            (to_float (cellDiameter : ℝ) * sin_cos_angle_for_merge toyWideCell))
                          20 (toyWideCell._maxMergeDist : ℝ) ^ 2)))
        ∧ tols 0 = 4225
        ∧ block_difference_norm (toyRoundedCloud 3) (toyRoundedCloud 0) = 65
        ∧ Real.sqrt
            ((((toyRoundedCloud 3).x - (toyRoundedCloud 0).x : ℚ) : ℝ) ^ 2
              + (((toyRoundedCloud 3).y - (toyRoundedCloud 0).y : ℚ) : ℝ) ^ 2
              + (((toyRoundedCloud 3).z - (toyRoundedCloud 0).z : ℚ) : ℝ) ^ 2) < 65 := by
  have hrun := toyWideCell_fitted toyRoundedCloud 65 toyRoundedCell_diameter
  refine ⟨_, _, hrun, by decide,
    (@C25_tolerance_uses_truncated_diameter toyDetectionExternals toyWideCell
      (fun segment _ _ => segment) to_float toyRoundedCloud _ _ hrun 0 (by decide)).1,
    (@C25_tolerance_uses_truncated_diameter toyDetectionExternals toyWideCell
      (fun segment _ _ => segment) to_float toyRoundedCloud _ _ hrun 0 (by decide)).2.1 rfl,
    ?_, toyRoundedCloud_norm, ?_⟩
  · simp only [if_true]
    rw [toyWideCell_tolerance 65 (by norm_num) (by norm_num)]
    norm_num
  · have hcloud3 : toyRoundedCloud 3 = ⟨33 - 1 / 262144, 56, 0⟩ := rfl
    have hcloud0 : toyRoundedCloud 0 = ⟨0, 0, 0⟩ := rfl
    rw [hcloud3, hcloud0]
    rw [show (65 : ℝ) = Real.sqrt (65 ^ 2) by rw [Real.sqrt_sq (by norm_num)]]
    apply Real.sqrt_lt_sqrt (by positivity)
    norm_num

/-- C25 as stated fails: on the toy cell, with the threshold 0 on the cosine,
the first and the last point are `50.5` apart; the code stores the tolerance
`50 ^ 2 = 2500`, computed with the truncated diameter 50, and the exact
distance gives `50.5 ^ 2 = 2550.25`. -/
theorem C25_tolerance_counterexample :
    ∃ (grid : Nat → ToyPlaneSegment) (tols : Nat → ℝ),
      @init_planar_cell_fitting toyDetectionExternals toyWideCell (fun segment _ _ => segment)
          to_float toyWideCloud (fun _ => 0) = some (grid, tols)
        ∧ toyDetectionExternals.is_planar (grid 0) = true
        ∧ tols 0 = 2500
        ∧ clamp
            (Real.sqrt
                ((((toyWideCloud 3).x - (toyWideCloud 0).x : ℚ) : ℝ) ^ 2
                  + (((toyWideCloud 3).y - (toyWideCloud 0).y : ℚ) : ℝ) ^ 2
                  + (((toyWideCloud 3).z - (toyWideCloud 0).z : ℚ) : ℝ) ^ 2)
              * Real.sqrt (1 - (toyWideCell._minCosAngleForMerge : ℝ) ^ 2))
            20 (toyWideCell._maxMergeDist : ℝ) ^ 2 = 10201 / 4
        ∧ (2500 : ℝ) ≠ 10201 / 4 := by
  have hcos : ((toyWideCell._minCosAngleForMerge : ℚ) : ℝ) = 0 := by
    have h : toyWideCell._minCosAngleForMerge = 0 := rfl
    rw [h, Rat.cast_zero]
  have hmax : ((toyWideCell._maxMergeDist : ℚ) : ℝ) = 100 := by
    have h : toyWideCell._maxMergeDist = 100 := rfl
    rw [h]
    norm_num
  refine ⟨_, _, toyWideCell_fitted toyWideCloud 50 toyWideCell_diameter, rfl, ?_, ?_,
    by norm_num⟩
  · simp only [if_true]
    rw [toyWideCell_tolerance 50 (by norm_num) (by norm_num)]
    norm_num
  · have hsq : Real.sqrt ((((toyWideCloud 3).x - (toyWideCloud 0).x : ℚ) : ℝ) ^ 2
        + (((toyWideCloud 3).y - (toyWideCloud 0).y : ℚ) : ℝ) ^ 2
        + (((toyWideCloud 3).z - (toyWideCloud 0).z : ℚ) : ℝ) ^ 2) = 101 / 2 := by
      have h : ((((toyWideCloud 3).x - (toyWideCloud 0).x : ℚ) : ℝ) ^ 2
          + (((toyWideCloud 3).y - (toyWideCloud 0).y : ℚ) : ℝ) ^ 2
          + (((toyWideCloud 3).z - (toyWideCloud 0).z : ℚ) : ℝ) ^ 2) = (101 / 2 : ℝ) ^ 2 := by
        simp [toyWideCloud]
      rw [h, Real.sqrt_sq (by norm_num)]
    rw [hsq, hcos, hmax]
    unfold clamp
    norm_num

/-! ## Refinement of the plane boundaries -/

/-- Doing nothing is a conditional assignment under a guard that is false. -/
lemma overwrites_at_id (pt : Nat) (dist maxDist : ℚ) (id : Nat) :
    overwrites_at pt dist maxDist id False (fun stacked => stacked) :=
  fun _ => Or.inr ⟨fun h => h.1, rfl, rfl⟩

/-- The guard of a conditional assignment can be replaced by an equivalent
one. -/
lemma overwrites_at_congr (pt : Nat) (dist maxDist : ℚ) (id : Nat) (guard guard1 : Prop)
    (F : (Nat → ℚ) × (Nat → Nat) → (Nat → ℚ) × (Nat → Nat)) (h : guard ↔ guard1)
    (hF : overwrites_at pt dist maxDist id guard F) :
    overwrites_at pt dist maxDist id guard1 F := by
  intro stacked
  rcases hF stacked with ⟨⟨hg, hc⟩, h1, h2⟩ | ⟨hn, h1, h2⟩
  · exact Or.inl ⟨⟨h.mp hg, hc⟩, h1, h2⟩
  · exact Or.inr ⟨fun hh => hn ⟨h.mpr hh.1, hh.2⟩, h1, h2⟩

/-- Two conditional assignments of the same values, one after the other, are
a conditional assignment under the disjunction of the guards. -/
lemma overwrites_at_comp (pt : Nat) (dist maxDist : ℚ) (id : Nat) (guard guard1 : Prop)
    (F F1 : (Nat → ℚ) × (Nat → Nat) → (Nat → ℚ) × (Nat → Nat))
    (hF : overwrites_at pt dist maxDist id guard F)
    (hF1 : overwrites_at pt dist maxDist id guard1 F1) :
    overwrites_at pt dist maxDist id (guard ∨ guard1) (fun stacked => F1 (F stacked)) := by
  intro stacked
  rcases hF stacked with ⟨⟨hg, hc⟩, h1, h2⟩ | ⟨hn, h1, h2⟩
  · rcases hF1 (F stacked) with ⟨⟨_, _, hlt⟩, _, _⟩ | ⟨_, k1, k2⟩
    · rw [h1] at hlt
      exact absurd hlt (lt_irrefl _)
    · exact Or.inl ⟨⟨Or.inl hg, hc⟩, k1.trans h1, k2.trans h2⟩
  · rcases hF1 (F stacked) with ⟨⟨hg1, hm, hlt⟩, k1, k2⟩ | ⟨hn1, k1, k2⟩
    · rw [h1] at hlt
      exact Or.inl ⟨⟨Or.inr hg1, hm, hlt⟩, k1, k2⟩
    · refine Or.inr ⟨?_, k1.trans h1, k2.trans h2⟩
      rintro ⟨hg | hg, hm, hlt⟩
      · exact hn ⟨hg, hm, hlt⟩
      · exact hn1 ⟨hg, hm, by rw [h1]; exact hlt⟩

/-- A loop of conditional assignments of the same values is a conditional
assignment under the disjunction of the guards. -/
lemma overwrites_at_foldl {α : Type} (pt : Nat) (dist maxDist : ℚ) (id : Nat)
    (f : (Nat → ℚ) × (Nat → Nat) → α → (Nat → ℚ) × (Nat → Nat)) (guard : α → Prop) :
    ∀ l : List α,
      (∀ a ∈ l, overwrites_at pt dist maxDist id (guard a) (fun stacked => f stacked a)) →
      overwrites_at pt dist maxDist id (∃ a, a ∈ l ∧ guard a)
        (fun stacked => l.foldl f stacked) := by
  intro l
  induction l using List.reverseRecOn with
  | nil =>
    intro _
    exact overwrites_at_congr pt dist maxDist id _ _ _ (by simp)
      (overwrites_at_id pt dist maxDist id)
  | append_singleton l a ih =>
    intro h
    have h1 := ih (fun b hb => h b (List.mem_append_left _ hb))
    have h2 := h a (List.mem_append_right _ (List.mem_singleton_self a))
    have h3 := overwrites_at_comp pt dist maxDist id _ _ _ _ h1 h2
    have hfun : (fun stacked => (l ++ [a]).foldl f stacked)
        = fun stacked => f (l.foldl f stacked) a := by
      funext stacked
      rw [List.foldl_append]
      rfl
    rw [hfun]
    refine overwrites_at_congr pt dist maxDist id _ _ _ ?_ h3
    constructor
    · rintro (⟨b, hb, hg⟩ | hg)
      · exact ⟨b, List.mem_append_left _ hb, hg⟩
      · exact ⟨a, List.mem_append_right _ (List.mem_singleton_self a), hg⟩
    · rintro ⟨b, hb, hg⟩
      rcases List.mem_append.mp hb with hb | hb
      · exact Or.inl ⟨b, hb, hg⟩
      · rw [List.mem_singleton.mp hb] at hg
        exact Or.inr hg

/-- A conditional assignment done under a test is a conditional assignment
under the conjunction. -/
lemma overwrites_at_ite (pt : Nat) (dist maxDist : ℚ) (id : Nat) (guard : Prop)
    (b : Prop) [Decidable b]
    (F : (Nat → ℚ) × (Nat → Nat) → (Nat → ℚ) × (Nat → Nat))
    (hF : overwrites_at pt dist maxDist id guard F) :
    overwrites_at pt dist maxDist id (b ∧ guard)
      (fun stacked => if b then F stacked else stacked) := by
  intro stacked
  by_cases hb : b
  · rcases hF stacked with ⟨⟨hg, hc⟩, h1, h2⟩ | ⟨hn, h1, h2⟩
    · refine Or.inl ⟨⟨⟨hb, hg⟩, hc⟩, ?_, ?_⟩ <;> simp only [hb, if_true] <;> assumption
    · refine Or.inr ⟨fun h => hn ⟨h.1.2, h.2⟩, ?_, ?_⟩ <;> simp only [hb, if_true] <;>
        assumption
  · refine Or.inr ⟨fun h => hb h.1.1, ?_, ?_⟩ <;> simp only [hb, if_false]

/-- The assignment of lines 569-573 for the point `q`. -/
lemma overwrites_at_point (pt q : Nat) (dist : Nat → ℚ) (maxDist : ℚ) (id : Nat) :
    overwrites_at pt (dist pt) maxDist id (q = pt)
      (fun stacked =>
        if dist q < maxDist ∧ dist q < stacked.1 q then
          ((fun x => if x = q then dist q else stacked.1 x),
            (fun x => if x = q then id else stacked.2 x))
        else stacked) := by
  intro stacked
  by_cases hq : q = pt
  · subst hq
    by_cases hc : dist q < maxDist ∧ dist q < stacked.1 q
    · refine Or.inl ⟨⟨rfl, hc⟩, ?_, ?_⟩ <;> simp [hc]
    · refine Or.inr ⟨fun h => hc h.2, ?_, ?_⟩ <;> simp [hc]
  · refine Or.inr ⟨fun h => hq h.1, ?_, ?_⟩
    · have hne : pt ≠ q := fun e => hq e.symm
      by_cases hc : dist q < maxDist ∧ dist q < stacked.1 q <;> simp [hc, hne]
    · have hne : pt ≠ q := fun e => hq e.symm
      by_cases hc : dist q < maxDist ∧ dist q < stacked.1 q <;> simp [hc, hne]

/-- The loop of lines 566-574 on the points of one cell, seen at the cloud
point `pt`. -/
lemma assign_plane_points_at (D : Primitive_Detection X) (depthCloudArray : Nat → vector3)
    (normal : vector3) (d maxDist : ℚ) (planeId stackedCellId pt : Nat) :
    overwrites_at pt
      (plane_distance (depthCloudArray pt) normal.x normal.y normal.z d)
      maxDist planeId
      (∃ j, j < D._pointsPerCellCount ∧ pt = stackedCellId * D._pointsPerCellCount + j)
      (fun stacked =>
        assign_plane_points D depthCloudArray normal d maxDist planeId stackedCellId stacked) := by
  have h := overwrites_at_foldl pt
    (plane_distance (depthCloudArray pt) normal.x normal.y normal.z d) maxDist planeId
    (fun (stacked : (Nat → ℚ) × (Nat → Nat)) q =>
      if plane_distance (depthCloudArray q) normal.x normal.y normal.z d < maxDist
          ∧ plane_distance (depthCloudArray q) normal.x normal.y normal.z d < stacked.1 q then
        ((fun x => if x = q then plane_distance (depthCloudArray q) normal.x normal.y normal.z d
          else stacked.1 x),
          (fun x => if x = q then planeId else stacked.2 x))
      else stacked)
    (fun q => q = pt)
    ((List.range D._pointsPerCellCount).map fun j => stackedCellId * D._pointsPerCellCount + j)
    (fun q _ => overwrites_at_point pt q
      (fun q => plane_distance (depthCloudArray q) normal.x normal.y normal.z d) maxDist planeId)
  refine overwrites_at_congr pt _ maxDist planeId _ _ _ ?_ h
  constructor
  · rintro ⟨q, hq, rfl⟩
    obtain ⟨j, hj, rfl⟩ := List.mem_map.mp hq
    exact ⟨j, List.mem_range.mp hj, rfl⟩
  · rintro ⟨j, hj, rfl⟩
    exact ⟨_, List.mem_map.mpr ⟨j, List.mem_range.mpr hj, rfl⟩, rfl⟩

/-- The loops of lines 547-577 on the cells of the boundary band, seen at the
cloud point `pt`. -/
lemma refine_plane_cells_at (D : Primitive_Detection X) (depthCloudArray : Nat → vector3)
    (maskDiff : Mat Nat) (normal : vector3) (d maxDist : ℚ) (planeId pt : Nat) :
    overwrites_at pt
      (plane_distance (depthCloudArray pt) normal.x normal.y normal.z d)
      maxDist planeId
      (in_boundary_band D maskDiff pt = true)
      (fun stacked =>
        refine_plane_cells D depthCloudArray maskDiff normal d maxDist planeId stacked) := by
  have hrow : ∀ cellR, overwrites_at pt
      (plane_distance (depthCloudArray pt) normal.x normal.y normal.z d) maxDist planeId
      (∃ cellC, cellC ∈ List.range D._horizontalCellsCount
        ∧ (0 < maskDiff.data cellR cellC
          ∧ ∃ j, j < D._pointsPerCellCount
            ∧ pt = (cellR * D._horizontalCellsCount + cellC) * D._pointsPerCellCount + j))
      (fun stacked =>
        (List.range D._horizontalCellsCount).foldl
          (fun stacked cellC =>
            if 0 < maskDiff.data cellR cellC then
              assign_plane_points D depthCloudArray normal d maxDist planeId
                (cellR * D._horizontalCellsCount + cellC) stacked
            else stacked)
          stacked) := by
    intro cellR
    apply overwrites_at_foldl
    intro cellC _
    exact overwrites_at_ite pt _ maxDist planeId _ (0 < maskDiff.data cellR cellC) _
      (assign_plane_points_at D depthCloudArray normal d maxDist planeId
        (cellR * D._horizontalCellsCount + cellC) pt)
  have h := overwrites_at_foldl pt
    (plane_distance (depthCloudArray pt) normal.x normal.y normal.z d) maxDist planeId
    (fun (stacked : (Nat → ℚ) × (Nat → Nat)) cellR =>
      (List.range D._horizontalCellsCount).foldl
        (fun stacked cellC =>
          if 0 < maskDiff.data cellR cellC then
            assign_plane_points D depthCloudArray normal d maxDist planeId
              (cellR * D._horizontalCellsCount + cellC) stacked
          else stacked)
        stacked)
    (fun cellR => ∃ cellC, cellC ∈ List.range D._horizontalCellsCount
        ∧ (0 < maskDiff.data cellR cellC
          ∧ ∃ j, j < D._pointsPerCellCount
            ∧ pt = (cellR * D._horizontalCellsCount + cellC) * D._pointsPerCellCount + j))
    (List.range D._verticalCellsCount) (fun cellR _ => hrow cellR)
  refine overwrites_at_congr pt _ maxDist planeId _ _ _ ?_ h
  unfold in_boundary_band
  simp only [List.any_eq_true, Bool.and_eq_true, decide_eq_true_eq, List.mem_range]

/-- The mask of the merged planes depends on the state of the detector only
through what `same_grid` keeps. -/
lemma merged_plane_mask_congr (D D1 : Primitive_Detection X) (labels : List Nat) (i : Nat)
    (h : same_grid D D1) :
    merged_plane_mask D1 labels i = merged_plane_mask D labels i := by
  obtain ⟨h1, h2, h3, h4, _, _, _⟩ := h
  unfold merged_plane_mask
  rw [h1, h2, h3, h4]

/-- The size of the mask of the merged planes is the size of `_mask`. -/
lemma merged_plane_mask_size (D : Primitive_Detection X) (labels : List Nat) (i : Nat) :
    (merged_plane_mask D labels i).rows = D._mask.rows
      ∧ (merged_plane_mask D labels i).cols = D._mask.cols := by
  unfold merged_plane_mask
  have hfold : ∀ (l : List Nat) (mask : Mat Nat),
      (l.foldl (fun mask j =>
          if labels.getD j 0 = labels.getD i 0 then
            mask.setTo 1 fun r c => decide (D._gridPlaneSegmentMap.data r c = ((j + 1 : Nat) : Int))
          else mask) mask).rows = mask.rows
        ∧ (l.foldl (fun mask j =>
          if labels.getD j 0 = labels.getD i 0 then
            mask.setTo 1 fun r c => decide (D._gridPlaneSegmentMap.data r c = ((j + 1 : Nat) : Int))
          else mask) mask).cols = mask.cols := by
    intro l
    induction l with
    | nil => intro mask; exact ⟨rfl, rfl⟩
    | cons j l ih =>
      intro mask
      rw [List.foldl_cons]
      refine ⟨(ih _).1.trans ?_, (ih _).2.trans ?_⟩ <;> split_ifs <;> rfl
  exact hfold _ _

/-- The survival of a plane depends on the state of the detector only through
what `same_grid` keeps. -/
lemma plane_survives_congr (D D1 : Primitive_Detection X) (labels : List Nat) (i : Nat)
    (h : same_grid D D1) : plane_survives D1 labels i = plane_survives D labels i := by
  unfold plane_survives
  rw [merged_plane_mask_congr D D1 labels i h]

/-- The boundary band of a plane depends on the state of the detector only
through what `same_grid` keeps. -/
lemma plane_band_congr (D D1 : Primitive_Detection X) (labels : List Nat) (i : Nat)
    (h : same_grid D D1) : plane_band D1 labels i = plane_band D labels i := by
  unfold plane_band
  rw [merged_plane_mask_congr D D1 labels i h]

/-- The cells covered by a band depend on the state of the detector only
through the cell grid. -/
lemma in_boundary_band_congr (D D1 : Primitive_Detection X) (band : Mat Nat) (pt : Nat)
    (hvc : D1._verticalCellsCount = D._verticalCellsCount)
    (hhc : D1._horizontalCellsCount = D._horizontalCellsCount)
    (hppc : D1._pointsPerCellCount = D._pointsPerCellCount) :
    in_boundary_band D1 band pt = in_boundary_band D band pt := by
  unfold in_boundary_band
  rw [hvc, hhc, hppc]

/-- The refinement of the cells depends on the state of the detector only
through the cell grid. -/
lemma refine_plane_cells_congr (D D1 : Primitive_Detection X)
    (depthCloudArray : Nat → vector3) (maskDiff : Mat Nat) (normal : vector3) (d maxDist : ℚ)
    (planeId : Nat) (stacked : (Nat → ℚ) × (Nat → Nat))
    (hvc : D1._verticalCellsCount = D._verticalCellsCount)
    (hhc : D1._horizontalCellsCount = D._horizontalCellsCount)
    (hppc : D1._pointsPerCellCount = D._pointsPerCellCount) :
    refine_plane_cells D1 depthCloudArray maskDiff normal d maxDist planeId stacked
      = refine_plane_cells D depthCloudArray maskDiff normal d maxDist planeId stacked := by
  unfold refine_plane_cells assign_plane_points
  rw [hvc, hhc, hppc]

/-- The body of the loop of `refine_plane_boundaries` for a plane that is not
processed: nothing but the masks changes. -/
lemma refine_plane_of_not_survivor (depthCloudArray : Nat → vector3) (labels : List Nat)
    (R : RefineState X) (i : Nat) (h : plane_survives R.detector labels i = false) :
    ∃ R1, refine_plane depthCloudArray labels R i = some R1
      ∧ R1.idAllocator = R.idAllocator
      ∧ R1.detector._distancesStacked = R.detector._distancesStacked
      ∧ R1.detector._segMapStacked = R.detector._segMapStacked
      ∧ same_grid R.detector R1.detector := by
  unfold plane_survives at h
  by_cases hrep : i ≠ labels.getD i 0
  · unfold refine_plane
    simp only [eq_true hrep, if_true]
    exact ⟨R, rfl, rfl, rfl, rfl, rfl, rfl, rfl, rfl, rfl, rfl, rfl⟩
  · have hrep1 : i = labels.getD i 0 := not_not.mp hrep
    have hmax : (merged_plane_mask R.detector labels i).erode_cross.maxValue ≤ 0 := by
      by_contra hcon
      have hpos : 0 < (merged_plane_mask R.detector labels i).erode_cross.maxValue := by omega
      rw [decide_eq_true hrep1, decide_eq_true hpos] at h
      exact absurd h (by decide)
    unfold refine_plane
    simp only [eq_false hrep, if_false, hmax, if_true, Option.some.injEq, exists_eq_left',
      same_grid,
      (merged_plane_mask_size R.detector labels i).1,
      (merged_plane_mask_size R.detector labels i).2, and_self]

/-- The body of the loop of `refine_plane_boundaries` for a plane that is
processed: the allocator is incremented and the cells of the boundary band
are refined for the new identifier. -/
lemma refine_plane_of_survivor (depthCloudArray : Nat → vector3) (labels : List Nat)
    (R : RefineState X) (i : Nat) (planeSegment : X.Plane_Segment)
    (h : plane_survives R.detector labels i = true) (halloc : R.idAllocator < 49)
    (hseg : R.detector._planeSegments[i]? = some planeSegment)
    (hsize : R.detector._mask.rows * R.detector._mask.cols ≠ 0) :
    ∃ R1, refine_plane depthCloudArray labels R i = some R1
      ∧ R1.idAllocator = R.idAllocator + 1
      ∧ R1.detector._distancesStacked
        = (refine_plane_cells R.detector depthCloudArray (plane_band R.detector labels i)
            ⟨to_float (X.get_normal planeSegment).x, to_float (X.get_normal planeSegment).y,
              to_float (X.get_normal planeSegment).z⟩
            (to_float (X.get_plane_d planeSegment))
            (to_float (to_double (9 * X.get_MSE planeSegment))) (R.idAllocator + 1)
            (R.detector._distancesStacked, R.detector._segMapStacked)).1
      ∧ R1.detector._segMapStacked
        = (refine_plane_cells R.detector depthCloudArray (plane_band R.detector labels i)
            ⟨to_float (X.get_normal planeSegment).x, to_float (X.get_normal planeSegment).y,
              to_float (X.get_normal planeSegment).z⟩
            (to_float (X.get_plane_d planeSegment))
            (to_float (to_double (9 * X.get_MSE planeSegment))) (R.idAllocator + 1)
            (R.detector._distancesStacked, R.detector._segMapStacked)).2
      ∧ same_grid R.detector R1.detector := by
  unfold plane_survives at h
  rw [Bool.and_eq_true, decide_eq_true_eq, decide_eq_true_eq] at h
  obtain ⟨hrep, hpos⟩ := h
  have hne : (i ≠ labels.getD i 0) = False := eq_false (not_not.mpr hrep)
  have hmax : ((merged_plane_mask R.detector labels i).erode_cross.maxValue ≤ 0) = False :=
    eq_false (by omega)
  have hid : (R.idAllocator + 1) % 2 ^ 32 % 2 ^ 8 = R.idAllocator + 1 := by omega
  have hid32 : (R.idAllocator + 1) % 2 ^ 32 = R.idAllocator + 1 := by omega
  have hid8 : (R.idAllocator + 1) % 2 ^ 8 = R.idAllocator + 1 := by omega
  have hlt : (R.idAllocator + 1 < CYLINDER_CODE_OFFSET) = True :=
    eq_true (by unfold CYLINDER_CODE_OFFSET; omega)
  have hempty : (merged_plane_mask R.detector labels i).dilate_square.empty = false := by
    have hr := (merged_plane_mask_size R.detector labels i).1
    have hc := (merged_plane_mask_size R.detector labels i).2
    simp [Mat.empty, Mat.dilate_square, hr, hc, hsize]
  have hcells := refine_plane_cells_congr R.detector
    { R.detector with
      _mask := merged_plane_mask R.detector labels i
      _maskEroded := (merged_plane_mask R.detector labels i).erode_cross
      _maskDilated := (merged_plane_mask R.detector labels i).dilate_square
      _maskDiff := (merged_plane_mask R.detector labels i).dilate_square.subtract
        (merged_plane_mask R.detector labels i).erode_cross }
    depthCloudArray (plane_band R.detector labels i)
    ⟨to_float (X.get_normal planeSegment).x, to_float (X.get_normal planeSegment).y,
              to_float (X.get_normal planeSegment).z⟩
            (to_float (X.get_plane_d planeSegment))
            (to_float (to_double (9 * X.get_MSE planeSegment))) (R.idAllocator + 1)
    (R.detector._distancesStacked, R.detector._segMapStacked) rfl rfl rfl
  unfold plane_band at hcells ⊢
  simp only at hcells
  unfold refine_plane
  simp only [hne, if_false, hmax, hid, hid32, hid8, hlt, if_true, hseg, hempty, Bool.false_eq_true,
    Option.some.injEq, exists_eq_left', same_grid,
    (merged_plane_mask_size R.detector labels i).1,
    (merged_plane_mask_size R.detector labels i).2, and_self, and_true, true_and, hcells]

/-- The relation `same_grid` is transitive. -/
lemma same_grid_trans (D D1 D2 : Primitive_Detection X) (h1 : same_grid D D1)
    (h2 : same_grid D1 D2) : same_grid D D2 := by
  obtain ⟨a1, a2, a3, a4, a5, a6, a7⟩ := h1
  obtain ⟨b1, b2, b3, b4, b5, b6, b7⟩ := h2
  exact ⟨b1.trans a1, b2.trans a2, b3.trans a3, b4.trans a4, b5.trans a5, b6.trans a6,
    b7.trans a7⟩

/-- The minimum of the sentinel and of the qualifying distances is at most the
sentinel. -/
lemma spec_distance_le (events : List PlaneEvent) (sentinel : ℚ) :
    spec_distance events sentinel ≤ sentinel := by
  unfold spec_distance
  generalize ((events.filter fun e => e.qualifies).map fun e => e.dist) = l
  induction l generalizing sentinel with
  | nil => exact le_refl _
  | cons a l ih =>
    rw [List.foldl_cons]
    exact le_trans (ih _) (min_le_left _ _)

/-- The minimum for a list of events that starts with a given event. -/
lemma spec_distance_cons (e : PlaneEvent) (events : List PlaneEvent) (sentinel : ℚ) :
    spec_distance (e :: events) sentinel
      = if e.qualifies = true then spec_distance events (min sentinel e.dist)
        else spec_distance events sentinel := by
  unfold spec_distance
  by_cases h : e.qualifies = true
  · simp [h, List.filter_cons]
  · simp [h, List.filter_cons]

/-- The first identifier for a list of events that starts with a given
event. -/
lemma first_id_cons (e : PlaneEvent) (events : List PlaneEvent) (m : ℚ) :
    first_id (e :: events) m
      = if e.qualifies = true ∧ e.dist = m then e.id else first_id events m := by
  unfold first_id
  by_cases h : e.qualifies = true ∧ e.dist = m
  · simp [List.find?_cons, h.1, h.2]
  · rw [if_neg h]
    have hb : (e.qualifies && decide (e.dist = m)) = false := by
      rw [Bool.and_eq_false_iff]
      by_cases hq : e.qualifies = true
      · right
        exact decide_eq_false (fun hd => h ⟨hq, hd⟩)
      · left
        simpa using hq
    simp [List.find?_cons, hb]

/-- The conditional assignments of a list of planes leave the minimum of the
stored distance and of the qualifying distances, and the identifier of the
first plane that attains it when it is below the stored distance. -/
lemma apply_events_eq (events : List PlaneEvent) :
    ∀ stored : ℚ × Nat,
      (apply_events events stored).1 = spec_distance events stored.1
        ∧ (apply_events events stored).2
          = if spec_distance events stored.1 < stored.1 then
              first_id events (spec_distance events stored.1)
            else stored.2 := by
  induction events with
  | nil =>
    intro stored
    simp [apply_events, spec_distance]
  | cons e events ih =>
    intro stored
    have hstep : apply_events (e :: events) stored
        = apply_events events
            (if e.qualifies = true ∧ e.dist < stored.1 then (e.dist, e.id) else stored) := rfl
    rw [hstep, spec_distance_cons, first_id_cons]
    by_cases hq : e.qualifies = true
    · rw [if_pos hq]
      by_cases hlt : e.dist < stored.1
      · rw [if_pos ⟨hq, hlt⟩]
        have hmin : min stored.1 e.dist = e.dist := min_eq_right (le_of_lt hlt)
        obtain ⟨h1, h2⟩ := ih (e.dist, e.id)
        rw [hmin]
        refine ⟨h1, ?_⟩
        rw [h2]
        have hle := spec_distance_le events e.dist
        have hm : spec_distance events e.dist < stored.1 := lt_of_le_of_lt hle hlt
        simp only [hm, if_true, hq, true_and]
        by_cases heq : e.dist = spec_distance events e.dist
        · rw [if_pos heq, if_neg (by rw [← heq]; exact lt_irrefl _)]
        · rw [if_neg heq, if_pos (lt_of_le_of_ne hle (fun h => heq h.symm))]
      · have hno : ¬ (e.qualifies = true ∧ e.dist < stored.1) := fun h => hlt h.2
        rw [if_neg hno]
        have hmin : min stored.1 e.dist = stored.1 := min_eq_left (not_lt.mp hlt)
        obtain ⟨h1, h2⟩ := ih stored
        rw [hmin]
        refine ⟨h1, ?_⟩
        rw [h2]
        by_cases hm : spec_distance events stored.1 < stored.1
        · rw [if_pos hm, if_pos hm]
          have hne : ¬ (e.qualifies = true ∧ e.dist = spec_distance events stored.1) := by
            rintro ⟨_, heq⟩
            rw [heq] at hlt
            exact hlt hm
          rw [if_neg hne]
        · rw [if_neg hm, if_neg hm]
    · rw [if_neg hq]
      have hno : ¬ (e.qualifies = true ∧ e.dist < stored.1) := fun h => hq h.1
      rw [if_neg hno]
      obtain ⟨h1, h2⟩ := ih stored
      refine ⟨h1, ?_⟩
      rw [h2]
      have hne : ¬ (e.qualifies = true ∧ e.dist = spec_distance events stored.1) :=
        fun h => hq h.1
      rw [if_neg hne]

/-- The loop of `refine_plane_boundaries` over the planes of a list returns
when fewer than 50 identifiers are needed, and leaves at each cloud point what
the conditional assignments of the surviving planes leave, with the squared
distances and the bounds that the code computes in single precision. -/
lemma refine_planes_at (D : Primitive_Detection X) (depthCloudArray : Nat → vector3)
    (labels : List Nat) (hsize : D._mask.rows * D._mask.cols ≠ 0) :
    ∀ (planes : List Nat) (R : RefineState X),
      same_grid D R.detector →
      (∀ i ∈ planes, i < D._planeSegments.length) →
      R.idAllocator + (planes.filter fun i => plane_survives D labels i).length ≤ 49 →
      ∃ R1, refine_planes depthCloudArray labels planes R = some R1
        ∧ same_grid D R1.detector
        ∧ ∀ pt, (R1.detector._distancesStacked pt, R1.detector._segMapStacked pt)
            = apply_events
                (plane_events D float_distance float_max_distance depthCloudArray labels pt
                  planes R.idAllocator)
                (R.detector._distancesStacked pt, R.detector._segMapStacked pt) := by
  intro planes
  induction planes with
  | nil =>
    intro R hgrid _ _
    exact ⟨R, rfl, hgrid, fun pt => rfl⟩
  | cons i planes ih =>
    intro R hgrid hlt hcount
    have hrest : ∀ j ∈ planes, j < D._planeSegments.length :=
      fun j hj => hlt j (List.mem_cons_of_mem _ hj)
    have hsurv := plane_survives_congr D R.detector labels i hgrid
    by_cases hs : plane_survives D labels i = true
    · have hcount1 : R.idAllocator + 1
          + (planes.filter fun i => plane_survives D labels i).length ≤ 49 := by
        simp only [List.filter_cons, hs, if_true, List.length_cons] at hcount
        omega
      have hi := hlt i (List.mem_cons_self _ _)
      obtain ⟨planeSegment, hseg⟩ : ∃ t, D._planeSegments[i]? = some t :=
        ⟨_, List.getElem?_eq_getElem hi⟩
      have hsegR : R.detector._planeSegments[i]? = some planeSegment := by
        rw [hgrid.2.1]
        exact hseg
      have hsizeR : R.detector._mask.rows * R.detector._mask.cols ≠ 0 := by
        rw [hgrid.2.2.1, hgrid.2.2.2.1]
        exact hsize
      obtain ⟨R1, hrun, halloc1, hd1, hl1, hgrid1⟩ :=
        refine_plane_of_survivor depthCloudArray labels R i planeSegment
          (by rw [hsurv]; exact hs) (by omega) hsegR hsizeR
      obtain ⟨R2, hrun2, hgrid2, hat2⟩ := ih R1 (same_grid_trans D _ _ hgrid hgrid1) hrest
        (by rw [halloc1]; exact hcount1)
      refine ⟨R2, ?_, hgrid2, fun pt => ?_⟩
      · simp only [refine_planes, hrun]
        exact hrun2
      · rw [hat2 pt, halloc1]
        have hevents : plane_events D float_distance float_max_distance depthCloudArray labels
              pt (i :: planes) R.idAllocator
            = { dist := float_distance planeSegment (depthCloudArray pt)
                id := R.idAllocator + 1
                qualifies := in_boundary_band D (plane_band D labels i) pt
                  && decide (float_distance planeSegment (depthCloudArray pt)
                      < float_max_distance planeSegment) }
              :: plane_events D float_distance float_max_distance depthCloudArray labels pt
                  planes (R.idAllocator + 1) := by
          simp only [plane_events, hs, if_true, hseg]
        rw [hevents]
        have hstep : ∀ (e : PlaneEvent) (es : List PlaneEvent) (stored : ℚ × Nat),
            apply_events (e :: es) stored
              = apply_events es
                  (if e.qualifies = true ∧ e.dist < stored.1 then (e.dist, e.id)
                    else stored) := fun _ _ _ => rfl
        rw [hstep]
        congr 1
        have hband : in_boundary_band R.detector (plane_band R.detector labels i) pt
            = in_boundary_band D (plane_band D labels i) pt := by
          rw [plane_band_congr D R.detector labels i hgrid]
          exact in_boundary_band_congr D R.detector _ pt hgrid.2.2.2.2.1 hgrid.2.2.2.2.2.1
            hgrid.2.2.2.2.2.2
        have hover : overwrites_at pt (float_distance planeSegment (depthCloudArray pt))
            (float_max_distance planeSegment) (R.idAllocator + 1)
            (in_boundary_band R.detector (plane_band R.detector labels i) pt = true)
            (fun stacked =>
              refine_plane_cells R.detector depthCloudArray (plane_band R.detector labels i)
                ⟨to_float (X.get_normal planeSegment).x, to_float (X.get_normal planeSegment).y,
                  to_float (X.get_normal planeSegment).z⟩
                (to_float (X.get_plane_d planeSegment))
                (to_float (to_double (9 * X.get_MSE planeSegment))) (R.idAllocator + 1)
                stacked) :=
          refine_plane_cells_at R.detector depthCloudArray
            (plane_band R.detector labels i)
            ⟨to_float (X.get_normal planeSegment).x, to_float (X.get_normal planeSegment).y,
              to_float (X.get_normal planeSegment).z⟩
            (to_float (X.get_plane_d planeSegment))
            (to_float (to_double (9 * X.get_MSE planeSegment))) (R.idAllocator + 1) pt
        have hover1 := hover (R.detector._distancesStacked, R.detector._segMapStacked)
        rw [hband] at hover1
        rw [hd1, hl1]
        rcases hover1 with ⟨⟨hg, hm, hlt1⟩, k1, k2⟩ | ⟨hn, k1, k2⟩
        · have hq : (in_boundary_band D (plane_band D labels i) pt
              && decide (float_distance planeSegment (depthCloudArray pt)
                  < float_max_distance planeSegment)) = true := by
            rw [Bool.and_eq_true]
            exact ⟨hg, decide_eq_true hm⟩
          rw [if_pos ⟨hq, hlt1⟩]
          exact Prod.ext k1 k2
        · have hq : ¬ ((in_boundary_band D (plane_band D labels i) pt
              && decide (float_distance planeSegment (depthCloudArray pt)
                  < float_max_distance planeSegment)) = true
              ∧ float_distance planeSegment (depthCloudArray pt)
                  < R.detector._distancesStacked pt) := by
            rintro ⟨hq1, hq2⟩
            rw [Bool.and_eq_true, decide_eq_true_eq] at hq1
            exact hn ⟨hq1.1, hq1.2, hq2⟩
          rw [if_neg hq]
          exact Prod.ext k1 k2
    · have hs1 : plane_survives D labels i = false := by simpa using hs
      have hcount1 : R.idAllocator
          + (planes.filter fun i => plane_survives D labels i).length ≤ 49 := by
        simp only [List.filter_cons, hs1, Bool.false_eq_true, if_false] at hcount
        exact hcount
      obtain ⟨R1, hrun, halloc1, hd1, hl1, hgrid1⟩ :=
        refine_plane_of_not_survivor depthCloudArray labels R i (by rw [hsurv]; exact hs1)
      obtain ⟨R2, hrun2, hgrid2, hat2⟩ := ih R1 (same_grid_trans D _ _ hgrid hgrid1) hrest
        (by rw [halloc1]; exact hcount1)
      refine ⟨R2, ?_, hgrid2, fun pt => ?_⟩
      · simp only [refine_planes, hrun]
        exact hrun2
      · rw [hat2 pt, halloc1, hd1, hl1]
        have hevents : plane_events D float_distance float_max_distance depthCloudArray labels
              pt (i :: planes) R.idAllocator
            = plane_events D float_distance float_max_distance depthCloudArray labels pt planes
                R.idAllocator := by
          simp only [plane_events, hs1, Bool.false_eq_true, if_false]
        rw [hevents]

/-- C26, amended: when `refine_plane_boundaries` is entered in the state left
by `reset_data` (every stored distance is the sentinel `FLT_MAX`, every stored
label 0), with fewer than 50 surviving planes and a mask that is not empty, it
returns, and for every cloud point `pt` the stored distance is the minimum of
the sentinel and of the squared distances of the surviving planes whose
boundary band covers the cell of `pt` and whose squared distance is below
their bound, where the squared distance is `(n.p + d)^2` as the code computes
it in single precision from the normal and the offset converted to `float`,
and the bound is `9 * MSE` converted to `float`; the stored label is the
identifier of the first plane in processing order that attains this minimum
when the minimum is below the sentinel, and 0 otherwise, in particular when no
plane qualifies. -/
theorem C26_refined_distances (D : Primitive_Detection X) (depthCloudArray : Nat → vector3)
    (planeMergeLabels : List Nat) (primitiveSegments : List Primitive)
    (hdistances : ∀ pt, D._distancesStacked pt = FLT_MAX)
    (hlabels : ∀ pt, D._segMapStacked pt = 0)
    (hcount : ((List.range D._planeSegments.length).filter
      fun i => plane_survives D planeMergeLabels i).length < 50)
    (hsize : D._mask.rows * D._mask.cols ≠ 0) :
    ∃ (D1 : Primitive_Detection X) (primitiveSegments1 : List Primitive),
      refine_plane_boundaries D depthCloudArray planeMergeLabels primitiveSegments
          = some (D1, primitiveSegments1)
        ∧ ∀ pt,
            D1._distancesStacked pt
                = spec_distance
                    (plane_events D float_distance float_max_distance depthCloudArray
                      planeMergeLabels pt (List.range D._planeSegments.length) 0) FLT_MAX
              ∧ D1._segMapStacked pt
                = spec_label
                    (plane_events D float_distance float_max_distance depthCloudArray
                      planeMergeLabels pt (List.range D._planeSegments.length) 0) FLT_MAX := by
  obtain ⟨R1, hrun, _, hat⟩ := refine_planes_at D depthCloudArray planeMergeLabels hsize
    (List.range D._planeSegments.length)
    { detector := D, idAllocator := 0, primitiveSegments := primitiveSegments }
    ⟨rfl, rfl, rfl, rfl, rfl, rfl, rfl⟩
    (fun i hi => List.mem_range.mp hi) (by simp only [Nat.zero_add]; omega)
  refine ⟨R1.detector, R1.primitiveSegments, ?_, fun pt => ?_⟩
  · unfold refine_plane_boundaries
    rw [hrun]
  · have h := hat pt
    simp only [hdistances, hlabels] at h
    obtain ⟨h1, h2⟩ := apply_events_eq
      (plane_events D float_distance float_max_distance depthCloudArray planeMergeLabels pt
        (List.range D._planeSegments.length) 0) (FLT_MAX, 0)
    rw [← h] at h1 h2
    simp only at h1 h2
    exact ⟨h1, h2⟩

/-- The squared distance that the code computes for a point of the axis `z`
at an integer height and a toy plane `z + d = 0` whose offset is converted to
an integer: all the operations are exact. -/
lemma toyLevelPlane_distance (d : ℚ) (d1 z : ℤ) (hd : to_float d = (d1 : ℚ))
    (hz : |z| < 2 ^ 10) (hd1 : |d1| < 2 ^ 10) :
    @float_distance toyDetectionExternals (toyLevelPlane d) ⟨0, 0, (z : ℚ)⟩
      = (((z + d1) ^ 2 : ℤ) : ℚ) := by
  have h0 : to_float (0 : ℚ) = 0 := float_round_zero 24
  have h1 : to_float (1 : ℚ) = 1 := by
    have h := @float_round_intCast ℚ _ _ 24 1 (by norm_num)
    simpa [to_float] using h
  have hzf : to_float (z : ℚ) = (z : ℚ) := float_round_intCast 24 z (by
    have : (2 : ℤ) ^ 10 < 2 ^ 24 := by norm_num
    omega)
  have hbound : |z + d1| < 2 ^ 11 := by
    have := abs_add z d1
    have : (2 : ℤ) ^ 11 = 2 ^ 10 + 2 ^ 10 := by norm_num
    omega
  have hsum : to_float ((z : ℚ) + (d1 : ℚ)) = ((z + d1 : ℤ) : ℚ) := by
    have h := @float_round_intCast ℚ _ _ 24 (z + d1) (by
      have : (2 : ℤ) ^ 11 < 2 ^ 24 := by norm_num
      omega)
    rw [← Int.cast_add]
    exact h
  have hsqbound : |(z + d1) ^ 2| < 2 ^ 24 := by
    rw [abs_pow]
    have h0 : 0 ≤ |z + d1| := abs_nonneg _
    have : (2 : ℤ) ^ 24 = 2 ^ 11 * 2 ^ 13 := by norm_num
    nlinarith
  have hsqd : to_double ((((z + d1 : ℤ) : ℚ)) ^ 2) = (((z + d1) ^ 2 : ℤ) : ℚ) := by
    have h := @float_round_intCast ℚ _ _ 53 ((z + d1) ^ 2) (by
      have : (2 : ℤ) ^ 24 < 2 ^ 53 := by norm_num
      omega)
    rw [← Int.cast_pow]
    exact h
  have hsqf : to_float ((((z + d1) ^ 2 : ℤ) : ℚ)) = (((z + d1) ^ 2 : ℤ) : ℚ) :=
    float_round_intCast 24 _ hsqbound
  unfold float_distance plane_distance
  simp only [toyDetectionExternals, toyLevelPlane, h0, h1, hd, mul_zero, zero_mul, add_zero,
    zero_add, mul_one, hzf, hsum, hsqd, hsqf]

/-- The bound of a toy plane: `9 * MSE = 9`, exactly. -/
lemma toyLevelPlane_max_distance (d : ℚ) :
    @float_max_distance toyDetectionExternals (toyLevelPlane d) = 9 := by
  have h9d : to_double (9 : ℚ) = 9 := by
    have h := @float_round_intCast ℚ _ _ 53 9 (by norm_num)
    simpa [to_double] using h
  have h9f : to_float (9 : ℚ) = 9 := by
    have h := @float_round_intCast ℚ _ _ 24 9 (by norm_num)
    simpa [to_float] using h
  unfold float_max_distance
  simp only [toyDetectionExternals, toyLevelPlane, mul_one, h9d, h9f]

/-- The offset `-1 - 2 ^ -30` becomes `-1` when it is converted to `float`. -/
lemma to_float_close_offset : to_float (-1 - 1 / 1073741824 : ℚ) = ((-1 : ℤ) : ℚ) := by
  have h := @float_round_eq ℚ _ _ 24 (-1 - 1 / 1073741824 : ℚ) 0 (-8388608)
    (by rw [abs_of_neg (by norm_num)]; norm_num)
    (by rw [abs_of_neg (by norm_num)]; norm_num)
    (by
      have := @round_half_even_of_gt ℚ _ _
        ((-1 - 1 / 1073741824 : ℚ) / (2 : ℚ) ^ ((0 : ℤ) + 1 - ((24 : ℕ) : ℤ)))
        (-8388609) (by norm_num) (by norm_num)
      rw [this]
      norm_num)
  unfold to_float
  rw [h]
  norm_num

/-- C26, amended, on a row of five cells whose first three hold the plane
`z = 0`: the band of the plane is made of the cells 2 and 3; the point 2, at
the height 1, is given to the plane with the squared distance 1, and the
point 3, at the height 5, keeps the sentinel and the label 0. -/
theorem C26_refined_distances_witness :
    (∀ pt, toyOnePlane._distancesStacked pt = FLT_MAX)
      ∧ (∀ pt, toyOnePlane._segMapStacked pt = 0)
      ∧ toyOnePlane._mask.rows * toyOnePlane._mask.cols ≠ 0
      ∧ ∃ (D1 : Primitive_Detection toyDetectionExternals) (primitiveSegments1 : List Primitive),
          refine_plane_boundaries toyOnePlane toyHeights [0] []
              = some (D1, primitiveSegments1)
            ∧ D1._distancesStacked 2 = 1 ∧ D1._segMapStacked 2 = 1
            ∧ D1._distancesStacked 3 = FLT_MAX ∧ D1._segMapStacked 3 = 0 := by
  have hsurvives : plane_survives toyOnePlane [0] 0 = true := by decide
  have hband2 : in_boundary_band toyOnePlane (plane_band toyOnePlane [0] 0) 2 = true := by
    decide
  have hband3 : in_boundary_band toyOnePlane (plane_band toyOnePlane [0] 0) 3 = true := by
    decide
  have hrange : List.range toyOnePlane._planeSegments.length = [0] := rfl
  have hseg : toyOnePlane._planeSegments[0]? = some (toyLevelPlane 0) := rfl
  have hzero : to_float (0 : ℚ) = ((0 : ℤ) : ℚ) := by
    rw [Int.cast_zero]
    exact float_round_zero 24
  have hd2 : @float_distance toyDetectionExternals (toyLevelPlane 0) (toyHeights 2) = 1 := by
    have h := toyLevelPlane_distance 0 0 1 hzero (by norm_num) (by norm_num)
    have hpt : toyHeights 2 = ⟨0, 0, ((1 : ℤ) : ℚ)⟩ := by
      rw [Int.cast_one]
      rfl
    rw [hpt, h]
    norm_num
  have hd3 : @float_distance toyDetectionExternals (toyLevelPlane 0) (toyHeights 3) = 25 := by
    have h := toyLevelPlane_distance 0 0 5 hzero (by norm_num) (by norm_num)
    have hpt : toyHeights 3 = ⟨0, 0, ((5 : ℤ) : ℚ)⟩ := by
      have h5 : ((5 : ℤ) : ℚ) = 5 := by norm_num
      rw [h5]
      rfl
    rw [hpt, h]
    norm_num
  obtain ⟨D1, primitiveSegments1, hrun, hat⟩ :=
    C26_refined_distances toyOnePlane toyHeights [0] [] (fun _ => rfl) (fun _ => rfl)
      (lt_of_le_of_lt (List.length_filter_le _ _) (by decide)) (by decide)
  refine ⟨fun _ => rfl, fun _ => rfl, by decide, D1, primitiveSegments1, hrun, ?_⟩
  have h2 := hat 2
  have h3 := hat 3
  rw [hrange] at h2 h3
  simp only [plane_events, hsurvives, if_true, hseg, hband2, hband3, Bool.true_and, hd2, hd3,
    toyLevelPlane_max_distance] at h2 h3
  have hmax : (1 : ℚ) < FLT_MAX := by unfold FLT_MAX; norm_num
  have hmin : min FLT_MAX (1 : ℚ) = 1 := min_eq_right (le_of_lt hmax)
  have hlarge : ¬ (25 : ℚ) < 9 := by norm_num
  simp [spec_distance, spec_label, first_id, hmax, hmin, le_of_lt hmax, hlarge] at h2 h3
  exact ⟨h2.1, h2.2, h3.1, h3.2⟩

/-- The run of `refine_plane_boundaries` on the toy detector with two planes
at the heights 1 and `1 + 2 ^ -30`, for a cloud at the height 3: the point 2
is left with the squared distance 4 and the label 1. -/
lemma toyCloseLevels_refined :
    ∃ (D1 : Primitive_Detection toyDetectionExternals) (primitiveSegments1 : List Primitive),
      refine_plane_boundaries toyCloseLevels toyLevelCloud [0, 1] []
          = some (D1, primitiveSegments1)
        ∧ D1._distancesStacked 2 = 4 ∧ D1._segMapStacked 2 = 1 := by
  have hs0 : plane_survives toyCloseLevels [0, 1] 0 = true := by decide
  have hs1 : plane_survives toyCloseLevels [0, 1] 1 = true := by decide
  have hb0 : in_boundary_band toyCloseLevels (plane_band toyCloseLevels [0, 1] 0) 2 = true := by
    decide
  have hb1 : in_boundary_band toyCloseLevels (plane_band toyCloseLevels [0, 1] 1) 2 = true := by
    decide
  have hrange : List.range toyCloseLevels._planeSegments.length = [0, 1] := rfl
  have hseg0 : toyCloseLevels._planeSegments[0]? = some (toyLevelPlane (-1)) := rfl
  have hseg1 : toyCloseLevels._planeSegments[1]?
      = some (toyLevelPlane (-1 - 1 / 1073741824)) := rfl
  have hminus : to_float (-1 : ℚ) = ((-1 : ℤ) : ℚ) := by
    have h := @float_round_intCast ℚ _ _ 24 (-1) (by norm_num)
    exact h
  have hpt : toyLevelCloud 2 = ⟨0, 0, ((3 : ℤ) : ℚ)⟩ := by
    have h3 : ((3 : ℤ) : ℚ) = 3 := by norm_num
    rw [h3]
    rfl
  have hd0 : @float_distance toyDetectionExternals (toyLevelPlane (-1)) (toyLevelCloud 2)
      = 4 := by
    rw [hpt, toyLevelPlane_distance (-1) (-1) 3 hminus (by norm_num) (by norm_num)]
    norm_num
  have hd1 : @float_distance toyDetectionExternals (toyLevelPlane (-1 - 1 / 1073741824))
      (toyLevelCloud 2) = 4 := by
    rw [hpt, toyLevelPlane_distance (-1 - 1 / 1073741824) (-1) 3 to_float_close_offset
      (by norm_num) (by norm_num)]
    norm_num
  obtain ⟨R1, hrun, _, hat⟩ := refine_planes_at toyCloseLevels toyLevelCloud [0, 1]
    (by decide) (List.range toyCloseLevels._planeSegments.length)
    { detector := toyCloseLevels, idAllocator := 0, primitiveSegments := [] }
    ⟨rfl, rfl, rfl, rfl, rfl, rfl, rfl⟩
    (fun i hi => List.mem_range.mp hi)
    (le_trans (Nat.add_le_add_left (List.length_filter_le _ _) 0) (by decide))
  refine ⟨R1.detector, R1.primitiveSegments, ?_, ?_⟩
  · unfold refine_plane_boundaries
    rw [hrun]
  · have h := hat 2
    rw [hrange] at h
    simp only [plane_events, hs0, hs1, if_true, hseg0, hseg1, hb0, hb1, Bool.true_and, hd0, hd1,
      toyLevelPlane_max_distance] at h
    have hstored : toyCloseLevels._distancesStacked 2 = FLT_MAX := rfl
    have hlabel : toyCloseLevels._segMapStacked 2 = 0 := rfl
    have hmax : (4 : ℚ) < FLT_MAX := by unfold FLT_MAX; norm_num
    simp [apply_events, hstored, hlabel, hmax] at h
    norm_num at h
    exact h

/-- C26 as stated fails: on a row of five cells, the plane 1 is `z = 1` and
the plane 2 is `z = 1 + 2 ^ -30`, both with the MSE 1, and their boundary bands
both cover the cell 2, whose point is at the height 3.  The exact squared
distances are 4 for the plane 1 and `(2 - 2 ^ -30) ^ 2`, which is smaller, for
the plane 2, both below `9 * MSE`: the minimum is attained by the plane 2
only.  The code converts the offset of the plane 2 to the `float` -1, computes
the squared distance 4 for both planes, and leaves the point with the
distance 4 and the label 1. -/
theorem C26_refined_distances_counterexample :
    ∃ (D1 : Primitive_Detection toyDetectionExternals) (primitiveSegments1 : List Primitive),
      refine_plane_boundaries toyCloseLevels toyLevelCloud [0, 1] []
          = some (D1, primitiveSegments1)
        ∧ D1._distancesStacked 2 = 4 ∧ D1._segMapStacked 2 = 1
        ∧ spec_distance
            (plane_events toyCloseLevels exact_distance exact_max_distance toyLevelCloud [0, 1]
              2 (List.range toyCloseLevels._planeSegments.length) 0) FLT_MAX
          = (2 - 1 / 1073741824) ^ 2
        ∧ spec_label
            (plane_events toyCloseLevels exact_distance exact_max_distance toyLevelCloud [0, 1]
              2 (List.range toyCloseLevels._planeSegments.length) 0) FLT_MAX
          = 2
        ∧ ((2 - 1 / 1073741824) ^ 2 : ℚ) < 4 := by
  obtain ⟨D1, primitiveSegments1, hrun, hdist, hlabel⟩ := toyCloseLevels_refined
  have hs0 : plane_survives toyCloseLevels [0, 1] 0 = true := by decide
  have hs1 : plane_survives toyCloseLevels [0, 1] 1 = true := by decide
  have hb0 : in_boundary_band toyCloseLevels (plane_band toyCloseLevels [0, 1] 0) 2 = true := by
    decide
  have hb1 : in_boundary_band toyCloseLevels (plane_band toyCloseLevels [0, 1] 1) 2 = true := by
    decide
  have hrange : List.range toyCloseLevels._planeSegments.length = [0, 1] := rfl
  have hseg0 : toyCloseLevels._planeSegments[0]? = some (toyLevelPlane (-1)) := rfl
  have hseg1 : toyCloseLevels._planeSegments[1]?
      = some (toyLevelPlane (-1 - 1 / 1073741824)) := rfl
  have he0 : @exact_distance toyDetectionExternals (toyLevelPlane (-1)) (toyLevelCloud 2)
      = 4 := by
    simp [exact_distance, toyDetectionExternals, toyLevelPlane, toyLevelCloud]
    norm_num
  have he1 : @exact_distance toyDetectionExternals (toyLevelPlane (-1 - 1 / 1073741824))
      (toyLevelCloud 2) = (2 - 1 / 1073741824) ^ 2 := by
    simp [exact_distance, toyDetectionExternals, toyLevelPlane, toyLevelCloud]
    norm_num
  have hm : ∀ d : ℚ, @exact_max_distance toyDetectionExternals (toyLevelPlane d) = 9 := by
    intro d
    simp [exact_max_distance, toyDetectionExternals, toyLevelPlane]
  have hevents : plane_events toyCloseLevels exact_distance exact_max_distance toyLevelCloud
      [0, 1] 2 (List.range toyCloseLevels._planeSegments.length) 0
      = [{ dist := 4, id := 1, qualifies := true },
          { dist := (2 - 1 / 1073741824) ^ 2, id := 2, qualifies := true }] := by
    rw [hrange]
    simp only [plane_events, hs0, hs1, if_true, hseg0, hseg1, hb0, hb1, Bool.true_and, he0, he1,
      hm]
    norm_num
  refine ⟨D1, primitiveSegments1, hrun, hdist, hlabel, ?_, ?_, by norm_num⟩
  · rw [hevents]
    simp only [spec_distance, List.filter_cons, if_true, List.filter_nil, List.map_cons,
      List.map_nil, List.foldl_cons, List.foldl_nil]
    unfold FLT_MAX
    norm_num
  · rw [hevents]
    have hmin : spec_distance
        [{ dist := 4, id := 1, qualifies := true },
          { dist := (2 - 1 / 1073741824) ^ 2, id := 2, qualifies := true }] FLT_MAX
        = (2 - 1 / 1073741824) ^ 2 := by
      simp only [spec_distance, List.filter_cons, if_true, List.filter_nil, List.map_cons,
        List.map_nil, List.foldl_cons, List.foldl_nil]
      unfold FLT_MAX
      norm_num
    unfold spec_label
    rw [hmin]
    have hlt : ((2 - 1 / 1073741824) ^ 2 : ℚ) < FLT_MAX := by unfold FLT_MAX; norm_num
    rw [if_pos hlt]
    unfold first_id
    simp only [List.find?_cons]
    norm_num

end Primitive_Detection

end primitives

end features

end rgbd_slam
